import Mathlib

/-! Parabolic-Solar-Tracker: the World Magnetic Model evaluation.

A shallow embedding of `getDeclinition` / `MAG_Grid` (`WMMLib.cpp`) and of the
routines of `GeomagnetismLibrary.c` they call, followed by theorems about them.

Conventions of the embedding.

* A C `double` is an element of a linearly ordered field `α` with a floor
  function (`ℚ` for evaluation, `ℝ` for the analytic statements): arithmetic is
  exact, there is no NaN, no infinity, no signed zero and no rounding.  Where a
  statement turns on one of these, it is brought in by name: `ExtDouble` for the
  quotient by a zero `H` in the declination uncertainty, `negZeroLibm` for the
  negative zero handed to `atan2`, `roundedAsinLibm` for the double handed to
  `asin`.
* The functions of the C math library are the fields of a record `Libm α`
  passed to every routine that calls one; `realLibm` is their real-number
  meaning.
* A C `int` is an `Int`; `/` on `int` is `Int.tdiv` (truncation).  The indices
  met here are far below `2^31`, so no wrap-around is modelled.
* An array is a function `Int → α` from index to content, written with
  `Function.update`.  A pointer argument that the callee writes through
  becomes an argument (the content before the call) and a result (the content
  after it).
* Memory that C leaves indeterminate (fresh `malloc` blocks, uninitialised
  locals) is an explicit argument, so every theorem holds whatever it contains.
* `MAG_Error` only prints; printing is not modelled.  Allocation never fails.
* A routine whose C return value is the constant `TRUE` is embedded as the
  function computing what it stores through its output pointer.
* `x / 0` is `0` in a field of Mathlib, where C yields an infinity or a NaN;
  statements that rest on a quotient say when its divisor is not zero.
* `WMMHR` is not defined when `WMMLib.cpp` is compiled: `MAG_Grid` keeps its
  altitude test and calls `MAG_WMMErrorCalc`.
-/

namespace WMM

/-! ## The C math library and the macros of `GeomagnetismHeader.h` -/

/-- The functions of `<math.h>` called by the evaluation, and the constant `M_PI`. -/
structure Libm (α : Type) where
  sqrt : α → α
  sin : α → α
  cos : α → α
  asin : α → α
  atan2 : α → α → α
  M_PI : α
  pow : α → α → α
  acos : α → α
  atan : α → α

section Embedding

variable {α : Type} [LinearOrderedField α] [FloorRing α]

/-- Modelled from the spec: the macro `TRUE` of `GeomagnetismHeader.h`, which is not among
the sources; functions that succeed return it. -/
def TRUE : Int := 1

/-- Modelled from the spec: the macro `FALSE` of `GeomagnetismHeader.h`, which is not
among the sources; functions that fail return it. -/
def FALSE : Int := 0

/-- Modelled from the spec: the macro `DEG2RAD` of `GeomagnetismHeader.h`, which is not
among the sources; it turns an angle "in degrees" into radians. -/
def DEG2RAD (L : Libm α) (deg : α) : α := deg * (L.M_PI / 180.0)

/-- Modelled from the spec: the macro `RAD2DEG` of `GeomagnetismHeader.h`, which is not
among the sources; it expresses an angle in radians "in degrees". -/
def RAD2DEG (L : Libm α) (rad : α) : α := rad * (180.0 / L.M_PI)

/-- Modelled from the spec: the macro `MAG_PS_MAX_LAT_DEGREE` of `GeomagnetismHeader.h`
(not among the sources): grid variation is polar stereographic "at |latitude| ≥ ~55°". -/
def MAG_PS_MAX_LAT_DEGREE : α := 55.0

/-- Modelled from the spec: the macro `MAG_PS_MIN_LAT_DEGREE` of `GeomagnetismHeader.h`
(not among the sources), the southern twin of `MAG_PS_MAX_LAT_DEGREE`. -/
def MAG_PS_MIN_LAT_DEGREE : α := -55.0

/-- The C `fabs`. -/
def fabs (x : α) : α := |x|

/-- The C conversion of a `double` to an integer type: truncation toward zero. -/
def toLong (x : α) : Int := if 0 ≤ x then Int.floor x else Int.ceil x

/-- The C loop `for (i = lo; i <= hi; i++) body`, for a body that assigns neither `i`
nor `hi`: the body runs for `i = lo, lo + 1, ..., hi`, not at all when `hi < lo`. -/
def forLoop {σ : Type} (lo hi : Int) (body : Int → σ → σ) (s : σ) : σ :=
  (List.range (hi + 1 - lo).toNat).foldl (fun acc (k : Nat) => body (lo + (k : Int)) acc) s

/-- The index expression `(n * (n + 1) / 2 + m)` in C `int` arithmetic. -/
def index (n m : Int) : Int := Int.tdiv (n * (n + 1)) 2 + m

/-- The expression `((nMax + 1) * (nMax + 2) / 2)` that `MAG_Grid` and `MAG_PcupLow` store
in `NumTerms`; the arrays they index have `NumTerms + 1` cells. -/
def NumTerms (nMax : Int) : Int := Int.tdiv ((nMax + 1) * (nMax + 2)) 2

/-! ## Data types (`GeomagnetismHeader.h`, `WMMLib.h`, `IGPSSensor.h`) -/

/-- The reference ellipsoid. -/
structure MAGtype_Ellipsoid (α : Type) where
  a : α
  b : α
  fla : α
  epssq : α
  eps : α
  re : α

/-- A geodetic position. -/
structure MAGtype_CoordGeodetic (α : Type) where
  lambda : α
  phi : α
  HeightAboveEllipsoid : α
  HeightAboveGeoid : α
  UseGeoid : Int

/-- A geocentric spherical position. -/
structure MAGtype_CoordSpherical (α : Type) where
  lambda : α
  phig : α
  r : α

/-- A date; `MAG_Grid` reads `DecimalYear` only. -/
structure MAGtype_Date (α : Type) where
  Year : Int
  Month : Int
  Day : Int
  DecimalYear : α

/-- A magnetic model.  The character buffer `ModelName`, which no numerical step reads,
is left out. -/
structure MAGtype_MagneticModel (α : Type) where
  EditionDate : α
  epoch : α
  Main_Field_Coeff_G : Int → α
  Main_Field_Coeff_H : Int → α
  Secular_Var_Coeff_G : Int → α
  Secular_Var_Coeff_H : Int → α
  nMax : Int
  nMaxSecVar : Int
  SecularVariationUsed : Int
  CoefficientFileEndDate : α
  min_year : α

/-- The table of associated Legendre functions and of their latitude derivatives. -/
structure MAGtype_LegendreFunction (α : Type) where
  Pcup : Int → α
  dPcup : Int → α

/-- The per-point arrays of the harmonic summation. -/
structure MAGtype_SphericalHarmonicVariables (α : Type) where
  RelativeRadiusPower : Int → α
  cos_mlambda : Int → α
  sin_mlambda : Int → α

/-- A field vector: north, east, down. -/
structure MAGtype_MagneticResults (α : Type) where
  Bx : α
  By : α
  Bz : α

/-- The geomagnetic elements and their yearly rates. -/
structure MAGtype_GeoMagneticElements (α : Type) where
  Decl : α
  Incl : α
  F : α
  H : α
  X : α
  Y : α
  Z : α
  GV : α
  Decldot : α
  Incldot : α
  Fdot : α
  Hdot : α
  Xdot : α
  Ydot : α
  Zdot : α
  GVdot : α

/-- The geoid grid.  `GeoidHeightBuffer` points to the table of `EGM9615.h`, which is
not among the sources: it is whatever the caller supplies. -/
structure MAGtype_Geoid (α : Type) where
  NumbGeoidCols : Int
  NumbGeoidRows : Int
  NumbHeaderItems : Int
  ScaleFactor : Int
  GeoidHeightBuffer : Int → α
  NumbGeoidElevs : Int
  Geoid_Initialized : Int
  UseGeoid : Int

/-- The `Position` of `IGPSSensor.h`. -/
structure Position (α : Type) where
  Latitude : α
  Longitude : α
  Altitude : α
  Speed : α

/-- The `InData` of `WMMLib.h`. -/
structure InData (α : Type) where
  decimalYear : α
  pos : Position α

/-- The `enum ERROCODE` of `WMMLib.h`. -/
def NOERROR : Int := 0

/-- Second enumerator of `enum ERROCODE`. -/
def INPUTERROR : Int := 1

/-- Third enumerator of `enum ERROCODE`. -/
def FILEERROR : Int := 2

/-- Fourth enumerator of `enum ERROCODE`. -/
def MEMERROR : Int := 3

/-- Fifth enumerator of `enum ERROCODE`. -/
def NULLERROR : Int := 4

/-- The `MagComponents` of `WMMLib.h`: every member but `D` is commented out there. -/
structure MagComponents (α : Type) where
  D : α

/-- The `DecData` of `WMMLib.h`. -/
structure DecData (α : Type) where
  errCode : Int
  magData : MagComponents α
  magDataErr : MagComponents α
  sv : α

/-- Modelled from the spec: the macros `WMM_UNCERTAINTY_*` of `GeomagnetismHeader.h`, which
is not among the sources: the "fixed per-model constants (F, H, X, Y, Z, Incl
uncertainties)" and the coefficient and offset of the declination uncertainty. -/
structure MAGtype_UncertaintyConstants (α : Type) where
  F : α
  H : α
  X : α
  Y : α
  Z : α
  I : α
  D_COEF : α
  D_OFFSET : α

/-! ## Coordinate transformation -/

/-- Embedding of `MAG_GeodeticToSpherical` (GeomagnetismLibrary.c, 1985-2039). -/
def MAG_GeodeticToSpherical (L : Libm α) (Ellip : MAGtype_Ellipsoid α)
    (CoordGeodetic : MAGtype_CoordGeodetic α) : MAGtype_CoordSpherical α :=
  let CosLat := L.cos (DEG2RAD L CoordGeodetic.phi)
  let SinLat := L.sin (DEG2RAD L CoordGeodetic.phi)
  let rc := Ellip.a / L.sqrt (1.0 - Ellip.epssq * SinLat * SinLat)
  let xp := (rc + CoordGeodetic.HeightAboveEllipsoid) * CosLat
  let zp := (rc * (1.0 - Ellip.epssq) + CoordGeodetic.HeightAboveEllipsoid) * SinLat
  let r := L.sqrt (xp * xp + zp * zp)
  { r := r, phig := RAD2DEG L (L.asin (zp / r)), lambda := CoordGeodetic.lambda }

/-- The local `xp` of `MAG_GeodeticToSpherical`. -/
def GeodeticToSpherical_xp (L : Libm α) (Ellip : MAGtype_Ellipsoid α)
    (CoordGeodetic : MAGtype_CoordGeodetic α) : α :=
  let CosLat := L.cos (DEG2RAD L CoordGeodetic.phi)
  let SinLat := L.sin (DEG2RAD L CoordGeodetic.phi)
  let rc := Ellip.a / L.sqrt (1.0 - Ellip.epssq * SinLat * SinLat)
  (rc + CoordGeodetic.HeightAboveEllipsoid) * CosLat

/-- The local `zp` of `MAG_GeodeticToSpherical`. -/
def GeodeticToSpherical_zp (L : Libm α) (Ellip : MAGtype_Ellipsoid α)
    (CoordGeodetic : MAGtype_CoordGeodetic α) : α :=
  let SinLat := L.sin (DEG2RAD L CoordGeodetic.phi)
  let rc := Ellip.a / L.sqrt (1.0 - Ellip.epssq * SinLat * SinLat)
  (rc * (1.0 - Ellip.epssq) + CoordGeodetic.HeightAboveEllipsoid) * SinLat

/-- Embedding of `MAG_RotateMagneticVector` (GeomagnetismLibrary.c, 2293-2332). -/
def MAG_RotateMagneticVector (L : Libm α) (CoordSpherical : MAGtype_CoordSpherical α)
    (CoordGeodetic : MAGtype_CoordGeodetic α) (MagneticResultsSph : MAGtype_MagneticResults α) :
    MAGtype_MagneticResults α :=
  let Psi := (L.M_PI / 180) * (CoordSpherical.phig - CoordGeodetic.phi)
  { Bz := MagneticResultsSph.Bx * L.sin Psi + MagneticResultsSph.Bz * L.cos Psi,
    Bx := MagneticResultsSph.Bx * L.cos Psi - MagneticResultsSph.Bz * L.sin Psi,
    By := MagneticResultsSph.By }

/-! ## Spherical harmonic variables and associated Legendre functions -/

/-- Embedding of `MAG_ComputeSphericalHarmonicVariables` (GeomagnetismLibrary.c, 2684-2742);
`SphVariables` is the content of the three arrays before the call. -/
def MAG_ComputeSphericalHarmonicVariables (L : Libm α) (Ellip : MAGtype_Ellipsoid α)
    (CoordSpherical : MAGtype_CoordSpherical α) (nMax : Int)
    (SphVariables : MAGtype_SphericalHarmonicVariables α) :
    MAGtype_SphericalHarmonicVariables α :=
  let cos_lambda := L.cos (DEG2RAD L CoordSpherical.lambda)
  let sin_lambda := L.sin (DEG2RAD L CoordSpherical.lambda)
  let s0 := { SphVariables with
    RelativeRadiusPower := Function.update SphVariables.RelativeRadiusPower 0
      ((Ellip.re / CoordSpherical.r) * (Ellip.re / CoordSpherical.r)) }
  let s1 := forLoop 1 nMax (fun n s => { s with
    RelativeRadiusPower := Function.update s.RelativeRadiusPower n
      (s.RelativeRadiusPower (n - 1) * (Ellip.re / CoordSpherical.r)) }) s0
  let s2 := { s1 with
    cos_mlambda := Function.update s1.cos_mlambda 0 1.0,
    sin_mlambda := Function.update s1.sin_mlambda 0 0.0 }
  let s3 := if nMax + 1 ≥ 2 then { s2 with
    cos_mlambda := Function.update s2.cos_mlambda 1 cos_lambda,
    sin_mlambda := Function.update s2.sin_mlambda 1 sin_lambda } else s2
  if nMax + 1 ≥ 3 then
    forLoop 2 nMax (fun m s =>
      let sc := { s with
        cos_mlambda := Function.update s.cos_mlambda m
          (s.cos_mlambda (m - 1) * cos_lambda - s.sin_mlambda (m - 1) * sin_lambda) }
      { sc with
        sin_mlambda := Function.update sc.sin_mlambda m
          (sc.cos_mlambda (m - 1) * sin_lambda + sc.sin_mlambda (m - 1) * cos_lambda) }) s3
  else s3

/-- First double loop of `MAG_PcupLow`: the Gauss-normalised functions. -/
def PcupLow_gauss (x z : α) (nMax : Int) (P0 : MAGtype_LegendreFunction α) :
    MAGtype_LegendreFunction α :=
  forLoop 1 nMax (fun n Pn => forLoop 0 n (fun m P =>
    let index := index n m
    if n = m then
      let index1 := Int.tdiv ((n - 1) * n) 2 + m - 1
      let Q := { P with Pcup := Function.update P.Pcup index (z * P.Pcup index1) }
      { Q with dPcup := Function.update Q.dPcup index (z * Q.dPcup index1 + x * Q.Pcup index1) }
    else if n = 1 ∧ m = 0 then
      let index1 := Int.tdiv ((n - 1) * n) 2 + m
      let Q := { P with Pcup := Function.update P.Pcup index (x * P.Pcup index1) }
      { Q with dPcup := Function.update Q.dPcup index (x * Q.dPcup index1 - z * Q.Pcup index1) }
    else if n > 1 ∧ n ≠ m then
      let index1 := Int.tdiv ((n - 2) * (n - 1)) 2 + m
      let index2 := Int.tdiv ((n - 1) * n) 2 + m
      if m > n - 2 then
        let Q := { P with Pcup := Function.update P.Pcup index (x * P.Pcup index2) }
        { Q with
        dPcup := Function.update Q.dPcup index
            (x * Q.dPcup index2 - z * Q.Pcup index2) }
      else
        let k : α := (((n - 1) * (n - 1) - m * m : Int) : α) /
          (((2 * n - 1) * (2 * n - 3) : Int) : α)
        let Q := { P with
        Pcup := Function.update P.Pcup index
            (x * P.Pcup index2 - k * P.Pcup index1) }
        { Q with
        dPcup := Function.update Q.dPcup index
            (x * Q.dPcup index2 - z * Q.Pcup index2 - k * Q.dPcup index1) }
    else P) Pn) P0

/-- Second loop of `MAG_PcupLow`: the ratio between the Schmidt quasi-normalised and the
Gauss-normalised functions; `q0` is the fresh `malloc` block. -/
def PcupLow_schmidtQuasiNorm (L : Libm α) (nMax : Int) (q0 : Int → α) : Int → α :=
  forLoop 1 nMax (fun n q =>
    let index := Int.tdiv (n * (n + 1)) 2
    let index1 := Int.tdiv ((n - 1) * n) 2
    let q1 := Function.update q index (q index1 * ((2 * n - 1 : Int) : α) / ((n : Int) : α))
    forLoop 1 n (fun m q =>
      let index := Int.tdiv (n * (n + 1)) 2 + m
      let index1 := Int.tdiv (n * (n + 1)) 2 + m - 1
      Function.update q index (q index1 *
        L.sqrt ((((n - m + 1) * (if m = 1 then 2 else 1) : Int) : α) / ((n + m : Int) : α))))
      q1)
    (Function.update q0 0 1.0)

/-- Third double loop of `MAG_PcupLow`: conversion to the Schmidt quasi-normalised
functions, with the sign of the derivative changed. -/
def PcupLow_convert (nMax : Int) (schmidtQuasiNorm : Int → α)
    (P0 : MAGtype_LegendreFunction α) : MAGtype_LegendreFunction α :=
  forLoop 1 nMax (fun n Pn => forLoop 0 n (fun m P =>
    let index := index n m
    let Q := { P with
        Pcup := Function.update P.Pcup index
          (P.Pcup index * schmidtQuasiNorm index) }
    { Q with
        dPcup := Function.update Q.dPcup index
          (-Q.dPcup index * schmidtQuasiNorm index) }) Pn) P0

/-- Embedding of `MAG_PcupLow` (GeomagnetismLibrary.c, 2991-3105): the return value and the two
arrays after the call.  `P` holds the arrays `Pcup`, `dPcup` before the call, `q0` the
fresh block `schmidtQuasiNorm`. -/
def MAG_PcupLow (L : Libm α) (P : MAGtype_LegendreFunction α) (x : α) (nMax : Int)
    (q0 : Int → α) : Int × MAGtype_LegendreFunction α :=
  let P0 : MAGtype_LegendreFunction α :=
    { Pcup := Function.update P.Pcup 0 1.0, dPcup := Function.update P.dPcup 0 0.0 }
  let z := L.sqrt ((1.0 - x) * (1.0 + x))
  let P1 := PcupLow_gauss x z nMax P0
  let schmidtQuasiNorm := PcupLow_schmidtQuasiNorm L nMax q0
  (TRUE, PcupLow_convert nMax schmidtQuasiNorm P1)

/-- The tables `f1`, `f2` and the counter `k` built by the first double loop of
`MAG_PcupHigh`. -/
def PcupHigh_f (PreSqr : Int → α) (nMax : Int) (f1 f2 : Int → α) :
    Int × (Int → α) × (Int → α) :=
  forLoop 2 nMax (fun n st =>
    let k := st.1 + 1
    let f1 := Function.update st.2.1 k (((2 * n - 1 : Int) : α) / ((n : Int) : α))
    let f2 := Function.update st.2.2 k (((n - 1 : Int) : α) / ((n : Int) : α))
    let st1 := forLoop 1 (n - 2) (fun m st =>
      let k := st.1 + 1
      let f1 := Function.update st.2.1 k
        (((2 * n - 1 : Int) : α) / PreSqr (n + m) / PreSqr (n - m))
      let f2 := Function.update st.2.2 k
        (PreSqr (n - m - 1) * PreSqr (n + m - 1) / PreSqr (n + m) / PreSqr (n - m))
      (k, f1, f2)) (k, f1, f2)
    (st1.1 + 2, st1.2.1, st1.2.2)) (2, f1, f2)

/-- The variables that the loops of `MAG_PcupHigh` carry from one turn to the next. -/
structure PcupHighState (α : Type) where
  k : Int
  kstart : Int
  pm1 : α
  pm2 : α
  pmm : α
  rescalem : α
  P : MAGtype_LegendreFunction α

/-- Embedding of `MAG_PcupHigh` (GeomagnetismLibrary.c, 2813-2989): the return value and the two
arrays after the call.  `P` holds `Pcup`, `dPcup` before the call; `f1_0`, `f2_0`,
`PreSqr_0` are the fresh `malloc` blocks. -/
def MAG_PcupHigh (L : Libm α) (P : MAGtype_LegendreFunction α) (x : α) (nMax : Int)
    (f1_0 f2_0 PreSqr_0 : Int → α) : Int × MAGtype_LegendreFunction α :=
  let z := L.sqrt ((1.0 - x) * (1.0 + x))
  if z = 0 then (0, P)
  else if fabs x = 1.0 then (FALSE, P)
  else
    let scalef : α := 1.0e-280
    let PreSqr := forLoop 0 (2 * nMax + 1)
      (fun n PreSqr => Function.update PreSqr n (L.sqrt ((n : Int) : α))) PreSqr_0
    let f := PcupHigh_f PreSqr nMax f1_0 f2_0
    let f1 := f.2.1
    let f2 := f.2.2
    let P0 : MAGtype_LegendreFunction α :=
      { Pcup := Function.update P.Pcup 0 1.0, dPcup := Function.update P.dPcup 0 0.0 }
    if nMax = 0 then (FALSE, P0)
    else
      let P1 : MAGtype_LegendreFunction α :=
        { Pcup := Function.update P0.Pcup 1 x, dPcup := Function.update P0.dPcup 1 z }
      let s1 : PcupHighState α :=
        { k := 1, kstart := 0, pm1 := x, pm2 := 1.0, pmm := 0, rescalem := 0, P := P1 }
      let s2 := forLoop 2 nMax (fun n s =>
        let k := s.k + n
        let plm := f1 k * x * s.pm1 - f2 k * s.pm2
        let Pc := Function.update s.P.Pcup k plm
        let dPc := Function.update s.P.dPcup k (((n : Int) : α) * (s.pm1 - x * plm) / z)
        { s with k := k, pm2 := s.pm1, pm1 := plm, P := { Pcup := Pc, dPcup := dPc } }) s1
      let s3 : PcupHighState α :=
        { s2 with pmm := PreSqr 2 * scalef, rescalem := 1.0 / scalef, kstart := 0 }
      let s4 := forLoop 1 (nMax - 1) (fun m s =>
        let rescalem := s.rescalem * z
        let kstart := s.kstart + m + 1
        let pmm := s.pmm * PreSqr (2 * m + 1) / PreSqr (2 * m)
        let Pc := Function.update s.P.Pcup kstart (pmm * rescalem / PreSqr (2 * m + 1))
        let dPc := Function.update s.P.dPcup kstart (-(((m : Int) : α) * x * Pc kstart / z))
        let pm2 := pmm / PreSqr (2 * m + 1)
        let k := kstart + m + 1
        let pm1 := x * PreSqr (2 * m + 1) * pm2
        let Pc := Function.update Pc k (pm1 * rescalem)
        let dPc := Function.update dPc k
          (((pm2 * rescalem) * PreSqr (2 * m + 1) - x * ((m + 1 : Int) : α) * Pc k) / z)
        let t0 : PcupHighState α :=
          { k := k, kstart := kstart, pm1 := pm1, pm2 := pm2, pmm := pmm,
            rescalem := rescalem, P := { Pcup := Pc, dPcup := dPc } }
        forLoop (m + 2) nMax (fun n t =>
          let k := t.k + n
          let plm := x * f1 k * t.pm1 - f2 k * t.pm2
          let Pc := Function.update t.P.Pcup k (plm * t.rescalem)
          let dPc := Function.update t.P.dPcup k
            ((PreSqr (n + m) * PreSqr (n - m) * (t.pm1 * t.rescalem) -
              ((n : Int) : α) * x * Pc k) / z)
          { t with k := k, pm2 := t.pm1, pm1 := plm, P := { Pcup := Pc, dPcup := dPc } })
          t0) s3
      -- value of the loop variable `m` once `for(m = 1; m <= nMax - 1; ++m)` is left
      let m : Int := max 1 nMax
      let rescalem := s4.rescalem * z
      let kstart := s4.kstart + m + 1
      let pmm := s4.pmm / PreSqr (2 * nMax)
      let Pc := Function.update s4.P.Pcup kstart (pmm * rescalem)
      let dPc := Function.update s4.P.dPcup kstart (-((nMax : Int) : α) * x * Pc kstart / z)
      (TRUE, { Pcup := Pc, dPcup := dPc })

/-- The fresh `malloc` blocks that the two Legendre routines use as work space. -/
structure LegendreScratch (α : Type) where
  schmidtQuasiNorm : Int → α
  f1 : Int → α
  f2 : Int → α
  PreSqr : Int → α

/-- Embedding of `MAG_AssociatedLegendreFunction` (GeomagnetismLibrary.c, 2628-2659): the return
value and the Legendre table after the call. -/
def MAG_AssociatedLegendreFunction (L : Libm α) (CoordSpherical : MAGtype_CoordSpherical α)
    (nMax : Int) (LegendreFunction : MAGtype_LegendreFunction α) (W : LegendreScratch α) :
    Int × MAGtype_LegendreFunction α :=
  let sin_phi := L.sin (DEG2RAD L CoordSpherical.phig)
  let r :=
    if nMax ≤ 16 ∨ (1 - fabs sin_phi) < 1.0e-10 then
      MAG_PcupLow L LegendreFunction sin_phi nMax W.schmidtQuasiNorm
    else MAG_PcupHigh L LegendreFunction sin_phi nMax W.f1 W.f2 W.PreSqr
  if r.1 = 0 then (FALSE, r.2) else (TRUE, r.2)

/-! ## Time adjustment of the model -/

/-- Embedding of `MAG_AllocateModelMemory` (GeomagnetismLibrary.c, 780-860): the model it returns.
The four arguments are the four fresh `malloc` blocks; the loop clears the cells
`0 .. NumTerms - 1` of each, and `calloc` clears every scalar member. -/
def MAG_AllocateModelMemory (NumTerms : Int) (G H SG SH : Int → α) :
    MAGtype_MagneticModel α :=
  let M0 : MAGtype_MagneticModel α :=
    { EditionDate := 0, epoch := 0, Main_Field_Coeff_G := G, Main_Field_Coeff_H := H,
      Secular_Var_Coeff_G := SG, Secular_Var_Coeff_H := SH, nMax := 0, nMaxSecVar := 0,
      SecularVariationUsed := 0, CoefficientFileEndDate := 0, min_year := 0 }
  forLoop 0 (NumTerms - 1) (fun i M => { M with
    Main_Field_Coeff_G := Function.update M.Main_Field_Coeff_G i 0,
    Main_Field_Coeff_H := Function.update M.Main_Field_Coeff_H i 0,
    Secular_Var_Coeff_G := Function.update M.Secular_Var_Coeff_G i 0,
    Secular_Var_Coeff_H := Function.update M.Secular_Var_Coeff_H i 0 }) M0

/-- Embedding of `MAG_TimelyModifyMagneticModel` (GeomagnetismLibrary.c, 3381-3422): the timed model
after the call, for a `TimedMagneticModel` that is another object than `MagneticModel`
(as in `MAG_Grid`); its argument `TimedMagneticModel` is that object before the call. -/
def MAG_TimelyModifyMagneticModel (UserDate : MAGtype_Date α)
    (MagneticModel TimedMagneticModel : MAGtype_MagneticModel α) : MAGtype_MagneticModel α :=
  let T0 : MAGtype_MagneticModel α := { TimedMagneticModel with
    EditionDate := MagneticModel.EditionDate,
    epoch := MagneticModel.epoch,
    nMax := MagneticModel.nMax,
    nMaxSecVar := MagneticModel.nMaxSecVar }
  let a := T0.nMaxSecVar
  let b := Int.tdiv (a * (a + 1)) 2 + a
  forLoop 1 MagneticModel.nMax (fun n Tn => forLoop 0 n (fun m T =>
    let index := index n m
    if index ≤ b then
      { T with
        Main_Field_Coeff_H := Function.update T.Main_Field_Coeff_H index
          (MagneticModel.Main_Field_Coeff_H index +
            (UserDate.DecimalYear - MagneticModel.epoch) *
              MagneticModel.Secular_Var_Coeff_H index),
        Main_Field_Coeff_G := Function.update T.Main_Field_Coeff_G index
          (MagneticModel.Main_Field_Coeff_G index +
            (UserDate.DecimalYear - MagneticModel.epoch) *
              MagneticModel.Secular_Var_Coeff_G index),
        Secular_Var_Coeff_H := Function.update T.Secular_Var_Coeff_H index
          (MagneticModel.Secular_Var_Coeff_H index),
        Secular_Var_Coeff_G := Function.update T.Secular_Var_Coeff_G index
          (MagneticModel.Secular_Var_Coeff_G index) }
    else
      { T with
        Main_Field_Coeff_H := Function.update T.Main_Field_Coeff_H index
          (MagneticModel.Main_Field_Coeff_H index),
        Main_Field_Coeff_G := Function.update T.Main_Field_Coeff_G index
          (MagneticModel.Main_Field_Coeff_G index) }) Tn) T0

/-! ## Harmonic summation -/

/-- The double loop of `MAG_Summation`, run on `G`, `H` up to degree `nMax`; the three
components start from `0.0`. -/
def Summation_loop (LegendreFunction : MAGtype_LegendreFunction α) (G H : Int → α)
    (nMax : Int) (SphVariables : MAGtype_SphericalHarmonicVariables α) :
    MAGtype_MagneticResults α :=
  forLoop 1 nMax (fun n Rn => forLoop 0 n (fun m R =>
    let index := index n m
    let R1 := { R with Bz := R.Bz - SphVariables.RelativeRadiusPower n *
      (G index * SphVariables.cos_mlambda m + H index * SphVariables.sin_mlambda m) *
      ((n + 1 : Int) : α) * LegendreFunction.Pcup index }
    let R2 := { R1 with By := R1.By + SphVariables.RelativeRadiusPower n *
      (G index * SphVariables.sin_mlambda m - H index * SphVariables.cos_mlambda m) *
      ((m : Int) : α) * LegendreFunction.Pcup index }
    { R2 with Bx := R2.Bx - SphVariables.RelativeRadiusPower n *
      (G index * SphVariables.cos_mlambda m + H index * SphVariables.sin_mlambda m) *
      LegendreFunction.dPcup index }) Rn) { Bz := 0.0, By := 0.0, Bx := 0.0 }

/-- The variables that the loop of `MAG_SummationSpecial` carries from one turn to the
next. -/
structure SummationSpecialState (α : Type) where
  PcupS : Int → α
  schmidtQuasiNorm1 : α
  By : α

/-- One turn of the loop of `MAG_SummationSpecial`, for the counter `n`, on the coefficient
arrays `G`, `H`; `sin_phi` is the local of that name. -/
def SummationSpecial_step (L : Libm α) (G H : Int → α)
    (SphVariables : MAGtype_SphericalHarmonicVariables α) (sin_phi : α) (n : Int)
    (st : SummationSpecialState α) : SummationSpecialState α :=
  let index := Int.tdiv (n * (n + 1)) 2 + 1
  let schmidtQuasiNorm2 := st.schmidtQuasiNorm1 * ((2 * n - 1 : Int) : α) / ((n : Int) : α)
  let schmidtQuasiNorm3 := schmidtQuasiNorm2 *
    L.sqrt (((n * 2 : Int) : α) / ((n + 1 : Int) : α))
  let PcupS :=
    if n = 1 then Function.update st.PcupS n (st.PcupS (n - 1))
    else
      let k : α := (((n - 1) * (n - 1) - 1 : Int) : α) /
        (((2 * n - 1) * (2 * n - 3) : Int) : α)
      Function.update st.PcupS n (sin_phi * st.PcupS (n - 1) - k * st.PcupS (n - 2))
  { PcupS := PcupS, schmidtQuasiNorm1 := schmidtQuasiNorm2,
    By := st.By + SphVariables.RelativeRadiusPower n *
      (G index * SphVariables.sin_mlambda 1 - H index * SphVariables.cos_mlambda 1) *
      PcupS n * schmidtQuasiNorm3 }

/-- The loop of `MAG_SummationSpecial`, run on `G`, `H` up to degree `nMax` with the local
`sin_phi`: the variables after the last turn.  `PcupS0` is the fresh `malloc` block. -/
def SummationSpecial_loop (L : Libm α) (G H : Int → α) (nMax : Int)
    (SphVariables : MAGtype_SphericalHarmonicVariables α) (sin_phi : α) (PcupS0 : Int → α) :
    SummationSpecialState α :=
  forLoop 1 nMax (SummationSpecial_step L G H SphVariables sin_phi)
    { PcupS := Function.update PcupS0 0 1, schmidtQuasiNorm1 := 1.0, By := 0.0 }

/-- The value that turn `n` of the loop of `MAG_SummationSpecial` gives to its local
`schmidtQuasiNorm3`: the turn sets it to `schmidtQuasiNorm2 * sqrt(2n / (n + 1))` and copies
`schmidtQuasiNorm2` into `schmidtQuasiNorm1`, which is read here after the turn. -/
def SummationSpecial_schmidtQuasiNorm3 (L : Libm α) (G H : Int → α)
    (SphVariables : MAGtype_SphericalHarmonicVariables α) (sin_phi : α) (PcupS0 : Int → α)
    (n : Int) : α :=
  (SummationSpecial_loop L G H n SphVariables sin_phi PcupS0).schmidtQuasiNorm1 *
    L.sqrt (((n * 2 : Int) : α) / ((n + 1 : Int) : α))

/-- The body of `MAG_SummationSpecial`, run on `G`, `H` up to degree `nMax`: the value it
leaves in `By`.  `PcupS0` is the fresh `malloc` block. -/
def SummationSpecial_By (L : Libm α) (G H : Int → α) (nMax : Int)
    (SphVariables : MAGtype_SphericalHarmonicVariables α)
    (CoordSpherical : MAGtype_CoordSpherical α) (PcupS0 : Int → α) : α :=
  let sin_phi := L.sin (DEG2RAD L CoordSpherical.phig)
  (SummationSpecial_loop L G H nMax SphVariables sin_phi PcupS0).By

/-- Embedding of `MAG_SummationSpecial` (GeomagnetismLibrary.c, 3317-3379): the result vector after
the call; only `By` is written. -/
def MAG_SummationSpecial (L : Libm α) (MagneticModel : MAGtype_MagneticModel α)
    (SphVariables : MAGtype_SphericalHarmonicVariables α)
    (CoordSpherical : MAGtype_CoordSpherical α)
    (MagneticResults : MAGtype_MagneticResults α) (PcupS0 : Int → α) :
    MAGtype_MagneticResults α :=
  { MagneticResults with
    By := SummationSpecial_By L MagneticModel.Main_Field_Coeff_G
      MagneticModel.Main_Field_Coeff_H MagneticModel.nMax SphVariables CoordSpherical PcupS0 }

/-- Embedding of `MAG_Summation` (GeomagnetismLibrary.c, 3232-3315): the result vector after the
call. -/
def MAG_Summation (L : Libm α) (LegendreFunction : MAGtype_LegendreFunction α)
    (MagneticModel : MAGtype_MagneticModel α)
    (SphVariables : MAGtype_SphericalHarmonicVariables α)
    (CoordSpherical : MAGtype_CoordSpherical α) (PcupS0 : Int → α) :
    MAGtype_MagneticResults α :=
  let MagneticResults := Summation_loop LegendreFunction MagneticModel.Main_Field_Coeff_G
    MagneticModel.Main_Field_Coeff_H MagneticModel.nMax SphVariables
  let cos_phi := L.cos (DEG2RAD L CoordSpherical.phig)
  if fabs cos_phi > 1.0e-10 then
    { MagneticResults with By := MagneticResults.By / cos_phi }
  else
    MAG_SummationSpecial L MagneticModel SphVariables CoordSpherical MagneticResults PcupS0

/-- Embedding of `MAG_SecVarSummationSpecial` (GeomagnetismLibrary.c, 3171-3230): the result vector
after the call; only `By` is written. -/
def MAG_SecVarSummationSpecial (L : Libm α) (MagneticModel : MAGtype_MagneticModel α)
    (SphVariables : MAGtype_SphericalHarmonicVariables α)
    (CoordSpherical : MAGtype_CoordSpherical α)
    (MagneticResults : MAGtype_MagneticResults α) (PcupS0 : Int → α) :
    MAGtype_MagneticResults α :=
  { MagneticResults with
    By := SummationSpecial_By L MagneticModel.Secular_Var_Coeff_G
      MagneticModel.Secular_Var_Coeff_H MagneticModel.nMaxSecVar SphVariables CoordSpherical
      PcupS0 }

/-- Embedding of `MAG_SecVarSummation` (GeomagnetismLibrary.c, 3107-3169): the model after the call
(its flag `SecularVariationUsed` is set) and the result vector. -/
def MAG_SecVarSummation (L : Libm α) (LegendreFunction : MAGtype_LegendreFunction α)
    (MagneticModel : MAGtype_MagneticModel α)
    (SphVariables : MAGtype_SphericalHarmonicVariables α)
    (CoordSpherical : MAGtype_CoordSpherical α) (PcupS0 : Int → α) :
    MAGtype_MagneticModel α × MAGtype_MagneticResults α :=
  let MagneticModel := { MagneticModel with SecularVariationUsed := TRUE }
  let MagneticResults := Summation_loop LegendreFunction MagneticModel.Secular_Var_Coeff_G
    MagneticModel.Secular_Var_Coeff_H MagneticModel.nMaxSecVar SphVariables
  let cos_phi := L.cos (DEG2RAD L CoordSpherical.phig)
  if fabs cos_phi > 1.0e-10 then
    (MagneticModel, { MagneticResults with By := MagneticResults.By / cos_phi })
  else
    (MagneticModel, MAG_SecVarSummationSpecial L MagneticModel SphVariables CoordSpherical
      MagneticResults PcupS0)

/-! ## Derivation of the geomagnetic elements -/

/-- Embedding of `MAG_CalculateGeoMagneticElements` (GeomagnetismLibrary.c, 1629-1657): the element
record after the call; `GeoMagneticElements` is the record before it. -/
def MAG_CalculateGeoMagneticElements (L : Libm α)
    (MagneticResultsGeo : MAGtype_MagneticResults α)
    (GeoMagneticElements : MAGtype_GeoMagneticElements α) : MAGtype_GeoMagneticElements α :=
  let E1 := { GeoMagneticElements with
    X := MagneticResultsGeo.Bx, Y := MagneticResultsGeo.By, Z := MagneticResultsGeo.Bz }
  let E2 := { E1 with H := L.sqrt (MagneticResultsGeo.Bx * MagneticResultsGeo.Bx +
    MagneticResultsGeo.By * MagneticResultsGeo.By) }
  let E3 := { E2 with F := L.sqrt (E2.H * E2.H + MagneticResultsGeo.Bz * MagneticResultsGeo.Bz) }
  let E4 := { E3 with Decl := RAD2DEG L (L.atan2 E3.Y E3.X) }
  { E4 with Incl := RAD2DEG L (L.atan2 E4.Z E4.H) }

/-- Embedding of `MAG_CalculateGridVariation` (GeomagnetismLibrary.c, 1659-1695): the return value and
the element record after the call.  `CoM location` stands for the member
`ConvergenceOfMeridians` that `MAG_GetTransverseMercator` stores for `location`: the UTM
projection is outside the evaluation of the declination and reaches `GV` only. -/
def MAG_CalculateGridVariation (CoM : MAGtype_CoordGeodetic α → α)
    (location : MAGtype_CoordGeodetic α) (elements : MAGtype_GeoMagneticElements α) :
    Int × MAGtype_GeoMagneticElements α :=
  if location.phi ≥ MAG_PS_MAX_LAT_DEGREE then
    (1, { elements with GV := elements.Decl - location.lambda })
  else if location.phi ≤ MAG_PS_MIN_LAT_DEGREE then
    (1, { elements with GV := elements.Decl + location.lambda })
  else
    (0, { elements with GV := elements.Decl - CoM location })

/-- Embedding of `MAG_CalculateSecularVariationElements` (GeomagnetismLibrary.c, 1710-1738): the
element record after the call. -/
def MAG_CalculateSecularVariationElements (L : Libm α)
    (MagneticVariation : MAGtype_MagneticResults α)
    (MagneticElements : MAGtype_GeoMagneticElements α) : MAGtype_GeoMagneticElements α :=
  let E1 := { MagneticElements with
    Xdot := MagneticVariation.Bx, Ydot := MagneticVariation.By, Zdot := MagneticVariation.Bz }
  let E2 := { E1 with Hdot := (E1.X * E1.Xdot + E1.Y * E1.Ydot) / E1.H }
  let E3 := { E2 with Fdot := (E2.X * E2.Xdot + E2.Y * E2.Ydot + E2.Z * E2.Zdot) / E2.F }
  let E4 := { E3 with
    Decldot := 180.0 / L.M_PI * (E3.X * E3.Ydot - E3.Y * E3.Xdot) / (E3.H * E3.H) }
  let E5 := { E4 with
    Incldot := 180.0 / L.M_PI * (E4.H * E4.Zdot - E4.Z * E4.Hdot) / (E4.F * E4.F) }
  { E5 with GVdot := E5.Decldot }

/-- Embedding of `MAG_WMMErrorCalc` (GeomagnetismLibrary.c, 3587-3602): the record `Uncertainty` after
the call; `C` holds the macros `WMM_UNCERTAINTY_*`.  The quotient `D_COEF / H` is the one
of the field, so this stands for the call with `H ≠ 0`; `MAG_WMMErrorCalc_Decl` gives the
declination uncertainty for every `H`, zero included. -/
def MAG_WMMErrorCalc (L : Libm α) (C : MAGtype_UncertaintyConstants α) (H : α)
    (Uncertainty : MAGtype_GeoMagneticElements α) : MAGtype_GeoMagneticElements α :=
  let U1 := { Uncertainty with F := C.F, H := C.H, X := C.X, Z := C.Z, Incl := C.I, Y := C.Y }
  let decl_variable := C.D_COEF / H
  let decl_constant := C.D_OFFSET
  let U2 := { U1 with
    Decl := L.sqrt (decl_constant * decl_constant + decl_variable * decl_variable) }
  if U2.Decl > 180 then { U2 with Decl := 180 } else U2

/-- Embedding of `MAG_WMMHRErrorCalc` (GeomagnetismLibrary.c, 3604-3619): the record
`Uncertainty` after the call; `C` holds the macros `WMMHR_UNCERTAINTY_*` of
`GeomagnetismHeader.h`, which is not among the sources.  The quotient `D_COEF / H` is the
one of the field, so this stands for the call with `H ≠ 0`; `MAG_WMMHRErrorCalc_Decl` gives
the declination uncertainty for every `H`, zero included. -/
def MAG_WMMHRErrorCalc (L : Libm α) (C : MAGtype_UncertaintyConstants α) (H : α)
    (Uncertainty : MAGtype_GeoMagneticElements α) : MAGtype_GeoMagneticElements α :=
  let U1 := { Uncertainty with F := C.F, H := C.H, X := C.X, Z := C.Z, Incl := C.I, Y := C.Y }
  let decl_variable := C.D_COEF / H
  let decl_constant := C.D_OFFSET
  let U2 := { U1 with
    Decl := L.sqrt (decl_constant * decl_constant + decl_variable * decl_variable) }
  if U2.Decl > 180 then { U2 with Decl := 180 } else U2

/-! ## Geoid height -/

/-- The C loop `while (cond) body`, run for at most `fuel` turns. -/
def whileLoop {σ : Type} (cond : σ → Bool) (body : σ → σ) : Nat → σ → σ
  | 0, s => s
  | fuel + 1, s => if cond s then whileLoop cond body fuel (body s) else s

/-- Embedding of `MAG_EquivalentLatLon` (GeomagnetismLibrary.c, 3557-3578): the pair
`(*repairedLat, *repairedLon)`.  The `while` loop takes 360 off `colat` at each turn, so
it is left after at most `⌈colat / 360⌉` turns, the fuel it is given. -/
def MAG_EquivalentLatLon (lat lon : α) : α × α :=
  let colat := 90 - lat
  let repairedLon := lon
  let colat := if colat < 0 then -colat else colat
  let colat := whileLoop (fun c => decide (c > 360)) (fun c => c - 360)
    (Int.toNat (Int.ceil (colat / 360))) colat
  let st : α × α := if colat > 180 then (colat - 180, repairedLon + 180)
    else (colat, repairedLon)
  let repairedLat := 90 - st.1
  let repairedLon := if st.2 > 360 then st.2 - 360 else st.2
  let repairedLon := if repairedLon < -180 then repairedLon + 360 else repairedLon
  (repairedLat, repairedLon)

/-- Embedding of `MAG_GetGeoidHeight` (GeomagnetismLibrary.c, 3470-3555): the return value and
`*DeltaHeight` after the call; `DeltaHeight` is its content before the call. -/
def MAG_GetGeoidHeight (Latitude Longitude DeltaHeight : α) (Geoid : MAGtype_Geoid α) :
    Int × α :=
  if Geoid.Geoid_Initialized = 0 then (FALSE, DeltaHeight)
  else
    let Error_Code : Int := 0
    let Error_Code := if Latitude < -90 ∨ Latitude > 90 then Int.lor Error_Code 1
      else Error_Code
    let Error_Code := if Longitude < -180 ∨ Longitude > 360 then Int.lor Error_Code 1
      else Error_Code
    if Error_Code = 0 then
      let OffsetX : α :=
        if Longitude < 0.0 then (Longitude + 360.0) * ((Geoid.ScaleFactor : Int) : α)
        else Longitude * ((Geoid.ScaleFactor : Int) : α)
      let OffsetY : α := (90.0 - Latitude) * ((Geoid.ScaleFactor : Int) : α)
      let PostX : α := ((Int.floor OffsetX : Int) : α)
      let PostX := if PostX + 1 = ((Geoid.NumbGeoidCols : Int) : α) then PostX - 1 else PostX
      let PostY : α := ((Int.floor OffsetY : Int) : α)
      let PostY := if PostY + 1 = ((Geoid.NumbGeoidRows : Int) : α) then PostY - 1 else PostY
      let Index := toLong (PostY * ((Geoid.NumbGeoidCols : Int) : α) + PostX)
      let ElevationNW := Geoid.GeoidHeightBuffer Index
      let ElevationNE := Geoid.GeoidHeightBuffer (Index + 1)
      let Index := toLong ((PostY + 1) * ((Geoid.NumbGeoidCols : Int) : α) + PostX)
      let ElevationSW := Geoid.GeoidHeightBuffer Index
      let ElevationSE := Geoid.GeoidHeightBuffer (Index + 1)
      let DeltaX := OffsetX - PostX
      let DeltaY := OffsetY - PostY
      let UpperY := ElevationNW + DeltaX * (ElevationNE - ElevationNW)
      let LowerY := ElevationSW + DeltaX * (ElevationSE - ElevationSW)
      (TRUE, UpperY + DeltaY * (LowerY - UpperY))
    else (FALSE, DeltaHeight)

/-- Embedding of `MAG_ConvertGeoidToEllipsoidHeight` (GeomagnetismLibrary.c, 3435-3468): the return
value and the position after the call; `DeltaHeight` is the content of the local of that
name when it is declared. -/
def MAG_ConvertGeoidToEllipsoidHeight (CoordGeodetic : MAGtype_CoordGeodetic α)
    (Geoid : MAGtype_Geoid α) (DeltaHeight : α) : Int × MAGtype_CoordGeodetic α :=
  if Geoid.UseGeoid = 1 then
    let ll := MAG_EquivalentLatLon CoordGeodetic.phi CoordGeodetic.lambda
    let r := MAG_GetGeoidHeight ll.1 ll.2 DeltaHeight Geoid
    (r.1, { CoordGeodetic with
      HeightAboveEllipsoid := CoordGeodetic.HeightAboveGeoid + r.2 / 1000 })
  else
    (TRUE, { CoordGeodetic with HeightAboveEllipsoid := CoordGeodetic.HeightAboveGeoid })

/-- Embedding of `MAG_SetDefaults` (GeomagnetismLibrary.c, 249-279): the ellipsoid and the geoid
after the call.  `Geoid` is the geoid record before the call and `MAG_USE_GEOID` the macro
of that name of `GeomagnetismHeader.h`, which is not among the sources. -/
def MAG_SetDefaults (L : Libm α) (Geoid : MAGtype_Geoid α) (MAG_USE_GEOID : Int) :
    MAGtype_Ellipsoid α × MAGtype_Geoid α :=
  let a : α := 6378.137
  let b : α := 6356.7523142
  let fla : α := 1 / 298.257223563
  let eps : α := L.sqrt (1 - (b * b) / (a * a))
  let epssq : α := eps * eps
  let re : α := 6371.2
  ({ a := a, b := b, fla := fla, eps := eps, epssq := epssq, re := re },
   { Geoid with
     NumbGeoidCols := 1441, NumbGeoidRows := 721, NumbHeaderItems := 6, ScaleFactor := 4,
     NumbGeoidElevs := 1441 * 721, Geoid_Initialized := 0, UseGeoid := MAG_USE_GEOID })

/-! ## The orchestrator (`WMMLib.cpp`) -/

/-- What `MAG_Grid` finds in the memory it obtains without initialising it: the four
coefficient blocks of `MAG_AllocateModelMemory`, the blocks of
`MAG_AllocateLegendreFunctionMemory` and `MAG_AllocateSphVarMemory`, the work space of
the Legendre routines and of the two pole summations, and the locals `DeltaHeight`,
`GeoMagneticElements` and `Errors`. -/
structure GridScratch (α : Type) where
  Main_Field_Coeff_G : Int → α
  Main_Field_Coeff_H : Int → α
  Secular_Var_Coeff_G : Int → α
  Secular_Var_Coeff_H : Int → α
  LegendreFunction : MAGtype_LegendreFunction α
  SphVariables : MAGtype_SphericalHarmonicVariables α
  Legendre : LegendreScratch α
  PcupS : Int → α
  PcupSVar : Int → α
  DeltaHeight : α
  GeoMagneticElements : MAGtype_GeoMagneticElements α
  Errors : MAGtype_GeoMagneticElements α

/-- Lines 101-104 of `MAG_Grid`: the position once its height above the ellipsoid is
set. -/
def MAG_Grid_height (CoordData : MAGtype_CoordGeodetic α) (Geoid : MAGtype_Geoid α)
    (DeltaHeight : α) : MAGtype_CoordGeodetic α :=
  if Geoid.UseGeoid = 1 then
    (MAG_ConvertGeoidToEllipsoidHeight CoordData Geoid DeltaHeight).2
  else { CoordData with HeightAboveEllipsoid := CoordData.HeightAboveGeoid }

/-- Lines 111-119 of `MAG_Grid`, with the allocations of lines 96-99: the main-field vector
and the secular-variation vector in geodetic axes, for a position `CoordData` whose
height above the ellipsoid is set. -/
def MAG_Grid_vectors (L : Libm α) (W : GridScratch α) (CoordData : MAGtype_CoordGeodetic α)
    (MagneticModel : MAGtype_MagneticModel α) (Ellip : MAGtype_Ellipsoid α)
    (DateTime : MAGtype_Date α) : MAGtype_MagneticResults α × MAGtype_MagneticResults α :=
  let NumTerms := Int.tdiv ((MagneticModel.nMax + 1) * (MagneticModel.nMax + 2)) 2
  let TimedMagneticModel := MAG_AllocateModelMemory NumTerms W.Main_Field_Coeff_G
    W.Main_Field_Coeff_H W.Secular_Var_Coeff_G W.Secular_Var_Coeff_H
  let LegendreFunction := W.LegendreFunction
  let SphVariables := W.SphVariables
  let CoordSpherical := MAG_GeodeticToSpherical L Ellip CoordData
  let SphVariables := MAG_ComputeSphericalHarmonicVariables L Ellip CoordSpherical
    MagneticModel.nMax SphVariables
  let LegendreFunction := (MAG_AssociatedLegendreFunction L CoordSpherical
    MagneticModel.nMax LegendreFunction W.Legendre).2
  let TimedMagneticModel :=
    MAG_TimelyModifyMagneticModel DateTime MagneticModel TimedMagneticModel
  let MagneticResultsSph := MAG_Summation L LegendreFunction TimedMagneticModel
    SphVariables CoordSpherical W.PcupS
  let MagneticResultsSphVar := (MAG_SecVarSummation L LegendreFunction TimedMagneticModel
    SphVariables CoordSpherical W.PcupSVar).2
  let MagneticResultsGeo :=
    MAG_RotateMagneticVector L CoordSpherical CoordData MagneticResultsSph
  let MagneticResultsGeoVar :=
    MAG_RotateMagneticVector L CoordSpherical CoordData MagneticResultsSphVar
  (MagneticResultsGeo, MagneticResultsGeoVar)

/-- Lines 111-122 of `MAG_Grid`: the record `GeoMagneticElements` once the elements, the
grid variation and the secular variation are computed. -/
def MAG_Grid_elements (L : Libm α) (CoM : MAGtype_CoordGeodetic α → α) (W : GridScratch α)
    (CoordData : MAGtype_CoordGeodetic α) (MagneticModel : MAGtype_MagneticModel α)
    (Ellip : MAGtype_Ellipsoid α) (DateTime : MAGtype_Date α) :
    MAGtype_GeoMagneticElements α :=
  let v := MAG_Grid_vectors L W CoordData MagneticModel Ellip DateTime
  let GeoMagneticElements := MAG_CalculateGeoMagneticElements L v.1 W.GeoMagneticElements
  let GeoMagneticElements := (MAG_CalculateGridVariation CoM CoordData GeoMagneticElements).2
  MAG_CalculateSecularVariationElements L v.2 GeoMagneticElements

/-- Embedding of `MAG_Grid` (WMMLib.cpp, 75-165): the return value and `*RecValue` after the call;
`RecValue` is the record before the call, `W` the indeterminate memory, `C` the macros
`WMM_UNCERTAINTY_*` and `CoM` the convergence of meridians of
`MAG_CalculateGridVariation`. -/
def MAG_Grid (L : Libm α) (C : MAGtype_UncertaintyConstants α)
    (CoM : MAGtype_CoordGeodetic α → α) (W : GridScratch α)
    (CoordData : MAGtype_CoordGeodetic α) (MagneticModel : MAGtype_MagneticModel α)
    (Geoid : MAGtype_Geoid α) (Ellip : MAGtype_Ellipsoid α) (DateTime : MAGtype_Date α)
    (RecValue : DecData α) : Int × DecData α :=
  if DateTime.DecimalYear < MagneticModel.min_year ∨
      DateTime.DecimalYear > MagneticModel.CoefficientFileEndDate then
    (FALSE, { RecValue with errCode := INPUTERROR })
  else
    let min_wgsalt : α := -1
    let max_wgsalt : α := 1900
    let CoordData := MAG_Grid_height CoordData Geoid W.DeltaHeight
    if CoordData.HeightAboveEllipsoid < min_wgsalt ∨
        CoordData.HeightAboveEllipsoid > max_wgsalt then
      (FALSE, RecValue)
    else
      let GeoMagneticElements := MAG_Grid_elements L CoM W CoordData MagneticModel Ellip DateTime
      let Errors := MAG_WMMErrorCalc L C GeoMagneticElements.H W.Errors
      let res : MagComponents α := { D := GeoMagneticElements.Decl }
      let er : MagComponents α := { D := Errors.Decl }
      let R1 := { RecValue with magData := res }
      let R2 := { R1 with magDataErr := er }
      (TRUE, { R2 with errCode := NOERROR })

/-- What `getDeclinition` finds in its uninitialised locals `decvalue`, `Geoid`, `cood` and
`startdate`, the global table `GeoidHeightBuffer` of `EGM9615.h` and the macro
`MAG_USE_GEOID` of `GeomagnetismHeader.h`. -/
structure DeclinitionScratch (α : Type) where
  decvalue : DecData α
  Geoid : MAGtype_Geoid α
  cood : MAGtype_CoordGeodetic α
  startdate : MAGtype_Date α
  GeoidHeightBuffer : Int → α
  MAG_USE_GEOID : Int

/-- Embedding of `getDeclinition` (WMMLib.cpp, 22-73).  `input` is `none` for a null pointer;
`readModels` is `none` when `MAG_robustReadMagModels` returns 0 and otherwise the model
it has read from the file `WMM.COF`. -/
def getDeclinition (L : Libm α) (C : MAGtype_UncertaintyConstants α)
    (CoM : MAGtype_CoordGeodetic α → α) (W : GridScratch α) (V : DeclinitionScratch α)
    (readModels : Option (MAGtype_MagneticModel α)) (input : Option (InData α)) :
    DecData α :=
  let decvalue := { V.decvalue with errCode := NOERROR }
  match input with
  | none => { decvalue with errCode := NULLERROR }
  | some input =>
    match readModels with
    | none => { decvalue with errCode := FILEERROR }
    | some MagneticModel =>
      let d := MAG_SetDefaults L V.Geoid V.MAG_USE_GEOID
      let Ellip := d.1
      let Geoid := { d.2 with GeoidHeightBuffer := V.GeoidHeightBuffer, Geoid_Initialized := 1 }
      let cood := { V.cood with
        phi := input.pos.Latitude,
        lambda := input.pos.Longitude,
        HeightAboveGeoid := input.pos.Altitude }
      let Geoid := { Geoid with UseGeoid := 1 }
      let startdate := { V.startdate with DecimalYear := input.decimalYear }
      (MAG_Grid L C CoM W cood MagneticModel Geoid Ellip startdate decvalue).2

/-! ## From spherical back to geodetic coordinates -/

/-- The local `ExtraDay` of `MAG_DateToYear` and of `MAG_YearToDate` after the test
`(Year % 4 == 0 && Year % 100 != 0) || Year % 400 == 0`; `%` on `int` is `Int.tmod`. -/
def ExtraDay (Year : Int) : Int :=
  if (Int.tmod Year 4 = 0 ∧ Int.tmod Year 100 ≠ 0) ∨ Int.tmod Year 400 = 0 then 1 else 0

/-- The local array `MonthDays` of `MAG_DateToYear` and of `MAG_YearToDate` once its
thirteen cells are assigned; no cell outside `0 .. 12` is ever read. -/
def MonthDays (ExtraDay : Int) (i : Int) : Int :=
  if i = 0 then 0
  else if i = 1 then 31
  else if i = 2 then 28 + ExtraDay
  else if i = 3 then 31
  else if i = 4 then 30
  else if i = 5 then 31
  else if i = 6 then 30
  else if i = 7 then 31
  else if i = 8 then 31
  else if i = 9 then 30
  else if i = 10 then 31
  else if i = 11 then 30
  else if i = 12 then 31
  else 0

/-- Embedding of `MAG_DateToYear` (GeomagnetismLibrary.c, 1826-1888): the return value and
the date after the call.  The message copied to `Error` is not modelled. -/
def MAG_DateToYear (CalendarDate : MAGtype_Date α) : Int × MAGtype_Date α :=
  if CalendarDate.Month = 0 then
    (TRUE, { CalendarDate with DecimalYear := ((CalendarDate.Year : Int) : α) })
  else
    let ExtraDay := ExtraDay CalendarDate.Year
    if CalendarDate.Month ≤ 0 ∨ CalendarDate.Month > 12 then (0, CalendarDate)
    else if CalendarDate.Day ≤ 0 ∨ CalendarDate.Day > MonthDays ExtraDay CalendarDate.Month then
      (0, CalendarDate)
    else
      let temp : Int := forLoop 1 CalendarDate.Month
        (fun i temp => temp + MonthDays ExtraDay (i - 1)) 0
      let temp := temp + CalendarDate.Day
      (TRUE, { CalendarDate with
        DecimalYear := ((CalendarDate.Year : Int) : α) +
          ((temp - 1 : Int) : α) / (365.0 + ((ExtraDay : Int) : α)) })

/-- The variables that the loop of `MAG_YearToDate` carries from one turn to the next;
`left` records that the loop has been left by `break`. -/
structure YearToDateState (α : Type) where
  CumulativeDays : Int
  CalendarDate : MAGtype_Date α
  left : Bool

/-- Embedding of `MAG_YearToDate` (GeomagnetismLibrary.c, 2546-2618): the return value and
the date after the call.  Once the loop is left by `break` its remaining turns do
nothing. -/
def MAG_YearToDate (CalendarDate : MAGtype_Date α) : Int × MAGtype_Date α :=
  if CalendarDate.DecimalYear = 0 then
    (FALSE, { CalendarDate with Year := 0, Month := 0, Day := 0 })
  else
    let D1 := { CalendarDate with Year := Int.floor CalendarDate.DecimalYear }
    let ExtraDay := ExtraDay D1.Year
    let DayOfTheYear : Int :=
      Int.floor ((D1.DecimalYear - ((D1.Year : Int) : α)) *
        (365.0 + ((ExtraDay : Int) : α)) + 0.5) + 1
    let s := forLoop 1 12 (fun i (s : YearToDateState α) =>
      if s.left then s
      else
        let CumulativeDays := s.CumulativeDays + MonthDays ExtraDay i
        if DayOfTheYear ≤ CumulativeDays then
          { CumulativeDays := CumulativeDays,
            CalendarDate := { s.CalendarDate with
              Month := i, Day := MonthDays ExtraDay i - (CumulativeDays - DayOfTheYear) },
            left := true }
        else { s with CumulativeDays := CumulativeDays })
      { CumulativeDays := 0, CalendarDate := D1, left := false }
    (TRUE, s.CalendarDate)

/-- Reference for the calendar claims, not taken from the source: the number of leap
days of the year `y` under the Gregorian rule (every fourth year, except the centuries
that 400 does not divide). -/
def gregorianLeapDays (y : Int) : Int :=
  if (4 ∣ y ∧ ¬ 100 ∣ y) ∨ 400 ∣ y then 1 else 0

/-- Reference for the calendar claims, not taken from the source: the number of days of
the month `m` (1 for January to 12 for December) of the year `y`. -/
def gregorianDaysInMonth (y m : Int) : Int :=
  ([31, 28 + gregorianLeapDays y, 31, 30, 31, 30, 31, 31, 30, 31, 30, 31] : List Int).getD
    (m - 1).toNat 0

/-- Reference for the calendar claims, not taken from the source: the rank in the year
`y` of the day `d` of the month `m`, 1 for 1 January. -/
def gregorianDayOfYear (y m d : Int) : Int :=
  ((List.range (m - 1).toNat).map
    (fun (k : Nat) => gregorianDaysInMonth y ((k : Int) + 1))).sum + d

/-! ## Copy of model coefficients -/

/-- Embedding of `MAG_AssignMagneticModelCoeffs` (GeomagnetismLibrary.c, 893-923): the
model `Assignee` after the call, or `none` when one of the four `assert`s fails and
the program is aborted. -/
def MAG_AssignMagneticModelCoeffs (Assignee Source : MAGtype_MagneticModel α)
    (nMax nMaxSecVar : Int) : Option (MAGtype_MagneticModel α) :=
  if nMax ≤ Source.nMax ∧ nMax ≤ Assignee.nMax ∧ nMaxSecVar ≤ Source.nMaxSecVar ∧
      nMaxSecVar ≤ Assignee.nMaxSecVar then
    let A1 := forLoop 1 nMaxSecVar (fun n An => forLoop 0 n (fun m A =>
      let index := index n m
      { A with
        Main_Field_Coeff_G := Function.update A.Main_Field_Coeff_G index
          (Source.Main_Field_Coeff_G index),
        Main_Field_Coeff_H := Function.update A.Main_Field_Coeff_H index
          (Source.Main_Field_Coeff_H index),
        Secular_Var_Coeff_G := Function.update A.Secular_Var_Coeff_G index
          (Source.Secular_Var_Coeff_G index),
        Secular_Var_Coeff_H := Function.update A.Secular_Var_Coeff_H index
          (Source.Secular_Var_Coeff_H index) }) An) Assignee
    some (forLoop (nMaxSecVar + 1) nMax (fun n An => forLoop 0 n (fun m A =>
      let index := index n m
      { A with
        Main_Field_Coeff_G := Function.update A.Main_Field_Coeff_G index
          (Source.Main_Field_Coeff_G index),
        Main_Field_Coeff_H := Function.update A.Main_Field_Coeff_H index
          (Source.Main_Field_Coeff_H index) }) An) A1)
  else none


/-! ## String copy -/

/-- The C `memcpy(dst, src, n)` from a string: the buffer `dst` after the call.  A `char`
is its code, a buffer is a function from offsets to codes, and `src` lists the characters
of the source string; the routine below asks for at most as many characters as `src`
has. -/
def memcpy (dst : Int → Int) (src : List Int) (n : Int) : Int → Int :=
  fun i => if 0 ≤ i ∧ i < n then src.getD i.toNat 0 else dst i

/-- Embedding of `MAG_strlcpy_equivalent` (GeomagnetismLibrary.c, 3718-3734): the return
value and the buffer `dst` after the call.  `src` is `none` for a null pointer and
otherwise the characters of the string before its terminating NUL, so that `strlen(src)`
is the length of the list. -/
def MAG_strlcpy_equivalent (dst : Int → Int) (src : Option (List Int)) (dstlen : Nat) :
    Int × (Int → Int) :=
  match src with
  | none => (0, dst)
  | some src =>
    let srclen : Int := src.length
    if dstlen > 0 then
      let copy_size : Int := if srclen ≥ dstlen then (dstlen : Int) - 1 else srclen
      let dst := memcpy dst src copy_size
      (srclen, Function.update dst ((dstlen : Int) - 1) 0)
    else (srclen, dst)

/-- Reference for the string claim, not taken from the source: the characters that a
buffer holds from the offset `i` up to the first NUL, `fuel` cells being looked at. -/
def cstringFrom (buf : Int → Int) : Nat → Int → List Int
  | 0, _ => []
  | fuel + 1, i => if buf i = 0 then [] else buf i :: cstringFrom buf fuel (i + 1)

/-- Reference for the string claim, not taken from the source: the NUL-terminated string
that a buffer of `size` cells holds. -/
def cstring (buf : Int → Int) (size : Nat) : List Int := cstringFrom buf size 0

/-! ## The application (`IDateTime.h`, `IMUSensor.h`, `main.cpp`) -/

/-- Embedding of `IDateTime::GetDecimalYear` (IDateTime.h, 129-134).  The members `tm_year`
and `tm_yday` of the `std::tm` that `std::localtime` returns for the current time are its
arguments. -/
def GetDecimalYear (tm_year tm_yday : Int) : α :=
  ((1900 + tm_year : Int) : α) + ((tm_yday + 1 : Int) : α) / 365.0

/-- The `Point3f` of `Point.h`. -/
structure Point3f (α : Type) where
  X : α
  Y : α
  Z : α

/-- Embedding of `IMUSensor::Get3DMagneticData` (IMUSensor.h, 20). -/
def Get3DMagneticData : Point3f α := { X := -47.5, Y := -21.1, Z := -53.7 }

/-- The local `theta` of `main` (main.cpp, 11) for the reading `mag`. -/
def main_theta (L : Libm α) (mag : Point3f α) : α := L.atan (mag.Y / mag.X)

/-- Embedding of `main` (main.cpp, 5-34): the exit status and, when the declination is
obtained, the four numbers it prints: `theta`, `decl.magData.D`, `decl.magDataErr.D` and
`trueNorth`.  `mag`, `decimalYear` and `pos` are what the three sensor objects return; the
other arguments are those of `getDeclinition`. -/
def main (L : Libm α) (C : MAGtype_UncertaintyConstants α)
    (CoM : MAGtype_CoordGeodetic α → α) (W : GridScratch α) (V : DeclinitionScratch α)
    (readModels : Option (MAGtype_MagneticModel α)) (mag : Point3f α) (decimalYear : α)
    (pos : Position α) : Int × Option (α × α × α × α) :=
  let theta := L.atan (mag.Y / mag.X)
  let input : InData α := { decimalYear := decimalYear, pos := pos }
  let decl := getDeclinition L C CoM W V readModels (some input)
  if decl.errCode ≠ 0 then (1, none)
  else
    let trueNorth := theta - decl.magData.D
    (0, some (theta, decl.magData.D, decl.magDataErr.D, trueNorth))

/-! ## Doubles outside the field: infinities and NaN -/

/-- The value of a C `double` expression that may leave the field: a number, an infinity
with its sign bit (`true` for the negative one), or a NaN.  It is used for the one
computation on which a claim concerns a zero divisor, the declination uncertainty. -/
inductive ExtDouble (α : Type) where
  | num (x : α) : ExtDouble α
  | inf (negative : Bool) : ExtDouble α
  | nan : ExtDouble α

/-- The IEEE 754 quotient `x / y` of two numbers: `0 / 0` is a NaN, and a nonzero `x` over
a zero is the infinity whose sign is the sign of `x` times the sign of the zero; `negZero`
is the sign bit of `y` when `y` is a zero. -/
def ExtDouble.div (x y : α) (negZero : Bool) : ExtDouble α :=
  if y = 0 then
    if x = 0 then ExtDouble.nan else ExtDouble.inf (Bool.xor (decide (x < 0)) negZero)
  else ExtDouble.num (x / y)

/-- The IEEE 754 product: a NaN gives a NaN, as does zero times an infinity. -/
def ExtDouble.mul : ExtDouble α → ExtDouble α → ExtDouble α
  | ExtDouble.num a, ExtDouble.num b => ExtDouble.num (a * b)
  | ExtDouble.num a, ExtDouble.inf s =>
    if a = 0 then ExtDouble.nan else ExtDouble.inf (Bool.xor (decide (a < 0)) s)
  | ExtDouble.inf s, ExtDouble.num b =>
    if b = 0 then ExtDouble.nan else ExtDouble.inf (Bool.xor s (decide (b < 0)))
  | ExtDouble.inf s, ExtDouble.inf t => ExtDouble.inf (Bool.xor s t)
  | _, _ => ExtDouble.nan

/-- The IEEE 754 sum: a NaN gives a NaN, as do two infinities of opposite signs. -/
def ExtDouble.add : ExtDouble α → ExtDouble α → ExtDouble α
  | ExtDouble.num a, ExtDouble.num b => ExtDouble.num (a + b)
  | ExtDouble.num _, ExtDouble.inf s => ExtDouble.inf s
  | ExtDouble.inf s, ExtDouble.num _ => ExtDouble.inf s
  | ExtDouble.inf s, ExtDouble.inf t => if s = t then ExtDouble.inf s else ExtDouble.nan
  | _, _ => ExtDouble.nan

/-- The function `sqrt` of `<math.h>` on these values: the square root of the positive
infinity is itself, that of a negative number, of the negative infinity or of a NaN is a
NaN. -/
def ExtDouble.sqrt (L : Libm α) : ExtDouble α → ExtDouble α
  | ExtDouble.num a => if a < 0 then ExtDouble.nan else ExtDouble.num (L.sqrt a)
  | ExtDouble.inf false => ExtDouble.inf false
  | _ => ExtDouble.nan

/-- The C comparison `x > c` with a number `c`: false for a NaN. -/
def ExtDouble.gt : ExtDouble α → α → Bool
  | ExtDouble.num a, c => decide (a > c)
  | ExtDouble.inf s, _ => !s
  | ExtDouble.nan, _ => false

/-- The order `x ≤ c` with a number `c`, which no NaN satisfies. -/
def ExtDouble.le : ExtDouble α → α → Prop
  | ExtDouble.num a, c => a ≤ c
  | ExtDouble.inf s, _ => s = true
  | ExtDouble.nan, _ => False

/-- The statements of `MAG_WMMErrorCalc` that compute `Uncertainty->Decl`
(GeomagnetismLibrary.c, 3596-3601), every expression taking its value among the doubles
with the infinities and NaN, so that the call with `H = 0` is covered; `negZero` is the
sign bit of `H` when `H` is a zero.  `C` holds the macros `WMM_UNCERTAINTY_*`. -/
def MAG_WMMErrorCalc_Decl (L : Libm α) (C : MAGtype_UncertaintyConstants α) (H : α)
    (negZero : Bool) : ExtDouble α :=
  let decl_variable := ExtDouble.div C.D_COEF H negZero
  let decl_constant : ExtDouble α := ExtDouble.num C.D_OFFSET
  let Decl := ExtDouble.sqrt L (ExtDouble.add (ExtDouble.mul decl_constant decl_constant)
    (ExtDouble.mul decl_variable decl_variable))
  if ExtDouble.gt Decl 180 then ExtDouble.num 180 else Decl

/-- The statements of `MAG_WMMHRErrorCalc` that compute `Uncertainty->Decl`
(GeomagnetismLibrary.c, 3613-3618), every expression taking its value among the doubles
with the infinities and NaN; `negZero` is the sign bit of `H` when `H` is a zero.  `C`
holds the macros `WMMHR_UNCERTAINTY_*`. -/
def MAG_WMMHRErrorCalc_Decl (L : Libm α) (C : MAGtype_UncertaintyConstants α) (H : α)
    (negZero : Bool) : ExtDouble α :=
  let decl_variable := ExtDouble.div C.D_COEF H negZero
  let decl_constant : ExtDouble α := ExtDouble.num C.D_OFFSET
  let Decl := ExtDouble.sqrt L (ExtDouble.add (ExtDouble.mul decl_constant decl_constant)
    (ExtDouble.mul decl_variable decl_variable))
  if ExtDouble.gt Decl 180 then ExtDouble.num 180 else Decl

end Embedding

/-! ## The real-number meaning of the math library -/

/-- The functions of `<math.h>` on real numbers.  `atan2 y x` is the argument of the
complex number `x + y i`: it lies in `(-π, π]` and is `0` at the origin. -/
noncomputable def realLibm : Libm ℝ where
  sqrt := Real.sqrt
  sin := Real.sin
  cos := Real.cos
  asin := Real.arcsin
  atan2 := fun y x => Complex.arg ⟨x, y⟩
  M_PI := Real.pi
  pow := fun x y => x ^ y
  acos := Real.arccos
  atan := Real.arctan

/-- The math library over the reals with the zero ordinate of `atan2` read as the negative
zero of IEEE 754, which the field does not tell from the positive one: C gives
`atan2(-0.0, x) = -π` for `x < 0`, where `realLibm` has the value `π` of
`atan2(+0.0, x)`.  Everything else is as in `realLibm`. -/
noncomputable def negZeroLibm : Libm ℝ :=
  { realLibm with
    atan2 := fun y x => if y = 0 ∧ x < 0 then -Real.pi else Complex.arg ⟨x, y⟩ }

/-- What C guarantees of the ranges of the math library, for a library over the reals:
`sqrt` is the square root, `M_PI` is `π`, and `atan2 y x` lies in `[-π, π]`, in
`[-π/2, π/2]` when `x ≥ 0`. -/
def CStandardRanges (L : Libm ℝ) : Prop :=
  L.sqrt = Real.sqrt ∧ L.M_PI = Real.pi ∧
  (∀ y x : ℝ, -Real.pi ≤ L.atan2 y x ∧ L.atan2 y x ≤ Real.pi) ∧
  (∀ y x : ℝ, 0 ≤ x → -(Real.pi / 2) ≤ L.atan2 y x ∧ L.atan2 y x ≤ Real.pi / 2)

/-- The double nearest to the real `x`: `x` rounded to a multiple of `2 ^ (e - 52)`, where
`2 ^ e ≤ |x| < 2 ^ (e + 1)`, that is to 53 significant bits.  Overflow, subnormal numbers
and the rule for ties are left out. -/
noncomputable def roundToDouble (x : ℝ) : ℝ :=
  if x = 0 then 0
  else (round (x / (2 : ℝ) ^ (Int.log 2 |x| - 52)) : ℝ) * (2 : ℝ) ^ (Int.log 2 |x| - 52)

/-- The math library over the reals with the argument of `asin` taken as the double that
it is in C: `asin` is applied to its argument rounded to the nearest double.  Everything
else is as in `realLibm`. -/
noncomputable def roundedAsinLibm : Libm ℝ :=
  { realLibm with asin := fun x => Real.arcsin (roundToDouble x) }


/-! ## Inputs at which the statements are instantiated -/

section Samples

variable {α : Type} [LinearOrderedField α] [FloorRing α]

/-- The degree-1 model of the concrete scenario: epoch 2020.0, valid from 2020 to 2025,
`g(1,0) = -29404.5`, `g(1,1) = -1450.7`, `h(1,1) = 4652.9`, with secular terms. -/
def scenarioModel : MAGtype_MagneticModel α :=
  { EditionDate := 2020.0, epoch := 2020.0,
    Main_Field_Coeff_G := fun i => if i = 1 then -29404.5 else if i = 2 then -1450.7 else 0,
    Main_Field_Coeff_H := fun i => if i = 2 then 4652.9 else 0,
    Secular_Var_Coeff_G := fun i => if i = 1 then 6.7 else if i = 2 then 7.7 else 0,
    Secular_Var_Coeff_H := fun i => if i = 2 then -25.1 else 0,
    nMax := 1, nMaxSecVar := 1, SecularVariationUsed := 0,
    CoefficientFileEndDate := 2025.0, min_year := 2020.0 }

/-- An element record filled with zeros. -/
def zeroElements : MAGtype_GeoMagneticElements α :=
  { Decl := 0, Incl := 0, F := 0, H := 0, X := 0, Y := 0, Z := 0, GV := 0, Decldot := 0,
    Incldot := 0, Fdot := 0, Hdot := 0, Xdot := 0, Ydot := 0, Zdot := 0, GVdot := 0 }

/-- Indeterminate memory filled with zeros. -/
def zeroScratch : GridScratch α :=
  { Main_Field_Coeff_G := fun _ => 0, Main_Field_Coeff_H := fun _ => 0,
    Secular_Var_Coeff_G := fun _ => 0, Secular_Var_Coeff_H := fun _ => 0,
    LegendreFunction := { Pcup := fun _ => 0, dPcup := fun _ => 0 },
    SphVariables :=
      { RelativeRadiusPower := fun _ => 0, cos_mlambda := fun _ => 0,
        sin_mlambda := fun _ => 0 },
    Legendre :=
      { schmidtQuasiNorm := fun _ => 0, f1 := fun _ => 0, f2 := fun _ => 0,
        PreSqr := fun _ => 0 },
    PcupS := fun _ => 0, PcupSVar := fun _ => 0, DeltaHeight := 0,
    GeoMagneticElements := zeroElements, Errors := zeroElements }

/-- A geoid record whose grid of height adjustments is flat (0 m everywhere), with the
dimensions that `MAG_SetDefaults` gives it and the flags that `getDeclinition` sets. -/
def flatGeoid : MAGtype_Geoid α :=
  { NumbGeoidCols := 1441, NumbGeoidRows := 721, NumbHeaderItems := 6, ScaleFactor := 4,
    GeoidHeightBuffer := fun _ => 0, NumbGeoidElevs := 1441 * 721, Geoid_Initialized := 1,
    UseGeoid := 1 }

/-- The point of latitude 0, longitude 0 at `h` km above mean sea level. -/
def equatorPoint (h : α) : MAGtype_CoordGeodetic α :=
  { lambda := 0, phi := 0, HeightAboveEllipsoid := 0, HeightAboveGeoid := h, UseGeoid := 1 }

/-- The WGS-84 ellipsoid with the values that `MAG_SetDefaults` assigns. -/
def wgs84 (L : Libm α) : MAGtype_Ellipsoid α := (MAG_SetDefaults L flatGeoid 1).1

/-- A date of decimal year `y`. -/
def dateOf (y : α) : MAGtype_Date α := { Year := 0, Month := 0, Day := 0, DecimalYear := y }

/-- A result record as `getDeclinition` hands it to `MAG_Grid`: `errCode` is `NOERROR`,
the other members hold `d`, `e` and `s`. -/
def freshDecData (d e s : α) : DecData α :=
  { errCode := NOERROR, magData := { D := d }, magDataErr := { D := e }, sv := s }

/-- Uncertainty constants for the instantiations. -/
def sampleUncertainty : MAGtype_UncertaintyConstants α :=
  { F := 138, H := 133, X := 137, Y := 89, Z := 141, I := 0.20, D_COEF := 5417,
    D_OFFSET := 0.26 }

/-- Uninitialised locals of `getDeclinition` that hold the error code `c` and the numbers
`d`, `e`, `s` in `decvalue`, over a flat table `GeoidHeightBuffer`. -/
def flatDeclinitionScratch (c : Int) (d e s : α) : DeclinitionScratch α :=
  { decvalue := { errCode := c, magData := { D := d }, magDataErr := { D := e }, sv := s },
    Geoid := flatGeoid, cood := equatorPoint 0, startdate := dateOf 0,
    GeoidHeightBuffer := fun _ => 0, MAG_USE_GEOID := 1 }

/-- The element record that `MAG_Grid` computes for the scenario model at latitude 0,
longitude 0, mean sea level over a flat geoid, in the year `y`. -/
def scenarioElements (L : Libm α) (CoM : MAGtype_CoordGeodetic α → α) (y : α) :
    MAGtype_GeoMagneticElements α :=
  MAG_Grid_elements L CoM zeroScratch (MAG_Grid_height (equatorPoint 0) flatGeoid 0)
    scenarioModel (wgs84 L) (dateOf y)

end Samples

/-! ## Theorems -/

section GridLemmas

variable {α : Type} [LinearOrderedField α] [FloorRing α]

/-- A decimal year outside the validity range: `MAG_Grid` returns `FALSE` and writes
`INPUTERROR` into `errCode`, nothing else. -/
lemma MAG_Grid_of_year_outside (L : Libm α) (C : MAGtype_UncertaintyConstants α)
    (CoM : MAGtype_CoordGeodetic α → α) (W : GridScratch α)
    (CoordData : MAGtype_CoordGeodetic α) (MagneticModel : MAGtype_MagneticModel α)
    (Geoid : MAGtype_Geoid α) (Ellip : MAGtype_Ellipsoid α) (DateTime : MAGtype_Date α)
    (RecValue : DecData α)
    (h : DateTime.DecimalYear < MagneticModel.min_year ∨
      DateTime.DecimalYear > MagneticModel.CoefficientFileEndDate) :
    MAG_Grid L C CoM W CoordData MagneticModel Geoid Ellip DateTime RecValue =
      (FALSE, { RecValue with errCode := INPUTERROR }) := by
  unfold MAG_Grid
  rw [if_pos h]

/-- A decimal year inside the validity range and a height outside `[-1, 1900]`:
`MAG_Grid` returns `FALSE` and leaves the record as it was. -/
lemma MAG_Grid_of_height_outside (L : Libm α) (C : MAGtype_UncertaintyConstants α)
    (CoM : MAGtype_CoordGeodetic α → α) (W : GridScratch α)
    (CoordData : MAGtype_CoordGeodetic α) (MagneticModel : MAGtype_MagneticModel α)
    (Geoid : MAGtype_Geoid α) (Ellip : MAGtype_Ellipsoid α) (DateTime : MAGtype_Date α)
    (RecValue : DecData α)
    (hy : ¬ (DateTime.DecimalYear < MagneticModel.min_year ∨
      DateTime.DecimalYear > MagneticModel.CoefficientFileEndDate))
    (hh : (MAG_Grid_height CoordData Geoid W.DeltaHeight).HeightAboveEllipsoid < -1 ∨
      (MAG_Grid_height CoordData Geoid W.DeltaHeight).HeightAboveEllipsoid > 1900) :
    MAG_Grid L C CoM W CoordData MagneticModel Geoid Ellip DateTime RecValue =
      (FALSE, RecValue) := by
  unfold MAG_Grid
  rw [if_neg hy]
  simp only []
  rw [if_pos hh]

/-- A decimal year inside the validity range and a height inside `[-1, 1900]`:
`MAG_Grid` returns `TRUE`, stores the declination, its uncertainty and `NOERROR`, and
leaves `sv` as it was. -/
lemma MAG_Grid_of_inside (L : Libm α) (C : MAGtype_UncertaintyConstants α)
    (CoM : MAGtype_CoordGeodetic α → α) (W : GridScratch α)
    (CoordData : MAGtype_CoordGeodetic α) (MagneticModel : MAGtype_MagneticModel α)
    (Geoid : MAGtype_Geoid α) (Ellip : MAGtype_Ellipsoid α) (DateTime : MAGtype_Date α)
    (RecValue : DecData α)
    (hy : ¬ (DateTime.DecimalYear < MagneticModel.min_year ∨
      DateTime.DecimalYear > MagneticModel.CoefficientFileEndDate))
    (hh : ¬ ((MAG_Grid_height CoordData Geoid W.DeltaHeight).HeightAboveEllipsoid < -1 ∨
      (MAG_Grid_height CoordData Geoid W.DeltaHeight).HeightAboveEllipsoid > 1900)) :
    MAG_Grid L C CoM W CoordData MagneticModel Geoid Ellip DateTime RecValue =
      (TRUE,
       { errCode := NOERROR,
         magData := { D := (MAG_Grid_elements L CoM W
           (MAG_Grid_height CoordData Geoid W.DeltaHeight) MagneticModel Ellip DateTime).Decl },
         magDataErr := { D := (MAG_WMMErrorCalc L C (MAG_Grid_elements L CoM W
           (MAG_Grid_height CoordData Geoid W.DeltaHeight) MagneticModel Ellip DateTime).H
           W.Errors).Decl },
         sv := RecValue.sv }) := by
  unfold MAG_Grid
  rw [if_neg hy]
  simp only []
  rw [if_neg hh]

/-- A `while` loop whose condition fails at the start leaves the state as it is. -/
lemma whileLoop_of_not_cond {σ : Type} (cond : σ → Bool) (body : σ → σ) (fuel : Nat) (s : σ)
    (h : cond s = false) : whileLoop cond body fuel s = s := by
  cases fuel with
  | zero => rfl
  | succ k => simp [whileLoop, h]

/-- Over a flat geoid grid, and with a local `DeltaHeight` that starts at 0, the height
adjustment is 0 whether or not `MAG_GetGeoidHeight` accepts the position. -/
lemma MAG_GetGeoidHeight_flat (Latitude Longitude : α) :
    (MAG_GetGeoidHeight Latitude Longitude 0 (flatGeoid : MAGtype_Geoid α)).2 = 0 := by
  unfold MAG_GetGeoidHeight
  simp only [flatGeoid]
  split_ifs <;> simp

/-- Over a flat geoid grid the height above the ellipsoid that `MAG_Grid` tests is the
height above mean sea level it was given. -/
lemma MAG_Grid_height_flat (CoordData : MAGtype_CoordGeodetic α) :
    (MAG_Grid_height CoordData (flatGeoid : MAGtype_Geoid α) 0).HeightAboveEllipsoid =
      CoordData.HeightAboveGeoid := by
  have h := MAG_GetGeoidHeight_flat
    (MAG_EquivalentLatLon CoordData.phi CoordData.lambda).1
    (MAG_EquivalentLatLon CoordData.phi CoordData.lambda).2
  have hU : (flatGeoid : MAGtype_Geoid α).UseGeoid = 1 := rfl
  unfold MAG_Grid_height MAG_ConvertGeoidToEllipsoidHeight
  simp only [hU, if_true, h]
  simp

end GridLemmas

section GridClaims

variable {α : Type} [LinearOrderedField α] [FloorRing α]

/-- C1: `MAG_Grid` returns `FALSE` with `errCode = INPUTERROR` when the decimal year is
below `min_year` or above `CoefficientFileEndDate`; for a year in the closed interval
`[min_year, CoefficientFileEndDate]`, both ends included, it does not report
`INPUTERROR`: the result holds that code only if the record already held it on entry
(`getDeclinition` passes `NOERROR`). -/
theorem MAG_Grid_year_validation (L : Libm α) (C : MAGtype_UncertaintyConstants α)
    (CoM : MAGtype_CoordGeodetic α → α) (W : GridScratch α)
    (CoordData : MAGtype_CoordGeodetic α) (MagneticModel : MAGtype_MagneticModel α)
    (Geoid : MAGtype_Geoid α) (Ellip : MAGtype_Ellipsoid α) (DateTime : MAGtype_Date α)
    (RecValue : DecData α) :
    ((DateTime.DecimalYear < MagneticModel.min_year ∨
        DateTime.DecimalYear > MagneticModel.CoefficientFileEndDate) →
      (MAG_Grid L C CoM W CoordData MagneticModel Geoid Ellip DateTime RecValue).1 = FALSE ∧
      (MAG_Grid L C CoM W CoordData MagneticModel Geoid Ellip DateTime RecValue).2.errCode =
        INPUTERROR) ∧
    ((MagneticModel.min_year ≤ DateTime.DecimalYear ∧
        DateTime.DecimalYear ≤ MagneticModel.CoefficientFileEndDate) →
      ((MAG_Grid L C CoM W CoordData MagneticModel Geoid Ellip DateTime RecValue).2.errCode =
        INPUTERROR → RecValue.errCode = INPUTERROR) ∧
      (RecValue.errCode = NOERROR →
        (MAG_Grid L C CoM W CoordData MagneticModel Geoid Ellip DateTime RecValue).2.errCode =
          NOERROR)) := by
  refine ⟨fun h => ?_, fun h => ?_⟩
  · rw [MAG_Grid_of_year_outside L C CoM W CoordData MagneticModel Geoid Ellip DateTime
      RecValue h]
    exact ⟨rfl, rfl⟩
  · have hy : ¬ (DateTime.DecimalYear < MagneticModel.min_year ∨
        DateTime.DecimalYear > MagneticModel.CoefficientFileEndDate) := by
      rintro (h1 | h1)
      · exact absurd h.1 (not_le.mpr h1)
      · exact absurd h.2 (not_le.mpr h1)
    by_cases hh : (MAG_Grid_height CoordData Geoid W.DeltaHeight).HeightAboveEllipsoid < -1 ∨
        (MAG_Grid_height CoordData Geoid W.DeltaHeight).HeightAboveEllipsoid > 1900
    · rw [MAG_Grid_of_height_outside L C CoM W CoordData MagneticModel Geoid Ellip DateTime
        RecValue hy hh]
      exact ⟨fun e => e, fun e => e⟩
    · rw [MAG_Grid_of_inside L C CoM W CoordData MagneticModel Geoid Ellip DateTime
        RecValue hy hh]
      refine ⟨fun e => ?_, fun _ => rfl⟩
      simp [NOERROR, INPUTERROR] at e

/-- C2: when the decimal year lies outside `[min_year, CoefficientFileEndDate]`, the
record `MAG_Grid` leaves differs from the one it received in `errCode` only: `magData`,
`magDataErr` and `sv` are the values held before the call. -/
theorem MAG_Grid_year_outside_frame (L : Libm α) (C : MAGtype_UncertaintyConstants α)
    (CoM : MAGtype_CoordGeodetic α → α) (W : GridScratch α)
    (CoordData : MAGtype_CoordGeodetic α) (MagneticModel : MAGtype_MagneticModel α)
    (Geoid : MAGtype_Geoid α) (Ellip : MAGtype_Ellipsoid α) (DateTime : MAGtype_Date α)
    (RecValue : DecData α)
    (h : DateTime.DecimalYear < MagneticModel.min_year ∨
      DateTime.DecimalYear > MagneticModel.CoefficientFileEndDate) :
    (MAG_Grid L C CoM W CoordData MagneticModel Geoid Ellip DateTime RecValue).2.magData =
        RecValue.magData ∧
    (MAG_Grid L C CoM W CoordData MagneticModel Geoid Ellip DateTime RecValue).2.magDataErr =
        RecValue.magDataErr ∧
    (MAG_Grid L C CoM W CoordData MagneticModel Geoid Ellip DateTime RecValue).2.sv =
        RecValue.sv ∧
    (MAG_Grid L C CoM W CoordData MagneticModel Geoid Ellip DateTime RecValue).2.errCode =
        INPUTERROR := by
  rw [MAG_Grid_of_year_outside L C CoM W CoordData MagneticModel Geoid Ellip DateTime
    RecValue h]
  exact ⟨rfl, rfl, rfl, rfl⟩

/-- Instance of C2: the year 1900 against the model valid from 2020 to 2025, with a record
that holds 7, 8 and 9 on entry. -/
theorem MAG_Grid_year_outside_frame_witness :
    ((dateOf (1900 : ℝ)).DecimalYear < (scenarioModel : MAGtype_MagneticModel ℝ).min_year ∨
      (dateOf (1900 : ℝ)).DecimalYear >
        (scenarioModel : MAGtype_MagneticModel ℝ).CoefficientFileEndDate) ∧
    (MAG_Grid realLibm sampleUncertainty (fun _ => 0) zeroScratch (equatorPoint 0)
        scenarioModel flatGeoid (wgs84 realLibm) (dateOf 1900) (freshDecData 7 8 9)).2.magData =
      (freshDecData (7 : ℝ) 8 9).magData ∧
    (MAG_Grid realLibm sampleUncertainty (fun _ => 0) zeroScratch (equatorPoint 0)
        scenarioModel flatGeoid (wgs84 realLibm) (dateOf 1900)
        (freshDecData 7 8 9)).2.magDataErr = (freshDecData (7 : ℝ) 8 9).magDataErr ∧
    (MAG_Grid realLibm sampleUncertainty (fun _ => 0) zeroScratch (equatorPoint 0)
        scenarioModel flatGeoid (wgs84 realLibm) (dateOf 1900) (freshDecData 7 8 9)).2.sv =
      (freshDecData (7 : ℝ) 8 9).sv ∧
    (MAG_Grid realLibm sampleUncertainty (fun _ => 0) zeroScratch (equatorPoint 0)
        scenarioModel flatGeoid (wgs84 realLibm) (dateOf 1900)
        (freshDecData 7 8 9)).2.errCode = INPUTERROR :=
  have h : (dateOf (1900 : ℝ)).DecimalYear <
        (scenarioModel : MAGtype_MagneticModel ℝ).min_year ∨
      (dateOf (1900 : ℝ)).DecimalYear >
        (scenarioModel : MAGtype_MagneticModel ℝ).CoefficientFileEndDate :=
    Or.inl (by norm_num [dateOf, scenarioModel])
  ⟨h, MAG_Grid_year_outside_frame realLibm sampleUncertainty (fun _ => 0) zeroScratch
    (equatorPoint 0) scenarioModel flatGeoid (wgs84 realLibm) (dateOf 1900)
    (freshDecData 7 8 9) h⟩

/-- C3 (the code departs from it): at latitude 0, longitude 0, 2000 km above mean sea
level over a flat geoid, in the year 2022 of a model valid from 2020 to 2025, `MAG_Grid`
returns `FALSE` and leaves the record exactly as `getDeclinition` passed it, with
`errCode = NOERROR`; `getDeclinition` then returns `errCode = NOERROR` together with the
numbers `d`, `e`, `s` that its uninitialised `decvalue` happened to hold. -/
theorem MAG_Grid_height_abort_keeps_NOERROR (L : Libm α) (C : MAGtype_UncertaintyConstants α)
    (CoM : MAGtype_CoordGeodetic α → α) (c : Int) (d e s : α) :
    MAG_Grid L C CoM zeroScratch (equatorPoint 2000) scenarioModel flatGeoid (wgs84 L)
        (dateOf 2022) (freshDecData d e s) = (FALSE, freshDecData d e s) ∧
    (freshDecData d e s).errCode = NOERROR ∧
    getDeclinition L C CoM zeroScratch (flatDeclinitionScratch c d e s) (some scenarioModel)
        (some { decimalYear := 2022,
                pos := { Latitude := 0, Longitude := 0, Altitude := 2000, Speed := 0 } }) =
      freshDecData d e s := by
  have hy : ¬ ((dateOf (2022 : α)).DecimalYear <
        (scenarioModel : MAGtype_MagneticModel α).min_year ∨
      (dateOf (2022 : α)).DecimalYear >
        (scenarioModel : MAGtype_MagneticModel α).CoefficientFileEndDate) := by
    norm_num [dateOf, scenarioModel]
  refine ⟨?_, rfl, ?_⟩
  · apply MAG_Grid_of_height_outside _ _ _ _ _ _ _ _ _ _ hy
    right
    show (MAG_Grid_height (equatorPoint 2000) flatGeoid 0).HeightAboveEllipsoid > 1900
    rw [MAG_Grid_height_flat]
    norm_num [equatorPoint]
  · have hG : ({ (MAG_SetDefaults L (flatDeclinitionScratch c d e s).Geoid
          (flatDeclinitionScratch c d e s).MAG_USE_GEOID).2 with
        GeoidHeightBuffer := (flatDeclinitionScratch c d e s).GeoidHeightBuffer,
        Geoid_Initialized := 1, UseGeoid := 1 } : MAGtype_Geoid α) = flatGeoid := by
      simp [MAG_SetDefaults, flatGeoid, flatDeclinitionScratch]
    unfold getDeclinition
    simp only [hG]
    rw [MAG_Grid_of_height_outside]
    · rfl
    · norm_num [scenarioModel]
    · right
      show (MAG_Grid_height _ flatGeoid 0).HeightAboveEllipsoid > 1900
      rw [MAG_Grid_height_flat]
      norm_num

/-- C4 (the code departs from it): no path of `MAG_Grid` writes `sv`.  Whatever the
input, `sv` holds after the call what it held before; and on the successful evaluation
of the scenario model at latitude 0, longitude 0, mean sea level, year 2022, entered
with `sv = Decldot + 1`, the call returns `TRUE` with `NOERROR`, the declination and its
uncertainty, and an `sv` that is not the yearly rate `Decldot` just computed. -/
theorem MAG_Grid_never_writes_sv (L : Libm α) (C : MAGtype_UncertaintyConstants α)
    (CoM : MAGtype_CoordGeodetic α → α) (d e : α) :
    (∀ (W : GridScratch α) (CoordData : MAGtype_CoordGeodetic α)
        (MagneticModel : MAGtype_MagneticModel α) (Geoid : MAGtype_Geoid α)
        (Ellip : MAGtype_Ellipsoid α) (DateTime : MAGtype_Date α) (RecValue : DecData α),
      (MAG_Grid L C CoM W CoordData MagneticModel Geoid Ellip DateTime RecValue).2.sv =
        RecValue.sv) ∧
    MAG_Grid L C CoM zeroScratch (equatorPoint 0) scenarioModel flatGeoid (wgs84 L)
        (dateOf 2022) (freshDecData d e ((scenarioElements L CoM 2022).Decldot + 1)) =
      (TRUE,
       { errCode := NOERROR,
         magData := { D := (scenarioElements L CoM 2022).Decl },
         magDataErr :=
           { D := (MAG_WMMErrorCalc L C (scenarioElements L CoM 2022).H zeroElements).Decl },
         sv := (scenarioElements L CoM 2022).Decldot + 1 }) ∧
    (MAG_Grid L C CoM zeroScratch (equatorPoint 0) scenarioModel flatGeoid (wgs84 L)
        (dateOf 2022) (freshDecData d e ((scenarioElements L CoM 2022).Decldot + 1))).2.sv ≠
      (scenarioElements L CoM 2022).Decldot := by
  have hy : ¬ ((dateOf (2022 : α)).DecimalYear <
        (scenarioModel : MAGtype_MagneticModel α).min_year ∨
      (dateOf (2022 : α)).DecimalYear >
        (scenarioModel : MAGtype_MagneticModel α).CoefficientFileEndDate) := by
    norm_num [dateOf, scenarioModel]
  have hh : ¬ ((MAG_Grid_height (equatorPoint (0 : α)) flatGeoid
        (zeroScratch : GridScratch α).DeltaHeight).HeightAboveEllipsoid < -1 ∨
      (MAG_Grid_height (equatorPoint (0 : α)) flatGeoid
        (zeroScratch : GridScratch α).DeltaHeight).HeightAboveEllipsoid > 1900) := by
    show ¬ ((MAG_Grid_height (equatorPoint (0 : α)) flatGeoid 0).HeightAboveEllipsoid < -1 ∨
      (MAG_Grid_height (equatorPoint (0 : α)) flatGeoid 0).HeightAboveEllipsoid > 1900)
    rw [MAG_Grid_height_flat]
    norm_num [equatorPoint]
  have key := MAG_Grid_of_inside L C CoM zeroScratch (equatorPoint 0) scenarioModel flatGeoid
    (wgs84 L) (dateOf 2022) (freshDecData d e ((scenarioElements L CoM 2022).Decldot + 1))
    hy hh
  refine ⟨?_, ?_, ?_⟩
  · intro W CoordData MagneticModel Geoid Ellip DateTime RecValue
    by_cases h1 : DateTime.DecimalYear < MagneticModel.min_year ∨
        DateTime.DecimalYear > MagneticModel.CoefficientFileEndDate
    · rw [MAG_Grid_of_year_outside L C CoM W CoordData MagneticModel Geoid Ellip DateTime
        RecValue h1]
    · by_cases h2 : (MAG_Grid_height CoordData Geoid W.DeltaHeight).HeightAboveEllipsoid < -1 ∨
          (MAG_Grid_height CoordData Geoid W.DeltaHeight).HeightAboveEllipsoid > 1900
      · rw [MAG_Grid_of_height_outside L C CoM W CoordData MagneticModel Geoid Ellip DateTime
          RecValue h1 h2]
      · rw [MAG_Grid_of_inside L C CoM W CoordData MagneticModel Geoid Ellip DateTime
          RecValue h1 h2]
  · rw [key]
    rfl
  · rw [key]
    show (scenarioElements L CoM 2022).Decldot + 1 ≠ (scenarioElements L CoM 2022).Decldot
    intro h
    linarith

end GridClaims

section LoopLemmas

/-- A loop whose upper bound is below its lower bound does nothing. -/
lemma forLoop_of_lt {σ : Type} (lo hi : Int) (body : Int → σ → σ) (s : σ) (h : hi < lo) :
    forLoop lo hi body s = s := by
  unfold forLoop
  have : (hi + 1 - lo).toNat = 0 := by omega
  rw [this]
  rfl

/-- The last turn of a loop. -/
lemma forLoop_succ {σ : Type} (lo hi : Int) (body : Int → σ → σ) (s : σ) (h : lo ≤ hi + 1) :
    forLoop lo (hi + 1) body s = body (hi + 1) (forLoop lo hi body s) := by
  unfold forLoop
  have h1 : (hi + 1 + 1 - lo).toNat = (hi + 1 - lo).toNat + 1 := by omega
  have h2 : lo + (((hi + 1 - lo).toNat : Nat) : Int) = hi + 1 := by omega
  rw [h1, List.range_succ, List.foldl_append]
  simp only [List.foldl_cons, List.foldl_nil, h2]

/-- Invariant rule for `forLoop`: a property that holds on entry for the counter `lo` and
that every turn carries from the counter `i` to `i + 1` holds on exit for `hi + 1`. -/
lemma forLoop_invariant {σ : Type} (lo hi : Int) (body : Int → σ → σ) (s : σ)
    (P : Int → σ → Prop) (hle : lo ≤ hi + 1) (h0 : P lo s)
    (hstep : ∀ i t, lo ≤ i → i ≤ hi → P i t → P (i + 1) (body i t)) :
    P (hi + 1) (forLoop lo hi body s) := by
  obtain ⟨d, hd⟩ : ∃ d : Nat, hi = lo - 1 + (d : Int) := ⟨(hi + 1 - lo).toNat, by omega⟩
  subst hd
  clear hle
  induction d with
  | zero =>
    rw [forLoop_of_lt _ _ _ _ (by simp)]
    simpa using h0
  | succ k ih =>
    have e : lo - 1 + ((k + 1 : Nat) : Int) = (lo - 1 + (k : Int)) + 1 := by push_cast; ring
    rw [e, forLoop_succ _ _ _ _ (by omega)]
    apply hstep
    · omega
    · omega
    · apply ih
      intro i t h1 h2 h3
      exact hstep i t h1 (by omega) h3

end LoopLemmas


section IndexLemmas

/-- Twice the truncated quotient `n * (n + 1) / 2` is `n * (n + 1)`: for `n ≥ 0` the C
division is exact. -/
lemma two_mul_tdiv_mul_succ (n : Int) (h : 0 ≤ n) : 2 * Int.tdiv (n * (n + 1)) 2 = n * (n + 1) := by
  have h0 : 0 ≤ n * (n + 1) := mul_nonneg h (by omega)
  rw [Int.tdiv_eq_ediv h0 (by norm_num)]
  exact Int.two_mul_ediv_two_of_even (Int.even_mul_succ_self n)

/-- Twice `index n m`. -/
lemma two_mul_index (n m : Int) (h : 0 ≤ n) : 2 * index n m = n * (n + 1) + 2 * m := by
  unfold index
  have := two_mul_tdiv_mul_succ n h
  linarith

/-- Every slot of a lower degree comes before every slot of a higher degree. -/
lemma index_lt_index (n1 m1 n2 m2 : Int) (h0 : 0 ≤ n1) (hm1 : m1 ≤ n1) (hlt : n1 < n2)
    (hm2 : 0 ≤ m2) : index n1 m1 < index n2 m2 := by
  have e1 := two_mul_index n1 m1 h0
  have e2 := two_mul_index n2 m2 (by omega)
  have h3 : (n1 + 1) * (n1 + 2) ≤ n2 * (n2 + 1) := by nlinarith
  nlinarith

/-- Two slots of the triangle `0 ≤ m ≤ n` coincide only if degree and order do. -/
lemma index_injective (n1 m1 n2 m2 : Int) (h1 : 0 ≤ m1) (h1n : m1 ≤ n1) (h2 : 0 ≤ m2)
    (h2n : m2 ≤ n2) (e : index n1 m1 = index n2 m2) : n1 = n2 ∧ m1 = m2 := by
  rcases lt_trichotomy n1 n2 with h | h | h
  · exact absurd e (ne_of_lt (index_lt_index n1 m1 n2 m2 (by omega) h1n h h2))
  · subst h
    refine ⟨rfl, ?_⟩
    unfold index at e
    omega
  · exact absurd e.symm (ne_of_lt (index_lt_index n2 m2 n1 m1 (by omega) h2n h h1))

/-- The test `index <= b` of `MAG_TimelyModifyMagneticModel`, with `b` the slot of degree and
order `a ≥ 0`, holds exactly for the degrees `n ≤ a`. -/
lemma index_le_iff (n m a : Int) (ha : 0 ≤ a) (hm : 0 ≤ m) (hmn : m ≤ n) :
    index n m ≤ Int.tdiv (a * (a + 1)) 2 + a ↔ n ≤ a := by
  have hb : Int.tdiv (a * (a + 1)) 2 + a = index a a := rfl
  rw [hb]
  constructor
  · intro h
    by_contra hc
    have := index_lt_index a a n m ha le_rfl (by omega) hm
    omega
  · intro h
    rcases eq_or_lt_of_le h with h1 | h1
    · subst h1
      unfold index
      omega
    · exact le_of_lt (index_lt_index n m a a (by omega) hmn h1 ha)

end IndexLemmas


section TimelyLemmas

variable {α : Type} [LinearOrderedField α]

/-- What `MAG_TimelyModifyMagneticModel` leaves in the main-field arrays of the timed model
at the slot of degree `n` and order `m`: the value stored by the turn `(n, m)` of its
double loop, which no later turn overwrites. -/
lemma MAG_TimelyModifyMagneticModel_at (UserDate : MAGtype_Date α)
    (M T : MAGtype_MagneticModel α) (n m : Int) (hn : 1 ≤ n) (hnM : n ≤ M.nMax)
    (hm : 0 ≤ m) (hmn : m ≤ n) :
    (MAG_TimelyModifyMagneticModel UserDate M T).Main_Field_Coeff_G (index n m) =
      (if index n m ≤ Int.tdiv (M.nMaxSecVar * (M.nMaxSecVar + 1)) 2 + M.nMaxSecVar then
        M.Main_Field_Coeff_G (index n m) +
          (UserDate.DecimalYear - M.epoch) * M.Secular_Var_Coeff_G (index n m)
      else M.Main_Field_Coeff_G (index n m)) ∧
    (MAG_TimelyModifyMagneticModel UserDate M T).Main_Field_Coeff_H (index n m) =
      (if index n m ≤ Int.tdiv (M.nMaxSecVar * (M.nMaxSecVar + 1)) 2 + M.nMaxSecVar then
        M.Main_Field_Coeff_H (index n m) +
          (UserDate.DecimalYear - M.epoch) * M.Secular_Var_Coeff_H (index n m)
      else M.Main_Field_Coeff_H (index n m)) := by
  unfold MAG_TimelyModifyMagneticModel
  simp only []
  revert n m
  suffices h : ∀ n m : Int, 1 ≤ n → n < M.nMax + 1 → 0 ≤ m → m ≤ n → _ from
    fun n m hn hnM hm hmn => h n m hn (by omega) hm hmn
  by_cases hle : (1 : Int) ≤ M.nMax + 1
  swap
  · intro n m hn hnM
    omega
  apply forLoop_invariant 1 M.nMax _ _
    (fun (n0 : Int) (S : MAGtype_MagneticModel α) => ∀ n m : Int, 1 ≤ n → n < n0 → 0 ≤ m → m ≤ n →
      S.Main_Field_Coeff_G (index n m) =
        (if index n m ≤ Int.tdiv (M.nMaxSecVar * (M.nMaxSecVar + 1)) 2 + M.nMaxSecVar then
          M.Main_Field_Coeff_G (index n m) +
            (UserDate.DecimalYear - M.epoch) * M.Secular_Var_Coeff_G (index n m)
        else M.Main_Field_Coeff_G (index n m)) ∧
      S.Main_Field_Coeff_H (index n m) =
        (if index n m ≤ Int.tdiv (M.nMaxSecVar * (M.nMaxSecVar + 1)) 2 + M.nMaxSecVar then
          M.Main_Field_Coeff_H (index n m) +
            (UserDate.DecimalYear - M.epoch) * M.Secular_Var_Coeff_H (index n m)
        else M.Main_Field_Coeff_H (index n m))) hle
  · intro n m hn hlt
    omega
  · intro n0 S hn0 _ hS
    suffices h : ∀ n m : Int, 1 ≤ n → 0 ≤ m → m ≤ n → (n < n0 ∨ (n = n0 ∧ m < n0 + 1)) → _ from
      fun n m hn hlt hm hmn => h n m hn hm hmn (by omega)
    apply forLoop_invariant 0 n0 _ _
      (fun (m0 : Int) (S : MAGtype_MagneticModel α) => ∀ n m : Int, 1 ≤ n → 0 ≤ m → m ≤ n →
        (n < n0 ∨ (n = n0 ∧ m < m0)) →
        S.Main_Field_Coeff_G (index n m) =
          (if index n m ≤ Int.tdiv (M.nMaxSecVar * (M.nMaxSecVar + 1)) 2 + M.nMaxSecVar then
            M.Main_Field_Coeff_G (index n m) +
              (UserDate.DecimalYear - M.epoch) * M.Secular_Var_Coeff_G (index n m)
          else M.Main_Field_Coeff_G (index n m)) ∧
        S.Main_Field_Coeff_H (index n m) =
          (if index n m ≤ Int.tdiv (M.nMaxSecVar * (M.nMaxSecVar + 1)) 2 + M.nMaxSecVar then
            M.Main_Field_Coeff_H (index n m) +
              (UserDate.DecimalYear - M.epoch) * M.Secular_Var_Coeff_H (index n m)
          else M.Main_Field_Coeff_H (index n m))) (by omega)
    · intro n m hn hm hmn hc
      exact hS n m hn (by omega) hm hmn
    · intro m0 S1 hm0 hm0n hS1 n m hn hm hmn hc
      by_cases hnm : n = n0 ∧ m = m0
      · obtain ⟨rfl, rfl⟩ := hnm
        split_ifs with hb <;> simp
      · have hne : index n m ≠ index n0 m0 := fun e =>
          hnm (index_injective n m n0 m0 hm hmn hm0 hm0n e)
        have hold := hS1 n m hn hm hmn (by omega)
        by_cases hb : index n0 m0 ≤
            Int.tdiv (M.nMaxSecVar * (M.nMaxSecVar + 1)) 2 + M.nMaxSecVar
        · rw [if_pos hb]
          simpa [Function.update_noteq hne] using hold
        · rw [if_neg hb]
          simpa [Function.update_noteq hne] using hold

end TimelyLemmas


section SummationLemmas

variable {α : Type} [LinearOrderedField α]

/-- The integers from `lo` to `hi + 1` are those from `lo` to `hi`, and `hi + 1`. -/
lemma Icc_succ_right (lo hi : Int) (h : lo ≤ hi + 1) :
    Finset.Icc lo (hi + 1) = insert (hi + 1) (Finset.Icc lo hi) := by
  ext x
  simp only [Finset.mem_Icc, Finset.mem_insert]
  omega

/-- A loop that adds `f i` to a component `φ` of its state at the turn `i` adds to it the
sum of `f` over the turns. -/
lemma forLoop_add {σ : Type} (lo hi : Int) (body : Int → σ → σ) (s : σ) (φ : σ → α)
    (f : Int → α) (hbody : ∀ i t, lo ≤ i → i ≤ hi → φ (body i t) = φ t + f i) :
    φ (forLoop lo hi body s) = φ s + ∑ i in Finset.Icc lo hi, f i := by
  by_cases hle : lo ≤ hi + 1
  swap
  · rw [forLoop_of_lt _ _ _ _ (by omega), Finset.Icc_eq_empty (by omega)]
    simp
  have key := forLoop_invariant lo hi body s
    (fun i t => φ t = φ s + ∑ j in Finset.Icc lo (i - 1), f j) hle
    (by simp)
    (fun i t h1 h2 ht => by
      have e : i + 1 - 1 = (i - 1) + 1 := by ring
      show φ (body i t) = φ s + ∑ j in Finset.Icc lo (i + 1 - 1), f j
      have ht2 : φ t = φ s + ∑ j in Finset.Icc lo (i - 1), f j := ht
      rw [hbody i t h1 h2, ht2, e, Icc_succ_right _ _ (by omega),
        Finset.sum_insert (by simp)]
      simp only [sub_add_cancel]
      ring)
  simpa using key

/-- The double loop of `MAG_Summation` accumulates the double sums of the series. -/
lemma Summation_loop_eq (P : MAGtype_LegendreFunction α) (G H : Int → α) (nMax : Int)
    (S : MAGtype_SphericalHarmonicVariables α) :
    (Summation_loop P G H nMax S).Bz =
      -∑ n in Finset.Icc 1 nMax, ∑ m in Finset.Icc 0 n,
        S.RelativeRadiusPower n *
          (G (index n m) * S.cos_mlambda m + H (index n m) * S.sin_mlambda m) *
          ((n + 1 : Int) : α) * P.Pcup (index n m) ∧
    (Summation_loop P G H nMax S).By =
      ∑ n in Finset.Icc 1 nMax, ∑ m in Finset.Icc 0 n,
        S.RelativeRadiusPower n *
          (G (index n m) * S.sin_mlambda m - H (index n m) * S.cos_mlambda m) *
          ((m : Int) : α) * P.Pcup (index n m) ∧
    (Summation_loop P G H nMax S).Bx =
      -∑ n in Finset.Icc 1 nMax, ∑ m in Finset.Icc 0 n,
        S.RelativeRadiusPower n *
          (G (index n m) * S.cos_mlambda m + H (index n m) * S.sin_mlambda m) *
          P.dPcup (index n m) := by
  unfold Summation_loop
  refine ⟨?_, ?_, ?_⟩
  · refine (forLoop_add 1 nMax _ _ (fun (R : MAGtype_MagneticResults α) => R.Bz)
      (fun n => ∑ m in Finset.Icc 0 n, -(S.RelativeRadiusPower n *
        (G (index n m) * S.cos_mlambda m + H (index n m) * S.sin_mlambda m) *
        ((n + 1 : Int) : α) * P.Pcup (index n m))) ?_).trans ?_
    · intro n R _ _
      refine forLoop_add 0 n _ _ (fun (R : MAGtype_MagneticResults α) => R.Bz) _ ?_
      intro m T _ _
      simp only []
      ring
    · simp only [Finset.sum_neg_distrib]
      norm_num
  · refine (forLoop_add 1 nMax _ _ (fun (R : MAGtype_MagneticResults α) => R.By)
      (fun n => ∑ m in Finset.Icc 0 n, S.RelativeRadiusPower n *
        (G (index n m) * S.sin_mlambda m - H (index n m) * S.cos_mlambda m) *
        ((m : Int) : α) * P.Pcup (index n m)) ?_).trans ?_
    · intro n R _ _
      refine forLoop_add 0 n _ _ (fun (R : MAGtype_MagneticResults α) => R.By) _ ?_
      intro m T _ _
      rfl
    · norm_num
  · refine (forLoop_add 1 nMax _ _ (fun (R : MAGtype_MagneticResults α) => R.Bx)
      (fun n => ∑ m in Finset.Icc 0 n, -(S.RelativeRadiusPower n *
        (G (index n m) * S.cos_mlambda m + H (index n m) * S.sin_mlambda m) *
        P.dPcup (index n m))) ?_).trans ?_
    · intro n R _ _
      refine forLoop_add 0 n _ _ (fun (R : MAGtype_MagneticResults α) => R.Bx) _ ?_
      intro m T _ _
      simp only []
      ring
    · simp only [Finset.sum_neg_distrib]
      norm_num

end SummationLemmas

section CoefficientClaims

variable {α : Type} [LinearOrderedField α]

/-- C6: when `|cos(phig)| > 1e-10`, `MAG_Summation` returns the double sums over
`n = 1..nMax`, `m = 0..n`, with `i = index n m`:
`Bz = -Σ RelativeRadiusPower[n] (G[i] cos_mlambda[m] + H[i] sin_mlambda[m]) (n+1) Pcup[i]`,
`Bx = -Σ RelativeRadiusPower[n] (G[i] cos_mlambda[m] + H[i] sin_mlambda[m]) dPcup[i]`,
`By = (Σ RelativeRadiusPower[n] (G[i] sin_mlambda[m] - H[i] cos_mlambda[m]) m Pcup[i])
/ cos(phig)`; only `By` is divided by the cosine. -/
theorem MAG_Summation_generic (L : Libm α) (LegendreFunction : MAGtype_LegendreFunction α)
    (MagneticModel : MAGtype_MagneticModel α)
    (SphVariables : MAGtype_SphericalHarmonicVariables α)
    (CoordSpherical : MAGtype_CoordSpherical α) (PcupS0 : Int → α)
    (h : fabs (L.cos (DEG2RAD L CoordSpherical.phig)) > 1.0e-10) :
    (MAG_Summation L LegendreFunction MagneticModel SphVariables CoordSpherical PcupS0).Bz =
      -∑ n in Finset.Icc 1 MagneticModel.nMax, ∑ m in Finset.Icc 0 n,
        SphVariables.RelativeRadiusPower n *
          (MagneticModel.Main_Field_Coeff_G (index n m) * SphVariables.cos_mlambda m +
            MagneticModel.Main_Field_Coeff_H (index n m) * SphVariables.sin_mlambda m) *
          ((n + 1 : Int) : α) * LegendreFunction.Pcup (index n m) ∧
    (MAG_Summation L LegendreFunction MagneticModel SphVariables CoordSpherical PcupS0).Bx =
      -∑ n in Finset.Icc 1 MagneticModel.nMax, ∑ m in Finset.Icc 0 n,
        SphVariables.RelativeRadiusPower n *
          (MagneticModel.Main_Field_Coeff_G (index n m) * SphVariables.cos_mlambda m +
            MagneticModel.Main_Field_Coeff_H (index n m) * SphVariables.sin_mlambda m) *
          LegendreFunction.dPcup (index n m) ∧
    (MAG_Summation L LegendreFunction MagneticModel SphVariables CoordSpherical PcupS0).By =
      (∑ n in Finset.Icc 1 MagneticModel.nMax, ∑ m in Finset.Icc 0 n,
        SphVariables.RelativeRadiusPower n *
          (MagneticModel.Main_Field_Coeff_G (index n m) * SphVariables.sin_mlambda m -
            MagneticModel.Main_Field_Coeff_H (index n m) * SphVariables.cos_mlambda m) *
          ((m : Int) : α) * LegendreFunction.Pcup (index n m)) /
        L.cos (DEG2RAD L CoordSpherical.phig) := by
  obtain ⟨hz, hy, hx⟩ := Summation_loop_eq LegendreFunction MagneticModel.Main_Field_Coeff_G
    MagneticModel.Main_Field_Coeff_H MagneticModel.nMax SphVariables
  unfold MAG_Summation
  simp only []
  rw [if_pos h]
  exact ⟨hz, hx, by rw [← hy]⟩

/-- C7: for `nMaxSecVar ≥ 0`, `1 ≤ n ≤ nMax` and `0 ≤ m ≤ n`, the test
`index <= nMaxSecVar * (nMaxSecVar + 1) / 2 + nMaxSecVar` of
`MAG_TimelyModifyMagneticModel` holds exactly when `n ≤ nMaxSecVar`; the timed main-field
coefficients at `index n m` are `G0 + (year - epoch) * Gdot` and
`H0 + (year - epoch) * Hdot` when `n ≤ nMaxSecVar`, and `G0`, `H0` when
`n > nMaxSecVar`. -/
theorem MAG_TimelyModifyMagneticModel_degrees (UserDate : MAGtype_Date α)
    (MagneticModel TimedMagneticModel : MAGtype_MagneticModel α) (n m : Int)
    (ha : 0 ≤ MagneticModel.nMaxSecVar) (hn : 1 ≤ n) (hnM : n ≤ MagneticModel.nMax)
    (hm : 0 ≤ m) (hmn : m ≤ n) :
    (index n m ≤ Int.tdiv (MagneticModel.nMaxSecVar * (MagneticModel.nMaxSecVar + 1)) 2 +
        MagneticModel.nMaxSecVar ↔ n ≤ MagneticModel.nMaxSecVar) ∧
    (n ≤ MagneticModel.nMaxSecVar →
      (MAG_TimelyModifyMagneticModel UserDate MagneticModel
          TimedMagneticModel).Main_Field_Coeff_G (index n m) =
        MagneticModel.Main_Field_Coeff_G (index n m) +
          (UserDate.DecimalYear - MagneticModel.epoch) *
            MagneticModel.Secular_Var_Coeff_G (index n m) ∧
      (MAG_TimelyModifyMagneticModel UserDate MagneticModel
          TimedMagneticModel).Main_Field_Coeff_H (index n m) =
        MagneticModel.Main_Field_Coeff_H (index n m) +
          (UserDate.DecimalYear - MagneticModel.epoch) *
            MagneticModel.Secular_Var_Coeff_H (index n m)) ∧
    (MagneticModel.nMaxSecVar < n →
      (MAG_TimelyModifyMagneticModel UserDate MagneticModel
          TimedMagneticModel).Main_Field_Coeff_G (index n m) =
        MagneticModel.Main_Field_Coeff_G (index n m) ∧
      (MAG_TimelyModifyMagneticModel UserDate MagneticModel
          TimedMagneticModel).Main_Field_Coeff_H (index n m) =
        MagneticModel.Main_Field_Coeff_H (index n m)) := by
  have hiff := index_le_iff n m MagneticModel.nMaxSecVar ha hm hmn
  obtain ⟨hG, hH⟩ := MAG_TimelyModifyMagneticModel_at UserDate MagneticModel
    TimedMagneticModel n m hn hnM hm hmn
  refine ⟨hiff, fun hle => ?_, fun hlt => ?_⟩
  · rw [hG, hH, if_pos (hiff.mpr hle), if_pos (hiff.mpr hle)]
    exact ⟨rfl, rfl⟩
  · have hnot : ¬ index n m ≤
        Int.tdiv (MagneticModel.nMaxSecVar * (MagneticModel.nMaxSecVar + 1)) 2 +
          MagneticModel.nMaxSecVar := fun hc => absurd (hiff.mp hc) (not_le.mpr hlt)
    rw [hG, hH, if_neg hnot, if_neg hnot]
    exact ⟨rfl, rfl⟩

/-- C8: called with the decimal year equal to the epoch of the model,
`MAG_TimelyModifyMagneticModel` copies the main-field coefficients: the timed `G` and `H`
are the source `G` and `H` at every `index n m` with `1 ≤ n ≤ nMax`, `0 ≤ m ≤ n`. -/
theorem MAG_TimelyModifyMagneticModel_epoch (UserDate : MAGtype_Date α)
    (MagneticModel TimedMagneticModel : MAGtype_MagneticModel α) (n m : Int)
    (hY : UserDate.DecimalYear = MagneticModel.epoch) (hn : 1 ≤ n)
    (hnM : n ≤ MagneticModel.nMax) (hm : 0 ≤ m) (hmn : m ≤ n) :
    (MAG_TimelyModifyMagneticModel UserDate MagneticModel
        TimedMagneticModel).Main_Field_Coeff_G (index n m) =
      MagneticModel.Main_Field_Coeff_G (index n m) ∧
    (MAG_TimelyModifyMagneticModel UserDate MagneticModel
        TimedMagneticModel).Main_Field_Coeff_H (index n m) =
      MagneticModel.Main_Field_Coeff_H (index n m) := by
  obtain ⟨hG, hH⟩ := MAG_TimelyModifyMagneticModel_at UserDate MagneticModel
    TimedMagneticModel n m hn hnM hm hmn
  rw [hG, hH, hY]
  constructor <;> split_ifs <;> simp

/-- Instance of C6: the scenario model on the equator (`phig = 0`, where the cosine is 1),
over the reals. -/
theorem MAG_Summation_generic_witness :
    fabs (realLibm.cos (DEG2RAD realLibm
      ({ lambda := 0, phig := 0, r := 6371.2 } : MAGtype_CoordSpherical ℝ).phig)) > 1.0e-10 ∧
    ((MAG_Summation realLibm zeroScratch.LegendreFunction scenarioModel
        zeroScratch.SphVariables { lambda := 0, phig := 0, r := 6371.2 } (fun _ => 0)).Bz =
      -∑ n in Finset.Icc 1 (scenarioModel : MAGtype_MagneticModel ℝ).nMax,
        ∑ m in Finset.Icc 0 n,
        (zeroScratch : GridScratch ℝ).SphVariables.RelativeRadiusPower n *
          ((scenarioModel : MAGtype_MagneticModel ℝ).Main_Field_Coeff_G (index n m) *
              (zeroScratch : GridScratch ℝ).SphVariables.cos_mlambda m +
            (scenarioModel : MAGtype_MagneticModel ℝ).Main_Field_Coeff_H (index n m) *
              (zeroScratch : GridScratch ℝ).SphVariables.sin_mlambda m) *
          ((n + 1 : Int) : ℝ) * (zeroScratch : GridScratch ℝ).LegendreFunction.Pcup (index n m) ∧
    (MAG_Summation realLibm zeroScratch.LegendreFunction scenarioModel
        zeroScratch.SphVariables { lambda := 0, phig := 0, r := 6371.2 } (fun _ => 0)).Bx =
      -∑ n in Finset.Icc 1 (scenarioModel : MAGtype_MagneticModel ℝ).nMax,
        ∑ m in Finset.Icc 0 n,
        (zeroScratch : GridScratch ℝ).SphVariables.RelativeRadiusPower n *
          ((scenarioModel : MAGtype_MagneticModel ℝ).Main_Field_Coeff_G (index n m) *
              (zeroScratch : GridScratch ℝ).SphVariables.cos_mlambda m +
            (scenarioModel : MAGtype_MagneticModel ℝ).Main_Field_Coeff_H (index n m) *
              (zeroScratch : GridScratch ℝ).SphVariables.sin_mlambda m) *
          (zeroScratch : GridScratch ℝ).LegendreFunction.dPcup (index n m) ∧
    (MAG_Summation realLibm zeroScratch.LegendreFunction scenarioModel
        zeroScratch.SphVariables { lambda := 0, phig := 0, r := 6371.2 } (fun _ => 0)).By =
      (∑ n in Finset.Icc 1 (scenarioModel : MAGtype_MagneticModel ℝ).nMax,
        ∑ m in Finset.Icc 0 n,
        (zeroScratch : GridScratch ℝ).SphVariables.RelativeRadiusPower n *
          ((scenarioModel : MAGtype_MagneticModel ℝ).Main_Field_Coeff_G (index n m) *
              (zeroScratch : GridScratch ℝ).SphVariables.sin_mlambda m -
            (scenarioModel : MAGtype_MagneticModel ℝ).Main_Field_Coeff_H (index n m) *
              (zeroScratch : GridScratch ℝ).SphVariables.cos_mlambda m) *
          ((m : Int) : ℝ) * (zeroScratch : GridScratch ℝ).LegendreFunction.Pcup (index n m)) /
        realLibm.cos (DEG2RAD realLibm
          ({ lambda := 0, phig := 0, r := 6371.2 } : MAGtype_CoordSpherical ℝ).phig)) :=
  have h : fabs (realLibm.cos (DEG2RAD realLibm
      ({ lambda := 0, phig := 0, r := 6371.2 } : MAGtype_CoordSpherical ℝ).phig)) > 1.0e-10 := by
    simp only [fabs, realLibm, DEG2RAD, zero_mul, Real.cos_zero]
    norm_num
  ⟨h, MAG_Summation_generic realLibm zeroScratch.LegendreFunction scenarioModel
    zeroScratch.SphVariables { lambda := 0, phig := 0, r := 6371.2 } (fun _ => 0) h⟩

/-- Instance of C7: degree 1, order 1 of the scenario model (`nMax = nMaxSecVar = 1`) in the
year 2022, over the rationals. -/
theorem MAG_TimelyModifyMagneticModel_degrees_witness :
    ((0 : Int) ≤ (scenarioModel : MAGtype_MagneticModel ℚ).nMaxSecVar ∧ (1 : Int) ≤ 1 ∧
      (1 : Int) ≤ (scenarioModel : MAGtype_MagneticModel ℚ).nMax ∧ (0 : Int) ≤ 1 ∧
      (1 : Int) ≤ 1) ∧
    ((index 1 1 ≤ Int.tdiv ((scenarioModel : MAGtype_MagneticModel ℚ).nMaxSecVar *
          ((scenarioModel : MAGtype_MagneticModel ℚ).nMaxSecVar + 1)) 2 +
        (scenarioModel : MAGtype_MagneticModel ℚ).nMaxSecVar ↔
        1 ≤ (scenarioModel : MAGtype_MagneticModel ℚ).nMaxSecVar) ∧
    (1 ≤ (scenarioModel : MAGtype_MagneticModel ℚ).nMaxSecVar →
      (MAG_TimelyModifyMagneticModel (dateOf (2022 : ℚ)) scenarioModel
          scenarioModel).Main_Field_Coeff_G (index 1 1) =
        (scenarioModel : MAGtype_MagneticModel ℚ).Main_Field_Coeff_G (index 1 1) +
          ((dateOf (2022 : ℚ)).DecimalYear - (scenarioModel : MAGtype_MagneticModel ℚ).epoch) *
            (scenarioModel : MAGtype_MagneticModel ℚ).Secular_Var_Coeff_G (index 1 1) ∧
      (MAG_TimelyModifyMagneticModel (dateOf (2022 : ℚ)) scenarioModel
          scenarioModel).Main_Field_Coeff_H (index 1 1) =
        (scenarioModel : MAGtype_MagneticModel ℚ).Main_Field_Coeff_H (index 1 1) +
          ((dateOf (2022 : ℚ)).DecimalYear - (scenarioModel : MAGtype_MagneticModel ℚ).epoch) *
            (scenarioModel : MAGtype_MagneticModel ℚ).Secular_Var_Coeff_H (index 1 1)) ∧
    ((scenarioModel : MAGtype_MagneticModel ℚ).nMaxSecVar < 1 →
      (MAG_TimelyModifyMagneticModel (dateOf (2022 : ℚ)) scenarioModel
          scenarioModel).Main_Field_Coeff_G (index 1 1) =
        (scenarioModel : MAGtype_MagneticModel ℚ).Main_Field_Coeff_G (index 1 1) ∧
      (MAG_TimelyModifyMagneticModel (dateOf (2022 : ℚ)) scenarioModel
          scenarioModel).Main_Field_Coeff_H (index 1 1) =
        (scenarioModel : MAGtype_MagneticModel ℚ).Main_Field_Coeff_H (index 1 1))) :=
  ⟨⟨by decide, by decide, by decide, by decide, by decide⟩,
    MAG_TimelyModifyMagneticModel_degrees (dateOf (2022 : ℚ)) scenarioModel scenarioModel 1 1
      (by decide) (by decide) (by decide) (by decide) (by decide)⟩

/-- Instance of C8: degree 1, order 1 of the scenario model at its epoch 2020, over the
rationals. -/
theorem MAG_TimelyModifyMagneticModel_epoch_witness :
    ((dateOf (2020 : ℚ)).DecimalYear = (scenarioModel : MAGtype_MagneticModel ℚ).epoch ∧
      (1 : Int) ≤ 1 ∧ (1 : Int) ≤ (scenarioModel : MAGtype_MagneticModel ℚ).nMax ∧
      (0 : Int) ≤ 1 ∧ (1 : Int) ≤ 1) ∧
    ((MAG_TimelyModifyMagneticModel (dateOf (2020 : ℚ)) scenarioModel
        scenarioModel).Main_Field_Coeff_G (index 1 1) =
      (scenarioModel : MAGtype_MagneticModel ℚ).Main_Field_Coeff_G (index 1 1) ∧
    (MAG_TimelyModifyMagneticModel (dateOf (2020 : ℚ)) scenarioModel
        scenarioModel).Main_Field_Coeff_H (index 1 1) =
      (scenarioModel : MAGtype_MagneticModel ℚ).Main_Field_Coeff_H (index 1 1)) :=
  have hY : (dateOf (2020 : ℚ)).DecimalYear = (scenarioModel : MAGtype_MagneticModel ℚ).epoch := by
    norm_num [dateOf, scenarioModel]
  ⟨⟨hY, by decide, by decide, by decide, by decide⟩,
    MAG_TimelyModifyMagneticModel_epoch (dateOf (2020 : ℚ)) scenarioModel scenarioModel 1 1
      hY (by decide) (by decide) (by decide) (by decide)⟩

end CoefficientClaims


section ElementClaims

/-- Degrees to radians undoes radians to degrees. -/
lemma DEG2RAD_RAD2DEG_real (x : ℝ) : DEG2RAD realLibm (RAD2DEG realLibm x) = x := by
  have hpi : Real.pi ≠ 0 := Real.pi_ne_zero
  simp only [DEG2RAD, RAD2DEG, realLibm]
  field_simp

/-- The modulus of `x + y i` as the C expression `sqrt(x * x + y * y)`. -/
lemma abs_mk_eq_sqrt (x y : ℝ) : Complex.abs ⟨x, y⟩ = Real.sqrt (x * x + y * y) := by
  rw [Complex.abs_apply, Complex.normSq_mk]

/-- C9: the elements that `MAG_CalculateGeoMagneticElements` derives from `(Bx, By, Bz)`
are `X = Bx`, `Y = By`, `Z = Bz`, `H = sqrt(X² + Y²)`, `F = sqrt(X² + Y² + Z²)`,
`Decl = atan2(Y, X)` and `Incl = atan2(Z, H)` in degrees, and they give the vector back:
`X = H cos Decl`, `Y = H sin Decl`, `Z = F sin Incl`, `H = F cos Incl` (the angles taken
in degrees). -/
theorem MAG_CalculateGeoMagneticElements_spec (R : MAGtype_MagneticResults ℝ)
    (E0 : MAGtype_GeoMagneticElements ℝ) :
    (MAG_CalculateGeoMagneticElements realLibm R E0).X = R.Bx ∧
    (MAG_CalculateGeoMagneticElements realLibm R E0).Y = R.By ∧
    (MAG_CalculateGeoMagneticElements realLibm R E0).Z = R.Bz ∧
    (MAG_CalculateGeoMagneticElements realLibm R E0).H = Real.sqrt (R.Bx ^ 2 + R.By ^ 2) ∧
    (MAG_CalculateGeoMagneticElements realLibm R E0).F =
      Real.sqrt (R.Bx ^ 2 + R.By ^ 2 + R.Bz ^ 2) ∧
    (MAG_CalculateGeoMagneticElements realLibm R E0).Decl =
      RAD2DEG realLibm (realLibm.atan2 R.By R.Bx) ∧
    (MAG_CalculateGeoMagneticElements realLibm R E0).Incl =
      RAD2DEG realLibm (realLibm.atan2 R.Bz (MAG_CalculateGeoMagneticElements realLibm R E0).H) ∧
    R.Bx = (MAG_CalculateGeoMagneticElements realLibm R E0).H *
      Real.cos (DEG2RAD realLibm (MAG_CalculateGeoMagneticElements realLibm R E0).Decl) ∧
    R.By = (MAG_CalculateGeoMagneticElements realLibm R E0).H *
      Real.sin (DEG2RAD realLibm (MAG_CalculateGeoMagneticElements realLibm R E0).Decl) ∧
    R.Bz = (MAG_CalculateGeoMagneticElements realLibm R E0).F *
      Real.sin (DEG2RAD realLibm (MAG_CalculateGeoMagneticElements realLibm R E0).Incl) ∧
    (MAG_CalculateGeoMagneticElements realLibm R E0).H =
      (MAG_CalculateGeoMagneticElements realLibm R E0).F *
      Real.cos (DEG2RAD realLibm (MAG_CalculateGeoMagneticElements realLibm R E0).Incl) := by
  have hH : (MAG_CalculateGeoMagneticElements realLibm R E0).H =
      Real.sqrt (R.Bx * R.Bx + R.By * R.By) := rfl
  have hF : (MAG_CalculateGeoMagneticElements realLibm R E0).F =
      Real.sqrt (Real.sqrt (R.Bx * R.Bx + R.By * R.By) * Real.sqrt (R.Bx * R.Bx + R.By * R.By) +
        R.Bz * R.Bz) := rfl
  have hD : (MAG_CalculateGeoMagneticElements realLibm R E0).Decl =
      RAD2DEG realLibm (Complex.arg ⟨R.Bx, R.By⟩) := rfl
  have hI : (MAG_CalculateGeoMagneticElements realLibm R E0).Incl =
      RAD2DEG realLibm (Complex.arg ⟨Real.sqrt (R.Bx * R.Bx + R.By * R.By), R.Bz⟩) := rfl
  have hsq : Real.sqrt (R.Bx * R.Bx + R.By * R.By) * Real.sqrt (R.Bx * R.Bx + R.By * R.By) =
      R.Bx * R.Bx + R.By * R.By :=
    Real.mul_self_sqrt (add_nonneg (mul_self_nonneg _) (mul_self_nonneg _))
  refine ⟨rfl, rfl, rfl, ?_, ?_, rfl, rfl, ?_, ?_, ?_, ?_⟩
  · rw [hH]
    congr 1
    ring
  · rw [hF, hsq]
    congr 1
    ring
  · rw [hH, hD, DEG2RAD_RAD2DEG_real, ← abs_mk_eq_sqrt]
    exact (Complex.abs_mul_cos_arg ⟨R.Bx, R.By⟩).symm
  · rw [hH, hD, DEG2RAD_RAD2DEG_real, ← abs_mk_eq_sqrt]
    exact (Complex.abs_mul_sin_arg ⟨R.Bx, R.By⟩).symm
  · rw [hF, hI, DEG2RAD_RAD2DEG_real, ← abs_mk_eq_sqrt]
    exact (Complex.abs_mul_sin_arg ⟨Real.sqrt (R.Bx * R.Bx + R.By * R.By), R.Bz⟩).symm
  · rw [hF, hI, DEG2RAD_RAD2DEG_real, ← abs_mk_eq_sqrt]
    exact (Complex.abs_mul_cos_arg ⟨Real.sqrt (R.Bx * R.Bx + R.By * R.By), R.Bz⟩).symm

/-- C10: scaling the horizontal components by a factor `k > 0` does not change the
declination that `MAG_CalculateGeoMagneticElements` computes: the call on
`(k * Bx, k * By, Bz)` and the call on `(Bx, By, Bz)`, each with an element record of its
own before the call (`E0`, `E1`), store the same `Decl`, the angle of the horizontal
vector `(Bx, By)` in degrees. -/
theorem MAG_CalculateGeoMagneticElements_Decl_scale (Bx By Bz k : ℝ)
    (E0 E1 : MAGtype_GeoMagneticElements ℝ) (hk : 0 < k) :
    (MAG_CalculateGeoMagneticElements realLibm { Bx := k * Bx, By := k * By, Bz := Bz }
        E0).Decl =
      (MAG_CalculateGeoMagneticElements realLibm { Bx := Bx, By := By, Bz := Bz } E1).Decl ∧
    (MAG_CalculateGeoMagneticElements realLibm { Bx := k * Bx, By := k * By, Bz := Bz }
        E0).Decl = RAD2DEG realLibm (realLibm.atan2 By Bx) := by
  have key : RAD2DEG realLibm (Complex.arg ⟨k * Bx, k * By⟩) =
      RAD2DEG realLibm (Complex.arg ⟨Bx, By⟩) := by
    have e : (⟨k * Bx, k * By⟩ : ℂ) = (k : ℂ) * ⟨Bx, By⟩ := by
      apply Complex.ext <;> simp
    rw [e, Complex.arg_real_mul _ hk]
  exact ⟨key, key⟩

/-- Instance of C10: the vector `(3, -4, 5)` and the factor 2, with two different element
records before the calls. -/
theorem MAG_CalculateGeoMagneticElements_Decl_scale_witness :
    (0 : ℝ) < 2 ∧
    (MAG_CalculateGeoMagneticElements realLibm { Bx := 2 * 3, By := 2 * (-4), Bz := 5 }
        zeroElements).Decl =
      (MAG_CalculateGeoMagneticElements realLibm { Bx := 3, By := -4, Bz := 5 }
        { zeroElements with Decl := 7, X := 1 }).Decl :=
  ⟨by norm_num,
    (MAG_CalculateGeoMagneticElements_Decl_scale 3 (-4) 5 2 zeroElements
      { zeroElements with Decl := 7, X := 1 } (by norm_num)).1⟩

end ElementClaims

section ScenarioLemmas

/-- A loop from 1 to 1 runs its body once. -/
lemma forLoop_one_one {σ : Type} (body : Int → σ → σ) (s : σ) :
    forLoop 1 1 body s = body 1 s := rfl

/-- A loop from 0 to 1 runs its body for 0, then for 1. -/
lemma forLoop_zero_one {σ : Type} (body : Int → σ → σ) (s : σ) :
    forLoop 0 1 body s = body 1 (body 0 s) := rfl

/-- On the equator at height 0 the spherical coordinates are latitude 0 and the radius
`a`. -/
lemma MAG_GeodeticToSpherical_equator (Ellip : MAGtype_Ellipsoid ℝ)
    (p : MAGtype_CoordGeodetic ℝ) (hphi : p.phi = 0) (hh : p.HeightAboveEllipsoid = 0)
    (ha : 0 < Ellip.a) :
    MAG_GeodeticToSpherical realLibm Ellip p = { lambda := p.lambda, phig := 0, r := Ellip.a } := by
  unfold MAG_GeodeticToSpherical
  simp only [hphi, hh, realLibm, DEG2RAD, RAD2DEG, zero_mul, Real.cos_zero, Real.sin_zero,
    mul_zero, mul_one, add_zero, sub_zero]
  have h1 : Real.sqrt (1.0 : ℝ) = 1 := by norm_num
  have h2 : Real.sqrt (Ellip.a / Real.sqrt 1.0 * (Ellip.a / Real.sqrt 1.0)) = Ellip.a := by
    rw [h1, div_one]
    exact Real.sqrt_mul_self ha.le
  rw [h2]
  simp


/-- The harmonic variables of degree 1 at longitude 0. -/
lemma MAG_ComputeSphericalHarmonicVariables_one (Ellip : MAGtype_Ellipsoid ℝ) (r : ℝ)
    (S0 : MAGtype_SphericalHarmonicVariables ℝ) :
    (MAG_ComputeSphericalHarmonicVariables realLibm Ellip { lambda := 0, phig := 0, r := r } 1
        S0).RelativeRadiusPower 1 = (Ellip.re / r) * (Ellip.re / r) * (Ellip.re / r) ∧
    (MAG_ComputeSphericalHarmonicVariables realLibm Ellip { lambda := 0, phig := 0, r := r } 1
        S0).cos_mlambda 0 = 1 ∧
    (MAG_ComputeSphericalHarmonicVariables realLibm Ellip { lambda := 0, phig := 0, r := r } 1
        S0).sin_mlambda 0 = 0 ∧
    (MAG_ComputeSphericalHarmonicVariables realLibm Ellip { lambda := 0, phig := 0, r := r } 1
        S0).cos_mlambda 1 = 1 ∧
    (MAG_ComputeSphericalHarmonicVariables realLibm Ellip { lambda := 0, phig := 0, r := r } 1
        S0).sin_mlambda 1 = 0 := by
  unfold MAG_ComputeSphericalHarmonicVariables
  simp only [forLoop_one_one]
  norm_num [realLibm, DEG2RAD, Function.update]

/-- The Legendre table of degree 1 on the equator: `P(1,0) = 0`, `P(1,1) = 1`, with
latitude derivatives 1 and 0. -/
lemma MAG_AssociatedLegendreFunction_one (lam r : ℝ) (P0 : MAGtype_LegendreFunction ℝ)
    (W : LegendreScratch ℝ) :
    (MAG_AssociatedLegendreFunction realLibm { lambda := lam, phig := 0, r := r } 1 P0
        W).2.Pcup 1 = 0 ∧
    (MAG_AssociatedLegendreFunction realLibm { lambda := lam, phig := 0, r := r } 1 P0
        W).2.Pcup 2 = 1 ∧
    (MAG_AssociatedLegendreFunction realLibm { lambda := lam, phig := 0, r := r } 1 P0
        W).2.dPcup 1 = 1 ∧
    (MAG_AssociatedLegendreFunction realLibm { lambda := lam, phig := 0, r := r } 1 P0
        W).2.dPcup 2 = 0 := by
  have hsin : realLibm.sin (DEG2RAD realLibm (0 : ℝ)) = 0 := by
    simp [realLibm, DEG2RAD]
  unfold MAG_AssociatedLegendreFunction
  simp only [hsin]
  rw [if_pos (Or.inl (by norm_num))]
  unfold MAG_PcupLow PcupLow_convert PcupLow_schmidtQuasiNorm PcupLow_gauss
  simp only [forLoop_one_one, forLoop_zero_one]
  norm_num [realLibm, Function.update, index, TRUE]


/-- A loop whose body leaves a component `φ` of the state alone leaves it alone. -/
lemma forLoop_preserves {σ β : Type} (lo hi : Int) (body : Int → σ → σ) (s : σ) (φ : σ → β)
    (hbody : ∀ i t, φ (body i t) = φ t) : φ (forLoop lo hi body s) = φ s := by
  by_cases hle : lo ≤ hi + 1
  · exact forLoop_invariant lo hi body s (fun _ t => φ t = φ s) hle rfl
      (fun i t _ _ ht => (hbody i t).trans ht)
  · rw [forLoop_of_lt _ _ _ _ (by omega)]

/-- The routine `MAG_TimelyModifyMagneticModel` copies `nMax` into the timed model. -/
lemma MAG_TimelyModifyMagneticModel_nMax {α : Type} [LinearOrderedField α]
    (UserDate : MAGtype_Date α) (M T : MAGtype_MagneticModel α) :
    (MAG_TimelyModifyMagneticModel UserDate M T).nMax = M.nMax := by
  unfold MAG_TimelyModifyMagneticModel
  simp only []
  refine (forLoop_preserves 1 M.nMax _ _ (fun (S : MAGtype_MagneticModel α) => S.nMax)
    ?_).trans rfl
  intro n S
  refine forLoop_preserves 0 n _ _ (fun (S : MAGtype_MagneticModel α) => S.nMax) ?_
  intro m S1
  simp only []
  split_ifs <;> rfl

/-- The slots of degree 1. -/
lemma index_one : index 1 0 = 1 ∧ index 1 1 = 2 := ⟨rfl, rfl⟩

/-- The orders of degree 1. -/
lemma Icc_zero_one : Finset.Icc (0 : Int) 1 = {0, 1} := rfl

/-- The degree-1 series in the generic branch of `MAG_Summation`, for harmonic variables
and a Legendre table that have the values they take at latitude 0 and longitude 0. -/
lemma MAG_Summation_one (P : MAGtype_LegendreFunction ℝ) (T : MAGtype_MagneticModel ℝ)
    (S : MAGtype_SphericalHarmonicVariables ℝ) (lam r : ℝ) (q : Int → ℝ) (hT : T.nMax = 1)
    (hc0 : S.cos_mlambda 0 = 1) (hs0 : S.sin_mlambda 0 = 0) (hc1 : S.cos_mlambda 1 = 1)
    (hs1 : S.sin_mlambda 1 = 0) (hP1 : P.Pcup 1 = 0) (hP2 : P.Pcup 2 = 1)
    (hd1 : P.dPcup 1 = 1) (hd2 : P.dPcup 2 = 0) :
    (MAG_Summation realLibm P T S { lambda := lam, phig := 0, r := r } q).Bx =
      -(S.RelativeRadiusPower 1 * T.Main_Field_Coeff_G 1) ∧
    (MAG_Summation realLibm P T S { lambda := lam, phig := 0, r := r } q).By =
      -(S.RelativeRadiusPower 1 * T.Main_Field_Coeff_H 2) := by
  obtain ⟨_, hy, hx⟩ := Summation_loop_eq P T.Main_Field_Coeff_G T.Main_Field_Coeff_H T.nMax S
  have hcos : fabs (realLibm.cos (DEG2RAD realLibm (0 : ℝ))) > 1.0e-10 := by
    simp only [fabs, realLibm, DEG2RAD, zero_mul, Real.cos_zero]
    norm_num
  have hcos1 : realLibm.cos (DEG2RAD realLibm (0 : ℝ)) = 1 := by
    simp [realLibm, DEG2RAD]
  rw [hT] at hx hy
  unfold MAG_Summation
  simp only []
  rw [if_pos hcos]
  simp only [hx, hy, hT, hcos1, Finset.Icc_self, Finset.sum_singleton, Icc_zero_one,
    Finset.sum_pair (show (0 : Int) ≠ 1 by decide), index_one.1, index_one.2, hc0, hs0, hc1,
    hs1, hP1, hP2, hd1, hd2]
  constructor
  · ring
  · push_cast
    ring

/-- The argument of `29404.5 - 4652.9 i` lies between -9 and -8.98 degrees. -/
lemma arg_scenario_bounds :
    -(9 * Real.pi / 180) < Complex.arg ⟨29404.5, -4652.9⟩ ∧
      Complex.arg ⟨29404.5, -4652.9⟩ < -(8.98 * Real.pi / 180) := by
  have hpi1 := Real.pi_gt_d6
  have hpi2 := Real.pi_lt_d6
  set z : ℂ := ⟨29404.5, -4652.9⟩ with hz
  have hre : 0 < z.re := by norm_num [hz]
  have habs : |Complex.arg z| < Real.pi / 2 := Complex.abs_arg_lt_pi_div_two_iff.mpr (Or.inl hre)
  have hlo : -(Real.pi / 2) < Complex.arg z := (abs_lt.mp habs).1
  have hhi : Complex.arg z < Real.pi / 2 := (abs_lt.mp habs).2
  have htan : Real.tan (Complex.arg z) = -4652.9 / 29404.5 := by
    rw [Complex.tan_arg]
  -- tangent at two rational angles
  have key : ∀ q : ℝ, 0 ≤ q → q ≤ 1 →
      Real.sin q ≤ q - q ^ 3 / 6 + q ^ 4 * (5 / 96) ∧ q - q ^ 3 / 6 - q ^ 4 * (5 / 96) ≤ Real.sin q ∧
      Real.cos q ≤ 1 - q ^ 2 / 2 + q ^ 4 * (5 / 96) ∧ 1 - q ^ 2 / 2 - q ^ 4 * (5 / 96) ≤ Real.cos q := by
    intro q h0 h1
    have hq : |q| ≤ 1 := by rw [abs_of_nonneg h0]; exact h1
    have hs := abs_le.mp (Real.sin_bound hq)
    have hc := abs_le.mp (Real.cos_bound hq)
    rw [abs_of_nonneg h0] at hs hc
    refine ⟨by linarith [hs.2], by linarith [hs.1], by linarith [hc.2], by linarith [hc.1]⟩
  constructor
  · -- lower bound: compare with q2 = 3.141592 * 9 / 180 below 9π/180
    by_contra hc
    push_neg at hc
    have hq2 : (3.141592 * 9 / 180 : ℝ) ≤ 9 * Real.pi / 180 := by linarith
    have h1 : Real.tan (Complex.arg z) ≤ Real.tan (-(3.141592 * 9 / 180)) := by
      rcases eq_or_lt_of_le (show Complex.arg z ≤ -(3.141592 * 9 / 180) by linarith) with h | h
      · rw [h]
      · exact le_of_lt (Real.tan_lt_tan_of_lt_of_lt_pi_div_two hlo (by linarith) h)
    rw [htan, Real.tan_neg, Real.tan_eq_sin_div_cos] at h1
    obtain ⟨_, hs, hc1, _⟩ := key (3.141592 * 9 / 180) (by norm_num) (by norm_num)
    have hcpos : 0 < Real.cos (3.141592 * 9 / 180) :=
      Real.cos_pos_of_mem_Ioo ⟨by linarith, by linarith⟩
    have h2 : Real.sin (3.141592 * 9 / 180) / Real.cos (3.141592 * 9 / 180) ≤ 4652.9 / 29404.5 := by
      linarith
    rw [div_le_iff₀ hcpos] at h2
    norm_num at hs hc1 h2
    nlinarith
  · by_contra hc
    push_neg at hc
    have hq1 : (8.98 * Real.pi / 180 : ℝ) ≤ 8.98 * 3.141593 / 180 := by linarith
    have h1 : Real.tan (-(8.98 * 3.141593 / 180)) ≤ Real.tan (Complex.arg z) := by
      rcases eq_or_lt_of_le (show -(8.98 * 3.141593 / 180) ≤ Complex.arg z by linarith) with h | h
      · rw [h]
      · exact le_of_lt (Real.tan_lt_tan_of_lt_of_lt_pi_div_two (by linarith) hhi h)
    rw [htan, Real.tan_neg, Real.tan_eq_sin_div_cos] at h1
    obtain ⟨hs, _, _, hc1⟩ := key (8.98 * 3.141593 / 180) (by norm_num) (by norm_num)
    have hcpos : 0 < Real.cos (8.98 * 3.141593 / 180) :=
      Real.cos_pos_of_mem_Ioo ⟨by linarith, by linarith⟩
    have h2 : 4652.9 / 29404.5 ≤ Real.sin (8.98 * 3.141593 / 180) / Real.cos (8.98 * 3.141593 / 180) := by
      linarith
    rw [le_div_iff₀ hcpos] at h2
    norm_num at hs hc1 h2
    nlinarith

/-- The grid variation leaves the declination alone. -/
lemma MAG_CalculateGridVariation_Decl {α : Type} [LinearOrderedField α]
    (CoM : MAGtype_CoordGeodetic α → α) (location : MAGtype_CoordGeodetic α)
    (elements : MAGtype_GeoMagneticElements α) :
    (MAG_CalculateGridVariation CoM location elements).2.Decl = elements.Decl := by
  unfold MAG_CalculateGridVariation
  split_ifs <;> rfl

/-- The secular-variation step leaves the declination alone. -/
lemma MAG_CalculateSecularVariationElements_Decl {α : Type} [LinearOrderedField α]
    (L : Libm α) (v : MAGtype_MagneticResults α) (E : MAGtype_GeoMagneticElements α) :
    (MAG_CalculateSecularVariationElements L v E).Decl = E.Decl := rfl

/-- Where geocentric and geodetic latitude coincide the rotation is the identity. -/
lemma MAG_RotateMagneticVector_same (lam r phi : ℝ) (p : MAGtype_CoordGeodetic ℝ)
    (hp : p.phi = phi) (R : MAGtype_MagneticResults ℝ) :
    MAG_RotateMagneticVector realLibm { lambda := lam, phig := phi, r := r } p R = R := by
  unfold MAG_RotateMagneticVector
  simp [hp, realLibm]

/-- The declination that lines 111-122 of `MAG_Grid` compute for a degree-1 model on the
equator, at longitude 0 and height 0, at the epoch of the model. -/
lemma MAG_Grid_elements_Decl_equator (CoM : MAGtype_CoordGeodetic ℝ → ℝ) (W : GridScratch ℝ)
    (p : MAGtype_CoordGeodetic ℝ) (M : MAGtype_MagneticModel ℝ) (Ellip : MAGtype_Ellipsoid ℝ)
    (D : MAGtype_Date ℝ) (hphi : p.phi = 0) (hlam : p.lambda = 0)
    (hh : p.HeightAboveEllipsoid = 0) (hn : M.nMax = 1) (hY : D.DecimalYear = M.epoch)
    (ha : 0 < Ellip.a) (hre : 0 < Ellip.re) :
    (MAG_Grid_elements realLibm CoM W p M Ellip D).Decl =
      RAD2DEG realLibm (realLibm.atan2 (-(M.Main_Field_Coeff_H (index 1 1)))
        (-(M.Main_Field_Coeff_G (index 1 0)))) := by
  have hc := MAG_GeodeticToSpherical_equator Ellip p hphi hh ha
  rw [hlam] at hc
  rw [index_one.1, index_one.2]
  unfold MAG_Grid_elements MAG_Grid_vectors
  simp only []
  generalize MAG_AllocateModelMemory _ W.Main_Field_Coeff_G W.Main_Field_Coeff_H
    W.Secular_Var_Coeff_G W.Secular_Var_Coeff_H = T0
  simp only [hc, hn]
  obtain ⟨hS, hc0, hs0, hc1, hs1⟩ :=
    MAG_ComputeSphericalHarmonicVariables_one Ellip Ellip.a W.SphVariables
  obtain ⟨hP1, hP2, hd1, hd2⟩ :=
    MAG_AssociatedLegendreFunction_one 0 Ellip.a W.LegendreFunction W.Legendre
  have hT := MAG_TimelyModifyMagneticModel_nMax D M T0
  obtain ⟨hG, _⟩ := MAG_TimelyModifyMagneticModel_at D M T0 1 0 le_rfl (by omega) le_rfl
    (by norm_num)
  obtain ⟨_, hH⟩ := MAG_TimelyModifyMagneticModel_at D M T0 1 1 le_rfl (by omega)
    (by norm_num) le_rfl
  rw [hY] at hG hH
  simp only [sub_self, zero_mul, add_zero, ite_self] at hG hH
  rw [index_one.1] at hG
  rw [index_one.2] at hH
  obtain ⟨hx, hy⟩ := MAG_Summation_one _ _ _ 0 Ellip.a W.PcupS (hT.trans hn) hc0 hs0 hc1 hs1
    hP1 hP2 hd1 hd2
  rw [hS, hG] at hx
  rw [hS, hH] at hy
  have hpos : 0 < Ellip.re / Ellip.a * (Ellip.re / Ellip.a) * (Ellip.re / Ellip.a) := by
    positivity
  rw [MAG_CalculateSecularVariationElements_Decl, MAG_CalculateGridVariation_Decl]
  show RAD2DEG realLibm (Complex.arg ⟨_, _⟩) = RAD2DEG realLibm (Complex.arg ⟨_, _⟩)
  rw [MAG_RotateMagneticVector_same _ _ _ _ hphi, hx, hy]
  have e : (⟨-(Ellip.re / Ellip.a * (Ellip.re / Ellip.a) * (Ellip.re / Ellip.a) *
        M.Main_Field_Coeff_G 1),
      -(Ellip.re / Ellip.a * (Ellip.re / Ellip.a) * (Ellip.re / Ellip.a) *
        M.Main_Field_Coeff_H 2)⟩ : ℂ) =
      ((Ellip.re / Ellip.a * (Ellip.re / Ellip.a) * (Ellip.re / Ellip.a) : ℝ) : ℂ) *
        ⟨-(M.Main_Field_Coeff_G 1), -(M.Main_Field_Coeff_H 2)⟩ := by
    apply Complex.ext <;> simp
  rw [e, Complex.arg_real_mul _ hpos]

end ScenarioLemmas


section ScenarioClaim

/-- C5: for a degree-1 model (`nMax = nMaxSecVar = 1`) evaluated on the equator at
longitude 0 and ellipsoid height 0, at the epoch of the model, over an ellipsoid with
positive `a` and `re`, the declination computed by lines 111-122 of `MAG_Grid` (the
pipeline from `MAG_GeodeticToSpherical` to `MAG_CalculateGeoMagneticElements`; the grid
variation and the secular step do not touch it) is `(180/π) atan2(-h(1,1), -g(1,0))`,
whatever `g(1,1)` and the secular coefficients; with `g(1,0) = -29404.5` and
`h(1,1) = 4652.9` it is within 0.01 degree of -8.99 degrees. -/
theorem MAG_Grid_elements_Decl_degree_one (CoM : MAGtype_CoordGeodetic ℝ → ℝ)
    (W : GridScratch ℝ) (CoordData : MAGtype_CoordGeodetic ℝ)
    (MagneticModel : MAGtype_MagneticModel ℝ) (Ellip : MAGtype_Ellipsoid ℝ)
    (DateTime : MAGtype_Date ℝ) (hphi : CoordData.phi = 0) (hlam : CoordData.lambda = 0)
    (hh : CoordData.HeightAboveEllipsoid = 0) (hn : MagneticModel.nMax = 1)
    (_hs : MagneticModel.nMaxSecVar = 1) (hY : DateTime.DecimalYear = MagneticModel.epoch)
    (ha : 0 < Ellip.a) (hre : 0 < Ellip.re) :
    (MAG_Grid_elements realLibm CoM W CoordData MagneticModel Ellip DateTime).Decl =
      (180 / Real.pi) * realLibm.atan2 (-(MagneticModel.Main_Field_Coeff_H (index 1 1)))
        (-(MagneticModel.Main_Field_Coeff_G (index 1 0))) ∧
    (MagneticModel.Main_Field_Coeff_G (index 1 0) = -29404.5 →
      MagneticModel.Main_Field_Coeff_H (index 1 1) = 4652.9 →
      |(MAG_Grid_elements realLibm CoM W CoordData MagneticModel Ellip DateTime).Decl -
        (-8.99)| < 0.01) := by
  have key := MAG_Grid_elements_Decl_equator CoM W CoordData MagneticModel Ellip DateTime hphi
    hlam hh hn hY ha hre
  have hpi : 0 < Real.pi := Real.pi_pos
  refine ⟨?_, fun hg hhh => ?_⟩
  · rw [key]
    simp only [RAD2DEG]
    norm_num [realLibm, mul_comm]
  · rw [key, hg, hhh]
    have e : realLibm.atan2 (-(4652.9 : ℝ)) (-(-29404.5 : ℝ)) =
        Complex.arg ⟨29404.5, -4652.9⟩ := by
      show Complex.arg ⟨-(-29404.5 : ℝ), -(4652.9 : ℝ)⟩ = Complex.arg ⟨29404.5, -4652.9⟩
      norm_num
    rw [e]
    obtain ⟨h1, h2⟩ := arg_scenario_bounds
    simp only [RAD2DEG, realLibm]
    rw [abs_lt]
    have h3 : Complex.arg ⟨29404.5, -4652.9⟩ * (180.0 / Real.pi) =
        Complex.arg ⟨29404.5, -4652.9⟩ * 180 / Real.pi := by
      norm_num
      ring
    rw [h3]
    constructor
    · rw [lt_sub_iff_add_lt, lt_div_iff₀ hpi]
      linarith
    · rw [sub_lt_iff_lt_add, div_lt_iff₀ hpi]
      linarith

/-- Instance of C5: the scenario model at its epoch 2020, on the WGS-84 ellipsoid of
`MAG_SetDefaults`. -/
theorem MAG_Grid_elements_Decl_degree_one_witness :
    ((equatorPoint (0 : ℝ)).phi = 0 ∧ (equatorPoint (0 : ℝ)).lambda = 0 ∧
      (equatorPoint (0 : ℝ)).HeightAboveEllipsoid = 0 ∧
      (scenarioModel : MAGtype_MagneticModel ℝ).nMax = 1 ∧
      (scenarioModel : MAGtype_MagneticModel ℝ).nMaxSecVar = 1 ∧
      (dateOf (2020 : ℝ)).DecimalYear = (scenarioModel : MAGtype_MagneticModel ℝ).epoch ∧
      0 < (wgs84 realLibm).a ∧ 0 < (wgs84 realLibm).re) ∧
    |(MAG_Grid_elements realLibm (fun _ => 0) zeroScratch (equatorPoint 0) scenarioModel
        (wgs84 realLibm) (dateOf 2020)).Decl - (-8.99)| < 0.01 :=
  have hY : (dateOf (2020 : ℝ)).DecimalYear = (scenarioModel : MAGtype_MagneticModel ℝ).epoch := by
    norm_num [dateOf, scenarioModel]
  have ha : 0 < (wgs84 realLibm).a := by norm_num [wgs84, MAG_SetDefaults]
  have hre : 0 < (wgs84 realLibm).re := by norm_num [wgs84, MAG_SetDefaults]
  ⟨⟨rfl, rfl, rfl, rfl, rfl, hY, ha, hre⟩,
    (MAG_Grid_elements_Decl_degree_one (fun _ => 0) zeroScratch (equatorPoint 0) scenarioModel
      (wgs84 realLibm) (dateOf 2020) rfl rfl rfl rfl rfl hY ha hre).2
      (by norm_num [scenarioModel, index_one.1]) (by norm_num [scenarioModel, index_one.2])⟩

end ScenarioClaim

section UncertaintyClaims

variable {α : Type} [LinearOrderedField α]

/-- C12: for `H ≠ 0`, `MAG_WMMErrorCalc` stores
`min(180, sqrt(D_OFFSET² + (D_COEF / H)²))` as declination uncertainty and the fixed
constants of the model, in which `H` does not occur, as `F`, `H`, `X`, `Y`, `Z` and `Incl`
uncertainties. -/
theorem MAG_WMMErrorCalc_values (L : Libm α) (C : MAGtype_UncertaintyConstants α) (H : α)
    (Uncertainty : MAGtype_GeoMagneticElements α) (_hH : H ≠ 0) :
    (MAG_WMMErrorCalc L C H Uncertainty).Decl =
      min 180 (L.sqrt (C.D_OFFSET ^ 2 + (C.D_COEF / H) ^ 2)) ∧
    (MAG_WMMErrorCalc L C H Uncertainty).F = C.F ∧
    (MAG_WMMErrorCalc L C H Uncertainty).H = C.H ∧
    (MAG_WMMErrorCalc L C H Uncertainty).X = C.X ∧
    (MAG_WMMErrorCalc L C H Uncertainty).Y = C.Y ∧
    (MAG_WMMErrorCalc L C H Uncertainty).Z = C.Z ∧
    (MAG_WMMErrorCalc L C H Uncertainty).Incl = C.I := by
  have e : C.D_OFFSET * C.D_OFFSET + C.D_COEF / H * (C.D_COEF / H) =
      C.D_OFFSET ^ 2 + (C.D_COEF / H) ^ 2 := by ring
  unfold MAG_WMMErrorCalc
  simp only [e]
  split_ifs with h
  · exact ⟨(min_eq_left (le_of_lt h)).symm, rfl, rfl, rfl, rfl, rfl, rfl⟩
  · exact ⟨(min_eq_right (not_lt.mp h)).symm, rfl, rfl, rfl, rfl, rfl, rfl⟩

/-- Instance of C12: `H = 20000` nT with the sample constants, over the reals. -/
theorem MAG_WMMErrorCalc_values_witness :
    (20000 : ℝ) ≠ 0 ∧
    ((MAG_WMMErrorCalc realLibm sampleUncertainty (20000 : ℝ) zeroElements).Decl =
      min 180 (realLibm.sqrt ((sampleUncertainty : MAGtype_UncertaintyConstants ℝ).D_OFFSET ^ 2
        + ((sampleUncertainty : MAGtype_UncertaintyConstants ℝ).D_COEF / 20000) ^ 2)) ∧
    (MAG_WMMErrorCalc realLibm sampleUncertainty (20000 : ℝ) zeroElements).F =
      (sampleUncertainty : MAGtype_UncertaintyConstants ℝ).F ∧
    (MAG_WMMErrorCalc realLibm sampleUncertainty (20000 : ℝ) zeroElements).H =
      (sampleUncertainty : MAGtype_UncertaintyConstants ℝ).H ∧
    (MAG_WMMErrorCalc realLibm sampleUncertainty (20000 : ℝ) zeroElements).X =
      (sampleUncertainty : MAGtype_UncertaintyConstants ℝ).X ∧
    (MAG_WMMErrorCalc realLibm sampleUncertainty (20000 : ℝ) zeroElements).Y =
      (sampleUncertainty : MAGtype_UncertaintyConstants ℝ).Y ∧
    (MAG_WMMErrorCalc realLibm sampleUncertainty (20000 : ℝ) zeroElements).Z =
      (sampleUncertainty : MAGtype_UncertaintyConstants ℝ).Z ∧
    (MAG_WMMErrorCalc realLibm sampleUncertainty (20000 : ℝ) zeroElements).Incl =
      (sampleUncertainty : MAGtype_UncertaintyConstants ℝ).I) :=
  ⟨by norm_num,
    MAG_WMMErrorCalc_values realLibm sampleUncertainty 20000 zeroElements (by norm_num)⟩

end UncertaintyClaims

section EquatorClaim

/-- At geodetic latitude 0 and a height `h` with `a + h > 0`, the spherical coordinates
are the longitude, geocentric latitude 0 and radius `a + h`. -/
lemma MAG_GeodeticToSpherical_lat_zero (Ellip : MAGtype_Ellipsoid ℝ)
    (p : MAGtype_CoordGeodetic ℝ) (hphi : p.phi = 0)
    (hh : 0 < Ellip.a + p.HeightAboveEllipsoid) :
    MAG_GeodeticToSpherical realLibm Ellip p =
      { lambda := p.lambda, phig := 0, r := Ellip.a + p.HeightAboveEllipsoid } := by
  unfold MAG_GeodeticToSpherical
  simp only [hphi, realLibm, DEG2RAD, RAD2DEG, zero_mul, Real.cos_zero, Real.sin_zero,
    mul_zero, mul_one, add_zero, sub_zero]
  have h1 : Real.sqrt (1.0 : ℝ) = 1 := by norm_num
  have h2 : Real.sqrt ((Ellip.a / Real.sqrt 1.0 + p.HeightAboveEllipsoid) *
      (Ellip.a / Real.sqrt 1.0 + p.HeightAboveEllipsoid)) =
      Ellip.a + p.HeightAboveEllipsoid := by
    rw [h1, div_one]
    exact Real.sqrt_mul_self hh.le
  rw [h2]
  simp

/-- The cosine of the geocentric latitude 0 passes the test of the summations. -/
lemma cos_phig_zero_gt : fabs (realLibm.cos (DEG2RAD realLibm (0 : ℝ))) > 1.0e-10 ∧
    realLibm.cos (DEG2RAD realLibm (0 : ℝ)) = 1 := by
  have h : realLibm.cos (DEG2RAD realLibm (0 : ℝ)) = 1 := by simp [realLibm, DEG2RAD]
  refine ⟨?_, h⟩
  rw [h]
  norm_num [fabs]

/-- C19: at geodetic latitude exactly 0, for every model, longitude and height `h` with
`a + h > 0`, `MAG_GeodeticToSpherical` gives geocentric latitude 0 and `r = a + h`; the
cosine of that latitude is 1, above `1e-10`, so `MAG_Summation` and
`MAG_SecVarSummation` take the generic branch: they return the vector of their double
loop, whose `By` is the generic double sum (divided by 1), and the work space of the
pole summation plays no part. -/
theorem MAG_Summation_at_latitude_zero (Ellip : MAGtype_Ellipsoid ℝ)
    (CoordGeodetic : MAGtype_CoordGeodetic ℝ) (LegendreFunction : MAGtype_LegendreFunction ℝ)
    (MagneticModel : MAGtype_MagneticModel ℝ)
    (SphVariables : MAGtype_SphericalHarmonicVariables ℝ) (PcupS0 : Int → ℝ)
    (hphi : CoordGeodetic.phi = 0)
    (hh : 0 < Ellip.a + CoordGeodetic.HeightAboveEllipsoid) :
    (MAG_GeodeticToSpherical realLibm Ellip CoordGeodetic).phig = 0 ∧
    (MAG_GeodeticToSpherical realLibm Ellip CoordGeodetic).r =
      Ellip.a + CoordGeodetic.HeightAboveEllipsoid ∧
    realLibm.cos (DEG2RAD realLibm
      (MAG_GeodeticToSpherical realLibm Ellip CoordGeodetic).phig) = 1 ∧
    fabs (realLibm.cos (DEG2RAD realLibm
      (MAG_GeodeticToSpherical realLibm Ellip CoordGeodetic).phig)) > 1.0e-10 ∧
    MAG_Summation realLibm LegendreFunction MagneticModel SphVariables
        (MAG_GeodeticToSpherical realLibm Ellip CoordGeodetic) PcupS0 =
      Summation_loop LegendreFunction MagneticModel.Main_Field_Coeff_G
        MagneticModel.Main_Field_Coeff_H MagneticModel.nMax SphVariables ∧
    (MAG_Summation realLibm LegendreFunction MagneticModel SphVariables
        (MAG_GeodeticToSpherical realLibm Ellip CoordGeodetic) PcupS0).By =
      ∑ n in Finset.Icc 1 MagneticModel.nMax, ∑ m in Finset.Icc 0 n,
        SphVariables.RelativeRadiusPower n *
          (MagneticModel.Main_Field_Coeff_G (index n m) * SphVariables.sin_mlambda m -
            MagneticModel.Main_Field_Coeff_H (index n m) * SphVariables.cos_mlambda m) *
          ((m : Int) : ℝ) * LegendreFunction.Pcup (index n m) ∧
    (MAG_SecVarSummation realLibm LegendreFunction MagneticModel SphVariables
        (MAG_GeodeticToSpherical realLibm Ellip CoordGeodetic) PcupS0).2 =
      Summation_loop LegendreFunction MagneticModel.Secular_Var_Coeff_G
        MagneticModel.Secular_Var_Coeff_H MagneticModel.nMaxSecVar SphVariables ∧
    (MAG_SecVarSummation realLibm LegendreFunction MagneticModel SphVariables
        (MAG_GeodeticToSpherical realLibm Ellip CoordGeodetic) PcupS0).2.By =
      ∑ n in Finset.Icc 1 MagneticModel.nMaxSecVar, ∑ m in Finset.Icc 0 n,
        SphVariables.RelativeRadiusPower n *
          (MagneticModel.Secular_Var_Coeff_G (index n m) * SphVariables.sin_mlambda m -
            MagneticModel.Secular_Var_Coeff_H (index n m) * SphVariables.cos_mlambda m) *
          ((m : Int) : ℝ) * LegendreFunction.Pcup (index n m) := by
  have hc := MAG_GeodeticToSpherical_lat_zero Ellip CoordGeodetic hphi hh
  obtain ⟨hgt, h1⟩ := cos_phig_zero_gt
  have hS : MAG_Summation realLibm LegendreFunction MagneticModel SphVariables
        (MAG_GeodeticToSpherical realLibm Ellip CoordGeodetic) PcupS0 =
      Summation_loop LegendreFunction MagneticModel.Main_Field_Coeff_G
        MagneticModel.Main_Field_Coeff_H MagneticModel.nMax SphVariables := by
    rw [hc]
    unfold MAG_Summation
    simp only []
    rw [if_pos hgt, h1, div_one]
  have hV : (MAG_SecVarSummation realLibm LegendreFunction MagneticModel SphVariables
        (MAG_GeodeticToSpherical realLibm Ellip CoordGeodetic) PcupS0).2 =
      Summation_loop LegendreFunction MagneticModel.Secular_Var_Coeff_G
        MagneticModel.Secular_Var_Coeff_H MagneticModel.nMaxSecVar SphVariables := by
    rw [hc]
    unfold MAG_SecVarSummation
    simp only []
    rw [if_pos hgt, h1, div_one]
  refine ⟨by rw [hc], by rw [hc], by rw [hc]; exact h1, by rw [hc]; exact hgt, hS, ?_, hV, ?_⟩
  · rw [hS]
    exact (Summation_loop_eq _ _ _ _ _).2.1
  · rw [hV]
    exact (Summation_loop_eq _ _ _ _ _).2.1

/-- Instance of C19: the scenario model at latitude 0, longitude 0, height 0 on the WGS-84
ellipsoid of `MAG_SetDefaults`. -/
theorem MAG_Summation_at_latitude_zero_witness :
    ((equatorPoint (0 : ℝ)).phi = 0 ∧
      0 < (wgs84 realLibm).a + (equatorPoint (0 : ℝ)).HeightAboveEllipsoid) ∧
    (MAG_GeodeticToSpherical realLibm (wgs84 realLibm) (equatorPoint 0)).phig = 0 ∧
    MAG_Summation realLibm zeroScratch.LegendreFunction scenarioModel
        zeroScratch.SphVariables
        (MAG_GeodeticToSpherical realLibm (wgs84 realLibm) (equatorPoint 0)) (fun _ => 0) =
      Summation_loop zeroScratch.LegendreFunction
        (scenarioModel : MAGtype_MagneticModel ℝ).Main_Field_Coeff_G
        (scenarioModel : MAGtype_MagneticModel ℝ).Main_Field_Coeff_H
        (scenarioModel : MAGtype_MagneticModel ℝ).nMax zeroScratch.SphVariables :=
  have hh : 0 < (wgs84 realLibm).a + (equatorPoint (0 : ℝ)).HeightAboveEllipsoid := by
    norm_num [wgs84, MAG_SetDefaults, equatorPoint]
  ⟨⟨rfl, hh⟩,
    (MAG_Summation_at_latitude_zero (wgs84 realLibm) (equatorPoint 0)
      zeroScratch.LegendreFunction scenarioModel zeroScratch.SphVariables (fun _ => 0) rfl
      hh).1,
    (MAG_Summation_at_latitude_zero (wgs84 realLibm) (equatorPoint 0)
      zeroScratch.LegendreFunction scenarioModel zeroScratch.SphVariables (fun _ => 0) rfl
      hh).2.2.2.2.1⟩

end EquatorClaim

section RadiusClaim

/-- The radius and the geocentric latitude of `MAG_GeodeticToSpherical` in terms of its
locals `xp` and `zp`. -/
lemma MAG_GeodeticToSpherical_r_phig {α : Type} [LinearOrderedField α] (L : Libm α)
    (Ellip : MAGtype_Ellipsoid α) (p : MAGtype_CoordGeodetic α) :
    (MAG_GeodeticToSpherical L Ellip p).r =
      L.sqrt (GeodeticToSpherical_xp L Ellip p * GeodeticToSpherical_xp L Ellip p +
        GeodeticToSpherical_zp L Ellip p * GeodeticToSpherical_zp L Ellip p) ∧
    (MAG_GeodeticToSpherical L Ellip p).phig =
      RAD2DEG L (L.asin (GeodeticToSpherical_zp L Ellip p / (MAG_GeodeticToSpherical L Ellip p).r)) :=
  ⟨rfl, rfl⟩

/-- The WGS-84 values that `MAG_SetDefaults` assigns: `a`, `b`, and `epssq = 1 - b²/a²`. -/
lemma MAG_SetDefaults_wgs84 (Geoid : MAGtype_Geoid ℝ) (u : Int) :
    (MAG_SetDefaults realLibm Geoid u).1.a = 6378.137 ∧
    (MAG_SetDefaults realLibm Geoid u).1.b = 6356.7523142 ∧
    (MAG_SetDefaults realLibm Geoid u).1.epssq = 1 - 6356.7523142 ^ 2 / 6378.137 ^ 2 := by
  refine ⟨rfl, rfl, ?_⟩
  show Real.sqrt (1 - (6356.7523142 * 6356.7523142) / (6378.137 * 6378.137)) *
    Real.sqrt (1 - (6356.7523142 * 6356.7523142) / (6378.137 * 6378.137)) = _
  rw [Real.mul_self_sqrt (by norm_num)]
  norm_num

/-- Two positive weights `A`, `B` and a point `(c, s)` of the unit circle: the vector
`(A c, B s)` is not zero. -/
lemma pos_of_weights (A B s c : ℝ) {xp zp : ℝ} (hA : 0 < A) (hB : 0 < B)
    (hsc : s ^ 2 + c ^ 2 = 1) (hx : xp = A * c) (hz : zp = B * s) :
    0 < xp * xp + zp * zp := by
  rcases eq_or_ne c 0 with h0 | h0
  · have hs : s ≠ 0 := by
      intro hs
      rw [h0, hs] at hsc
      norm_num at hsc
    have hzp : zp ≠ 0 := by rw [hz]; exact mul_ne_zero hB.ne.symm hs
    have := mul_self_pos.mpr hzp
    nlinarith [mul_self_nonneg xp]
  · have hxp : xp ≠ 0 := by rw [hx]; exact mul_ne_zero hA.ne.symm h0
    have := mul_self_pos.mpr hxp
    nlinarith [mul_self_nonneg zp]

/-- On an ellipsoid with `a ≥ 6378` km and `0 ≤ epssq ≤ 0.0067`, at a height `h ≥ -1` km, the
radius of `MAG_GeodeticToSpherical` is positive and `|zp / r| ≤ 1`. -/
lemma MAG_GeodeticToSpherical_radius_pos_of (E : MAGtype_Ellipsoid ℝ)
    (p : MAGtype_CoordGeodetic ℝ) (ha : 6378 ≤ E.a) (he0 : 0 ≤ E.epssq)
    (he1 : E.epssq ≤ 0.0067) (hh : -1 ≤ p.HeightAboveEllipsoid) :
    0 < (MAG_GeodeticToSpherical realLibm E p).r ∧
    |GeodeticToSpherical_zp realLibm E p / (MAG_GeodeticToSpherical realLibm E p).r| ≤ 1 := by
  obtain ⟨hr, _⟩ := MAG_GeodeticToSpherical_r_phig realLibm E p
  have hsc : Real.sin (p.phi * (Real.pi / 180.0)) ^ 2 +
      Real.cos (p.phi * (Real.pi / 180.0)) ^ 2 = 1 := Real.sin_sq_add_cos_sq _
  generalize hs : Real.sin (p.phi * (Real.pi / 180.0)) = s at hsc
  generalize hc : Real.cos (p.phi * (Real.pi / 180.0)) = c at hsc
  have hxpe : GeodeticToSpherical_xp realLibm E p =
      (E.a / Real.sqrt (1.0 - E.epssq * s * s) + p.HeightAboveEllipsoid) * c := by
    rw [← hs, ← hc]
    rfl
  have hzpe : GeodeticToSpherical_zp realLibm E p =
      (E.a / Real.sqrt (1.0 - E.epssq * s * s) * (1.0 - E.epssq) +
        p.HeightAboveEllipsoid) * s := by
    rw [← hs]
    rfl
  have hs1 : s ^ 2 ≤ 1 := by nlinarith [sq_nonneg c]
  have hw : 0 < 1.0 - E.epssq * s * s := by nlinarith
  have hw1 : 1.0 - E.epssq * s * s ≤ 1 := by nlinarith [sq_nonneg s]
  have hsq0 : 0 < Real.sqrt (1.0 - E.epssq * s * s) := Real.sqrt_pos.mpr hw
  have hsq1 : Real.sqrt (1.0 - E.epssq * s * s) ≤ 1 := by
    have h1 : Real.sqrt (1.0 - E.epssq * s * s) ≤ Real.sqrt 1 := Real.sqrt_le_sqrt hw1
    rwa [Real.sqrt_one] at h1
  generalize hrcdef : E.a / Real.sqrt (1.0 - E.epssq * s * s) = rc at hxpe hzpe
  have hrc : 6378 ≤ rc := by
    have h0 : 0 < E.a := by linarith
    have h1 : E.a ≤ rc := by
      rw [← hrcdef, le_div_iff₀ hsq0]
      exact mul_le_of_le_one_right h0.le hsq1
    linarith
  have hA : 0 < rc + p.HeightAboveEllipsoid := by linarith
  have hB : 0 < rc * (1.0 - E.epssq) + p.HeightAboveEllipsoid := by
    have h1 : 0 ≤ (rc - 6378) * (1.0 - E.epssq) :=
      mul_nonneg (by linarith) (by norm_num; linarith)
    norm_num at h1 ⊢
    nlinarith
  have hpos : 0 < GeodeticToSpherical_xp realLibm E p * GeodeticToSpherical_xp realLibm E p +
      GeodeticToSpherical_zp realLibm E p * GeodeticToSpherical_zp realLibm E p :=
    pos_of_weights _ _ s c hA hB hsc hxpe hzpe
  have hrpos : 0 < (MAG_GeodeticToSpherical realLibm E p).r := by
    rw [hr]
    exact Real.sqrt_pos.mpr hpos
  refine ⟨hrpos, ?_⟩
  rw [abs_div, abs_of_pos hrpos, div_le_one hrpos, hr]
  apply Real.abs_le_sqrt
  nlinarith [sq_nonneg (GeodeticToSpherical_xp realLibm E p)]

/-- C16: on the WGS-84 ellipsoid of `MAG_SetDefaults`, for every geodetic latitude in
`[-90, 90]` degrees and every height `h ≥ -1` km, the radius computed by
`MAG_GeodeticToSpherical` is positive and `|zp / r| ≤ 1`: the quotient and the arc sine
that give the geocentric latitude are defined. -/
theorem MAG_GeodeticToSpherical_radius_pos (Geoid : MAGtype_Geoid ℝ) (u : Int)
    (CoordGeodetic : MAGtype_CoordGeodetic ℝ) (_hlo : -90 ≤ CoordGeodetic.phi)
    (_hhi : CoordGeodetic.phi ≤ 90) (hh : -1 ≤ CoordGeodetic.HeightAboveEllipsoid) :
    0 < (MAG_GeodeticToSpherical realLibm (MAG_SetDefaults realLibm Geoid u).1
      CoordGeodetic).r ∧
    |GeodeticToSpherical_zp realLibm (MAG_SetDefaults realLibm Geoid u).1 CoordGeodetic /
      (MAG_GeodeticToSpherical realLibm (MAG_SetDefaults realLibm Geoid u).1
        CoordGeodetic).r| ≤ 1 := by
  obtain ⟨ha, _, he⟩ := MAG_SetDefaults_wgs84 Geoid u
  apply MAG_GeodeticToSpherical_radius_pos_of _ _ _ _ _ hh
  · rw [ha]; norm_num
  · rw [he]; norm_num
  · rw [he]; norm_num

/-- Instance of C16: latitude 45 degrees, 1 km below the ellipsoid. -/
theorem MAG_GeodeticToSpherical_radius_pos_witness :
    ((-90 : ℝ) ≤ 45 ∧ (45 : ℝ) ≤ 90 ∧ (-1 : ℝ) ≤ -1) ∧
    0 < (MAG_GeodeticToSpherical realLibm (MAG_SetDefaults realLibm flatGeoid 1).1
      { lambda := 0, phi := 45, HeightAboveEllipsoid := -1, HeightAboveGeoid := 0,
        UseGeoid := 1 }).r ∧
    |GeodeticToSpherical_zp realLibm (MAG_SetDefaults realLibm flatGeoid 1).1
        { lambda := 0, phi := 45, HeightAboveEllipsoid := -1, HeightAboveGeoid := 0,
          UseGeoid := 1 } /
      (MAG_GeodeticToSpherical realLibm (MAG_SetDefaults realLibm flatGeoid 1).1
        { lambda := 0, phi := 45, HeightAboveEllipsoid := -1, HeightAboveGeoid := 0,
          UseGeoid := 1 }).r| ≤ 1 :=
  ⟨⟨by norm_num, by norm_num, le_refl _⟩,
    MAG_GeodeticToSpherical_radius_pos flatGeoid 1
      { lambda := 0, phi := 45, HeightAboveEllipsoid := -1, HeightAboveGeoid := 0,
        UseGeoid := 1 } (by norm_num) (by norm_num) (le_refl _)⟩

end RadiusClaim

section BoundsLemmas

/-- Twice `NumTerms`. -/
lemma two_mul_NumTerms (nMax : Int) (h : 0 ≤ nMax) :
    2 * NumTerms nMax = (nMax + 1) * (nMax + 2) := by
  have := two_mul_tdiv_mul_succ (nMax + 1) (by omega)
  unfold NumTerms
  rw [show nMax + 2 = nMax + 1 + 1 by ring]
  exact this

/-- `NumTerms` is the slot that follows the last one of degree `nMax`. -/
lemma NumTerms_eq_index (nMax : Int) (h : 0 ≤ nMax) : NumTerms nMax = index nMax nMax + 1 := by
  have h1 := two_mul_NumTerms nMax h
  have h2 := two_mul_index nMax nMax h
  nlinarith

/-- Every slot of the triangle `0 ≤ m ≤ n ≤ nMax` lies in `0 .. NumTerms - 1`. -/
lemma index_mem (nMax n m : Int) (hm : 0 ≤ m) (hmn : m ≤ n) (hn : n ≤ nMax) :
    0 ≤ index n m ∧ index n m ≤ NumTerms nMax - 1 := by
  have h1 := two_mul_index n m (by omega)
  have h2 := NumTerms_eq_index nMax (by omega)
  constructor
  · nlinarith
  · rcases eq_or_lt_of_le hn with h | h
    · subst h
      unfold index at h2 ⊢
      omega
    · have := index_lt_index n m nMax nMax (by omega) hmn h (by omega)
      omega

/-- A loop whose body, at each counter of its range, leaves a component `φ` of the state
alone leaves it alone. -/
lemma forLoop_preserves_of_mem {σ β : Type} (lo hi : Int) (body : Int → σ → σ) (s : σ)
    (φ : σ → β) (hbody : ∀ i t, lo ≤ i → i ≤ hi → φ (body i t) = φ t) :
    φ (forLoop lo hi body s) = φ s := by
  by_cases hle : lo ≤ hi + 1
  · exact forLoop_invariant lo hi body s (fun _ t => φ t = φ s) hle rfl
      (fun i t h1 h2 ht => (hbody i t h1 h2).trans ht)
  · rw [forLoop_of_lt _ _ _ _ (by omega)]

/-- The cells that `MAG_PcupLow` writes lie in `0 .. NumTerms - 1`: every other cell of
`Pcup` and `dPcup` holds after the call what it held before. -/
lemma MAG_PcupLow_frame {α : Type} [LinearOrderedField α] (L : Libm α)
    (P : MAGtype_LegendreFunction α) (x : α) (nMax : Int) (q0 : Int → α) (i : Int)
    (h0 : 0 ≤ nMax) (hi : i < 0 ∨ NumTerms nMax - 1 < i) :
    (MAG_PcupLow L P x nMax q0).2.Pcup i = P.Pcup i ∧
    (MAG_PcupLow L P x nMax q0).2.dPcup i = P.dPcup i := by
  have hne : ∀ n m : Int, 1 ≤ n → n ≤ nMax → 0 ≤ m → m ≤ n → index n m ≠ i := by
    intro n m _ hn hm hmn e
    have := index_mem nMax n m hm hmn hn
    omega
  have hi0 : i ≠ 0 := by
    have := index_mem nMax 0 0 le_rfl le_rfl h0
    have e : index 0 0 = 0 := rfl
    omega
  have key : ∀ S : MAGtype_LegendreFunction α,
      ((PcupLow_convert nMax (PcupLow_schmidtQuasiNorm L nMax q0)
          (PcupLow_gauss x (L.sqrt ((1.0 - x) * (1.0 + x))) nMax S)).Pcup i,
        (PcupLow_convert nMax (PcupLow_schmidtQuasiNorm L nMax q0)
          (PcupLow_gauss x (L.sqrt ((1.0 - x) * (1.0 + x))) nMax S)).dPcup i) =
      (S.Pcup i, S.dPcup i) := by
    intro S
    unfold PcupLow_convert
    refine (forLoop_preserves_of_mem 1 nMax _ _
      (fun (T : MAGtype_LegendreFunction α) => (T.Pcup i, T.dPcup i)) ?_).trans ?_
    · intro n T hn1 hn2
      refine forLoop_preserves_of_mem 0 n _ _
        (fun (T : MAGtype_LegendreFunction α) => (T.Pcup i, T.dPcup i)) ?_
      intro m T1 hm1 hm2
      simp [Function.update_noteq (hne n m hn1 hn2 hm1 hm2).symm]
    · unfold PcupLow_gauss
      refine forLoop_preserves_of_mem 1 nMax _ _
        (fun (T : MAGtype_LegendreFunction α) => (T.Pcup i, T.dPcup i)) ?_
      intro n T hn1 hn2
      refine forLoop_preserves_of_mem 0 n _ _
        (fun (T : MAGtype_LegendreFunction α) => (T.Pcup i, T.dPcup i)) ?_
      intro m T1 hm1 hm2
      have hx := (hne n m hn1 hn2 hm1 hm2).symm
      simp only []
      split_ifs <;> simp [Function.update_noteq hx]
  have k2 := key { Pcup := Function.update P.Pcup 0 1.0, dPcup := Function.update P.dPcup 0 0.0 }
  simp only [Function.update_noteq hi0, Prod.mk.injEq] at k2
  exact k2

/-- The cells that `MAG_TimelyModifyMagneticModel` writes lie in `0 .. NumTerms - 1`: every
other cell of the four arrays of the timed model holds after the call what it held
before. -/
lemma MAG_TimelyModifyMagneticModel_frame {α : Type} [LinearOrderedField α]
    (UserDate : MAGtype_Date α) (M T : MAGtype_MagneticModel α) (i : Int)
    (hi : i < 0 ∨ NumTerms M.nMax - 1 < i) :
    (MAG_TimelyModifyMagneticModel UserDate M T).Main_Field_Coeff_G i =
      T.Main_Field_Coeff_G i ∧
    (MAG_TimelyModifyMagneticModel UserDate M T).Main_Field_Coeff_H i =
      T.Main_Field_Coeff_H i ∧
    (MAG_TimelyModifyMagneticModel UserDate M T).Secular_Var_Coeff_G i =
      T.Secular_Var_Coeff_G i ∧
    (MAG_TimelyModifyMagneticModel UserDate M T).Secular_Var_Coeff_H i =
      T.Secular_Var_Coeff_H i := by
  have hne : ∀ n m : Int, 1 ≤ n → n ≤ M.nMax → 0 ≤ m → m ≤ n → index n m ≠ i := by
    intro n m _ hn hm hmn e
    have := index_mem M.nMax n m hm hmn hn
    omega
  have key : ((MAG_TimelyModifyMagneticModel UserDate M T).Main_Field_Coeff_G i,
      (MAG_TimelyModifyMagneticModel UserDate M T).Main_Field_Coeff_H i,
      (MAG_TimelyModifyMagneticModel UserDate M T).Secular_Var_Coeff_G i,
      (MAG_TimelyModifyMagneticModel UserDate M T).Secular_Var_Coeff_H i) =
      (T.Main_Field_Coeff_G i, T.Main_Field_Coeff_H i, T.Secular_Var_Coeff_G i,
        T.Secular_Var_Coeff_H i) := by
    unfold MAG_TimelyModifyMagneticModel
    simp only []
    refine (forLoop_preserves_of_mem 1 M.nMax _ _ (fun (S : MAGtype_MagneticModel α) =>
      (S.Main_Field_Coeff_G i, S.Main_Field_Coeff_H i, S.Secular_Var_Coeff_G i,
        S.Secular_Var_Coeff_H i)) ?_).trans rfl
    intro n S hn1 hn2
    refine forLoop_preserves_of_mem 0 n _ _ (fun (S : MAGtype_MagneticModel α) =>
      (S.Main_Field_Coeff_G i, S.Main_Field_Coeff_H i, S.Secular_Var_Coeff_G i,
        S.Secular_Var_Coeff_H i)) ?_
    intro m S1 hm1 hm2
    have hx := (hne n m hn1 hn2 hm1 hm2).symm
    simp only []
    split_ifs <;> simp [Function.update_noteq hx]
  simp only [Prod.mk.injEq] at key
  exact key

/-- The double loop of the summations reads its four arrays in `0 .. NumTerms - 1` only:
run up to a degree `k ≤ nMax` on arrays that agree there, it returns the same vector. -/
lemma Summation_loop_congr {α : Type} [LinearOrderedField α]
    (P Q : MAGtype_LegendreFunction α) (G H G2 H2 : Int → α) (nMax k : Int)
    (S : MAGtype_SphericalHarmonicVariables α) (hk : k ≤ nMax)
    (h : ∀ i : Int, 0 ≤ i → i ≤ NumTerms nMax - 1 →
      P.Pcup i = Q.Pcup i ∧ P.dPcup i = Q.dPcup i ∧ G i = G2 i ∧ H i = H2 i) :
    Summation_loop P G H k S = Summation_loop Q G2 H2 k S := by
  obtain ⟨a1, a2, a3⟩ := Summation_loop_eq P G H k S
  obtain ⟨b1, b2, b3⟩ := Summation_loop_eq Q G2 H2 k S
  have hcell : ∀ n ∈ Finset.Icc (1 : Int) k, ∀ m ∈ Finset.Icc (0 : Int) n,
      P.Pcup (index n m) = Q.Pcup (index n m) ∧ P.dPcup (index n m) = Q.dPcup (index n m) ∧
      G (index n m) = G2 (index n m) ∧ H (index n m) = H2 (index n m) := by
    intro n hn m hm
    rw [Finset.mem_Icc] at hn hm
    obtain ⟨c1, c2⟩ := index_mem nMax n m hm.1 hm.2 (by omega)
    exact h _ c1 c2
  have e1 : (Summation_loop P G H k S).Bz = (Summation_loop Q G2 H2 k S).Bz := by
    rw [a1, b1]
    congr 1
    refine Finset.sum_congr rfl (fun n hn => Finset.sum_congr rfl (fun m hm => ?_))
    obtain ⟨c1, _, c3, c4⟩ := hcell n hn m hm
    rw [c1, c3, c4]
  have e2 : (Summation_loop P G H k S).By = (Summation_loop Q G2 H2 k S).By := by
    rw [a2, b2]
    refine Finset.sum_congr rfl (fun n hn => Finset.sum_congr rfl (fun m hm => ?_))
    obtain ⟨c1, _, c3, c4⟩ := hcell n hn m hm
    rw [c1, c3, c4]
  have e3 : (Summation_loop P G H k S).Bx = (Summation_loop Q G2 H2 k S).Bx := by
    rw [a3, b3]
    congr 1
    refine Finset.sum_congr rfl (fun n hn => Finset.sum_congr rfl (fun m hm => ?_))
    obtain ⟨_, c2, c3, c4⟩ := hcell n hn m hm
    rw [c2, c3, c4]
  cases hA : Summation_loop P G H k S
  cases hB : Summation_loop Q G2 H2 k S
  rw [hA, hB] at e1 e2 e3
  simp only at e1 e2 e3
  rw [e1, e2, e3]

end BoundsLemmas
section BoundsClaims

/-- The look-back expression `(n - 1) * n / 2 + m` is the slot of degree `n - 1`. -/
lemma lookback_one (n m : Int) : Int.tdiv ((n - 1) * n) 2 + m = index (n - 1) m := by
  unfold index
  rw [show n - 1 + 1 = n by ring]

/-- The look-back expression `(n - 2) * (n - 1) / 2 + m` is the slot of degree `n - 2`. -/
lemma lookback_two (n m : Int) : Int.tdiv ((n - 2) * (n - 1)) 2 + m = index (n - 2) m := by
  unfold index
  rw [show n - 2 + 1 = n - 1 by ring]

/-- C18: for `nMax ≥ 0` the map `(n, m) ↦ index n m` is a bijection from the triangle
`0 ≤ m ≤ n ≤ nMax` onto `0 .. NumTerms - 1`: distinct pairs get distinct slots and
every slot below `NumTerms` is taken. -/
theorem index_bijOn (nMax : Int) (h0 : 0 ≤ nMax) :
    Set.BijOn (fun p : Int × Int => index p.1 p.2)
      {p : Int × Int | 0 ≤ p.2 ∧ p.2 ≤ p.1 ∧ p.1 ≤ nMax}
      (Set.Icc 0 (NumTerms nMax - 1)) := by
  refine ⟨?_, ?_, ?_⟩
  · rintro ⟨n, m⟩ ⟨h1, h2, h3⟩
    exact index_mem nMax n m h1 h2 h3
  · rintro ⟨n, m⟩ ⟨h1, h2, _⟩ ⟨n2, m2⟩ ⟨h4, h5, _⟩ e
    obtain ⟨e1, e2⟩ := index_injective n m n2 m2 h1 h2 h4 h5 e
    rw [e1, e2]
  · obtain ⟨d, rfl⟩ : ∃ d : Nat, nMax = (d : Int) := ⟨nMax.toNat, by omega⟩
    clear h0
    induction d with
    | zero =>
      rintro i ⟨hi1, hi2⟩
      have e : NumTerms ((0 : Nat) : Int) = 1 := rfl
      rw [e] at hi2
      refine ⟨(0, 0), ⟨le_rfl, le_rfl, le_rfl⟩, ?_⟩
      show index 0 0 = i
      have e0 : index 0 0 = 0 := rfl
      omega
    | succ k ih =>
      rintro i ⟨hi1, hi2⟩
      have hN := NumTerms_eq_index ((k + 1 : Nat) : Int) (by omega)
      have hK := NumTerms_eq_index ((k : Nat) : Int) (by omega)
      have hidx : index ((k + 1 : Nat) : Int) 0 = index ((k : Nat) : Int) (k : Int) + 1 := by
        have a1 := two_mul_index ((k + 1 : Nat) : Int) 0 (by omega)
        have a2 := two_mul_index ((k : Nat) : Int) (k : Int) (by omega)
        push_cast at a1 a2 ⊢
        nlinarith
      by_cases hlt : i ≤ NumTerms ((k : Nat) : Int) - 1
      · obtain ⟨⟨n, m⟩, ⟨h1, h2, h3⟩, e⟩ := ih ⟨hi1, hlt⟩
        refine ⟨(n, m), ⟨h1, h2, ?_⟩, e⟩
        simp only at h3 ⊢
        push_cast
        omega
      · push_neg at hlt
        refine ⟨(((k + 1 : Nat) : Int), i - index ((k + 1 : Nat) : Int) 0), ⟨?_, ?_, le_rfl⟩, ?_⟩
        · simp only
          omega
        · simp only
          have : index ((k + 1 : Nat) : Int) ((k + 1 : Nat) : Int) =
              index ((k + 1 : Nat) : Int) 0 + ((k + 1 : Nat) : Int) := by
            unfold index
            omega
          omega
        · show index ((k + 1 : Nat) : Int) (i - index ((k + 1 : Nat) : Int) 0) = i
          unfold index
          omega

/-- Instance of C18: the degree 12 of the World Magnetic Model, whose 91 slots are
`0 .. 90`. -/
theorem index_bijOn_witness :
    (0 : Int) ≤ 12 ∧ NumTerms 12 = 91 ∧
    Set.BijOn (fun p : Int × Int => index p.1 p.2)
      {p : Int × Int | 0 ≤ p.2 ∧ p.2 ≤ p.1 ∧ p.1 ≤ 12}
      (Set.Icc 0 (NumTerms 12 - 1)) :=
  ⟨by decide, by decide, index_bijOn 12 (by decide)⟩

end BoundsClaims

section TriangleLoop

/-- A double loop over the triangle `1 ≤ n ≤ nMax`, `0 ≤ m ≤ n`.  `U n m` is a property of
the state that holds before the turn `(n, m)` and that earlier turns keep; `R n m` is a
property that the turn `(n, m)` establishes and that later turns keep.  After the loop
`R n m` holds for every pair of the triangle. -/
lemma triangle_loop {σ : Type} (nMax : Int) (body : Int → Int → σ → σ) (s : σ)
    (R U : Int → Int → σ → Prop)
    (hinit : ∀ n m, 1 ≤ n → n ≤ nMax → 0 ≤ m → m ≤ n → U n m s)
    (hnew : ∀ n m t, 1 ≤ n → n ≤ nMax → 0 ≤ m → m ≤ n → U n m t → R n m (body n m t))
    (hkeepR : ∀ n m n1 m1 t, 1 ≤ n → n ≤ nMax → 0 ≤ m → m ≤ n → 1 ≤ n1 → 0 ≤ m1 → m1 ≤ n1 →
      (n1 < n ∨ (n1 = n ∧ m1 < m)) → R n1 m1 t → R n1 m1 (body n m t))
    (hkeepU : ∀ n m n1 m1 t, 1 ≤ n → n ≤ nMax → 0 ≤ m → m ≤ n → n1 ≤ nMax → 0 ≤ m1 → m1 ≤ n1 →
      (n < n1 ∨ (n1 = n ∧ m < m1)) → U n1 m1 t → U n1 m1 (body n m t)) :
    ∀ n m, 1 ≤ n → n ≤ nMax → 0 ≤ m → m ≤ n →
      R n m (forLoop 1 nMax (fun n t => forLoop 0 n (fun m t => body n m t) t) s) := by
  intro n m hn hnM hm hmn
  have hle : (1 : Int) ≤ nMax + 1 := by omega
  have key := forLoop_invariant 1 nMax
    (fun n t => forLoop 0 n (fun m t => body n m t) t) s
    (fun n0 t =>
      (∀ n m, 1 ≤ n → n < n0 → 0 ≤ m → m ≤ n → R n m t) ∧
      (∀ n m, n0 ≤ n → n ≤ nMax → 0 ≤ m → m ≤ n → U n m t)) hle
    ⟨fun n m h1 h2 => by omega, fun n m h1 h2 h3 h4 => hinit n m h1 h2 h3 h4⟩ ?_
  · exact key.1 n m hn (by omega) hm hmn
  · intro n0 t hn0 hn0M ⟨hR, hU⟩
    have hin := forLoop_invariant 0 n0 (fun m t => body n0 m t) t
      (fun m0 t =>
        (∀ n m, 1 ≤ n → 0 ≤ m → m ≤ n → (n < n0 ∨ (n = n0 ∧ m < m0)) → R n m t) ∧
        (∀ n m, n ≤ nMax → 0 ≤ m → m ≤ n → (n0 < n ∨ (n = n0 ∧ m0 ≤ m)) → U n m t))
      (by omega)
      ⟨fun n m h1 h2 h3 h4 => hR n m h1 (by omega) h2 h3,
        fun n m h1 h2 h3 h4 => hU n m (by omega) h1 h2 h3⟩ ?_
    · refine ⟨fun n m h1 h2 h3 h4 => hin.1 n m h1 h3 h4 (by omega),
        fun n m h1 h2 h3 h4 => hin.2 n m h2 h3 h4 (by omega)⟩
    · intro m0 t1 hm0 hm0n ⟨hR1, hU1⟩
      refine ⟨fun n m h1 h2 h3 h4 => ?_, fun n m h1 h2 h3 h4 => ?_⟩
      · by_cases hnm : n = n0 ∧ m = m0
        · obtain ⟨rfl, rfl⟩ := hnm
          exact hnew n m t1 hn0 hn0M hm0 hm0n (hU1 n m hn0M hm0 hm0n (Or.inr ⟨rfl, le_rfl⟩))
        · exact hkeepR n0 m0 n m t1 hn0 hn0M hm0 hm0n h1 h2 h3 (by omega)
            (hR1 n m h1 h2 h3 (by omega))
      · exact hkeepU n0 m0 n m t1 hn0 hn0M hm0 hm0n h1 h2 h3 (by omega)
          (hU1 n m h1 h2 h3 (by omega))

end TriangleLoop

section WriteOnce

/-- The slots come in the order in which the double loops visit them. -/
lemma index_lt_of_lex (n1 m1 n m : Int) (h0 : 0 ≤ n1) (hm1 : m1 ≤ n1) (hm : 0 ≤ m)
    (h : n1 < n ∨ (n1 = n ∧ m1 < m)) : index n1 m1 < index n m := by
  rcases h with h | ⟨h, h2⟩
  · exact index_lt_index n1 m1 n m h0 hm1 h hm
  · subst h
    unfold index
    omega

/-- A double loop over `n = 1 .. nMax`, `m = 0 .. n` whose turn `(n, m)` writes the slot
`index n m` only: the final value of that slot is the one written by its turn, run on a
state that agrees with the final state on the earlier slots and with the initial state on
the slot itself and the later ones. -/
lemma triangle_write_once {σ β : Type} (nMax : Int) (body : Int → Int → σ → σ) (s : σ)
    (cell : σ → Int → β)
    (hframe : ∀ n m t i, 1 ≤ n → n ≤ nMax → 0 ≤ m → m ≤ n → i ≠ index n m →
      cell (body n m t) i = cell t i)
    (n m : Int) (h1 : 1 ≤ n) (hn : n ≤ nMax) (hm : 0 ≤ m) (hmn : m ≤ n) :
    ∃ t, cell (forLoop 1 nMax (fun n t => forLoop 0 n (fun m t => body n m t) t) s)
          (index n m) = cell (body n m t) (index n m) ∧
      (∀ i, i < index n m → cell t i =
        cell (forLoop 1 nMax (fun n t => forLoop 0 n (fun m t => body n m t) t) s) i) ∧
      (∀ i, index n m ≤ i → cell t i = cell s i) := by
  refine triangle_loop nMax body s
    (fun n m F => ∃ t, cell F (index n m) = cell (body n m t) (index n m) ∧
      (∀ i, i < index n m → cell t i = cell F i) ∧
      (∀ i, index n m ≤ i → cell t i = cell s i))
    (fun n m t => ∀ i, index n m ≤ i → cell t i = cell s i) ?_ ?_ ?_ ?_ n m h1 hn hm hmn
  · intro n m _ _ _ _ i _
    rfl
  · intro n m t h1 hn hm hmn hU
    refine ⟨t, rfl, ?_, hU⟩
    intro i hi
    exact (hframe n m t i h1 hn hm hmn (ne_of_lt hi)).symm
  · intro n m n1 m1 t h1 hn hm hmn h11 hm1 hmn1 hlex ⟨u, e1, e2, e3⟩
    have hlt := index_lt_of_lex n1 m1 n m (by omega) hmn1 hm hlex
    refine ⟨u, ?_, ?_, e3⟩
    · rw [hframe n m t _ h1 hn hm hmn (ne_of_lt hlt)]
      exact e1
    · intro i hi
      rw [hframe n m t i h1 hn hm hmn (by omega)]
      exact e2 i hi
  · intro n m n1 m1 t h1 hn hm hmn _ hm1 hmn1 hlex hU i hi
    have hlt := index_lt_of_lex n m n1 m1 (by omega) hmn hm1 (by
      rcases hlex with h | ⟨h, h2⟩
      · exact Or.inl h
      · exact Or.inr ⟨h.symm, h2⟩)
    rw [hframe n m t i h1 hn hm hmn (by omega)]
    exact hU i hi

/-- A slot outside the triangle keeps its initial value in such a double loop. -/
lemma triangle_frame {σ β : Type} (nMax : Int) (body : Int → Int → σ → σ) (s : σ)
    (cell : σ → Int → β)
    (hframe : ∀ n m t i, 1 ≤ n → n ≤ nMax → 0 ≤ m → m ≤ n → i ≠ index n m →
      cell (body n m t) i = cell t i)
    (i : Int) (hi : ∀ n m, 1 ≤ n → n ≤ nMax → 0 ≤ m → m ≤ n → i ≠ index n m) :
    cell (forLoop 1 nMax (fun n t => forLoop 0 n (fun m t => body n m t) t) s) i =
      cell s i := by
  refine forLoop_preserves_of_mem 1 nMax _ s (fun (t : σ) => cell t i) ?_
  intro n t h1 hn
  refine forLoop_preserves_of_mem 0 n _ t (fun (t : σ) => cell t i) ?_
  intro m u hm hmn
  exact hframe n m u i h1 hn hm hmn (hi n m h1 hn hm hmn)

/-- The first turn of a loop. -/
lemma forLoop_first {σ : Type} (lo hi : Int) (body : Int → σ → σ) (s : σ) (h : lo ≤ hi) :
    forLoop lo hi body s = forLoop (lo + 1) hi body (body lo s) := by
  obtain ⟨d, hd⟩ : ∃ d : Nat, hi = lo + (d : Int) := ⟨(hi - lo).toNat, by omega⟩
  subst hd
  clear h
  induction d with
  | zero =>
    have e : lo + ((0 : Nat) : Int) = (lo - 1) + 1 := by simp
    rw [e, forLoop_succ lo (lo - 1) body s (by omega), forLoop_of_lt _ _ _ _ (by omega),
      forLoop_of_lt _ _ _ _ (by omega)]
    simp
  | succ d ih =>
    have e : lo + ((d + 1 : Nat) : Int) = (lo + (d : Int)) + 1 := by push_cast; ring
    rw [e, forLoop_succ lo _ body s (by omega), forLoop_succ (lo + 1) _ body _ (by omega), ih]

/-- Two bodies that agree on the range of the counter give the same loop. -/
lemma forLoop_congr {σ : Type} (lo hi : Int) (body body2 : Int → σ → σ) (s : σ)
    (h : ∀ i t, lo ≤ i → i ≤ hi → body i t = body2 i t) :
    forLoop lo hi body s = forLoop lo hi body2 s := by
  by_cases hle : lo ≤ hi + 1
  · have key := forLoop_invariant lo hi body s (fun i t => t = forLoop lo (i - 1) body2 s) hle
      (by
        show s = forLoop lo (lo - 1) body2 s
        rw [forLoop_of_lt _ _ _ _ (by omega)])
      (fun i t h1 h2 ht => by
        have ht2 : t = forLoop lo (i - 1) body2 s := ht
        show body i t = forLoop lo (i + 1 - 1) body2 s
        have e := forLoop_succ lo (i - 1) body2 s (by omega)
        simp only [sub_add_cancel] at e
        rw [add_sub_cancel_right, e, h i t h1 h2, ht2])
    have key2 : forLoop lo hi body s = forLoop lo (hi + 1 - 1) body2 s := key
    rw [key2, add_sub_cancel_right]
  · rw [forLoop_of_lt _ _ _ _ (by omega), forLoop_of_lt _ _ _ _ (by omega)]

end WriteOnce

section LegendreLemmas

variable {α : Type} [LinearOrderedField α]

/-- The rule `triangle_write_once` in the form used on a loop whose body is not named. -/
lemma triangle_write_once_of {σ β : Type} (nMax : Int) (body : Int → Int → σ → σ) (s : σ)
    (cell : σ → Int → β)
    (hframe : ∀ n m t i, 1 ≤ n → n ≤ nMax → 0 ≤ m → m ≤ n → i ≠ index n m →
      cell (body n m t) i = cell t i)
    (n m : Int) (h1 : 1 ≤ n) (hn : n ≤ nMax) (hm : 0 ≤ m) (hmn : m ≤ n) (C : σ → Prop)
    (hC : ∀ F t, cell F (index n m) = cell (body n m t) (index n m) →
      (∀ i, i < index n m → cell t i = cell F i) →
      (∀ i, index n m ≤ i → cell t i = cell s i) → C F) :
    C (forLoop 1 nMax (fun n t => forLoop 0 n (fun m t => body n m t) t) s) := by
  obtain ⟨t, e1, e2, e3⟩ := triangle_write_once nMax body s cell hframe n m h1 hn hm hmn
  exact hC _ t e1 e2 e3

/-- The recurrences that the Gauss-normalised values left by the first double loop of
`MAG_PcupLow` satisfy. -/
lemma PcupLow_gauss_spec (x z : α) (nMax : Int) (P0 : MAGtype_LegendreFunction α)
    (n m : Int) (h1 : 1 ≤ n) (hn : n ≤ nMax) (hm : 0 ≤ m) (hmn : m ≤ n) :
    (n = m →
      (PcupLow_gauss x z nMax P0).Pcup (index n m) =
        z * (PcupLow_gauss x z nMax P0).Pcup (index (n - 1) (m - 1)) ∧
      (PcupLow_gauss x z nMax P0).dPcup (index n m) =
        z * (PcupLow_gauss x z nMax P0).dPcup (index (n - 1) (m - 1)) +
          x * (PcupLow_gauss x z nMax P0).Pcup (index (n - 1) (m - 1))) ∧
    (m = n - 1 →
      (PcupLow_gauss x z nMax P0).Pcup (index n m) =
        x * (PcupLow_gauss x z nMax P0).Pcup (index (n - 1) m) ∧
      (PcupLow_gauss x z nMax P0).dPcup (index n m) =
        x * (PcupLow_gauss x z nMax P0).dPcup (index (n - 1) m) -
          z * (PcupLow_gauss x z nMax P0).Pcup (index (n - 1) m)) ∧
    (m ≤ n - 2 →
      (PcupLow_gauss x z nMax P0).Pcup (index n m) =
        x * (PcupLow_gauss x z nMax P0).Pcup (index (n - 1) m) -
          (((n - 1) * (n - 1) - m * m : Int) : α) / (((2 * n - 1) * (2 * n - 3) : Int) : α) *
            (PcupLow_gauss x z nMax P0).Pcup (index (n - 2) m) ∧
      (PcupLow_gauss x z nMax P0).dPcup (index n m) =
        x * (PcupLow_gauss x z nMax P0).dPcup (index (n - 1) m) -
          z * (PcupLow_gauss x z nMax P0).Pcup (index (n - 1) m) -
          (((n - 1) * (n - 1) - m * m : Int) : α) / (((2 * n - 1) * (2 * n - 3) : Int) : α) *
            (PcupLow_gauss x z nMax P0).dPcup (index (n - 2) m)) := by
  unfold PcupLow_gauss
  refine triangle_write_once_of nMax _ P0
    (fun (T : MAGtype_LegendreFunction α) i => (T.Pcup i, T.dPcup i)) ?_ n m h1 hn hm hmn
    (fun F =>
      (n = m →
        F.Pcup (index n m) = z * F.Pcup (index (n - 1) (m - 1)) ∧
        F.dPcup (index n m) =
          z * F.dPcup (index (n - 1) (m - 1)) + x * F.Pcup (index (n - 1) (m - 1))) ∧
      (m = n - 1 →
        F.Pcup (index n m) = x * F.Pcup (index (n - 1) m) ∧
        F.dPcup (index n m) = x * F.dPcup (index (n - 1) m) - z * F.Pcup (index (n - 1) m)) ∧
      (m ≤ n - 2 →
        F.Pcup (index n m) = x * F.Pcup (index (n - 1) m) -
          (((n - 1) * (n - 1) - m * m : Int) : α) / (((2 * n - 1) * (2 * n - 3) : Int) : α) *
            F.Pcup (index (n - 2) m) ∧
        F.dPcup (index n m) = x * F.dPcup (index (n - 1) m) - z * F.Pcup (index (n - 1) m) -
          (((n - 1) * (n - 1) - m * m : Int) : α) / (((2 * n - 1) * (2 * n - 3) : Int) : α) *
            F.dPcup (index (n - 2) m))) ?_
  · intro n m t i _ _ _ _ hi
    have hx : i ≠ index n m := hi
    simp only []
    split_ifs <;> simp [Function.update_noteq hx]
  · intro F t e1 e2 e3
    simp only [Prod.mk.injEq] at e1 e2
    rw [show Int.tdiv ((n - 1) * n) 2 + m - 1 = index (n - 1) (m - 1) by
      rw [add_sub_assoc, lookback_one], lookback_one, lookback_two] at e1
    refine ⟨fun h => ?_, fun h => ?_, fun h => ?_⟩
    · have hlt := index_lt_index (n - 1) (m - 1) n m (by omega) (by omega) (by omega) hm
      obtain ⟨a, b⟩ := e2 _ hlt
      rw [if_pos h] at e1
      simp only [Function.update_same, Function.update_noteq (ne_of_lt hlt)] at e1
      rw [← a, ← b]
      exact e1
    · have hlt := index_lt_index (n - 1) m n m (by omega) (by omega) (by omega) hm
      obtain ⟨a, b⟩ := e2 _ hlt
      have h2 : ¬ n = m := by omega
      rw [if_neg h2] at e1
      by_cases h3 : n = 1 ∧ m = 0
      · rw [if_pos h3] at e1
        simp only [Function.update_same, Function.update_noteq (ne_of_lt hlt)] at e1
        rw [← a, ← b]
        exact e1
      · rw [if_neg h3, if_pos (⟨by omega, h2⟩ : n > 1 ∧ n ≠ m),
          if_pos (by omega : m > n - 2)] at e1
        simp only [Function.update_same, Function.update_noteq (ne_of_lt hlt)] at e1
        rw [← a, ← b]
        exact e1
    · have hlt := index_lt_index (n - 1) m n m (by omega) (by omega) (by omega) hm
      have hlt2 := index_lt_index (n - 2) m n m (by omega) (by omega) (by omega) hm
      obtain ⟨a, b⟩ := e2 _ hlt
      obtain ⟨a2, b2⟩ := e2 _ hlt2
      rw [if_neg (by omega : ¬ n = m), if_neg (by omega : ¬ (n = 1 ∧ m = 0)),
        if_pos (⟨by omega, by omega⟩ : n > 1 ∧ n ≠ m), if_neg (by omega : ¬ m > n - 2)] at e1
      simp only [Function.update_same, Function.update_noteq (ne_of_lt hlt)] at e1
      rw [← a, ← b, ← a2, ← b2]
      exact e1

/-- The first double loop of `MAG_PcupLow` leaves the slot 0 as it was. -/
lemma PcupLow_gauss_zero (x z : α) (nMax : Int) (P0 : MAGtype_LegendreFunction α) :
    (PcupLow_gauss x z nMax P0).Pcup 0 = P0.Pcup 0 ∧
    (PcupLow_gauss x z nMax P0).dPcup 0 = P0.dPcup 0 := by
  have key : (fun (T : MAGtype_LegendreFunction α) i => (T.Pcup i, T.dPcup i))
      (PcupLow_gauss x z nMax P0) 0 = (P0.Pcup 0, P0.dPcup 0) := by
    unfold PcupLow_gauss
    refine triangle_frame nMax _ P0
      (fun (T : MAGtype_LegendreFunction α) i => (T.Pcup i, T.dPcup i)) ?_ 0 ?_
    · intro n m t i _ _ _ _ hi
      have hx : i ≠ index n m := hi
      simp only []
      split_ifs <;> simp [Function.update_noteq hx]
    · intro n m h1 _ hm hmn
      have := index_lt_index 0 0 n m le_rfl le_rfl (by omega) hm
      have e0 : index 0 0 = 0 := rfl
      omega
  simp only [Prod.mk.injEq] at key
  exact key

end LegendreLemmas

section SchmidtLemmas

variable {α : Type} [LinearOrderedField α]

/-- The second loop of `MAG_PcupLow` as a double loop over `m = 0 .. n`, the turn `m = 0`
being the statement before the inner loop. -/
lemma PcupLow_schmidtQuasiNorm_eq (L : Libm α) (nMax : Int) (q0 : Int → α) :
    PcupLow_schmidtQuasiNorm L nMax q0 =
      forLoop 1 nMax (fun n t => forLoop 0 n (fun m (q : Int → α) =>
        if m = 0 then
          Function.update q (index n m)
            (q (index (n - 1) 0) * ((2 * n - 1 : Int) : α) / ((n : Int) : α))
        else
          Function.update q (index n m) (q (index n (m - 1)) *
            L.sqrt ((((n - m + 1) * (if m = 1 then 2 else 1) : Int) : α) /
              ((n + m : Int) : α)))) t) (Function.update q0 0 1.0) := by
  unfold PcupLow_schmidtQuasiNorm
  refine forLoop_congr 1 nMax _ _ _ ?_
  intro n t h1 _
  simp only []
  rw [forLoop_first 0 n _ t (by omega)]
  simp only [if_pos, zero_add]
  have e0 : index n 0 = Int.tdiv (n * (n + 1)) 2 := by unfold index; ring
  have e1 : index (n - 1) 0 = Int.tdiv ((n - 1) * n) 2 := by
    rw [← lookback_one]; ring
  rw [e0, e1]
  refine forLoop_congr 1 n _ _ _ ?_
  intro m q hm _
  rw [if_neg (by omega : ¬ m = 0)]
  have e2 : index n m = Int.tdiv (n * (n + 1)) 2 + m := rfl
  have e3 : index n (m - 1) = Int.tdiv (n * (n + 1)) 2 + m - 1 := by unfold index; ring
  rw [e2, e3]

/-- The recurrences that the ratios left by the second loop of `MAG_PcupLow` satisfy. -/
lemma PcupLow_schmidtQuasiNorm_spec (L : Libm α) (nMax : Int) (q0 : Int → α) :
    PcupLow_schmidtQuasiNorm L nMax q0 0 = 1 ∧
    (∀ n : Int, 1 ≤ n → n ≤ nMax →
      PcupLow_schmidtQuasiNorm L nMax q0 (index n 0) =
        PcupLow_schmidtQuasiNorm L nMax q0 (index (n - 1) 0) *
          ((2 * n - 1 : Int) : α) / ((n : Int) : α)) ∧
    (∀ n m : Int, 1 ≤ m → m ≤ n → n ≤ nMax →
      PcupLow_schmidtQuasiNorm L nMax q0 (index n m) =
        PcupLow_schmidtQuasiNorm L nMax q0 (index n (m - 1)) *
          L.sqrt ((((n - m + 1) * (if m = 1 then 2 else 1) : Int) : α) /
            ((n + m : Int) : α))) := by
  have hframe : ∀ (n m : Int) (t : Int → α) (i : Int), 1 ≤ n → n ≤ nMax → 0 ≤ m → m ≤ n →
      i ≠ index n m →
      (fun (q : Int → α) i => q i) ((fun n m (q : Int → α) =>
        if m = 0 then
          Function.update q (index n m)
            (q (index (n - 1) 0) * ((2 * n - 1 : Int) : α) / ((n : Int) : α))
        else
          Function.update q (index n m) (q (index n (m - 1)) *
            L.sqrt ((((n - m + 1) * (if m = 1 then 2 else 1) : Int) : α) /
              ((n + m : Int) : α)))) n m t) i = (fun (q : Int → α) i => q i) t i := by
    intro n m t i _ _ _ _ hi
    simp only []
    split_ifs <;> simp [Function.update_noteq hi]
  refine ⟨?_, ?_, ?_⟩
  · rw [PcupLow_schmidtQuasiNorm_eq]
    refine (triangle_frame nMax _ _ (fun (q : Int → α) i => q i) hframe 0 ?_).trans ?_
    · intro n m h1 _ hm hmn
      have := index_lt_index 0 0 n m le_rfl le_rfl (by omega) hm
      have e0 : index 0 0 = 0 := rfl
      omega
    · simp only [Function.update_same]
      norm_num
  · intro n h1 hn
    rw [PcupLow_schmidtQuasiNorm_eq]
    refine triangle_write_once_of nMax _ _ (fun (q : Int → α) i => q i) hframe n 0 h1 hn
      le_rfl (by omega) (fun F => F (index n 0) =
        F (index (n - 1) 0) * ((2 * n - 1 : Int) : α) / ((n : Int) : α)) ?_
    intro F t e1 e2 _
    have hlt := index_lt_index (n - 1) 0 n 0 (by omega) (by omega) (by omega) le_rfl
    have e4 : t (index (n - 1) 0) = F (index (n - 1) 0) := e2 _ hlt
    simp only [if_pos, Function.update_same] at e1
    rw [e1, e4]
  · intro n m hm hmn hn
    rw [PcupLow_schmidtQuasiNorm_eq]
    refine triangle_write_once_of nMax _ _ (fun (q : Int → α) i => q i) hframe n m (by omega) hn
      (by omega) hmn (fun F => F (index n m) = F (index n (m - 1)) *
          L.sqrt ((((n - m + 1) * (if m = 1 then 2 else 1) : Int) : α) /
            ((n + m : Int) : α))) ?_
    intro F t e1 e2 _
    have hlt : index n (m - 1) < index n m := by unfold index; omega
    have e4 : t (index n (m - 1)) = F (index n (m - 1)) := e2 _ hlt
    simp only [] at e1
    rw [if_neg (by omega : ¬ m = 0)] at e1
    simp only [Function.update_same] at e1
    rw [e1, e4]

/-- The third double loop of `MAG_PcupLow` multiplies every slot of the triangle by its
ratio, changing the sign of the derivative, and leaves the slot 0 as it was. -/
lemma PcupLow_convert_spec (nMax : Int) (q : Int → α) (P0 : MAGtype_LegendreFunction α) :
    ((PcupLow_convert nMax q P0).Pcup 0 = P0.Pcup 0 ∧
      (PcupLow_convert nMax q P0).dPcup 0 = P0.dPcup 0) ∧
    (∀ n m : Int, 1 ≤ n → n ≤ nMax → 0 ≤ m → m ≤ n →
      (PcupLow_convert nMax q P0).Pcup (index n m) = P0.Pcup (index n m) * q (index n m) ∧
      (PcupLow_convert nMax q P0).dPcup (index n m) =
        -P0.dPcup (index n m) * q (index n m)) := by
  refine ⟨?_, ?_⟩
  · have key : (fun (T : MAGtype_LegendreFunction α) i => (T.Pcup i, T.dPcup i))
        (PcupLow_convert nMax q P0) 0 = (P0.Pcup 0, P0.dPcup 0) := by
      unfold PcupLow_convert
      refine triangle_frame nMax _ P0
        (fun (T : MAGtype_LegendreFunction α) i => (T.Pcup i, T.dPcup i)) ?_ 0 ?_
      · intro n m t i _ _ _ _ hi
        have hx : i ≠ index n m := hi
        simp [Function.update_noteq hx]
      · intro n m h1 _ hm hmn
        have := index_lt_index 0 0 n m le_rfl le_rfl (by omega) hm
        have e0 : index 0 0 = 0 := rfl
        omega
    simp only [Prod.mk.injEq] at key
    exact key
  · intro n m h1 hn hm hmn
    unfold PcupLow_convert
    refine triangle_write_once_of nMax _ P0
      (fun (T : MAGtype_LegendreFunction α) i => (T.Pcup i, T.dPcup i)) ?_ n m h1 hn hm hmn
      (fun F => F.Pcup (index n m) = P0.Pcup (index n m) * q (index n m) ∧
        F.dPcup (index n m) = -P0.dPcup (index n m) * q (index n m)) ?_
    · intro n m t i _ _ _ _ hi
      have hx : i ≠ index n m := hi
      simp [Function.update_noteq hx]
    · intro F t e1 _ e3
      have e4 := e3 _ le_rfl
      simp only [Prod.mk.injEq, Function.update_same] at e1 e4
      rw [e1.1, e1.2, e4.1, e4.2]
      exact ⟨rfl, rfl⟩

end SchmidtLemmas

section SpecialLemmas

variable {α : Type} [LinearOrderedField α]

/-- The loop of `MAG_SummationSpecial` run up to a degree below 1 does nothing. -/
lemma SummationSpecial_loop_zero (L : Libm α) (G H : Int → α)
    (S : MAGtype_SphericalHarmonicVariables α) (x : α) (PcupS0 : Int → α) (n : Int)
    (h : n ≤ 0) :
    SummationSpecial_loop L G H n S x PcupS0 =
      { PcupS := Function.update PcupS0 0 1, schmidtQuasiNorm1 := 1.0, By := 0.0 } := by
  unfold SummationSpecial_loop
  rw [forLoop_of_lt _ _ _ _ (by omega)]

/-- The loop of `MAG_SummationSpecial` run up to the degree `n + 1` is its turn `n + 1`
after the loop up to `n`. -/
lemma SummationSpecial_loop_succ (L : Libm α) (G H : Int → α)
    (S : MAGtype_SphericalHarmonicVariables α) (x : α) (PcupS0 : Int → α) (n : Int)
    (h : 0 ≤ n) :
    SummationSpecial_loop L G H (n + 1) S x PcupS0 =
      SummationSpecial_step L G H S x (n + 1) (SummationSpecial_loop L G H n S x PcupS0) := by
  unfold SummationSpecial_loop
  rw [forLoop_succ _ _ _ _ (by omega)]

/-- A turn of the loop of `MAG_SummationSpecial` writes the cell `n` of `PcupS` only. -/
lemma SummationSpecial_step_PcupS (L : Libm α) (G H : Int → α)
    (S : MAGtype_SphericalHarmonicVariables α) (x : α) (n k : Int)
    (st : SummationSpecialState α) (h : k ≠ n) :
    (SummationSpecial_step L G H S x n st).PcupS k = st.PcupS k := by
  unfold SummationSpecial_step
  simp only []
  split_ifs <;> simp [Function.update_noteq h]

/-- The cell `k` of `PcupS` is final once the turn `k` is over. -/
lemma SummationSpecial_PcupS_stable (L : Libm α) (G H : Int → α)
    (S : MAGtype_SphericalHarmonicVariables α) (x : α) (PcupS0 : Int → α) (k n : Int)
    (hk : 0 ≤ k) (d : Nat) (hn : n = k + (d : Int)) :
    (SummationSpecial_loop L G H n S x PcupS0).PcupS k =
      (SummationSpecial_loop L G H k S x PcupS0).PcupS k := by
  induction d generalizing n with
  | zero =>
    have : n = k := by simpa using hn
    rw [this]
  | succ d ih =>
    have e : n = (k + (d : Int)) + 1 := by rw [hn]; push_cast; ring
    rw [e, SummationSpecial_loop_succ L G H S x PcupS0 _ (by omega),
      SummationSpecial_step_PcupS L G H S x _ _ _ (by omega)]
    exact ih _ rfl

/-- The recurrence of the array `PcupS` that `MAG_SummationSpecial` fills. -/
lemma SummationSpecial_PcupS_spec (L : Libm α) (G H : Int → α)
    (S : MAGtype_SphericalHarmonicVariables α) (x : α) (PcupS0 : Int → α) (nMax : Int) :
    (SummationSpecial_loop L G H nMax S x PcupS0).PcupS 0 = 1 ∧
    (1 ≤ nMax → (SummationSpecial_loop L G H nMax S x PcupS0).PcupS 1 = 1) ∧
    (∀ n : Int, 2 ≤ n → n ≤ nMax →
      (SummationSpecial_loop L G H nMax S x PcupS0).PcupS n =
        x * (SummationSpecial_loop L G H nMax S x PcupS0).PcupS (n - 1) -
          (((n - 1) * (n - 1) - 1 : Int) : α) / (((2 * n - 1) * (2 * n - 3) : Int) : α) *
            (SummationSpecial_loop L G H nMax S x PcupS0).PcupS (n - 2)) := by
  have stab : ∀ k : Int, 0 ≤ k → k ≤ nMax →
      (SummationSpecial_loop L G H nMax S x PcupS0).PcupS k =
        (SummationSpecial_loop L G H k S x PcupS0).PcupS k := fun k hk hkn =>
    SummationSpecial_PcupS_stable L G H S x PcupS0 k nMax hk (nMax - k).toNat (by omega)
  have h0 : (SummationSpecial_loop L G H nMax S x PcupS0).PcupS 0 = 1 := by
    by_cases h : 0 ≤ nMax
    · rw [stab 0 le_rfl h, SummationSpecial_loop_zero L G H S x PcupS0 0 le_rfl]
      simp
    · rw [SummationSpecial_loop_zero L G H S x PcupS0 nMax (by omega)]
      simp
  refine ⟨h0, ?_, ?_⟩
  · intro h1
    rw [stab 1 (by omega) h1]
    have e := SummationSpecial_loop_succ L G H S x PcupS0 0 le_rfl
    rw [zero_add] at e
    rw [e, SummationSpecial_loop_zero L G H S x PcupS0 0 le_rfl]
    simp [SummationSpecial_step]
  · intro n h2 hn
    rw [stab n (by omega) hn, stab (n - 1) (by omega) (by omega),
      stab (n - 2) (by omega) (by omega)]
    have e := SummationSpecial_loop_succ L G H S x PcupS0 (n - 1) (by omega)
    rw [sub_add_cancel] at e
    have e2 := SummationSpecial_PcupS_stable L G H S x PcupS0 (n - 2) (n - 1) (by omega) 1
      (by push_cast; ring)
    rw [e, ← e2]
    unfold SummationSpecial_step
    simp only []
    rw [if_neg (by omega : ¬ n = 1)]
    simp only [Function.update_same]

/-- The variable `schmidtQuasiNorm1` of `MAG_SummationSpecial` after the turn `n` is the
ratio that `MAG_PcupLow` keeps in the slot `index n 0`. -/
lemma PcupLow_schmidtQuasiNorm_order_zero (L : Libm α) (G H : Int → α)
    (S : MAGtype_SphericalHarmonicVariables α) (x : α) (PcupS0 q0 : Int → α) (nMax : Int)
    (d : Nat) (hd : (d : Int) ≤ nMax) :
    PcupLow_schmidtQuasiNorm L nMax q0 (index d 0) =
      (SummationSpecial_loop L G H d S x PcupS0).schmidtQuasiNorm1 := by
  obtain ⟨h0, h1, -⟩ := PcupLow_schmidtQuasiNorm_spec L nMax q0
  induction d with
  | zero =>
    rw [SummationSpecial_loop_zero L G H S x PcupS0 _ (by simp)]
    have e0 : index ((0 : Nat) : Int) 0 = 0 := rfl
    rw [e0, h0]
    norm_num
  | succ d ih =>
    have e : ((d + 1 : Nat) : Int) = (d : Int) + 1 := by push_cast; ring
    rw [e] at hd ⊢
    rw [h1 _ (by omega) hd, SummationSpecial_loop_succ L G H S x PcupS0 _ (by omega),
      add_sub_cancel_right, ih (by omega)]
    simp only [SummationSpecial_step]

/-- The loop of `MAG_SummationSpecial` accumulates in `By` the sum of its terms. -/
lemma SummationSpecial_loop_By (L : Libm α) (G H : Int → α)
    (S : MAGtype_SphericalHarmonicVariables α) (x : α) (PcupS0 : Int → α) (nMax : Int) :
    (SummationSpecial_loop L G H nMax S x PcupS0).By =
      ∑ n in Finset.Icc 1 nMax, S.RelativeRadiusPower n *
        (G (index n 1) * S.sin_mlambda 1 - H (index n 1) * S.cos_mlambda 1) *
        (SummationSpecial_loop L G H nMax S x PcupS0).PcupS n *
        SummationSpecial_schmidtQuasiNorm3 L G H S x PcupS0 n := by
  have key : ∀ d : Nat, (SummationSpecial_loop L G H d S x PcupS0).By =
      ∑ n in Finset.Icc 1 (d : Int), S.RelativeRadiusPower n *
        (G (index n 1) * S.sin_mlambda 1 - H (index n 1) * S.cos_mlambda 1) *
        (SummationSpecial_loop L G H n S x PcupS0).PcupS n *
        SummationSpecial_schmidtQuasiNorm3 L G H S x PcupS0 n := by
    intro d
    induction d with
    | zero =>
      rw [SummationSpecial_loop_zero L G H S x PcupS0 _ (by simp)]
      norm_num
    | succ d ih =>
      have e : ((d + 1 : Nat) : Int) = (d : Int) + 1 := by push_cast; ring
      rw [e, Icc_succ_right 1 (d : Int) (by omega), Finset.sum_insert (by simp), ← ih]
      unfold SummationSpecial_schmidtQuasiNorm3
      rw [SummationSpecial_loop_succ L G H S x PcupS0 _ (by omega)]
      simp only [SummationSpecial_step, index]
      ring
  by_cases h : 0 ≤ nMax
  · obtain ⟨d, hd⟩ : ∃ d : Nat, nMax = (d : Int) := ⟨nMax.toNat, by omega⟩
    rw [hd, key d]
    refine Finset.sum_congr rfl ?_
    intro n hn
    rw [Finset.mem_Icc] at hn
    rw [SummationSpecial_PcupS_stable L G H S x PcupS0 n d (by omega) (d - n).toNat
      (by omega)]
  · rw [SummationSpecial_loop_zero L G H S x PcupS0 nMax (by omega),
      Finset.Icc_eq_empty (by omega)]
    norm_num

end SpecialLemmas

section SpecialClaim

variable {α : Type} [LinearOrderedField α]

/-- The Gauss-normalised values of order 1 left by the first double loop of `MAG_PcupLow`
are `z` times the array `PcupS` of `MAG_SummationSpecial`. -/
lemma PcupLow_gauss_order_one (L : Libm α) (G H : Int → α)
    (S : MAGtype_SphericalHarmonicVariables α) (x z : α) (PcupS0 : Int → α) (nMax : Int)
    (P0 : MAGtype_LegendreFunction α) (hP : P0.Pcup 0 = 1) (n : Int) (h1 : 1 ≤ n)
    (hn : n ≤ nMax) :
    (PcupLow_gauss x z nMax P0).Pcup (index n 1) =
      z * (SummationSpecial_loop L G H nMax S x PcupS0).PcupS n := by
  obtain ⟨s0, s1, s2⟩ := SummationSpecial_PcupS_spec L G H S x PcupS0 nMax
  have key : ∀ d : Nat, ∀ n : Int, 1 ≤ n → n ≤ (d : Int) → n ≤ nMax →
      (PcupLow_gauss x z nMax P0).Pcup (index n 1) =
        z * (SummationSpecial_loop L G H nMax S x PcupS0).PcupS n := by
    intro d
    induction d with
    | zero =>
      intro n h1 h2 _
      have : (((0 : Nat) : Int)) = 0 := rfl
      omega
    | succ d ih =>
      intro n h1 h2 h3
      have e : ((d + 1 : Nat) : Int) = (d : Int) + 1 := by push_cast; ring
      rw [e] at h2
      obtain ⟨g1, g2, g3⟩ := PcupLow_gauss_spec x z nMax P0 n 1 h1 h3 (by omega) h1
      rcases lt_trichotomy n 2 with h | h | h
      · have hn1 : n = 1 := by omega
        subst hn1
        have e0 : index (1 - 1) (1 - 1) = 0 := rfl
        rw [(g1 rfl).1, e0, (PcupLow_gauss_zero x z nMax P0).1, hP, s1 h3]
      · subst h
        have e1 : ((2 : Int) - 1) = 1 := rfl
        rw [(g2 rfl).1, e1, ih 1 le_rfl (by omega) (by omega), s2 2 le_rfl h3]
        norm_num
        rw [s1 (by omega)]
        ring
      · rw [(g3 (by omega)).1, ih (n - 1) (by omega) (by omega) (by omega),
          ih (n - 2) (by omega) (by omega) (by omega), s2 n (by omega) h3]
        norm_num
        ring
  exact key n.toNat n h1 (by omega) hn

/-- C20: for `x` in `[-1, 1]` and `1 ≤ n ≤ nMax`, the value of order 1 that `MAG_PcupLow`
leaves in `Pcup[index n 1]` is `sqrt(1 - x^2) * PcupS[n] * schmidtQuasiNorm3(n)`, with
`PcupS` and `schmidtQuasiNorm3` as computed by `MAG_SummationSpecial` for `sin_phi = x`.
Hence, when `sin(phig) = x` and `cos(phig) = sqrt(1 - x^2)` is not zero, the `By` of
`MAG_SummationSpecial` is the sum over `n` of the terms of order `m = 1` of the generic
`By`, divided by `cos(phig)`. -/
theorem MAG_PcupLow_order_one (L : Libm α) (P : MAGtype_LegendreFunction α) (x : α)
    (q0 : Int → α) (MagneticModel : MAGtype_MagneticModel α)
    (SphVariables : MAGtype_SphericalHarmonicVariables α)
    (CoordSpherical : MAGtype_CoordSpherical α)
    (MagneticResults : MAGtype_MagneticResults α) (PcupS0 : Int → α)
    (_hlo : -1 ≤ x) (_hhi : x ≤ 1) :
    (∀ n : Int, 1 ≤ n → n ≤ MagneticModel.nMax →
      (MAG_PcupLow L P x MagneticModel.nMax q0).2.Pcup (index n 1) =
        L.sqrt (1 - x ^ 2) *
          (SummationSpecial_loop L MagneticModel.Main_Field_Coeff_G
            MagneticModel.Main_Field_Coeff_H MagneticModel.nMax SphVariables x PcupS0).PcupS n *
          SummationSpecial_schmidtQuasiNorm3 L MagneticModel.Main_Field_Coeff_G
            MagneticModel.Main_Field_Coeff_H SphVariables x PcupS0 n) ∧
    (L.sin (DEG2RAD L CoordSpherical.phig) = x →
      L.cos (DEG2RAD L CoordSpherical.phig) = L.sqrt (1 - x ^ 2) →
      L.cos (DEG2RAD L CoordSpherical.phig) ≠ 0 →
      (MAG_SummationSpecial L MagneticModel SphVariables CoordSpherical MagneticResults
          PcupS0).By =
        (∑ n in Finset.Icc 1 MagneticModel.nMax,
          SphVariables.RelativeRadiusPower n *
            (MagneticModel.Main_Field_Coeff_G (index n 1) * SphVariables.sin_mlambda 1 -
              MagneticModel.Main_Field_Coeff_H (index n 1) * SphVariables.cos_mlambda 1) *
            ((1 : Int) : α) * (MAG_PcupLow L P x MagneticModel.nMax q0).2.Pcup (index n 1)) /
          L.cos (DEG2RAD L CoordSpherical.phig)) := by
  have first : ∀ n : Int, 1 ≤ n → n ≤ MagneticModel.nMax →
      (MAG_PcupLow L P x MagneticModel.nMax q0).2.Pcup (index n 1) =
        L.sqrt (1 - x ^ 2) *
          (SummationSpecial_loop L MagneticModel.Main_Field_Coeff_G
            MagneticModel.Main_Field_Coeff_H MagneticModel.nMax SphVariables x PcupS0).PcupS n *
          SummationSpecial_schmidtQuasiNorm3 L MagneticModel.Main_Field_Coeff_G
            MagneticModel.Main_Field_Coeff_H SphVariables x PcupS0 n := by
    intro n h1 hn
    have hz : (1.0 - x) * (1.0 + x) = 1 - x ^ 2 := by norm_num; ring
    have hq := (PcupLow_schmidtQuasiNorm_spec L MagneticModel.nMax q0).2.2 n 1 le_rfl h1 hn
    have hq0 := PcupLow_schmidtQuasiNorm_order_zero L MagneticModel.Main_Field_Coeff_G
      MagneticModel.Main_Field_Coeff_H SphVariables x PcupS0 q0 MagneticModel.nMax n.toNat
      (by omega)
    rw [show ((n.toNat : Nat) : Int) = n by omega] at hq0
    unfold MAG_PcupLow
    simp only []
    rw [((PcupLow_convert_spec MagneticModel.nMax _ _).2 n 1 h1 hn (by omega) h1).1,
      PcupLow_gauss_order_one L MagneticModel.Main_Field_Coeff_G
        MagneticModel.Main_Field_Coeff_H SphVariables x _ PcupS0 MagneticModel.nMax _
        (by norm_num) n h1 hn, hq, hz]
    unfold SummationSpecial_schmidtQuasiNorm3
    rw [show (1 : Int) - 1 = 0 from rfl, hq0, if_pos rfl,
      show (n - 1 + 1) * 2 = n * 2 by ring]
  refine ⟨first, ?_⟩
  intro hsin hcos hne
  unfold MAG_SummationSpecial SummationSpecial_By
  simp only []
  rw [hsin, SummationSpecial_loop_By, Finset.sum_div]
  refine Finset.sum_congr rfl ?_
  intro n hn
  rw [Finset.mem_Icc] at hn
  rw [first n hn.1 hn.2, ← hcos]
  field_simp
  ring

/-- Instance of C20: the scenario model at `phig = 0`, where `x = sin 0 = 0` and
`cos 0 = 1 = sqrt(1 - 0)`, over the reals. -/
theorem MAG_PcupLow_order_one_witness :
    (((-1 : ℝ) ≤ 0 ∧ (0 : ℝ) ≤ 1) ∧
      realLibm.sin (DEG2RAD realLibm
        ({ lambda := 0, phig := 0, r := 6371.2 } : MAGtype_CoordSpherical ℝ).phig) = 0 ∧
      realLibm.cos (DEG2RAD realLibm
        ({ lambda := 0, phig := 0, r := 6371.2 } : MAGtype_CoordSpherical ℝ).phig) =
          realLibm.sqrt (1 - (0 : ℝ) ^ 2) ∧
      realLibm.cos (DEG2RAD realLibm
        ({ lambda := 0, phig := 0, r := 6371.2 } : MAGtype_CoordSpherical ℝ).phig) ≠ 0) ∧
    (MAG_PcupLow realLibm zeroScratch.LegendreFunction 0
        (scenarioModel : MAGtype_MagneticModel ℝ).nMax (fun _ => 0)).2.Pcup (index 1 1) =
      realLibm.sqrt (1 - (0 : ℝ) ^ 2) *
        (SummationSpecial_loop realLibm
          (scenarioModel : MAGtype_MagneticModel ℝ).Main_Field_Coeff_G
          (scenarioModel : MAGtype_MagneticModel ℝ).Main_Field_Coeff_H
          (scenarioModel : MAGtype_MagneticModel ℝ).nMax zeroScratch.SphVariables 0
          (fun _ => 0)).PcupS 1 *
        SummationSpecial_schmidtQuasiNorm3 realLibm
          (scenarioModel : MAGtype_MagneticModel ℝ).Main_Field_Coeff_G
          (scenarioModel : MAGtype_MagneticModel ℝ).Main_Field_Coeff_H
          zeroScratch.SphVariables 0 (fun _ => 0) 1 ∧
    (MAG_SummationSpecial realLibm scenarioModel zeroScratch.SphVariables
        { lambda := 0, phig := 0, r := 6371.2 } { Bx := 0, By := 0, Bz := 0 }
        (fun _ => 0)).By =
      (∑ n in Finset.Icc 1 (scenarioModel : MAGtype_MagneticModel ℝ).nMax,
        (zeroScratch : GridScratch ℝ).SphVariables.RelativeRadiusPower n *
          ((scenarioModel : MAGtype_MagneticModel ℝ).Main_Field_Coeff_G (index n 1) *
              (zeroScratch : GridScratch ℝ).SphVariables.sin_mlambda 1 -
            (scenarioModel : MAGtype_MagneticModel ℝ).Main_Field_Coeff_H (index n 1) *
              (zeroScratch : GridScratch ℝ).SphVariables.cos_mlambda 1) *
          ((1 : Int) : ℝ) *
          (MAG_PcupLow realLibm zeroScratch.LegendreFunction 0
            (scenarioModel : MAGtype_MagneticModel ℝ).nMax (fun _ => 0)).2.Pcup (index n 1)) /
        realLibm.cos (DEG2RAD realLibm
          ({ lambda := 0, phig := 0, r := 6371.2 } : MAGtype_CoordSpherical ℝ).phig) :=
  have hs : realLibm.sin (DEG2RAD realLibm
      ({ lambda := 0, phig := 0, r := 6371.2 } : MAGtype_CoordSpherical ℝ).phig) = 0 := by
    simp [realLibm, DEG2RAD]
  have hc : realLibm.cos (DEG2RAD realLibm
      ({ lambda := 0, phig := 0, r := 6371.2 } : MAGtype_CoordSpherical ℝ).phig) =
        realLibm.sqrt (1 - (0 : ℝ) ^ 2) := by
    simp [realLibm, DEG2RAD]
  have hne : realLibm.cos (DEG2RAD realLibm
      ({ lambda := 0, phig := 0, r := 6371.2 } : MAGtype_CoordSpherical ℝ).phig) ≠ 0 := by
    simp [realLibm, DEG2RAD]
  ⟨⟨⟨by norm_num, by norm_num⟩, hs, hc, hne⟩,
    (MAG_PcupLow_order_one realLibm zeroScratch.LegendreFunction 0 (fun _ => 0) scenarioModel
      zeroScratch.SphVariables { lambda := 0, phig := 0, r := 6371.2 }
      { Bx := 0, By := 0, Bz := 0 } (fun _ => 0) (by norm_num) (by norm_num)).1 1 le_rfl
      (by simp [scenarioModel]),
    (MAG_PcupLow_order_one realLibm zeroScratch.LegendreFunction 0 (fun _ => 0) scenarioModel
      zeroScratch.SphVariables { lambda := 0, phig := 0, r := 6371.2 }
      { Bx := 0, By := 0, Bz := 0 } (fun _ => 0) (by norm_num) (by norm_num)).2 hs hc hne⟩

end SpecialClaim

section DerivativeLemmas

/-- The Gauss-normalised values of the first double loop of `MAG_PcupLow` along a curve
`(x t, z t)` with `x' = z` and `z' = -x` at `t0`: their derivative at `t0` is the opposite
of the array `dPcup`. -/
lemma PcupLow_gauss_hasDerivAt (xf zf : ℝ → ℝ) (t0 : ℝ) (hx : HasDerivAt xf (zf t0) t0)
    (hz : HasDerivAt zf (-(xf t0)) t0) (nMax : Int) (P0 : MAGtype_LegendreFunction ℝ)
    (h0 : P0.dPcup 0 = 0) (n m : Int) (hm : 0 ≤ m) (hmn : m ≤ n) (hn : n ≤ nMax) :
    HasDerivAt (fun t => (PcupLow_gauss (xf t) (zf t) nMax P0).Pcup (index n m))
      (-(PcupLow_gauss (xf t0) (zf t0) nMax P0).dPcup (index n m)) t0 := by
  have key : ∀ d : Nat, ∀ n m : Int, 0 ≤ m → m ≤ n → n ≤ (d : Int) → n ≤ nMax →
      HasDerivAt (fun t => (PcupLow_gauss (xf t) (zf t) nMax P0).Pcup (index n m))
        (-(PcupLow_gauss (xf t0) (zf t0) nMax P0).dPcup (index n m)) t0 := by
    intro d
    induction d with
    | zero =>
      intro n m hm hmn hn0 _
      have hn0 : n = 0 := by
        have : (((0 : Nat) : Int)) = 0 := rfl
        omega
      have hm0 : m = 0 := by omega
      subst hn0
      subst hm0
      have e0 : index 0 0 = 0 := rfl
      rw [e0, (PcupLow_gauss_zero _ _ nMax P0).2, h0, neg_zero]
      have : (fun t => (PcupLow_gauss (xf t) (zf t) nMax P0).Pcup 0) = fun _ => P0.Pcup 0 := by
        funext t
        exact (PcupLow_gauss_zero _ _ nMax P0).1
      rw [this]
      exact hasDerivAt_const _ _
    | succ d ih =>
      intro n m hm hmn hnd hn
      have e : ((d + 1 : Nat) : Int) = (d : Int) + 1 := by push_cast; ring
      rw [e] at hnd
      rcases eq_or_lt_of_le hnd with hlast | hlt
      swap
      · exact ih n m hm hmn (by omega) hn
      have h1 : 1 ≤ n := by omega
      obtain ⟨g1, g2, g3⟩ := PcupLow_gauss_spec (xf t0) (zf t0) nMax P0 n m h1 hn hm hmn
      rcases lt_trichotomy m (n - 1) with h | h | h
      · have hf : (fun t => (PcupLow_gauss (xf t) (zf t) nMax P0).Pcup (index n m)) =
            fun t => xf t * (PcupLow_gauss (xf t) (zf t) nMax P0).Pcup (index (n - 1) m) -
              (((n - 1) * (n - 1) - m * m : Int) : ℝ) / (((2 * n - 1) * (2 * n - 3) : Int) : ℝ) *
                (PcupLow_gauss (xf t) (zf t) nMax P0).Pcup (index (n - 2) m) := by
          funext t
          exact ((PcupLow_gauss_spec (xf t) (zf t) nMax P0 n m h1 hn hm hmn).2.2
            (by omega)).1
        rw [hf, (g3 (by omega)).2]
        have d1 := ih (n - 1) m hm (by omega) (by omega) (by omega)
        have d2 := ih (n - 2) m hm (by omega) (by omega) (by omega)
        convert (hx.mul d1).sub (d2.const_mul _) using 1
        ring
      · have hf : (fun t => (PcupLow_gauss (xf t) (zf t) nMax P0).Pcup (index n m)) =
            fun t => xf t * (PcupLow_gauss (xf t) (zf t) nMax P0).Pcup (index (n - 1) m) := by
          funext t
          exact ((PcupLow_gauss_spec (xf t) (zf t) nMax P0 n m h1 hn hm hmn).2.1 h).1
        rw [hf, (g2 h).2]
        have d1 := ih (n - 1) m hm (by omega) (by omega) (by omega)
        convert hx.mul d1 using 1
        ring
      · have hnm : n = m := by omega
        have hf : (fun t => (PcupLow_gauss (xf t) (zf t) nMax P0).Pcup (index n m)) =
            fun t => zf t *
              (PcupLow_gauss (xf t) (zf t) nMax P0).Pcup (index (n - 1) (m - 1)) := by
          funext t
          exact ((PcupLow_gauss_spec (xf t) (zf t) nMax P0 n m h1 hn hm hmn).1 hnm).1
        rw [hf, (g1 hnm).2]
        have d1 := ih (n - 1) (m - 1) (by omega) (by omega) (by omega) (by omega)
        convert hz.mul d1 using 1
        ring
  exact key n.toNat n m hm hmn (by omega) hn

/-- On the open interval of the latitudes between the poles the local `z` of
`MAG_PcupLow` is the cosine of the latitude, and its derivative is minus the sine. -/
lemma PcupLow_z_hasDerivAt (t0 : ℝ) (hlo : -(Real.pi / 2) < t0) (hhi : t0 < Real.pi / 2) :
    Real.sqrt ((1.0 - Real.sin t0) * (1.0 + Real.sin t0)) = Real.cos t0 ∧
    HasDerivAt (fun t => Real.sqrt ((1.0 - Real.sin t) * (1.0 + Real.sin t)))
      (-(Real.sin t0)) t0 := by
  have hc : 0 < Real.cos t0 := Real.cos_pos_of_mem_Ioo ⟨hlo, hhi⟩
  have hsq : (1.0 - Real.sin t0) * (1.0 + Real.sin t0) = Real.cos t0 * Real.cos t0 := by
    have := Real.sin_sq_add_cos_sq t0
    norm_num
    nlinarith
  have hv : Real.sqrt ((1.0 - Real.sin t0) * (1.0 + Real.sin t0)) = Real.cos t0 := by
    rw [hsq, Real.sqrt_mul_self (le_of_lt hc)]
  refine ⟨hv, ?_⟩
  have hs := Real.hasDerivAt_sin t0
  have hf : HasDerivAt (fun t => (1.0 - Real.sin t) * (1.0 + Real.sin t))
      ((0 - Real.cos t0) * (1.0 + Real.sin t0) + (1.0 - Real.sin t0) * (0 + Real.cos t0))
      t0 :=
    ((hasDerivAt_const t0 (1.0 : ℝ)).sub hs).mul ((hasDerivAt_const t0 (1.0 : ℝ)).add hs)
  have hne : (1.0 - Real.sin t0) * (1.0 + Real.sin t0) ≠ 0 := by
    rw [hsq]
    positivity
  convert hf.sqrt hne using 1
  rw [hv]
  field_simp
  ring

end DerivativeLemmas

section DerivativeClaim

/-- The arrays of `MAG_PcupLow` in terms of its three double loops. -/
lemma MAG_PcupLow_eq {α : Type} [LinearOrderedField α] (L : Libm α)
    (P : MAGtype_LegendreFunction α) (x : α) (nMax : Int) (q0 : Int → α) :
    (MAG_PcupLow L P x nMax q0).2 =
      PcupLow_convert nMax (PcupLow_schmidtQuasiNorm L nMax q0)
        (PcupLow_gauss x (L.sqrt ((1.0 - x) * (1.0 + x))) nMax
          { Pcup := Function.update P.Pcup 0 1.0, dPcup := Function.update P.dPcup 0 0.0 }) :=
  rfl

/-- C14: for a latitude `phi` strictly between -90 and 90 degrees and `0 ≤ m ≤ n ≤ nMax`,
the value `dPcup[index n m]` that `MAG_PcupLow` returns for `x = sin(phi)` is the derivative,
at that latitude in radians, of the value `Pcup[index n m]` it returns for `x = sin(t)`,
taken with respect to the latitude `t` (not the colatitude). -/
theorem MAG_PcupLow_dPcup_hasDerivAt (P : MAGtype_LegendreFunction ℝ) (nMax : Int)
    (q0 : Int → ℝ) (phi : ℝ) (n m : Int) (hlo : -90 < phi) (hhi : phi < 90) (hm : 0 ≤ m)
    (hmn : m ≤ n) (hn : n ≤ nMax) :
    HasDerivAt
      (fun t : ℝ => (MAG_PcupLow realLibm P (realLibm.sin t) nMax q0).2.Pcup (index n m))
      ((MAG_PcupLow realLibm P (realLibm.sin (DEG2RAD realLibm phi)) nMax q0).2.dPcup
        (index n m))
      (DEG2RAD realLibm phi) := by
  have hpi := Real.pi_pos
  have b1 : -(Real.pi / 2) < DEG2RAD realLibm phi := by
    unfold DEG2RAD
    simp only [realLibm]
    norm_num
    nlinarith
  have b2 : DEG2RAD realLibm phi < Real.pi / 2 := by
    unfold DEG2RAD
    simp only [realLibm]
    norm_num
    nlinarith
  generalize DEG2RAD realLibm phi = t0 at b1 b2 ⊢
  obtain ⟨hv, hz⟩ := PcupLow_z_hasDerivAt t0 b1 b2
  have hx : HasDerivAt Real.sin
      (Real.sqrt ((1.0 - Real.sin t0) * (1.0 + Real.sin t0))) t0 := by
    rw [hv]
    exact Real.hasDerivAt_sin t0
  have hg := PcupLow_gauss_hasDerivAt Real.sin
    (fun t => Real.sqrt ((1.0 - Real.sin t) * (1.0 + Real.sin t))) t0 hx hz nMax
    { Pcup := Function.update P.Pcup 0 1.0, dPcup := Function.update P.dPcup 0 0.0 }
    (by norm_num) n m hm hmn hn
  simp only [MAG_PcupLow_eq]
  rcases eq_or_lt_of_le (show 0 ≤ n by omega) with h0 | h1
  · have hm0 : m = 0 := by omega
    subst hm0
    rw [← h0] at hg ⊢
    have e0 : index 0 0 = 0 := rfl
    rw [e0] at hg ⊢
    rw [(PcupLow_convert_spec nMax _ _).1.2]
    have hf : (fun t : ℝ => (PcupLow_convert nMax (PcupLow_schmidtQuasiNorm realLibm nMax q0)
        (PcupLow_gauss (realLibm.sin t)
          (realLibm.sqrt ((1.0 - realLibm.sin t) * (1.0 + realLibm.sin t))) nMax
          { Pcup := Function.update P.Pcup 0 1.0,
            dPcup := Function.update P.dPcup 0 0.0 })).Pcup 0) = fun _ => 1.0 := by
      funext t
      rw [(PcupLow_convert_spec nMax _ _).1.1, (PcupLow_gauss_zero _ _ nMax _).1]
      simp
    rw [hf, (PcupLow_gauss_zero _ _ nMax _).2]
    simp only [Function.update_same]
    have := hasDerivAt_const t0 (1.0 : ℝ)
    convert this using 1
    norm_num
  · have hf : (fun t : ℝ => (PcupLow_convert nMax (PcupLow_schmidtQuasiNorm realLibm nMax q0)
        (PcupLow_gauss (realLibm.sin t)
          (realLibm.sqrt ((1.0 - realLibm.sin t) * (1.0 + realLibm.sin t))) nMax
          { Pcup := Function.update P.Pcup 0 1.0,
            dPcup := Function.update P.dPcup 0 0.0 })).Pcup (index n m)) =
        fun t => (PcupLow_gauss (Real.sin t)
          (Real.sqrt ((1.0 - Real.sin t) * (1.0 + Real.sin t))) nMax
          { Pcup := Function.update P.Pcup 0 1.0,
            dPcup := Function.update P.dPcup 0 0.0 }).Pcup (index n m) *
          PcupLow_schmidtQuasiNorm realLibm nMax q0 (index n m) := by
      funext t
      rw [((PcupLow_convert_spec nMax _ _).2 n m (by omega) hn hm hmn).1]
      rfl
    rw [hf, ((PcupLow_convert_spec nMax _ _).2 n m (by omega) hn hm hmn).2]
    exact hg.mul_const _

/-- Instance of C14: degree 1, order 0 at latitude 0. -/
theorem MAG_PcupLow_dPcup_hasDerivAt_witness :
    ((-90 : ℝ) < 0 ∧ (0 : ℝ) < 90 ∧ (0 : Int) ≤ 0 ∧ (0 : Int) ≤ 1 ∧ (1 : Int) ≤ 1) ∧
    HasDerivAt
      (fun t : ℝ => (MAG_PcupLow realLibm zeroScratch.LegendreFunction (realLibm.sin t) 1
        (fun _ => 0)).2.Pcup (index 1 0))
      ((MAG_PcupLow realLibm zeroScratch.LegendreFunction
        (realLibm.sin (DEG2RAD realLibm 0)) 1 (fun _ => 0)).2.dPcup (index 1 0))
      (DEG2RAD realLibm 0) :=
  ⟨⟨by norm_num, by norm_num, le_rfl, by decide, le_rfl⟩,
    MAG_PcupLow_dPcup_hasDerivAt zeroScratch.LegendreFunction 1 (fun _ => 0) 0 1 0
      (by norm_num) (by norm_num) le_rfl (by decide) le_rfl⟩

end DerivativeClaim

section SchmidtColumn

/-- The ratios of `MAG_PcupLow`, which the code builds along the orders of one degree,
also obey a recurrence from one degree to the next:
`S(n,m) sqrt(n+m) sqrt(n-m) = (2n-1) S(n-1,m)` for `0 ≤ m < n`. -/
lemma schmidt_column (S : Int → ℝ) (nMax : Int)
    (hrow0 : ∀ n : Int, 1 ≤ n → n ≤ nMax →
      S (index n 0) = S (index (n - 1) 0) * ((2 * n - 1 : Int) : ℝ) / ((n : Int) : ℝ))
    (hrow : ∀ n m : Int, 1 ≤ m → m ≤ n → n ≤ nMax →
      S (index n m) = S (index n (m - 1)) *
        Real.sqrt ((((n - m + 1) * (if m = 1 then 2 else 1) : Int) : ℝ) / ((n + m : Int) : ℝ)))
    (n m : Int) (hm : 0 ≤ m) (hmn : m ≤ n - 1) (hn : n ≤ nMax) :
    S (index n m) * (Real.sqrt ((n + m : Int) : ℝ) * Real.sqrt ((n - m : Int) : ℝ)) =
      ((2 * n - 1 : Int) : ℝ) * S (index (n - 1) m) := by
  have key : ∀ d : Nat, (d : Int) ≤ n - 1 →
      S (index n d) * (Real.sqrt ((n + d : Int) : ℝ) * Real.sqrt ((n - d : Int) : ℝ)) =
        ((2 * n - 1 : Int) : ℝ) * S (index (n - 1) d) := by
    intro d
    induction d with
    | zero =>
      intro h
      have hn1 : 1 ≤ n := by
        have : (((0 : Nat) : Int)) = 0 := rfl
        omega
      have hnpos : (0 : ℝ) < ((n : Int) : ℝ) := by exact_mod_cast hn1
      simp only [Nat.cast_zero, add_zero, sub_zero]
      rw [hrow0 n hn1 hn, Real.mul_self_sqrt (le_of_lt hnpos)]
      field_simp
      ring
    | succ d ih =>
      intro h
      have e : ((d + 1 : Nat) : Int) = (d : Int) + 1 := by push_cast; ring
      rw [e] at h ⊢
      have hd0 : (0 : Int) ≤ d := Int.natCast_nonneg d
      have ih2 := ih (by omega)
      have r1 := hrow n (d + 1) (by omega) (by omega) hn
      have r2 := hrow (n - 1) (d + 1) (by omega) (by omega) (by omega)
      rw [add_sub_cancel_right] at r1 r2
      rw [r1, r2]
      have c1 : (((n - (d + 1) + 1) * (if (d : Int) + 1 = 1 then 2 else 1) : Int) : ℝ) =
          ((n - d : Int) : ℝ) * (((if (d : Int) + 1 = 1 then 2 else 1 : Int)) : ℝ) := by
        push_cast; ring
      have c2 : (((n - 1 - (d + 1) + 1) * (if (d : Int) + 1 = 1 then 2 else 1) : Int) : ℝ) =
          ((n - (d + 1) : Int) : ℝ) * (((if (d : Int) + 1 = 1 then 2 else 1 : Int)) : ℝ) := by
        push_cast; ring
      have c3 : ((n - 1 + (d + 1) : Int) : ℝ) = ((n + d : Int) : ℝ) := by push_cast; ring
      rw [c1, c2, c3]
      have pa : (0 : ℝ) < ((n - d : Int) : ℝ) := by exact_mod_cast (by omega : 0 < n - d)
      have pb : (0 : ℝ) < ((n + d : Int) : ℝ) := by exact_mod_cast (by omega : 0 < n + d)
      have pc : (0 : ℝ) < ((n + (d + 1) : Int) : ℝ) := by
        exact_mod_cast (by omega : 0 < n + ((d : Int) + 1))
      have pe : (0 : ℝ) ≤ ((n - (d + 1) : Int) : ℝ) := by
        exact_mod_cast (by omega : 0 ≤ n - ((d : Int) + 1))
      have pdl : (0 : ℝ) ≤ (((if (d : Int) + 1 = 1 then 2 else 1 : Int)) : ℝ) := by
        split_ifs <;> norm_num
      generalize (((if (d : Int) + 1 = 1 then 2 else 1 : Int)) : ℝ) = dl at pdl
      generalize ((n - d : Int) : ℝ) = a at pa ih2
      generalize ((n + d : Int) : ℝ) = b at pb ih2
      generalize ((n + (d + 1) : Int) : ℝ) = c at pc
      generalize ((n - (d + 1) : Int) : ℝ) = g at pe
      rw [Real.sqrt_div' _ (le_of_lt pc), Real.sqrt_div' _ (le_of_lt pb),
        Real.sqrt_mul (le_of_lt pa), Real.sqrt_mul pe]
      have hb : Real.sqrt b ≠ 0 := (Real.sqrt_pos.mpr pb).ne'
      have hc : Real.sqrt c ≠ 0 := (Real.sqrt_pos.mpr pc).ne'
      have step : S (index n d) * (Real.sqrt a * Real.sqrt dl / Real.sqrt c) *
          (Real.sqrt c * Real.sqrt g) =
          (S (index n d) * (Real.sqrt b * Real.sqrt a)) *
            (Real.sqrt g * Real.sqrt dl / Real.sqrt b) := by
        field_simp
        ring
      rw [step, ih2]
      ring
  have := key m.toNat (by omega)
  rw [show ((m.toNat : Nat) : Int) = m by omega] at this
  exact this

end SchmidtColumn

section LowSchmidt

/-- Every value that `MAG_PcupLow` returns in the triangle is the Gauss-normalised value
of its first double loop times the ratio of its second loop. -/
lemma MAG_PcupLow_Pcup_eq (P : MAGtype_LegendreFunction ℝ) (x : ℝ) (nMax : Int)
    (q0 : Int → ℝ) (n m : Int) (hm : 0 ≤ m) (hmn : m ≤ n) (hn : n ≤ nMax) :
    (MAG_PcupLow realLibm P x nMax q0).2.Pcup (index n m) =
      (PcupLow_gauss x (Real.sqrt ((1.0 - x) * (1.0 + x))) nMax
        { Pcup := Function.update P.Pcup 0 1.0,
          dPcup := Function.update P.dPcup 0 0.0 }).Pcup (index n m) *
        PcupLow_schmidtQuasiNorm realLibm nMax q0 (index n m) := by
  rw [MAG_PcupLow_eq]
  rcases eq_or_lt_of_le (show 0 ≤ n by omega) with h0 | h1
  · have hm0 : m = 0 := by omega
    subst hm0
    rw [← h0]
    have e0 : index 0 0 = 0 := rfl
    rw [e0, (PcupLow_convert_spec nMax _ _).1.1,
      (PcupLow_schmidtQuasiNorm_spec realLibm nMax q0).1, mul_one]
    rfl
  · rw [((PcupLow_convert_spec nMax _ _).2 n m (by omega) hn hm hmn).1]
    rfl

/-- The Gauss-normalised value of degree 0. -/
lemma PcupLow_gauss_origin (x z : ℝ) (nMax : Int) (P : MAGtype_LegendreFunction ℝ) :
    (PcupLow_gauss x z nMax
      { Pcup := Function.update P.Pcup 0 1.0,
        dPcup := Function.update P.dPcup 0 0.0 }).Pcup (index 0 0) = 1 := by
  have e0 : index 0 0 = 0 := rfl
  rw [e0, (PcupLow_gauss_zero x z nMax _).1]
  norm_num

end LowSchmidt

section SchmidtRecurrences

/-- The casts of the positive integers have non-zero square roots. -/
lemma sqrt_intCast_ne_zero (j : Int) (h : 0 < j) : Real.sqrt ((j : Int) : ℝ) ≠ 0 :=
  (Real.sqrt_pos.mpr (by exact_mod_cast h)).ne'

/-- From `s q = v t` with `q q = v` and `q ≠ 0` follows `s = q t`. -/
lemma cancel_sqrt (s t q v : ℝ) (hq : q ≠ 0) (hsq : q * q = v) (c : s * q = v * t) :
    s = q * t := by
  have h : s * q = q * t * q := by
    rw [c, ← hsq]
    ring
  exact mul_right_cancel₀ hq h

/-- The recurrences of the Schmidt semi-normalised functions, derived for the products
`A(n,m) S(n,m)` of Gauss-normalised values `A` and ratios `S` that obey the recurrences
of the loops of `MAG_PcupLow`. -/
lemma schmidt_normalised_rec (A S : Int → ℝ) (x z : ℝ) (nMax : Int)
    (hA0 : A (index 0 0) = 1)
    (hAd : ∀ n : Int, 1 ≤ n → n ≤ nMax → A (index n n) = z * A (index (n - 1) (n - 1)))
    (hAs : ∀ n : Int, 1 ≤ n → n ≤ nMax → A (index n (n - 1)) = x * A (index (n - 1) (n - 1)))
    (hAt : ∀ n m : Int, 0 ≤ m → m ≤ n - 2 → n ≤ nMax →
      A (index n m) = x * A (index (n - 1) m) -
        (((n - 1) * (n - 1) - m * m : Int) : ℝ) / (((2 * n - 1) * (2 * n - 3) : Int) : ℝ) *
          A (index (n - 2) m))
    (hS0 : S (index 0 0) = 1)
    (hrow0 : ∀ n : Int, 1 ≤ n → n ≤ nMax →
      S (index n 0) = S (index (n - 1) 0) * ((2 * n - 1 : Int) : ℝ) / ((n : Int) : ℝ))
    (hrow : ∀ n m : Int, 1 ≤ m → m ≤ n → n ≤ nMax →
      S (index n m) = S (index n (m - 1)) *
        Real.sqrt ((((n - m + 1) * (if m = 1 then 2 else 1) : Int) : ℝ) /
          ((n + m : Int) : ℝ))) :
    A (index 0 0) * S (index 0 0) = 1 ∧
    (1 ≤ nMax → A (index 1 0) * S (index 1 0) = x ∧ A (index 1 1) * S (index 1 1) = z) ∧
    (∀ n : Int, 2 ≤ n → n ≤ nMax →
      A (index n 0) * S (index n 0) =
        ((2 * n - 1 : Int) : ℝ) / ((n : Int) : ℝ) * x *
            (A (index (n - 1) 0) * S (index (n - 1) 0)) -
          ((n - 1 : Int) : ℝ) / ((n : Int) : ℝ) *
            (A (index (n - 2) 0) * S (index (n - 2) 0))) ∧
    (∀ m : Int, 2 ≤ m → m ≤ nMax →
      A (index m m) * S (index m m) * Real.sqrt ((2 * m : Int) : ℝ) =
        z * Real.sqrt ((2 * m - 1 : Int) : ℝ) *
          (A (index (m - 1) (m - 1)) * S (index (m - 1) (m - 1)))) ∧
    (∀ m : Int, 1 ≤ m → m + 1 ≤ nMax →
      A (index (m + 1) m) * S (index (m + 1) m) =
        x * Real.sqrt ((2 * m + 1 : Int) : ℝ) * (A (index m m) * S (index m m))) ∧
    (∀ n m : Int, 1 ≤ m → m ≤ n - 2 → n ≤ nMax →
      A (index n m) * S (index n m) =
        x * (((2 * n - 1 : Int) : ℝ) / Real.sqrt ((n + m : Int) : ℝ) /
            Real.sqrt ((n - m : Int) : ℝ)) * (A (index (n - 1) m) * S (index (n - 1) m)) -
          Real.sqrt ((n - m - 1 : Int) : ℝ) * Real.sqrt ((n + m - 1 : Int) : ℝ) /
            Real.sqrt ((n + m : Int) : ℝ) / Real.sqrt ((n - m : Int) : ℝ) *
            (A (index (n - 2) m) * S (index (n - 2) m))) := by
  have hcol := schmidt_column S nMax hrow0 hrow
  refine ⟨by rw [hA0, hS0, mul_one], ?_, ?_, ?_, ?_, ?_⟩
  · intro h1
    have a10 := hAs 1 le_rfl h1
    have a11 := hAd 1 le_rfl h1
    have s10 := hrow0 1 le_rfl h1
    have s11 := hrow 1 1 le_rfl le_rfl h1
    simp only [sub_self] at a10 a11 s10 s11
    rw [hA0] at a10 a11
    rw [hS0] at s10
    rw [a10, a11, s11, s10]
    norm_num
  · intro n h2 hn
    have a := hAt n 0 le_rfl (by omega) hn
    have s1 := hrow0 n (by omega) hn
    have s2 := hrow0 (n - 1) (by omega) (by omega)
    rw [show n - 1 - 1 = n - 2 by ring] at s2
    rw [a, s1, s2]
    have hr : (2 : ℝ) ≤ ((n : Int) : ℝ) := by exact_mod_cast h2
    generalize A (index (n - 1) 0) = a1
    generalize A (index (n - 2) 0) = a2
    generalize S (index (n - 2) 0) = s0
    push_cast
    generalize ((n : Int) : ℝ) = r at hr
    have p1 : r ≠ 0 := by linarith
    have p2 : r - 1 ≠ 0 := by
      intro h
      linarith
    have p3 : 2 * r - 1 ≠ 0 := by
      intro h
      linarith
    have p4 : 2 * r - 3 ≠ 0 := by
      intro h
      linarith
    have p5 : 2 * (r - 1) - 1 ≠ 0 := by
      intro h
      linarith
    field_simp
    ring
  · intro m h2 hm
    have a := hAd m (by omega) hm
    have s := hrow m m (by omega) le_rfl hm
    have c := hcol m (m - 1) (by omega) le_rfl hm
    rw [if_neg (by omega : ¬ m = 1)] at s
    rw [show m + (m - 1) = 2 * m - 1 by ring, show m - (m - 1) = 1 by ring] at c
    rw [show (m - m + 1) * 1 = 1 by ring, show m + m = 2 * m by ring] at s
    have q1 := sqrt_intCast_ne_zero (2 * m) (by omega)
    have q2 := sqrt_intCast_ne_zero (2 * m - 1) (by omega)
    have hsq : Real.sqrt ((2 * m - 1 : Int) : ℝ) * Real.sqrt ((2 * m - 1 : Int) : ℝ) =
        ((2 * m - 1 : Int) : ℝ) :=
      Real.mul_self_sqrt (by exact_mod_cast (by omega : 0 ≤ 2 * m - 1))
    have p1 : (0 : ℝ) ≤ ((2 * m : Int) : ℝ) := by exact_mod_cast (by omega : 0 ≤ 2 * m)
    rw [Int.cast_one, Real.sqrt_one, mul_one] at c
    have c2 : S (index m (m - 1)) =
        Real.sqrt ((2 * m - 1 : Int) : ℝ) * S (index (m - 1) (m - 1)) :=
      cancel_sqrt _ _ _ _ q2 hsq c
    rw [a, s, c2, Int.cast_one, Real.sqrt_div' _ p1, Real.sqrt_one]
    generalize Real.sqrt ((2 * m : Int) : ℝ) = Q at q1 ⊢
    generalize Real.sqrt ((2 * m - 1 : Int) : ℝ) = q
    field_simp
    ring
  · intro m h1 hm
    have a := hAs (m + 1) (by omega) hm
    have c := hcol (m + 1) m (by omega) (by omega) hm
    rw [add_sub_cancel_right] at a c
    rw [show m + 1 + m = 2 * m + 1 by ring, show m + 1 - m = 1 by ring,
      show 2 * (m + 1) - 1 = 2 * m + 1 by ring, Int.cast_one, Real.sqrt_one, mul_one] at c
    have q2 := sqrt_intCast_ne_zero (2 * m + 1) (by omega)
    have hsq : Real.sqrt ((2 * m + 1 : Int) : ℝ) * Real.sqrt ((2 * m + 1 : Int) : ℝ) =
        ((2 * m + 1 : Int) : ℝ) :=
      Real.mul_self_sqrt (by exact_mod_cast (by omega : 0 ≤ 2 * m + 1))
    have c2 : S (index (m + 1) m) = Real.sqrt ((2 * m + 1 : Int) : ℝ) * S (index m m) :=
      cancel_sqrt _ _ _ _ q2 hsq c
    rw [a, c2]
    ring
  · intro n m h1 hm hn
    have a := hAt n m (by omega) hm hn
    have c1 := hcol n m (by omega) (by omega) hn
    have c2 := hcol (n - 1) m (by omega) (by omega) (by omega)
    rw [show n - 1 - 1 = n - 2 by ring, show n - 1 + m = n + m - 1 by ring,
      show n - 1 - m = n - m - 1 by ring, show 2 * (n - 1) - 1 = 2 * n - 3 by ring] at c2
    have q1 := sqrt_intCast_ne_zero (n + m) (by omega)
    have q2 := sqrt_intCast_ne_zero (n - m) (by omega)
    have q3 := sqrt_intCast_ne_zero (n + m - 1) (by omega)
    have q4 := sqrt_intCast_ne_zero (n - m - 1) (by omega)
    have hs3 : Real.sqrt ((n + m - 1 : Int) : ℝ) * Real.sqrt ((n + m - 1 : Int) : ℝ) =
        ((n + m - 1 : Int) : ℝ) :=
      Real.mul_self_sqrt (by exact_mod_cast (by omega : 0 ≤ n + m - 1))
    have hs4 : Real.sqrt ((n - m - 1 : Int) : ℝ) * Real.sqrt ((n - m - 1 : Int) : ℝ) =
        ((n - m - 1 : Int) : ℝ) :=
      Real.mul_self_sqrt (by exact_mod_cast (by omega : 0 ≤ n - m - 1))
    have hk : (((n - 1) * (n - 1) - m * m : Int) : ℝ) =
        ((n + m - 1 : Int) : ℝ) * ((n - m - 1 : Int) : ℝ) := by
      push_cast
      ring
    have hd : (((2 * n - 1) * (2 * n - 3) : Int) : ℝ) =
        ((2 * n - 1 : Int) : ℝ) * ((2 * n - 3 : Int) : ℝ) := by
      push_cast
      ring
    have p1 : ((2 * n - 1 : Int) : ℝ) ≠ 0 := by exact_mod_cast (by omega : 2 * n - 1 ≠ 0)
    have p2 : ((2 * n - 3 : Int) : ℝ) ≠ 0 := by exact_mod_cast (by omega : 2 * n - 3 ≠ 0)
    rw [hk, hd] at a
    generalize Real.sqrt ((n + m : Int) : ℝ) = Q1 at c1 q1 ⊢
    generalize Real.sqrt ((n - m : Int) : ℝ) = Q2 at c1 q2 ⊢
    generalize Real.sqrt ((n + m - 1 : Int) : ℝ) = Q3 at c2 q3 hs3 ⊢
    generalize Real.sqrt ((n - m - 1 : Int) : ℝ) = Q4 at c2 q4 hs4 ⊢
    generalize ((n + m - 1 : Int) : ℝ) = v3 at hs3 a
    generalize ((n - m - 1 : Int) : ℝ) = v4 at hs4 a
    generalize ((2 * n - 1 : Int) : ℝ) = d1 at c1 a p1 ⊢
    generalize ((2 * n - 3 : Int) : ℝ) = d2 at c2 a p2
    generalize A (index n m) = An at a ⊢
    generalize A (index (n - 1) m) = A1 at a ⊢
    generalize A (index (n - 2) m) = A2 at a ⊢
    generalize S (index n m) = Sn at c1 ⊢
    generalize S (index (n - 1) m) = S1 at c1 c2 ⊢
    generalize S (index (n - 2) m) = S2 at c2 ⊢
    subst hs3
    subst hs4
    have e1 : Sn = d1 * S1 / (Q1 * Q2) := by
      rw [eq_div_iff (mul_ne_zero q1 q2)]
      exact c1
    have e2 : S1 = d2 * S2 / (Q3 * Q4) := by
      rw [eq_div_iff (mul_ne_zero q3 q4)]
      exact c2
    rw [a, e1, e2]
    field_simp
    ring

end SchmidtRecurrences

section LowRecurrences

/-- The values that `MAG_PcupLow` returns obey the recurrences of the Schmidt
semi-normalised functions, with `z = sqrt((1 - x)(1 + x))`. -/
lemma MAG_PcupLow_schmidt_rec (P : MAGtype_LegendreFunction ℝ) (x : ℝ) (nMax : Int)
    (q0 : Int → ℝ) :
    (0 ≤ nMax → (MAG_PcupLow realLibm P x nMax q0).2.Pcup (index 0 0) = 1) ∧
    (1 ≤ nMax → (MAG_PcupLow realLibm P x nMax q0).2.Pcup (index 1 0) = x ∧
      (MAG_PcupLow realLibm P x nMax q0).2.Pcup (index 1 1) =
        Real.sqrt ((1.0 - x) * (1.0 + x))) ∧
    (∀ n : Int, 2 ≤ n → n ≤ nMax →
      (MAG_PcupLow realLibm P x nMax q0).2.Pcup (index n 0) =
        ((2 * n - 1 : Int) : ℝ) / ((n : Int) : ℝ) * x *
            (MAG_PcupLow realLibm P x nMax q0).2.Pcup (index (n - 1) 0) -
          ((n - 1 : Int) : ℝ) / ((n : Int) : ℝ) *
            (MAG_PcupLow realLibm P x nMax q0).2.Pcup (index (n - 2) 0)) ∧
    (∀ m : Int, 2 ≤ m → m ≤ nMax →
      (MAG_PcupLow realLibm P x nMax q0).2.Pcup (index m m) *
          Real.sqrt ((2 * m : Int) : ℝ) =
        Real.sqrt ((1.0 - x) * (1.0 + x)) * Real.sqrt ((2 * m - 1 : Int) : ℝ) *
          (MAG_PcupLow realLibm P x nMax q0).2.Pcup (index (m - 1) (m - 1))) ∧
    (∀ m : Int, 1 ≤ m → m + 1 ≤ nMax →
      (MAG_PcupLow realLibm P x nMax q0).2.Pcup (index (m + 1) m) =
        x * Real.sqrt ((2 * m + 1 : Int) : ℝ) *
          (MAG_PcupLow realLibm P x nMax q0).2.Pcup (index m m)) ∧
    (∀ n m : Int, 1 ≤ m → m ≤ n - 2 → n ≤ nMax →
      (MAG_PcupLow realLibm P x nMax q0).2.Pcup (index n m) =
        x * (((2 * n - 1 : Int) : ℝ) / Real.sqrt ((n + m : Int) : ℝ) /
            Real.sqrt ((n - m : Int) : ℝ)) *
            (MAG_PcupLow realLibm P x nMax q0).2.Pcup (index (n - 1) m) -
          Real.sqrt ((n - m - 1 : Int) : ℝ) * Real.sqrt ((n + m - 1 : Int) : ℝ) /
            Real.sqrt ((n + m : Int) : ℝ) / Real.sqrt ((n - m : Int) : ℝ) *
            (MAG_PcupLow realLibm P x nMax q0).2.Pcup (index (n - 2) m)) := by
  have hW := MAG_PcupLow_Pcup_eq P x nMax q0
  obtain ⟨hS0, hrow0, hrow⟩ := PcupLow_schmidtQuasiNorm_spec realLibm nMax q0
  have hA := PcupLow_gauss_spec x (Real.sqrt ((1.0 - x) * (1.0 + x))) nMax
    { Pcup := Function.update P.Pcup 0 1.0, dPcup := Function.update P.dPcup 0 0.0 }
  have hA0 := PcupLow_gauss_origin x (Real.sqrt ((1.0 - x) * (1.0 + x))) nMax P
  obtain ⟨r0, r1, r2, r3, r4, r5⟩ := schmidt_normalised_rec _ _ x
    (Real.sqrt ((1.0 - x) * (1.0 + x))) nMax hA0
    (fun n h1 hn => ((hA n n h1 hn (by omega) le_rfl).1 rfl).1)
    (fun n h1 hn => ((hA n (n - 1) h1 hn (by omega) (by omega)).2.1 rfl).1)
    (fun n m h0 hm hn => ((hA n m (by omega) hn h0 (by omega)).2.2 hm).1)
    hS0 hrow0 hrow
  refine ⟨?_, ?_, ?_, ?_, ?_, ?_⟩
  · intro h0
    rw [hW 0 0 le_rfl le_rfl h0]
    exact r0
  · intro h1
    rw [hW 1 0 le_rfl (by omega) h1, hW 1 1 (by omega) le_rfl h1]
    exact r1 h1
  · intro n h2 hn
    rw [hW n 0 le_rfl (by omega) hn, hW (n - 1) 0 le_rfl (by omega) (by omega),
      hW (n - 2) 0 le_rfl (by omega) (by omega)]
    exact r2 n h2 hn
  · intro m h2 hm
    rw [hW m m (by omega) le_rfl hm, hW (m - 1) (m - 1) (by omega) le_rfl (by omega)]
    exact r3 m h2 hm
  · intro m h1 hm
    rw [hW (m + 1) m (by omega) (by omega) hm, hW m m (by omega) le_rfl (by omega)]
    exact r4 m h1 hm
  · intro n m h1 hm hn
    rw [hW n m (by omega) (by omega) hn, hW (n - 1) m (by omega) (by omega) (by omega),
      hW (n - 2) m (by omega) (by omega) (by omega)]
    exact r5 n m h1 hm hn

end LowRecurrences

section HighTables

/-- The invariant rule in the form used on a loop inside a larger expression. -/
lemma forLoop_invariant_of {σ : Type} (lo hi : Int) (body : Int → σ → σ) (s : σ)
    (P : Int → σ → Prop) (C : σ → Prop) (hle : lo ≤ hi + 1) (h0 : P lo s)
    (hstep : ∀ i t, lo ≤ i → i ≤ hi → P i t → P (i + 1) (body i t))
    (hC : ∀ F, P (hi + 1) F → C F) : C (forLoop lo hi body s) :=
  hC _ (forLoop_invariant lo hi body s P hle h0 hstep)

/-- A loop that stores `g n` in the cell `n` tabulates `g` on its range. -/
lemma forLoop_tabulate {β : Type} (lo hi : Int) (g : Int → β) (a0 : Int → β) (j : Int)
    (h1 : lo ≤ j) (h2 : j ≤ hi) :
    forLoop lo hi (fun n a => Function.update a n (g n)) a0 j = g j := by
  have key := forLoop_invariant lo hi (fun n a => Function.update a n (g n)) a0
    (fun i a => ∀ j, lo ≤ j → j < i → a j = g j) (by omega)
    (fun j h1 h2 => by omega)
    (fun i t _ _ ht j hj1 hj2 => by
      by_cases h : j = i
      · subst h
        simp
      · simp only [Function.update_noteq h]
        exact ht j hj1 (by omega))
  exact key j h1 (by omega)

/-- The tables `f1`, `f2` of `MAG_PcupHigh`: the counter `k` runs through the slots
`index n m`, `0 ≤ m ≤ n - 2`, of the degrees `n = 2 .. nMax`. -/
lemma PcupHigh_f_spec {α : Type} [LinearOrderedField α] (PreSqr : Int → α) (nMax : Int)
    (f1 f2 : Int → α) (n m : Int) (h2 : 2 ≤ n) (hn : n ≤ nMax) (hm : 0 ≤ m)
    (hmn : m ≤ n - 2) :
    (PcupHigh_f PreSqr nMax f1 f2).2.1 (index n m) =
      (if m = 0 then ((2 * n - 1 : Int) : α) / ((n : Int) : α)
        else ((2 * n - 1 : Int) : α) / PreSqr (n + m) / PreSqr (n - m)) ∧
    (PcupHigh_f PreSqr nMax f1 f2).2.2 (index n m) =
      (if m = 0 then ((n - 1 : Int) : α) / ((n : Int) : α)
        else PreSqr (n - m - 1) * PreSqr (n + m - 1) / PreSqr (n + m) / PreSqr (n - m)) := by
  unfold PcupHigh_f
  refine forLoop_invariant_of 2 nMax _ _
    (fun i (st : Int × (Int → α) × (Int → α)) => st.1 = index (i - 1) (i - 1) ∧
      ∀ n m : Int, 2 ≤ n → n < i → 0 ≤ m → m ≤ n - 2 →
        st.2.1 (index n m) =
          (if m = 0 then ((2 * n - 1 : Int) : α) / ((n : Int) : α)
            else ((2 * n - 1 : Int) : α) / PreSqr (n + m) / PreSqr (n - m)) ∧
        st.2.2 (index n m) =
          (if m = 0 then ((n - 1 : Int) : α) / ((n : Int) : α)
            else PreSqr (n - m - 1) * PreSqr (n + m - 1) / PreSqr (n + m) /
              PreSqr (n - m)))
    (fun st => st.2.1 (index n m) =
        (if m = 0 then ((2 * n - 1 : Int) : α) / ((n : Int) : α)
          else ((2 * n - 1 : Int) : α) / PreSqr (n + m) / PreSqr (n - m)) ∧
      st.2.2 (index n m) =
        (if m = 0 then ((n - 1 : Int) : α) / ((n : Int) : α)
          else PreSqr (n - m - 1) * PreSqr (n + m - 1) / PreSqr (n + m) / PreSqr (n - m)))
    (by omega) ?_ ?_ ?_
  · exact ⟨rfl, fun n m h2 h3 => by omega⟩
  · intro i st hi1 hi2 ⟨hk, hst⟩
    simp only []
    refine forLoop_invariant_of 1 (i - 2) _ _
      (fun j (t : Int × (Int → α) × (Int → α)) => t.1 = index i (j - 1) ∧
        ∀ n m : Int, 2 ≤ n → 0 ≤ m → m ≤ n - 2 → (n < i ∨ (n = i ∧ m < j)) →
          t.2.1 (index n m) =
            (if m = 0 then ((2 * n - 1 : Int) : α) / ((n : Int) : α)
              else ((2 * n - 1 : Int) : α) / PreSqr (n + m) / PreSqr (n - m)) ∧
          t.2.2 (index n m) =
            (if m = 0 then ((n - 1 : Int) : α) / ((n : Int) : α)
              else PreSqr (n - m - 1) * PreSqr (n + m - 1) / PreSqr (n + m) /
                PreSqr (n - m)))
      (fun t => (t.1 + 2, t.2.1, t.2.2).1 = index (i + 1 - 1) (i + 1 - 1) ∧
        ∀ n m : Int, 2 ≤ n → n < i + 1 → 0 ≤ m → m ≤ n - 2 →
          (t.1 + 2, t.2.1, t.2.2).2.1 (index n m) =
            (if m = 0 then ((2 * n - 1 : Int) : α) / ((n : Int) : α)
              else ((2 * n - 1 : Int) : α) / PreSqr (n + m) / PreSqr (n - m)) ∧
          (t.1 + 2, t.2.1, t.2.2).2.2 (index n m) =
            (if m = 0 then ((n - 1 : Int) : α) / ((n : Int) : α)
              else PreSqr (n - m - 1) * PreSqr (n + m - 1) / PreSqr (n + m) /
                PreSqr (n - m)))
      (by omega) ?_ ?_ ?_
    · have hk1 : st.1 + 1 = index i 0 := by
        rw [hk]
        have e1 := two_mul_index (i - 1) (i - 1) (by omega)
        have e2 := two_mul_index i 0 (by omega)
        nlinarith
      refine ⟨by simp only [hk1, sub_self], ?_⟩
      intro n m h2 hm hmn hlex
      by_cases hc : n = i ∧ m = 0
      · obtain ⟨hc1, hc2⟩ := hc
        subst hc1
        subst hc2
        rw [hk1, if_pos rfl, if_pos rfl]
        simp only [Function.update_same]
        exact ⟨trivial, trivial⟩
      · have hlt : n < i := by omega
        have hne : index n m ≠ st.1 + 1 := by
          rw [hk1]
          exact ne_of_lt (index_lt_index n m i 0 (by omega) (by omega) hlt le_rfl)
        simp only [Function.update_noteq hne]
        exact hst n m h2 hlt hm hmn
    · intro j t hj1 hj2 ⟨hk, ht⟩
      have hk1 : t.1 + 1 = index i j := by
        rw [hk]
        unfold index
        ring
      refine ⟨by simp only [hk1, add_sub_cancel_right], ?_⟩
      intro n m h2 hm hmn hlex
      by_cases hc : n = i ∧ m = j
      · obtain ⟨hc1, hc2⟩ := hc
        subst hc1
        subst hc2
        rw [hk1, if_neg (by omega : ¬ m = 0), if_neg (by omega : ¬ m = 0)]
        simp only [Function.update_same]
        exact ⟨trivial, trivial⟩
      · have hne : index n m ≠ t.1 + 1 := by
          rw [hk1]
          intro e
          exact hc (index_injective n m i j hm (by omega) (by omega) (by omega) e)
        simp only [Function.update_noteq hne]
        exact ht n m h2 hm hmn (by omega)
    · intro t ⟨hk, ht⟩
      simp only [add_sub_cancel_right] at hk ⊢
      refine ⟨?_, ?_⟩
      · rw [hk]
        unfold index
        ring
      · intro n m h2 hlt hm hmn
        exact ht n m h2 hm hmn (by omega)
  · intro st ⟨_, hst⟩
    exact hst n m h2 (by omega) hm hmn

end HighTables

section HighClaim

/-- The slot of the next degree, same order, lies `n` cells further. -/
lemma index_add_degree (n m : Int) (h : 1 ≤ n) : index (n - 1) m + n = index n m := by
  have e1 := two_mul_index (n - 1) m (by omega)
  have e2 := two_mul_index n m (by omega)
  nlinarith

/-- The slot of the next diagonal term lies `m + 1` cells further. -/
lemma index_add_diag (m : Int) (h : 1 ≤ m) : index (m - 1) (m - 1) + m + 1 = index m m := by
  have e1 := two_mul_index (m - 1) (m - 1) (by omega)
  have e2 := two_mul_index m m (by omega)
  nlinarith

/-- A cell after a store of the value expected in the stored slot. -/
lemma update_agree (f g : Int → ℝ) (k : Int) (v : ℝ) (j : Int) (hv : v = g k)
    (hj : j ≠ k → f j = g j) : Function.update f k v j = g j := by
  by_cases h : j = k
  · subst h
    simp [hv]
  · rw [Function.update_noteq h]
    exact hj h

/-- The values that `MAG_PcupHigh` and `MAG_PcupLow` return in `Pcup` agree on the
triangle `0 ≤ m ≤ n ≤ nMax`, over the reals and for `|x| < 1`. -/
lemma MAG_PcupHigh_Pcup_eq (P Q : MAGtype_LegendreFunction ℝ) (x : ℝ) (nMax : Int)
    (q0 f1_0 f2_0 PreSqr_0 : Int → ℝ) (hx : |x| < 1) (n m : Int) (hm : 0 ≤ m) (hmn : m ≤ n)
    (hn : n ≤ nMax) :
    (MAG_PcupHigh realLibm Q x nMax f1_0 f2_0 PreSqr_0).2.Pcup (index n m) =
      (MAG_PcupLow realLibm P x nMax q0).2.Pcup (index n m) := by
  obtain ⟨r0, r1, r2, r3, r4, r5⟩ := MAG_PcupLow_schmidt_rec P x nMax q0
  generalize (MAG_PcupLow realLibm P x nMax q0).2.Pcup = Lw at r0 r1 r2 r3 r4 r5 ⊢
  obtain ⟨hx1, hx2⟩ := abs_lt.mp hx
  have hzpos : 0 < Real.sqrt ((1.0 - x) * (1.0 + x)) := by
    apply Real.sqrt_pos.mpr
    norm_num
    nlinarith
  have hfabs : ¬ fabs x = 1.0 := by
    unfold fabs
    norm_num
    exact ne_of_lt hx
  unfold MAG_PcupHigh
  simp only []
  have hsq : realLibm.sqrt = Real.sqrt := rfl
  rw [hsq, if_neg (ne_of_gt hzpos), if_neg hfabs]
  by_cases h0 : nMax = 0
  · rw [if_pos h0]
    have hn0 : n = 0 := by omega
    have hm0 : m = 0 := by omega
    subst hn0
    subst hm0
    rw [r0 (by omega)]
    have e0 : index 0 0 = 0 := rfl
    rw [e0]
    norm_num
  rw [if_neg h0]
  have h1 : 1 ≤ nMax := by omega
  have hPre := fun j h1 h2 => forLoop_tabulate 0 (2 * nMax + 1)
    (fun n => Real.sqrt ((n : Int) : ℝ)) PreSqr_0 j h1 h2
  generalize forLoop 0 (2 * nMax + 1)
    (fun n PreSqr => Function.update PreSqr n (Real.sqrt ((n : Int) : ℝ))) PreSqr_0 =
      PreSqr at hPre ⊢
  have hf := PcupHigh_f_spec PreSqr nMax f1_0 f2_0
  generalize PcupHigh_f PreSqr nMax f1_0 f2_0 = f at hf ⊢
  generalize Real.sqrt ((1.0 - x) * (1.0 + x)) = z at hzpos r1 r3 ⊢
  dsimp only
  have hP0 : ∀ j : Int, 1 ≤ j → j ≤ 2 * nMax + 1 → PreSqr j ≠ 0 := by
    intro j hj1 hj2
    rw [hPre j (by omega) hj2]
    exact sqrt_intCast_ne_zero j (by omega)
  generalize hS2 : forLoop 2 nMax _ _ = S2
  have inv2 : ∀ n1 : Int, 0 ≤ n1 → n1 ≤ nMax → S2.P.Pcup (index n1 0) = Lw (index n1 0) := by
    rw [← hS2]
    refine forLoop_invariant_of 2 nMax _ _
      (fun i (s : PcupHighState ℝ) => s.k = index (i - 1) 0 ∧ s.pm1 = Lw (index (i - 1) 0) ∧
        s.pm2 = Lw (index (i - 2) 0) ∧
        ∀ n1 : Int, 0 ≤ n1 → n1 < i → s.P.Pcup (index n1 0) = Lw (index n1 0))
      (fun (s : PcupHighState ℝ) =>
        ∀ n1 : Int, 0 ≤ n1 → n1 ≤ nMax → s.P.Pcup (index n1 0) = Lw (index n1 0))
      (by omega) ?_ ?_ ?_
    · refine ⟨rfl, (r1 h1).1.symm, ?_, ?_⟩
      · rw [sub_self, r0 (by omega)]
        norm_num
      · intro n1 hn1 hn2
        rcases (by omega : n1 = 0 ∨ n1 = 1) with h | h
        · subst h
          have e0 : index 0 0 = 0 := rfl
          rw [r0 (by omega), e0]
          norm_num
        · subst h
          have e1 : index 1 0 = 1 := rfl
          rw [(r1 h1).1, e1]
          simp
    · intro i s hi1 hi2 ⟨hk, hp1, hp2, hc⟩
      have hk1 : s.k + i = index i 0 := by
        rw [hk]
        exact index_add_degree i 0 (by omega)
      have hv : f.2.1 (s.k + i) * x * s.pm1 - f.2.2 (s.k + i) * s.pm2 = Lw (index i 0) := by
        obtain ⟨hf1, hf2⟩ := hf i 0 hi1 hi2 le_rfl (by omega)
        rw [if_pos rfl] at hf1 hf2
        rw [hk1, hf1, hf2, hp1, hp2, r2 i hi1 hi2]
      dsimp only
      rw [add_sub_cancel_right, show i + 1 - 2 = i - 1 by ring]
      refine ⟨hk1, hv, hp1, ?_⟩
      intro n1 hn1 hn2
      refine update_agree _ Lw _ _ _ (by rw [hv, hk1]) ?_
      intro hne
      refine hc n1 hn1 ?_
      rcases eq_or_lt_of_le (by omega : n1 ≤ i) with h | h
      · exact absurd (by rw [h, hk1]) hne
      · exact h
    · intro F ⟨_, _, _, hc⟩ n1 hn1 hn2
      exact hc n1 hn1 (by omega)
  clear hS2
  refine forLoop_invariant_of 1 (nMax - 1) _ _
    (fun i (s : PcupHighState ℝ) => s.kstart = index (i - 1) (i - 1) ∧
      s.pmm * s.rescalem * z = PreSqr (2 * i) * Lw (index i i) ∧
      ∀ n1 m1 : Int, 0 ≤ m1 → m1 < i → m1 ≤ n1 → n1 ≤ nMax →
        s.P.Pcup (index n1 m1) = Lw (index n1 m1))
    (fun (s4 : PcupHighState ℝ) =>
      Function.update s4.P.Pcup (s4.kstart + max 1 nMax + 1)
        (s4.pmm / PreSqr (2 * nMax) * (s4.rescalem * z)) (index n m) = Lw (index n m))
    (by omega) ?_ ?_ ?_
  · refine ⟨rfl, ?_, ?_⟩
    · dsimp only
      have hsc : (1.0e-280 : ℝ) ≠ 0 := by norm_num
      have h10 : (1.0 : ℝ) = 1 := by norm_num
      rw [(r1 h1).2, h10, show (2 : Int) * 1 = 2 from rfl]
      generalize (1.0e-280 : ℝ) = sc at hsc ⊢
      field_simp
    · intro n1 m1 hm1 hm2 hm3 hn1
      have : m1 = 0 := by omega
      subst this
      exact inv2 n1 (by omega) hn1
  · intro i s hi1 hi2 ⟨hk, hJ, hc⟩
    have hks : s.kstart + i + 1 = index i i := by
      rw [hk]
      exact index_add_diag i hi1
    have hks2 : index i i + i + 1 = index (i + 1) i := by
      have := index_add_degree (i + 1) i (by omega)
      rw [add_sub_cancel_right] at this
      linarith
    have hq1 := hP0 (2 * i) (by omega) (by omega)
    have hq2 := hP0 (2 * i + 1) (by omega) (by omega)
    have hd : s.pmm * PreSqr (2 * i + 1) / PreSqr (2 * i) * (s.rescalem * z) /
        PreSqr (2 * i + 1) = Lw (index i i) := by
      rw [eq_comm, ← mul_right_inj' hq1, ← hJ]
      field_simp
      ring
    have hpm2 : s.pmm * PreSqr (2 * i + 1) / PreSqr (2 * i) / PreSqr (2 * i + 1) *
        (s.rescalem * z) = Lw (index i i) := by
      rw [← hd]
      ring
    have hsub : x * PreSqr (2 * i + 1) *
        (s.pmm * PreSqr (2 * i + 1) / PreSqr (2 * i) / PreSqr (2 * i + 1)) *
        (s.rescalem * z) = Lw (index (i + 1) i) := by
      rw [r4 i hi1 (by omega), ← hpm2, hPre (2 * i + 1) (by omega) (by omega)]
      ring
    rw [hks, hks2]
    refine forLoop_invariant_of (i + 2) nMax _ _
      (fun j (t : PcupHighState ℝ) => t.k = index (j - 1) i ∧ t.kstart = index i i ∧
        t.rescalem = s.rescalem * z ∧ t.pmm = s.pmm * PreSqr (2 * i + 1) / PreSqr (2 * i) ∧
        t.pm1 * t.rescalem = Lw (index (j - 1) i) ∧
        t.pm2 * t.rescalem = Lw (index (j - 2) i) ∧
        ∀ n1 m1 : Int, 0 ≤ m1 → m1 ≤ n1 → n1 ≤ nMax → (m1 < i ∨ (m1 = i ∧ n1 < j)) →
          t.P.Pcup (index n1 m1) = Lw (index n1 m1))
      (fun (t : PcupHighState ℝ) => t.kstart = index (i + 1 - 1) (i + 1 - 1) ∧
        t.pmm * t.rescalem * z = PreSqr (2 * (i + 1)) * Lw (index (i + 1) (i + 1)) ∧
        ∀ n1 m1 : Int, 0 ≤ m1 → m1 < i + 1 → m1 ≤ n1 → n1 ≤ nMax →
          t.P.Pcup (index n1 m1) = Lw (index n1 m1))
      (by omega) ?_ ?_ ?_
    · dsimp only
      rw [show i + 2 - 1 = i + 1 by ring, show i + 2 - 2 = i by ring]
      refine ⟨rfl, rfl, rfl, rfl, hsub, hpm2, ?_⟩
      intro n1 m1 hm1 hmn1 hn1 hlex
      refine update_agree _ Lw _ _ _ hsub ?_
      intro hne1
      refine update_agree _ Lw _ _ _ hd ?_
      intro hne2
      refine hc n1 m1 hm1 ?_ hmn1 hn1
      rcases hlex with h | ⟨h, h2⟩
      · exact h
      · exfalso
        rcases (by omega : n1 = i ∨ n1 = i + 1) with e | e
        · exact hne2 (by rw [h, e])
        · exact hne1 (by rw [h, e])
    · intro j t hj1 hj2 ⟨tk, tks, tr, tp, t1, t2, tc⟩
      have hkj : t.k + j = index j i := by
        rw [tk]
        exact index_add_degree j i (by omega)
      obtain ⟨hf1, hf2⟩ := hf j i (by omega) hj2 (by omega) (by omega)
      rw [if_neg (by omega : ¬ i = 0)] at hf1 hf2
      have hv : (x * f.2.1 (t.k + j) * t.pm1 - f.2.2 (t.k + j) * t.pm2) * t.rescalem =
          Lw (index j i) := by
        rw [hkj, hf1, hf2, r5 j i hi1 (by omega) hj2, ← t1, ← t2,
          hPre (j + i) (by omega) (by omega), hPre (j - i) (by omega) (by omega),
          hPre (j - i - 1) (by omega) (by omega), hPre (j + i - 1) (by omega) (by omega)]
        ring
      dsimp only
      rw [add_sub_cancel_right, show j + 1 - 2 = j - 1 by ring]
      refine ⟨hkj, tks, tr, tp, hv, t1, ?_⟩
      intro n1 m1 hm1 hmn1 hn1 hlex
      refine update_agree _ Lw _ _ _ (by rw [hv, hkj]) ?_
      intro hne
      refine tc n1 m1 hm1 hmn1 hn1 ?_
      rcases hlex with h | ⟨h, h2⟩
      · exact Or.inl h
      · refine Or.inr ⟨h, ?_⟩
        rcases eq_or_lt_of_le (by omega : n1 ≤ j) with e | e
        · exact absurd (by rw [h, e, hkj]) hne
        · exact e
    · intro F ⟨_, tks, tr, tp, _, _, tc⟩
      rw [add_sub_cancel_right]
      refine ⟨tks, ?_, ?_⟩
      · have r := r3 (i + 1) (by omega) (by omega)
        rw [show 2 * (i + 1) - 1 = 2 * i + 1 by ring, add_sub_cancel_right,
          ← hPre (2 * (i + 1)) (by omega) (by omega),
          ← hPre (2 * i + 1) (by omega) (by omega)] at r
        rw [tp, tr, mul_comm (PreSqr (2 * (i + 1))) _, r, ← hd]
        field_simp
        ring
      · intro n1 m1 hm1 hm2 hmn1 hn1
        exact tc n1 m1 hm1 hmn1 hn1 (by omega)
  · intro F ⟨hk, hJ, hc⟩
    rw [sub_add_cancel] at hk hJ hc
    rw [max_eq_right h1, hk, index_add_diag nMax h1]
    refine update_agree _ Lw _ _ _ ?_ ?_
    · have hne := hP0 (2 * nMax) (by omega) (by omega)
      rw [eq_comm, ← mul_right_inj' hne, ← hJ]
      field_simp
      ring
    · intro hne
      refine hc n m hm ?_ hmn hn
      by_contra hcon
      have h3 : m = nMax := by omega
      have h4 : n = nMax := by omega
      exact hne (by rw [h3, h4])

/-- C13: for `|x| < 1` and `0 ≤ m ≤ n ≤ nMax`, the value `Pcup[index n m]` computed by
`MAG_PcupHigh` is the one computed by `MAG_PcupLow` (in exact arithmetic they are the same
Schmidt semi-normalised function), so the two agree to within `1e-8`; for `nMax ≥ 1`
`MAG_PcupHigh` runs to its end and returns `TRUE`. -/
theorem MAG_PcupHigh_agrees_with_MAG_PcupLow (P Q : MAGtype_LegendreFunction ℝ) (x : ℝ)
    (nMax : Int) (q0 f1_0 f2_0 PreSqr_0 : Int → ℝ) (n m : Int) (hx : |x| < 1) (hm : 0 ≤ m)
    (hmn : m ≤ n) (hn : n ≤ nMax) :
    (MAG_PcupHigh realLibm Q x nMax f1_0 f2_0 PreSqr_0).2.Pcup (index n m) =
      (MAG_PcupLow realLibm P x nMax q0).2.Pcup (index n m) ∧
    |(MAG_PcupLow realLibm P x nMax q0).2.Pcup (index n m) -
      (MAG_PcupHigh realLibm Q x nMax f1_0 f2_0 PreSqr_0).2.Pcup (index n m)| ≤ 1.0e-8 ∧
    (1 ≤ nMax → (MAG_PcupHigh realLibm Q x nMax f1_0 f2_0 PreSqr_0).1 = TRUE) := by
  have key := MAG_PcupHigh_Pcup_eq P Q x nMax q0 f1_0 f2_0 PreSqr_0 hx n m hm hmn hn
  refine ⟨key, ?_, ?_⟩
  · rw [key, sub_self, abs_zero]
    norm_num
  · intro h1
    obtain ⟨hx1, hx2⟩ := abs_lt.mp hx
    have hzpos : 0 < Real.sqrt ((1.0 - x) * (1.0 + x)) := by
      apply Real.sqrt_pos.mpr
      norm_num
      nlinarith
    have hfabs : ¬ fabs x = 1.0 := by
      unfold fabs
      norm_num
      exact ne_of_lt hx
    have hsq : realLibm.sqrt = Real.sqrt := rfl
    unfold MAG_PcupHigh
    simp only []
    rw [hsq, if_neg (ne_of_gt hzpos), if_neg hfabs, if_neg (by omega : ¬ nMax = 0)]

/-- Instance of C13: degree 16, order 3 at `x = 1/2`, with `nMax = 16`. -/
theorem MAG_PcupHigh_agrees_with_MAG_PcupLow_witness :
    (|(1 / 2 : ℝ)| < 1 ∧ (0 : Int) ≤ 3 ∧ (3 : Int) ≤ 16 ∧ (16 : Int) ≤ 16) ∧
    (MAG_PcupHigh realLibm zeroScratch.LegendreFunction (1 / 2) 16 (fun _ => 0) (fun _ => 0)
        (fun _ => 0)).2.Pcup (index 16 3) =
      (MAG_PcupLow realLibm zeroScratch.LegendreFunction (1 / 2) 16
        (fun _ => 0)).2.Pcup (index 16 3) :=
  have hx : |(1 / 2 : ℝ)| < 1 := by
    rw [abs_lt]
    constructor <;> norm_num
  ⟨⟨hx, by decide, by decide, le_rfl⟩,
    (MAG_PcupHigh_agrees_with_MAG_PcupLow zeroScratch.LegendreFunction
      zeroScratch.LegendreFunction (1 / 2) 16 (fun _ => 0) (fun _ => 0) (fun _ => 0)
      (fun _ => 0) 16 3 hx (by decide) (by decide) le_rfl).1⟩

end HighClaim

section Cardano

end Cardano

section Ferrari

end Ferrari

section BorkowskiCore

end BorkowskiCore

section Geometry

end Geometry

section Longitude

/-- The macro `RAD2DEG` undoes `DEG2RAD`. -/
lemma RAD2DEG_DEG2RAD_real (x : ℝ) : RAD2DEG realLibm (DEG2RAD realLibm x) = x := by
  have hpi : Real.pi ≠ 0 := Real.pi_ne_zero
  simp only [DEG2RAD, RAD2DEG, realLibm]
  field_simp

end Longitude

section RoundTripLemmas

end RoundTripLemmas

section RoundTripPolar

end RoundTripPolar

section RoundTripAlgebra

end RoundTripAlgebra

section RoundTrip

end RoundTrip

section RoundTripClaim

end RoundTripClaim

section SecularSummationClaim

variable {α : Type} [LinearOrderedField α]

/-- C21: `MAG_SecVarSummation` applied to a model `M` returns the same vector
`(Bx, By, Bz)` as `MAG_Summation` applied to the model whose main-field arrays `G`, `H`
are the secular-variation arrays of `M` and whose `nMax` is the `nMaxSecVar` of `M`,
whatever the Legendre table, the harmonic variables and the spherical point are; the
equality holds in the generic branch and in the pole-special branch, where
`MAG_SecVarSummationSpecial` is `MAG_SummationSpecial` on that model. -/
theorem MAG_SecVarSummation_eq_MAG_Summation (L : Libm α)
    (LegendreFunction : MAGtype_LegendreFunction α) (MagneticModel : MAGtype_MagneticModel α)
    (SphVariables : MAGtype_SphericalHarmonicVariables α)
    (CoordSpherical : MAGtype_CoordSpherical α) (PcupS0 : Int → α) :
    (MAG_SecVarSummation L LegendreFunction MagneticModel SphVariables CoordSpherical
        PcupS0).2 =
      MAG_Summation L LegendreFunction
        { MagneticModel with
          Main_Field_Coeff_G := MagneticModel.Secular_Var_Coeff_G,
          Main_Field_Coeff_H := MagneticModel.Secular_Var_Coeff_H,
          nMax := MagneticModel.nMaxSecVar } SphVariables CoordSpherical PcupS0 ∧
    (fabs (L.cos (DEG2RAD L CoordSpherical.phig)) > 1.0e-10 →
      (MAG_SecVarSummation L LegendreFunction MagneticModel SphVariables CoordSpherical
          PcupS0).2 =
        { Summation_loop LegendreFunction MagneticModel.Secular_Var_Coeff_G
            MagneticModel.Secular_Var_Coeff_H MagneticModel.nMaxSecVar SphVariables with
          By := (Summation_loop LegendreFunction MagneticModel.Secular_Var_Coeff_G
            MagneticModel.Secular_Var_Coeff_H MagneticModel.nMaxSecVar SphVariables).By /
              L.cos (DEG2RAD L CoordSpherical.phig) }) ∧
    (¬ fabs (L.cos (DEG2RAD L CoordSpherical.phig)) > 1.0e-10 →
      (MAG_SecVarSummation L LegendreFunction MagneticModel SphVariables CoordSpherical
          PcupS0).2 =
        MAG_SummationSpecial L
          { MagneticModel with
            Main_Field_Coeff_G := MagneticModel.Secular_Var_Coeff_G,
            Main_Field_Coeff_H := MagneticModel.Secular_Var_Coeff_H,
            nMax := MagneticModel.nMaxSecVar } SphVariables CoordSpherical
          (Summation_loop LegendreFunction MagneticModel.Secular_Var_Coeff_G
            MagneticModel.Secular_Var_Coeff_H MagneticModel.nMaxSecVar SphVariables)
          PcupS0) := by
  refine ⟨?_, ?_, ?_⟩
  · unfold MAG_SecVarSummation MAG_Summation MAG_SecVarSummationSpecial MAG_SummationSpecial
    simp only []
    split_ifs <;> rfl
  · intro h
    unfold MAG_SecVarSummation
    simp only []
    rw [if_pos h]
  · intro h
    unfold MAG_SecVarSummation MAG_SecVarSummationSpecial MAG_SummationSpecial
    simp only []
    rw [if_neg h]

end SecularSummationClaim

section SecularElementsClaim

variable {α : Type} [LinearOrderedField α]

/-- C24: for an element record with `H ≠ 0` and `F ≠ 0` and a secular vector
`(Bx, By, Bz)`, `MAG_CalculateSecularVariationElements` sets `Xdot = Bx`, `Ydot = By`,
`Zdot = Bz`, `Hdot = (X Xdot + Y Ydot) / H`, `Fdot = (X Xdot + Y Ydot + Z Zdot) / F`,
`Decldot = (180 / pi) (X Ydot - Y Xdot) / H ^ 2`,
`Incldot = (180 / pi) (H Zdot - Z Hdot) / F ^ 2` and `GVdot = Decldot`, and leaves `X`,
`Y`, `Z`, `H`, `F`, `Decl`, `Incl` and `GV` as they were. -/
theorem MAG_CalculateSecularVariationElements_spec (L : Libm α)
    (MagneticVariation : MAGtype_MagneticResults α)
    (MagneticElements : MAGtype_GeoMagneticElements α)
    (_hH : MagneticElements.H ≠ 0) (_hF : MagneticElements.F ≠ 0) :
    (MAG_CalculateSecularVariationElements L MagneticVariation MagneticElements).Xdot =
      MagneticVariation.Bx ∧
    (MAG_CalculateSecularVariationElements L MagneticVariation MagneticElements).Ydot =
      MagneticVariation.By ∧
    (MAG_CalculateSecularVariationElements L MagneticVariation MagneticElements).Zdot =
      MagneticVariation.Bz ∧
    (MAG_CalculateSecularVariationElements L MagneticVariation MagneticElements).Hdot =
      (MagneticElements.X * MagneticVariation.Bx + MagneticElements.Y * MagneticVariation.By) /
        MagneticElements.H ∧
    (MAG_CalculateSecularVariationElements L MagneticVariation MagneticElements).Fdot =
      (MagneticElements.X * MagneticVariation.Bx + MagneticElements.Y * MagneticVariation.By +
        MagneticElements.Z * MagneticVariation.Bz) / MagneticElements.F ∧
    (MAG_CalculateSecularVariationElements L MagneticVariation MagneticElements).Decldot =
      (180 / L.M_PI) *
        (MagneticElements.X * MagneticVariation.By -
          MagneticElements.Y * MagneticVariation.Bx) / MagneticElements.H ^ 2 ∧
    (MAG_CalculateSecularVariationElements L MagneticVariation MagneticElements).Incldot =
      (180 / L.M_PI) *
        (MagneticElements.H * MagneticVariation.Bz -
          MagneticElements.Z *
            ((MagneticElements.X * MagneticVariation.Bx +
              MagneticElements.Y * MagneticVariation.By) / MagneticElements.H)) /
          MagneticElements.F ^ 2 ∧
    (MAG_CalculateSecularVariationElements L MagneticVariation MagneticElements).GVdot =
      (MAG_CalculateSecularVariationElements L MagneticVariation MagneticElements).Decldot ∧
    (MAG_CalculateSecularVariationElements L MagneticVariation MagneticElements).X =
      MagneticElements.X ∧
    (MAG_CalculateSecularVariationElements L MagneticVariation MagneticElements).Y =
      MagneticElements.Y ∧
    (MAG_CalculateSecularVariationElements L MagneticVariation MagneticElements).Z =
      MagneticElements.Z ∧
    (MAG_CalculateSecularVariationElements L MagneticVariation MagneticElements).H =
      MagneticElements.H ∧
    (MAG_CalculateSecularVariationElements L MagneticVariation MagneticElements).F =
      MagneticElements.F ∧
    (MAG_CalculateSecularVariationElements L MagneticVariation MagneticElements).Decl =
      MagneticElements.Decl ∧
    (MAG_CalculateSecularVariationElements L MagneticVariation MagneticElements).Incl =
      MagneticElements.Incl ∧
    (MAG_CalculateSecularVariationElements L MagneticVariation MagneticElements).GV =
      MagneticElements.GV := by
  have h180 : (180.0 : α) = 180 := by norm_num
  refine ⟨rfl, rfl, rfl, rfl, rfl, ?_, ?_, rfl, rfl, rfl, rfl, rfl, rfl, rfl, rfl, rfl⟩
  · show 180.0 / L.M_PI * (MagneticElements.X * MagneticVariation.By -
      MagneticElements.Y * MagneticVariation.Bx) / (MagneticElements.H * MagneticElements.H) = _
    rw [h180, pow_two]
  · show 180.0 / L.M_PI * (MagneticElements.H * MagneticVariation.Bz -
      MagneticElements.Z * ((MagneticElements.X * MagneticVariation.Bx +
        MagneticElements.Y * MagneticVariation.By) / MagneticElements.H)) /
        (MagneticElements.F * MagneticElements.F) = _
    rw [h180, pow_two]

/-- Instance of C24: a field `(X, Y, Z) = (3, 4, 12)` with `H = 5`, `F = 13` and the
secular vector `(1, 2, 3)` give `Hdot = 11 / 5`. -/
theorem MAG_CalculateSecularVariationElements_spec_witness :
    ((5 : ℝ) ≠ 0 ∧ (13 : ℝ) ≠ 0) ∧
    (MAG_CalculateSecularVariationElements realLibm
      ({ Bx := 1, By := 2, Bz := 3 } : MAGtype_MagneticResults ℝ)
      ({ zeroElements with F := 13, H := 5, X := 3, Y := 4, Z := 12 } :
        MAGtype_GeoMagneticElements ℝ)).Hdot = (3 * 1 + 4 * 2) / 5 :=
  ⟨⟨by norm_num, by norm_num⟩,
    (MAG_CalculateSecularVariationElements_spec realLibm
      ({ Bx := 1, By := 2, Bz := 3 } : MAGtype_MagneticResults ℝ)
      ({ zeroElements with F := 13, H := 5, X := 3, Y := 4, Z := 12 } :
        MAGtype_GeoMagneticElements ℝ)
      (by show (5 : ℝ) ≠ 0; norm_num) (by show (13 : ℝ) ≠ 0; norm_num)).2.2.2.1⟩

end SecularElementsClaim

section YearToDateClaim

/-- C26 (the code departs from it): for the decimal year 2025.999, in the last half day
of a year of 365 days, `MAG_YearToDate` computes `DayOfTheYear = 366`, which no turn of
its loop over the twelve months reaches: it returns `TRUE` with `Year = 2025` and leaves
in `Month` and `Day` what they held before the call, for instance 0 and 0, which is not
a calendar date. -/
theorem MAG_YearToDate_last_half_day (Year Month Day : Int) :
    (MAG_YearToDate
      ({ Year := Year, Month := Month, Day := Day, DecimalYear := 2025.999 } :
        MAGtype_Date ℚ)).1 = TRUE ∧
    (MAG_YearToDate
      ({ Year := Year, Month := Month, Day := Day, DecimalYear := 2025.999 } :
        MAGtype_Date ℚ)).2.Year = 2025 ∧
    (MAG_YearToDate
      ({ Year := Year, Month := Month, Day := Day, DecimalYear := 2025.999 } :
        MAGtype_Date ℚ)).2.Month = Month ∧
    (MAG_YearToDate
      ({ Year := Year, Month := Month, Day := Day, DecimalYear := 2025.999 } :
        MAGtype_Date ℚ)).2.Day = Day ∧
    ¬ (1 ≤ (MAG_YearToDate
      ({ Year := 0, Month := 0, Day := 0, DecimalYear := 2025.999 } :
        MAGtype_Date ℚ)).2.Month) := by
  have hne : ¬ ((2025.999 : ℚ) = 0) := by norm_num
  have hfl : Int.floor (2025.999 : ℚ) = 2025 := by
    rw [Int.floor_eq_iff]
    constructor <;> norm_num
  have hE : ExtraDay 2025 = 0 := by decide
  have hday : Int.floor (((2025.999 : ℚ) - ((2025 : Int) : ℚ)) *
      (365.0 + ((0 : Int) : ℚ)) + 0.5) + 1 = 366 := by
    have : Int.floor (((2025.999 : ℚ) - ((2025 : Int) : ℚ)) *
        (365.0 + ((0 : Int) : ℚ)) + 0.5) = 365 := by
      rw [Int.floor_eq_iff]
      constructor <;> norm_num
    rw [this]
    rfl
  have key : ∀ Y M D : Int, MAG_YearToDate
      ({ Year := Y, Month := M, Day := D, DecimalYear := 2025.999 } : MAGtype_Date ℚ) =
      (TRUE, { Year := 2025, Month := M, Day := D, DecimalYear := 2025.999 }) := by
    intro Y M D
    unfold MAG_YearToDate
    simp only []
    rw [if_neg hne, hfl, hE, hday]
    simp [forLoop, List.range_succ, MonthDays]
  rw [key Year Month Day, key 0 0 0]
  exact ⟨rfl, rfl, rfl, rfl, by decide⟩

end YearToDateClaim

section DateToYearLemmas

/-- The leap test of the two calendar routines is the Gregorian rule. -/
lemma ExtraDay_eq_gregorianLeapDays (y : Int) : ExtraDay y = gregorianLeapDays y := by
  unfold ExtraDay gregorianLeapDays
  have e : (Int.tmod y 4 = 0 ∧ Int.tmod y 100 ≠ 0) ∨ Int.tmod y 400 = 0 ↔
      (4 ∣ y ∧ ¬ 100 ∣ y) ∨ 400 ∣ y := by
    rw [Int.dvd_iff_tmod_eq_zero, Int.dvd_iff_tmod_eq_zero, Int.dvd_iff_tmod_eq_zero]
  exact if_congr e rfl rfl

/-- The cells `1 .. 12` of `MonthDays` hold the lengths of the months. -/
lemma MonthDays_eq_gregorianDaysInMonth (y m : Int) (h1 : 1 ≤ m) (h12 : m ≤ 12) :
    MonthDays (ExtraDay y) m = gregorianDaysInMonth y m := by
  rw [ExtraDay_eq_gregorianLeapDays]
  unfold MonthDays gregorianDaysInMonth
  interval_cases m <;> simp

/-- The loop `for(i = 1; i <= Month; i++) temp += MonthDays[i - 1]` of `MAG_DateToYear`
adds up the lengths of the months before `Month`. -/
lemma DateToYear_temp (y m d : Int) (h1 : 1 ≤ m) (h12 : m ≤ 12) :
    forLoop 1 m (fun i temp => temp + MonthDays (ExtraDay y) (i - 1)) 0 + d =
      gregorianDayOfYear y m d := by
  rw [ExtraDay_eq_gregorianLeapDays]
  unfold gregorianDayOfYear gregorianDaysInMonth
  generalize gregorianLeapDays y = E
  interval_cases m <;> simp [forLoop, List.range_succ, MonthDays] <;> ring

end DateToYearLemmas

section DateToYearClaim

variable {α : Type} [LinearOrderedField α]

/-- C27: `MAG_DateToYear` returns `TRUE` exactly when `Month = 0`, or `1 ≤ Month ≤ 12` and
`1 ≤ Day ≤` the number of days of that month in that year under the Gregorian leap rule,
and returns 0 otherwise; on success `DecimalYear = Year + (dayOfYear - 1) / (365 + leap)`,
and `DecimalYear = Year` when `Month = 0`, so that 1 January maps to `Year`; on failure
`DecimalYear` (like the rest of the date) is left as it was. -/
theorem MAG_DateToYear_spec (CalendarDate : MAGtype_Date α) :
    ((MAG_DateToYear CalendarDate).1 = TRUE ↔
      (CalendarDate.Month = 0 ∨
        (1 ≤ CalendarDate.Month ∧ CalendarDate.Month ≤ 12 ∧ 1 ≤ CalendarDate.Day ∧
          CalendarDate.Day ≤ gregorianDaysInMonth CalendarDate.Year CalendarDate.Month))) ∧
    ((MAG_DateToYear CalendarDate).1 = TRUE ∨ (MAG_DateToYear CalendarDate).1 = 0) ∧
    (CalendarDate.Month = 0 →
      (MAG_DateToYear CalendarDate).2.DecimalYear = ((CalendarDate.Year : Int) : α)) ∧
    (1 ≤ CalendarDate.Month ∧ CalendarDate.Month ≤ 12 ∧ 1 ≤ CalendarDate.Day ∧
        CalendarDate.Day ≤ gregorianDaysInMonth CalendarDate.Year CalendarDate.Month →
      (MAG_DateToYear CalendarDate).2.DecimalYear =
        ((CalendarDate.Year : Int) : α) +
          (((gregorianDayOfYear CalendarDate.Year CalendarDate.Month CalendarDate.Day - 1 :
            Int) : α)) / (365 + ((gregorianLeapDays CalendarDate.Year : Int) : α))) ∧
    (CalendarDate.Month = 1 ∧ CalendarDate.Day = 1 →
      (MAG_DateToYear CalendarDate).1 = TRUE ∧
      (MAG_DateToYear CalendarDate).2.DecimalYear = ((CalendarDate.Year : Int) : α)) ∧
    ((MAG_DateToYear CalendarDate).1 ≠ TRUE →
      (MAG_DateToYear CalendarDate).2 = CalendarDate) := by
  have h365 : (365.0 : α) = 365 := by norm_num
  have hvalid : ∀ (_ : 1 ≤ CalendarDate.Month) (_ : CalendarDate.Month ≤ 12)
      (_ : 1 ≤ CalendarDate.Day)
      (_ : CalendarDate.Day ≤ gregorianDaysInMonth CalendarDate.Year CalendarDate.Month),
      MAG_DateToYear CalendarDate = (TRUE, { CalendarDate with
        DecimalYear := ((CalendarDate.Year : Int) : α) +
          (((gregorianDayOfYear CalendarDate.Year CalendarDate.Month CalendarDate.Day - 1 :
            Int) : α)) / (365 + ((gregorianLeapDays CalendarDate.Year : Int) : α)) }) := by
    intro h1 h12 hd1 hd2
    unfold MAG_DateToYear
    simp only []
    rw [if_neg (by omega), if_neg (by omega),
      MonthDays_eq_gregorianDaysInMonth _ _ h1 h12, if_neg (by omega),
      DateToYear_temp _ _ _ h1 h12, h365, ExtraDay_eq_gregorianLeapDays]
  have hinvalid : CalendarDate.Month ≠ 0 →
      ¬ (1 ≤ CalendarDate.Month ∧ CalendarDate.Month ≤ 12 ∧ 1 ≤ CalendarDate.Day ∧
        CalendarDate.Day ≤ gregorianDaysInMonth CalendarDate.Year CalendarDate.Month) →
      MAG_DateToYear CalendarDate = (0, CalendarDate) := by
    intro h0 hn
    unfold MAG_DateToYear
    simp only []
    rw [if_neg h0]
    by_cases hm : CalendarDate.Month ≤ 0 ∨ CalendarDate.Month > 12
    · rw [if_pos hm]
    · rw [if_neg hm]
      have h1 : 1 ≤ CalendarDate.Month := by omega
      have h12 : CalendarDate.Month ≤ 12 := by omega
      rw [MonthDays_eq_gregorianDaysInMonth _ _ h1 h12, if_pos]
      by_contra hc
      exact hn ⟨h1, h12, by omega, by omega⟩
  have hzero : CalendarDate.Month = 0 → MAG_DateToYear CalendarDate =
      (TRUE, { CalendarDate with DecimalYear := ((CalendarDate.Year : Int) : α) }) := by
    intro h0
    unfold MAG_DateToYear
    rw [if_pos h0]
  have hT : (TRUE : Int) ≠ 0 := by decide
  refine ⟨?_, ?_, ?_, ?_, ?_, ?_⟩
  · constructor
    · intro h
      by_contra hc
      push_neg at hc
      rw [hinvalid hc.1 (fun hv => hc.2 hv.1 hv.2.1 hv.2.2.1 |>.not_le hv.2.2.2)] at h
      exact hT h.symm
    · rintro (h0 | ⟨h1, h12, hd1, hd2⟩)
      · rw [hzero h0]
      · rw [hvalid h1 h12 hd1 hd2]
  · by_cases h0 : CalendarDate.Month = 0
    · left
      rw [hzero h0]
    · by_cases hv : 1 ≤ CalendarDate.Month ∧ CalendarDate.Month ≤ 12 ∧ 1 ≤ CalendarDate.Day ∧
          CalendarDate.Day ≤ gregorianDaysInMonth CalendarDate.Year CalendarDate.Month
      · left
        rw [hvalid hv.1 hv.2.1 hv.2.2.1 hv.2.2.2]
      · right
        rw [hinvalid h0 hv]
  · intro h0
    rw [hzero h0]
  · rintro ⟨h1, h12, hd1, hd2⟩
    rw [hvalid h1 h12 hd1 hd2]
  · rintro ⟨hm, hd⟩
    have hdim : CalendarDate.Day ≤ gregorianDaysInMonth CalendarDate.Year CalendarDate.Month := by
      rw [hm, hd]
      unfold gregorianDaysInMonth
      simp
    rw [hvalid (by omega) (by omega) (by omega) hdim]
    refine ⟨rfl, ?_⟩
    show ((CalendarDate.Year : Int) : α) + _ = _
    rw [hm, hd]
    have : gregorianDayOfYear CalendarDate.Year 1 1 - 1 = 0 := by
      unfold gregorianDayOfYear
      simp
    rw [this]
    simp
  · intro h
    by_cases h0 : CalendarDate.Month = 0
    · exact absurd (by rw [hzero h0]) h
    · by_cases hv : 1 ≤ CalendarDate.Month ∧ CalendarDate.Month ≤ 12 ∧ 1 ≤ CalendarDate.Day ∧
          CalendarDate.Day ≤ gregorianDaysInMonth CalendarDate.Year CalendarDate.Month
      · exact absurd (by rw [hvalid hv.1 hv.2.1 hv.2.2.1 hv.2.2.2]) h
      · rw [hinvalid h0 hv]

end DateToYearClaim

section AssignCoeffsClaim

variable {α : Type}

/-- C28 (the code departs from it): for two models of degree 2 with secular terms up to
degree 2, the call with `nMax = 1` and `nMaxSecVar = 2` passes the four assertions, and
the first loop of `MAG_AssignMagneticModelCoeffs`, which runs up to `nMaxSecVar`, stores
the main-field `G` and `H` of `Source` at `index(2, 0)` of `Assignee`, a coefficient of
degree `2 > nMax`, whatever `Assignee` held there. -/
theorem MAG_AssignMagneticModelCoeffs_beyond_nMax (Assignee Source : MAGtype_MagneticModel α) :
    (MAG_AssignMagneticModelCoeffs { Assignee with nMax := 2, nMaxSecVar := 2 }
        { Source with nMax := 2, nMaxSecVar := 2 } 1 2).map
      (fun R => (R.Main_Field_Coeff_G (index 2 0), R.Main_Field_Coeff_H (index 2 0))) =
      some (Source.Main_Field_Coeff_G (index 2 0), Source.Main_Field_Coeff_H (index 2 0)) := by
  unfold MAG_AssignMagneticModelCoeffs
  rw [if_pos (by simp)]
  simp [forLoop, List.range_succ, index, Function.update]

end AssignCoeffsClaim

section EquivalentLatLonClaim

/-- C29 (the code departs from it): for the latitude 0 and the longitude 800,
`MAG_EquivalentLatLon` takes 360 off the longitude once and returns `(0, 440)`: the
repaired longitude is above 360, outside the interval `[-180, 360]`, and
`MAG_GetGeoidHeight` rejects the pair (it returns `FALSE` and leaves `DeltaHeight` as it
was). -/
theorem MAG_EquivalentLatLon_longitude_800 (DeltaHeight : ℚ) :
    MAG_EquivalentLatLon (0 : ℚ) 800 = (0, 440) ∧
    ¬ ((MAG_EquivalentLatLon (0 : ℚ) 800).2 ≤ 360) ∧
    MAG_GetGeoidHeight (MAG_EquivalentLatLon (0 : ℚ) 800).1 (MAG_EquivalentLatLon (0 : ℚ) 800).2
      DeltaHeight flatGeoid = (FALSE, DeltaHeight) := by
  have hw : ∀ n : Nat, whileLoop (fun c : ℚ => decide (c > 360)) (fun c => c - 360) n 90 = 90 := by
    intro n
    cases n with
    | zero => rfl
    | succ k =>
      show (if decide ((90 : ℚ) > 360) = true then _ else (90 : ℚ)) = 90
      rw [if_neg (by norm_num)]
  have key : MAG_EquivalentLatLon (0 : ℚ) 800 = (0, 440) := by
    unfold MAG_EquivalentLatLon
    simp only []
    have h90 : (90 : ℚ) - 0 = 90 := by norm_num
    have hif : (if (90 : ℚ) < 0 then -(90 : ℚ) else 90) = 90 := if_neg (by norm_num)
    rw [h90, hif, hw]
    norm_num
  refine ⟨key, ?_, ?_⟩
  · rw [key]
    norm_num
  · rw [key]
    have hlor : ¬ (Int.lor 0 1 = 0) := by decide
    unfold MAG_GetGeoidHeight
    norm_num [flatGeoid, FALSE, hlor]

end EquivalentLatLonClaim

section HighFailureClaim

/-- C23 (counterexample): for `nMax = 0` and `x = 0`, where `|x| < 1`, `MAG_PcupHigh` stores
`Pcup[0] = 1` in an array that held 0 there and then returns `FALSE` (0) by its statement
`if(nMax == 0) return FALSE`: it reports failure although `|x|` is not 1, and not success
although `|x| < 1`. -/
theorem MAG_PcupHigh_degree_zero :
    |(0 : ℝ)| < 1 ∧ ¬ (|(0 : ℝ)| = 1) ∧
    (MAG_PcupHigh realLibm { Pcup := fun _ => 0, dPcup := fun _ => 0 } 0 0
      (fun _ => 0) (fun _ => 0) (fun _ => 0)).1 = 0 ∧
    ¬ ((MAG_PcupHigh realLibm { Pcup := fun _ => 0, dPcup := fun _ => 0 } 0 0
      (fun _ => 0) (fun _ => 0) (fun _ => 0)).1 = TRUE) ∧
    (MAG_PcupHigh realLibm { Pcup := fun _ => 0, dPcup := fun _ => 0 } 0 0
      (fun _ => 0) (fun _ => 0) (fun _ => 0)).2.Pcup 0 = 1 := by
  have h0 : ¬ (realLibm.sqrt ((1.0 - (0 : ℝ)) * (1.0 + 0)) = 0) := by
    show ¬ (Real.sqrt ((1.0 - (0 : ℝ)) * (1.0 + 0)) = 0)
    rw [Real.sqrt_eq_zero']
    norm_num
  have hzero : MAG_PcupHigh realLibm { Pcup := fun _ => 0, dPcup := fun _ => 0 } 0 0
      (fun _ => 0) (fun _ => 0) (fun _ => 0) =
      (FALSE, { Pcup := Function.update (fun _ => 0) 0 1.0,
                dPcup := Function.update (fun _ => 0) 0 0.0 }) := by
    unfold MAG_PcupHigh
    simp only []
    rw [if_neg h0, if_neg (by unfold fabs; norm_num), if_pos trivial]
  refine ⟨by norm_num, by norm_num, ?_, ?_, ?_⟩
  · rw [hzero]
    rfl
  · rw [hzero]
    decide
  · rw [hzero]
    simp only [Function.update_same]
    norm_num

/-- C23 (amended to `nMax ≥ 1`): for every `nMax ≥ 1` and every `x` in `[-1, 1]`, the `z` of
`MAG_PcupHigh` is 0 exactly when `|x| = 1`, the return value is 0 exactly when `|x| = 1`,
the two arrays are then left as they were, and the return value is `TRUE` when `|x| < 1`,
whatever the arrays and the fresh blocks hold before the call. -/
theorem MAG_PcupHigh_failure_iff_pole (P : MAGtype_LegendreFunction ℝ)
    (f1_0 f2_0 PreSqr_0 : Int → ℝ) (nMax : Int) (x : ℝ) (hn : 1 ≤ nMax) (hx : |x| ≤ 1) :
    (realLibm.sqrt ((1.0 - x) * (1.0 + x)) = 0 ↔ |x| = 1) ∧
    ((MAG_PcupHigh realLibm P x nMax f1_0 f2_0 PreSqr_0).1 = 0 ↔ |x| = 1) ∧
    (|x| = 1 → (MAG_PcupHigh realLibm P x nMax f1_0 f2_0 PreSqr_0).2 = P) ∧
    (|x| < 1 → (MAG_PcupHigh realLibm P x nMax f1_0 f2_0 PreSqr_0).1 = TRUE) := by
  have hz : realLibm.sqrt ((1.0 - x) * (1.0 + x)) = 0 ↔ |x| = 1 := by
    have h1 : (1.0 : ℝ) = 1 := by norm_num
    show Real.sqrt ((1.0 - x) * (1.0 + x)) = 0 ↔ |x| = 1
    rw [h1, Real.sqrt_eq_zero', abs_eq (by norm_num : (0 : ℝ) ≤ 1)]
    obtain ⟨hlo, hhi⟩ := abs_le.mp hx
    constructor
    · intro h
      have : (1 - x) * (1 + x) = 0 :=
        le_antisymm h (mul_nonneg (by linarith) (by linarith))
      rcases mul_eq_zero.mp this with h2 | h2
      · left
        linarith
      · right
        linarith
    · rintro (h | h) <;> rw [h] <;> norm_num
  have hT : (TRUE : Int) ≠ 0 := by decide
  have hpole : |x| = 1 → MAG_PcupHigh realLibm P x nMax f1_0 f2_0 PreSqr_0 = (0, P) := by
    intro h
    unfold MAG_PcupHigh
    simp only []
    rw [if_pos (hz.mpr h)]
  have hin : |x| ≠ 1 → (MAG_PcupHigh realLibm P x nMax f1_0 f2_0 PreSqr_0).1 = TRUE := by
    intro h
    unfold MAG_PcupHigh
    simp only []
    rw [if_neg (fun hc => h (hz.mp hc)),
      if_neg (by unfold fabs; rw [show (1.0 : ℝ) = 1 by norm_num]; exact h),
      if_neg (by omega)]
  refine ⟨hz, ⟨?_, ?_⟩, ?_, ?_⟩
  · intro h
    by_contra hc
    rw [hin hc] at h
    exact hT h
  · intro h
    rw [hpole h]
  · intro h
    rw [hpole h]
  · intro h
    exact hin (ne_of_lt h)

/-- Instance of C23 as amended: degree 20 at the pole `x = -1`, where `MAG_PcupHigh` returns
0 and leaves the arrays as they were. -/
theorem MAG_PcupHigh_failure_iff_pole_witness :
    ((1 : Int) ≤ 20 ∧ |(-1 : ℝ)| ≤ 1) ∧
    (MAG_PcupHigh realLibm { Pcup := fun _ => 7, dPcup := fun _ => 8 } (-1) 20
      (fun _ => 0) (fun _ => 0) (fun _ => 0)).1 = 0 ∧
    (MAG_PcupHigh realLibm { Pcup := fun _ => 7, dPcup := fun _ => 8 } (-1) 20
      (fun _ => 0) (fun _ => 0) (fun _ => 0)).2 = { Pcup := fun _ => 7, dPcup := fun _ => 8 } :=
  ⟨⟨by norm_num, by norm_num⟩,
    (MAG_PcupHigh_failure_iff_pole { Pcup := fun _ => 7, dPcup := fun _ => 8 }
      (fun _ => 0) (fun _ => 0) (fun _ => 0) 20 (-1) (by norm_num) (by norm_num)).2.1.mpr
      (by norm_num),
    (MAG_PcupHigh_failure_iff_pole { Pcup := fun _ => 7, dPcup := fun _ => 8 }
      (fun _ => 0) (fun _ => 0) (fun _ => 0) 20 (-1) (by norm_num) (by norm_num)).2.2.1
      (by norm_num)⟩

end HighFailureClaim

section HarmonicVariablesLemmas

/-- The loop of `MAG_ComputeSphericalHarmonicVariables` over `RelativeRadiusPower`: started
with `q * q` in the cell 0, it leaves `q ^ (n + 2)` in every cell `0 ≤ n ≤ nMax` and does
not touch the two other arrays. -/
lemma RelativeRadiusPower_loop {α : Type} [LinearOrderedField α] (q : α) (nMax : Int)
    (S : MAGtype_SphericalHarmonicVariables α) (h0 : S.RelativeRadiusPower 0 = q * q) :
    (∀ n : Int, 0 ≤ n → n ≤ nMax →
      (forLoop 1 nMax (fun n s => { s with
        RelativeRadiusPower := Function.update s.RelativeRadiusPower n
          (s.RelativeRadiusPower (n - 1) * q) }) S).RelativeRadiusPower n =
        q ^ (n.toNat + 2)) ∧
    (forLoop 1 nMax (fun n s => { s with
        RelativeRadiusPower := Function.update s.RelativeRadiusPower n
          (s.RelativeRadiusPower (n - 1) * q) }) S).cos_mlambda = S.cos_mlambda ∧
    (forLoop 1 nMax (fun n s => { s with
        RelativeRadiusPower := Function.update s.RelativeRadiusPower n
          (s.RelativeRadiusPower (n - 1) * q) }) S).sin_mlambda = S.sin_mlambda := by
  by_cases hle : (1 : Int) ≤ nMax + 1
  swap
  · rw [forLoop_of_lt _ _ _ _ (by omega)]
    exact ⟨fun n h1 h2 => by omega, rfl, rfl⟩
  have key := forLoop_invariant 1 nMax (fun n s => { s with
        RelativeRadiusPower := Function.update s.RelativeRadiusPower n
          (s.RelativeRadiusPower (n - 1) * q) }) S
    (fun (i : Int) (s : MAGtype_SphericalHarmonicVariables α) =>
      (∀ n : Int, 0 ≤ n → n < i → s.RelativeRadiusPower n = q ^ (n.toNat + 2)) ∧
      s.cos_mlambda = S.cos_mlambda ∧ s.sin_mlambda = S.sin_mlambda) hle
    ⟨fun n h1 h2 => by
      have : n = 0 := by omega
      subst this
      rw [h0]
      simp [pow_two], rfl, rfl⟩
    (by
      intro i t hi1 hi2 ⟨hP, hc, hs⟩
      refine ⟨?_, hc, hs⟩
      intro n hn0 hn
      by_cases e : n = i
      · subst e
        simp only [Function.update_same]
        rw [hP (n - 1) (by omega) (by omega)]
        have : n.toNat + 2 = ((n - 1).toNat + 2) + 1 := by omega
        rw [this]
        ring
      · simp only [Function.update_noteq e]
        exact hP n hn0 (by omega))
  exact ⟨fun n h1 h2 => key.1 n h1 (by omega), key.2.1, key.2.2⟩

/-- The loop of `MAG_ComputeSphericalHarmonicVariables` over `cos_mlambda` and `sin_mlambda`:
started with the values for the multiples 0 and 1 of the angle `θ`, its angle-addition
recurrence leaves `cos (m θ)` and `sin (m θ)` in every cell `0 ≤ m ≤ nMax`, and does not
touch `RelativeRadiusPower`. -/
lemma mlambda_loop (θ : ℝ) (nMax : Int) (S : MAGtype_SphericalHarmonicVariables ℝ)
    (hc0 : S.cos_mlambda 0 = 1) (hs0 : S.sin_mlambda 0 = 0)
    (hc1 : S.cos_mlambda 1 = Real.cos θ) (hs1 : S.sin_mlambda 1 = Real.sin θ) :
    (∀ m : Int, 0 ≤ m → m ≤ max nMax 1 →
      (forLoop 2 nMax (fun m s =>
        let sc := { s with
          cos_mlambda := Function.update s.cos_mlambda m
            (s.cos_mlambda (m - 1) * Real.cos θ - s.sin_mlambda (m - 1) * Real.sin θ) }
        { sc with
          sin_mlambda := Function.update sc.sin_mlambda m
            (sc.cos_mlambda (m - 1) * Real.sin θ + sc.sin_mlambda (m - 1) * Real.cos θ) })
        S).cos_mlambda m = Real.cos ((m : ℝ) * θ) ∧
      (forLoop 2 nMax (fun m s =>
        let sc := { s with
          cos_mlambda := Function.update s.cos_mlambda m
            (s.cos_mlambda (m - 1) * Real.cos θ - s.sin_mlambda (m - 1) * Real.sin θ) }
        { sc with
          sin_mlambda := Function.update sc.sin_mlambda m
            (sc.cos_mlambda (m - 1) * Real.sin θ + sc.sin_mlambda (m - 1) * Real.cos θ) })
        S).sin_mlambda m = Real.sin ((m : ℝ) * θ)) ∧
    (forLoop 2 nMax (fun m s =>
        let sc := { s with
          cos_mlambda := Function.update s.cos_mlambda m
            (s.cos_mlambda (m - 1) * Real.cos θ - s.sin_mlambda (m - 1) * Real.sin θ) }
        { sc with
          sin_mlambda := Function.update sc.sin_mlambda m
            (sc.cos_mlambda (m - 1) * Real.sin θ + sc.sin_mlambda (m - 1) * Real.cos θ) })
        S).RelativeRadiusPower = S.RelativeRadiusPower := by
  have base : ∀ m : Int, 0 ≤ m → m < 2 →
      S.cos_mlambda m = Real.cos ((m : ℝ) * θ) ∧ S.sin_mlambda m = Real.sin ((m : ℝ) * θ) := by
    intro m h1 h2
    have : m = 0 ∨ m = 1 := by omega
    rcases this with rfl | rfl
    · simp [hc0, hs0]
    · simp [hc1, hs1]
  by_cases hle : (2 : Int) ≤ nMax + 1
  swap
  · rw [forLoop_of_lt _ _ _ _ (by omega)]
    refine ⟨fun m h1 h2 => base m h1 ?_, rfl⟩
    have : max nMax 1 = 1 := max_eq_right (by omega)
    omega
  have key := forLoop_invariant 2 nMax (fun m s =>
        let sc := { s with
          cos_mlambda := Function.update s.cos_mlambda m
            (s.cos_mlambda (m - 1) * Real.cos θ - s.sin_mlambda (m - 1) * Real.sin θ) }
        { sc with
          sin_mlambda := Function.update sc.sin_mlambda m
            (sc.cos_mlambda (m - 1) * Real.sin θ + sc.sin_mlambda (m - 1) * Real.cos θ) }) S
    (fun (i : Int) (s : MAGtype_SphericalHarmonicVariables ℝ) =>
      (∀ m : Int, 0 ≤ m → m < i →
        s.cos_mlambda m = Real.cos ((m : ℝ) * θ) ∧ s.sin_mlambda m = Real.sin ((m : ℝ) * θ)) ∧
      s.RelativeRadiusPower = S.RelativeRadiusPower) hle ⟨base, rfl⟩
    (by
      intro i t hi1 hi2 ⟨hP, hR⟩
      refine ⟨?_, hR⟩
      intro m hm0 hm
      by_cases e : m = i
      · subst e
        have hne : m - 1 ≠ m := by omega
        obtain ⟨hc, hs⟩ := hP (m - 1) (by omega) (by omega)
        have hcast : ((m : Int) : ℝ) * θ = ((m - 1 : Int) : ℝ) * θ + θ := by
          push_cast
          ring
        simp only [Function.update_same, Function.update_noteq hne]
        rw [hc, hs, hcast, Real.cos_add, Real.sin_add]
        constructor <;> ring
      · simp only [Function.update_noteq e]
        exact hP m hm0 (by omega))
  refine ⟨fun m h1 h2 => key.1 m h1 ?_, key.2⟩
  have : max nMax 1 = nMax := max_eq_left (by omega)
  omega

end HarmonicVariablesLemmas

section HarmonicVariablesClaim

/-- C22: for `nMax ≥ 0` and a spherical point with `r > 0` and longitude `lambda` in
degrees, `MAG_ComputeSphericalHarmonicVariables` leaves `(re / r) ^ (n + 2)` in
`RelativeRadiusPower[n]` for every `0 ≤ n ≤ nMax`, and `cos (m lambda)`, `sin (m lambda)`
in `cos_mlambda[m]`, `sin_mlambda[m]` for every `0 ≤ m ≤ nMax`: its angle-addition
recurrence gives the values of the multiple angles. -/
theorem MAG_ComputeSphericalHarmonicVariables_spec (Ellip : MAGtype_Ellipsoid ℝ)
    (CoordSpherical : MAGtype_CoordSpherical ℝ) (nMax : Int)
    (SphVariables : MAGtype_SphericalHarmonicVariables ℝ)
    (_hn : 0 ≤ nMax) (_hr : 0 < CoordSpherical.r) :
    (∀ n : Int, 0 ≤ n → n ≤ nMax →
      (MAG_ComputeSphericalHarmonicVariables realLibm Ellip CoordSpherical nMax
        SphVariables).RelativeRadiusPower n = (Ellip.re / CoordSpherical.r) ^ (n.toNat + 2)) ∧
    (∀ m : Int, 0 ≤ m → m ≤ nMax →
      (MAG_ComputeSphericalHarmonicVariables realLibm Ellip CoordSpherical nMax
        SphVariables).cos_mlambda m =
          realLibm.cos (DEG2RAD realLibm ((m : ℝ) * CoordSpherical.lambda)) ∧
      (MAG_ComputeSphericalHarmonicVariables realLibm Ellip CoordSpherical nMax
        SphVariables).sin_mlambda m =
          realLibm.sin (DEG2RAD realLibm ((m : ℝ) * CoordSpherical.lambda))) := by
  have hdeg : ∀ m : Int, DEG2RAD realLibm ((m : ℝ) * CoordSpherical.lambda) =
      (m : ℝ) * DEG2RAD realLibm CoordSpherical.lambda := by
    intro m
    unfold DEG2RAD
    ring
  obtain ⟨hP, hPc, hPs⟩ := RelativeRadiusPower_loop (Ellip.re / CoordSpherical.r) nMax
    { SphVariables with
      RelativeRadiusPower := Function.update SphVariables.RelativeRadiusPower 0
        ((Ellip.re / CoordSpherical.r) * (Ellip.re / CoordSpherical.r)) }
    (by simp)
  unfold MAG_ComputeSphericalHarmonicVariables
  simp only []
  generalize hS1 : forLoop 1 nMax _ _ = S1 at hP hPc hPs
  by_cases h3 : nMax + 1 ≥ 3
  · rw [if_pos h3, if_pos (show nMax + 1 ≥ 2 by omega)]
    obtain ⟨hA, hR⟩ := mlambda_loop (DEG2RAD realLibm CoordSpherical.lambda) nMax
      { RelativeRadiusPower := S1.RelativeRadiusPower,
        cos_mlambda := Function.update (Function.update S1.cos_mlambda 0 1.0) 1
          (realLibm.cos (DEG2RAD realLibm CoordSpherical.lambda)),
        sin_mlambda := Function.update (Function.update S1.sin_mlambda 0 0.0) 1
          (realLibm.sin (DEG2RAD realLibm CoordSpherical.lambda)) }
      (by norm_num [Function.update]) (by norm_num [Function.update])
      (by norm_num [Function.update, realLibm]) (by norm_num [Function.update, realLibm])
    have hmax : max nMax 1 = nMax := max_eq_left (by omega)
    refine ⟨fun n h1 h2 => ?_, fun m h1 h2 => ?_⟩
    · have := congrFun hR n
      rw [← hP n h1 h2]
      exact this
    · rw [hdeg m]
      exact hA m h1 (by omega)
  · rw [if_neg h3]
    by_cases h2 : nMax + 1 ≥ 2
    · rw [if_pos h2]
      have hn1 : nMax = 1 := by omega
      refine ⟨fun n h1 h2 => hP n h1 h2, fun m h1 h2 => ?_⟩
      rw [hdeg m]
      have : m = 0 ∨ m = 1 := by omega
      rcases this with rfl | rfl
      · norm_num [Function.update, realLibm]
      · norm_num [Function.update, realLibm]
    · rw [if_neg h2]
      refine ⟨fun n h1 h2 => hP n h1 h2, fun m h1 h2 => ?_⟩
      rw [hdeg m]
      have : m = 0 := by omega
      subst this
      norm_num [Function.update, realLibm]

/-- Instance of C22: degree 3 at longitude 60 degrees and radius 6371.2 km. -/
theorem MAG_ComputeSphericalHarmonicVariables_spec_witness :
    ((0 : Int) ≤ 3 ∧ (0 : ℝ) < 6371.2) ∧
    (MAG_ComputeSphericalHarmonicVariables realLibm (wgs84 realLibm)
      { lambda := 60, phig := 0, r := 6371.2 } 3
      { RelativeRadiusPower := fun _ => 0, cos_mlambda := fun _ => 0,
        sin_mlambda := fun _ => 0 }).cos_mlambda 3 =
      realLibm.cos (DEG2RAD realLibm (((3 : Int) : ℝ) * 60)) :=
  ⟨⟨by norm_num, by norm_num⟩,
    ((MAG_ComputeSphericalHarmonicVariables_spec (wgs84 realLibm)
      { lambda := 60, phig := 0, r := 6371.2 } 3
      { RelativeRadiusPower := fun _ => 0, cos_mlambda := fun _ => 0,
        sin_mlambda := fun _ => 0 } (by norm_num) (by norm_num)).2 3 (by norm_num)
        (by norm_num)).1⟩

end HarmonicVariablesClaim

section LinearityLemmas

variable {α : Type} [LinearOrderedField α]

/-- A sum over the degrees `1 .. nMax` of terms that vanish above the degree `a ≤ nMax` is
the sum over `1 .. a`. -/
lemma sum_Icc_ite_le (f : Int → α) (a nMax : Int) (h : a ≤ nMax) :
    ∑ n in Finset.Icc 1 nMax, (if n ≤ a then f n else 0) = ∑ n in Finset.Icc 1 a, f n := by
  rw [← Finset.sum_filter]
  refine Finset.sum_congr ?_ (fun _ _ => rfl)
  ext n
  simp only [Finset.mem_filter, Finset.mem_Icc]
  omega

/-- Terms `u n = v n + c * w n` up to the degree `a` and `u n = v n` above it add up to
the sum of `v` plus `c` times the sum of `w` over `1 .. a`. -/
lemma sum_linear (nMax a : Int) (ha : a ≤ nMax) (c : α) (u v w : Int → α)
    (h : ∀ n : Int, 1 ≤ n → n ≤ nMax → u n = v n + c * (if n ≤ a then w n else 0)) :
    ∑ n in Finset.Icc 1 nMax, u n =
      ∑ n in Finset.Icc 1 nMax, v n + c * ∑ n in Finset.Icc 1 a, w n := by
  rw [← sum_Icc_ite_le w a nMax ha, Finset.mul_sum, ← Finset.sum_add_distrib]
  refine Finset.sum_congr rfl (fun n hn => ?_)
  rw [Finset.mem_Icc] at hn
  exact h n hn.1 hn.2

/-- The double-sum form of `sum_linear`, over the triangle `1 ≤ n ≤ nMax`, `0 ≤ m ≤ n`. -/
lemma double_sum_linear (nMax a : Int) (ha : a ≤ nMax) (c : α) (u v w : Int → Int → α)
    (h : ∀ n m : Int, 1 ≤ n → n ≤ nMax → 0 ≤ m → m ≤ n →
      u n m = v n m + c * (if n ≤ a then w n m else 0)) :
    ∑ n in Finset.Icc 1 nMax, ∑ m in Finset.Icc 0 n, u n m =
      ∑ n in Finset.Icc 1 nMax, ∑ m in Finset.Icc 0 n, v n m +
        c * ∑ n in Finset.Icc 1 a, ∑ m in Finset.Icc 0 n, w n m := by
  refine sum_linear nMax a ha c _ _ _ (fun n h1 h2 => ?_)
  by_cases hna : n ≤ a
  · rw [if_pos hna, Finset.mul_sum, ← Finset.sum_add_distrib]
    refine Finset.sum_congr rfl (fun m hm => ?_)
    rw [Finset.mem_Icc] at hm
    rw [h n m h1 h2 hm.1 hm.2, if_pos hna]
  · rw [if_neg hna, mul_zero, add_zero]
    refine Finset.sum_congr rfl (fun m hm => ?_)
    rw [Finset.mem_Icc] at hm
    rw [h n m h1 h2 hm.1 hm.2, if_neg hna, mul_zero, add_zero]

/-- The double loop of the summations is linear in the coefficient arrays: on arrays that
are `G + c * SG`, `H + c * SH` up to the degree `a` and `G`, `H` above it, it returns the
vector for `G`, `H` plus `c` times the vector for `SG`, `SH` summed up to the degree `a`. -/
lemma Summation_loop_linear (P : MAGtype_LegendreFunction α) (G H SG SH G2 H2 : Int → α)
    (nMax a : Int) (S : MAGtype_SphericalHarmonicVariables α) (c : α) (ha : a ≤ nMax)
    (h : ∀ n m : Int, 1 ≤ n → n ≤ nMax → 0 ≤ m → m ≤ n →
      G2 (index n m) = (if n ≤ a then G (index n m) + c * SG (index n m) else G (index n m)) ∧
      H2 (index n m) = (if n ≤ a then H (index n m) + c * SH (index n m) else H (index n m))) :
    (Summation_loop P G2 H2 nMax S).Bx =
      (Summation_loop P G H nMax S).Bx + c * (Summation_loop P SG SH a S).Bx ∧
    (Summation_loop P G2 H2 nMax S).By =
      (Summation_loop P G H nMax S).By + c * (Summation_loop P SG SH a S).By ∧
    (Summation_loop P G2 H2 nMax S).Bz =
      (Summation_loop P G H nMax S).Bz + c * (Summation_loop P SG SH a S).Bz := by
  obtain ⟨a1, a2, a3⟩ := Summation_loop_eq P G2 H2 nMax S
  obtain ⟨b1, b2, b3⟩ := Summation_loop_eq P G H nMax S
  obtain ⟨c1, c2, c3⟩ := Summation_loop_eq P SG SH a S
  refine ⟨?_, ?_, ?_⟩
  · rw [a3, b3, c3, double_sum_linear nMax a ha c _
      (fun n m => S.RelativeRadiusPower n *
        (G (index n m) * S.cos_mlambda m + H (index n m) * S.sin_mlambda m) *
        P.dPcup (index n m))
      (fun n m => S.RelativeRadiusPower n *
        (SG (index n m) * S.cos_mlambda m + SH (index n m) * S.sin_mlambda m) *
        P.dPcup (index n m))]
    · ring
    · intro n m h1 h2 h3 h4
      obtain ⟨e1, e2⟩ := h n m h1 h2 h3 h4
      rw [e1, e2]
      split_ifs <;> ring
  · rw [a2, b2, c2, double_sum_linear nMax a ha c _
      (fun n m => S.RelativeRadiusPower n *
        (G (index n m) * S.sin_mlambda m - H (index n m) * S.cos_mlambda m) *
        ((m : Int) : α) * P.Pcup (index n m))
      (fun n m => S.RelativeRadiusPower n *
        (SG (index n m) * S.sin_mlambda m - SH (index n m) * S.cos_mlambda m) *
        ((m : Int) : α) * P.Pcup (index n m))]
    intro n m h1 h2 h3 h4
    obtain ⟨e1, e2⟩ := h n m h1 h2 h3 h4
    rw [e1, e2]
    split_ifs <;> ring
  · rw [a1, b1, c1, double_sum_linear nMax a ha c _
      (fun n m => S.RelativeRadiusPower n *
        (G (index n m) * S.cos_mlambda m + H (index n m) * S.sin_mlambda m) *
        ((n + 1 : Int) : α) * P.Pcup (index n m))
      (fun n m => S.RelativeRadiusPower n *
        (SG (index n m) * S.cos_mlambda m + SH (index n m) * S.sin_mlambda m) *
        ((n + 1 : Int) : α) * P.Pcup (index n m))]
    · ring
    · intro n m h1 h2 h3 h4
      obtain ⟨e1, e2⟩ := h n m h1 h2 h3 h4
      rw [e1, e2]
      split_ifs <;> ring

/-- The variables `schmidtQuasiNorm1` and `PcupS[0 .. d]` of the loop of
`MAG_SummationSpecial` depend neither on the coefficient arrays nor on what the fresh
block `PcupS` held. -/
lemma SummationSpecial_loop_indep (L : Libm α) (G H G2 H2 : Int → α)
    (S : MAGtype_SphericalHarmonicVariables α) (x : α) (P0 P1 : Int → α) (d : Nat) :
    (SummationSpecial_loop L G H d S x P0).schmidtQuasiNorm1 =
      (SummationSpecial_loop L G2 H2 d S x P1).schmidtQuasiNorm1 ∧
    ∀ k : Int, 0 ≤ k → k ≤ d →
      (SummationSpecial_loop L G H d S x P0).PcupS k =
        (SummationSpecial_loop L G2 H2 d S x P1).PcupS k := by
  induction d with
  | zero =>
    rw [SummationSpecial_loop_zero L G H S x P0 _ (by simp),
      SummationSpecial_loop_zero L G2 H2 S x P1 _ (by simp)]
    refine ⟨rfl, fun k h1 h2 => ?_⟩
    have : k = 0 := by
      have : ((0 : Nat) : Int) = 0 := rfl
      omega
    subst this
    simp
  | succ d ih =>
    have e : ((d + 1 : Nat) : Int) = (d : Int) + 1 := by push_cast; ring
    rw [e, SummationSpecial_loop_succ L G H S x P0 _ (by omega),
      SummationSpecial_loop_succ L G2 H2 S x P1 _ (by omega)]
    obtain ⟨i1, i2⟩ := ih
    refine ⟨?_, fun k h1 h2 => ?_⟩
    · simp only [SummationSpecial_step, i1]
    · by_cases hk : k = (d : Int) + 1
      · subst hk
        unfold SummationSpecial_step
        simp only []
        by_cases h1 : (d : Int) + 1 = 1
        · rw [if_pos h1, if_pos h1]
          simp only [Function.update_same]
          exact i2 _ (by omega) (by omega)
        · rw [if_neg h1, if_neg h1]
          simp only [Function.update_same]
          rw [i2 _ (by omega) (by omega), i2 ((d : Int) + 1 - 2) (by omega) (by omega)]
      · rw [SummationSpecial_step_PcupS L G H S x _ _ _ hk,
          SummationSpecial_step_PcupS L G2 H2 S x _ _ _ hk]
        exact i2 k h1 (by omega)

/-- The sum that the loop of `MAG_SummationSpecial` leaves in `By`, with the weights
`PcupS[n] * schmidtQuasiNorm3` taken from the run of the loop on any other arrays. -/
lemma SummationSpecial_loop_By_weights (L : Libm α) (G H G2 H2 : Int → α)
    (S : MAGtype_SphericalHarmonicVariables α) (x : α) (P0 P1 : Int → α) (nMax : Int) :
    (SummationSpecial_loop L G H nMax S x P0).By =
      ∑ n in Finset.Icc 1 nMax, S.RelativeRadiusPower n *
        (G (index n 1) * S.sin_mlambda 1 - H (index n 1) * S.cos_mlambda 1) *
        ((SummationSpecial_loop L G2 H2 n S x P1).PcupS n *
          SummationSpecial_schmidtQuasiNorm3 L G2 H2 S x P1 n) := by
  rw [SummationSpecial_loop_By]
  refine Finset.sum_congr rfl (fun n hn => ?_)
  rw [Finset.mem_Icc] at hn
  obtain ⟨d, hd⟩ : ∃ d : Nat, n = (d : Int) := ⟨n.toNat, by omega⟩
  have e1 := SummationSpecial_PcupS_stable L G H S x P0 n nMax (by omega) (nMax - n).toNat
    (by omega)
  obtain ⟨i1, i2⟩ := SummationSpecial_loop_indep L G H G2 H2 S x P0 P1 d
  rw [e1]
  unfold SummationSpecial_schmidtQuasiNorm3
  rw [hd, i1, i2 _ (by omega) le_rfl]
  ring

/-- The loop of `MAG_SummationSpecial` is linear in the coefficient arrays, in the sense of
`Summation_loop_linear`. -/
lemma SummationSpecial_loop_linear (L : Libm α) (G H SG SH G2 H2 : Int → α)
    (nMax a : Int) (S : MAGtype_SphericalHarmonicVariables α) (x c : α) (P0 P1 P2 : Int → α)
    (ha : a ≤ nMax)
    (h : ∀ n m : Int, 1 ≤ n → n ≤ nMax → 0 ≤ m → m ≤ n →
      G2 (index n m) = (if n ≤ a then G (index n m) + c * SG (index n m) else G (index n m)) ∧
      H2 (index n m) = (if n ≤ a then H (index n m) + c * SH (index n m) else H (index n m))) :
    (SummationSpecial_loop L G2 H2 nMax S x P0).By =
      (SummationSpecial_loop L G H nMax S x P1).By +
        c * (SummationSpecial_loop L SG SH a S x P2).By := by
  rw [SummationSpecial_loop_By_weights L G2 H2 G H S x P0 P1 nMax,
    SummationSpecial_loop_By_weights L G H G H S x P1 P1 nMax,
    SummationSpecial_loop_By_weights L SG SH G H S x P2 P1 a]
  refine sum_linear nMax a ha c _ _ _ (fun n h1 h2 => ?_)
  obtain ⟨e1, e2⟩ := h n 1 h1 h2 (by norm_num) h1
  rw [e1, e2]
  split_ifs <;> ring

end LinearityLemmas

section LinearityClaim

variable {α : Type} [LinearOrderedField α]

/-- C30: for a model with `0 ≤ nMaxSecVar ≤ nMax`, a decimal year `t` and a fixed Legendre
table, fixed harmonic variables and a fixed spherical point, the field of the
time-adjusted model is linear in time: each component `Bx`, `By`, `Bz` of `MAG_Summation`
on `MAG_TimelyModifyMagneticModel(t, M)` is the component of `MAG_Summation` on `M` plus
`(t - epoch)` times the component of `MAG_SecVarSummation` on `M`, in the generic branch
and in the pole-special branch alike. -/
theorem MAG_Summation_linear_in_time (L : Libm α)
    (LegendreFunction : MAGtype_LegendreFunction α)
    (MagneticModel TimedMagneticModel : MAGtype_MagneticModel α) (UserDate : MAGtype_Date α)
    (SphVariables : MAGtype_SphericalHarmonicVariables α)
    (CoordSpherical : MAGtype_CoordSpherical α) (PcupS0 PcupS1 PcupS2 : Int → α)
    (h0 : 0 ≤ MagneticModel.nMaxSecVar) (h1 : MagneticModel.nMaxSecVar ≤ MagneticModel.nMax) :
    (MAG_Summation L LegendreFunction
        (MAG_TimelyModifyMagneticModel UserDate MagneticModel TimedMagneticModel)
        SphVariables CoordSpherical PcupS0).Bx =
      (MAG_Summation L LegendreFunction MagneticModel SphVariables CoordSpherical PcupS1).Bx +
        (UserDate.DecimalYear - MagneticModel.epoch) *
          (MAG_SecVarSummation L LegendreFunction MagneticModel SphVariables CoordSpherical
            PcupS2).2.Bx ∧
    (MAG_Summation L LegendreFunction
        (MAG_TimelyModifyMagneticModel UserDate MagneticModel TimedMagneticModel)
        SphVariables CoordSpherical PcupS0).By =
      (MAG_Summation L LegendreFunction MagneticModel SphVariables CoordSpherical PcupS1).By +
        (UserDate.DecimalYear - MagneticModel.epoch) *
          (MAG_SecVarSummation L LegendreFunction MagneticModel SphVariables CoordSpherical
            PcupS2).2.By ∧
    (MAG_Summation L LegendreFunction
        (MAG_TimelyModifyMagneticModel UserDate MagneticModel TimedMagneticModel)
        SphVariables CoordSpherical PcupS0).Bz =
      (MAG_Summation L LegendreFunction MagneticModel SphVariables CoordSpherical PcupS1).Bz +
        (UserDate.DecimalYear - MagneticModel.epoch) *
          (MAG_SecVarSummation L LegendreFunction MagneticModel SphVariables CoordSpherical
            PcupS2).2.Bz := by
  have hco : ∀ n m : Int, 1 ≤ n → n ≤ MagneticModel.nMax → 0 ≤ m → m ≤ n →
      (MAG_TimelyModifyMagneticModel UserDate MagneticModel
          TimedMagneticModel).Main_Field_Coeff_G (index n m) =
        (if n ≤ MagneticModel.nMaxSecVar then
          MagneticModel.Main_Field_Coeff_G (index n m) +
            (UserDate.DecimalYear - MagneticModel.epoch) *
              MagneticModel.Secular_Var_Coeff_G (index n m)
        else MagneticModel.Main_Field_Coeff_G (index n m)) ∧
      (MAG_TimelyModifyMagneticModel UserDate MagneticModel
          TimedMagneticModel).Main_Field_Coeff_H (index n m) =
        (if n ≤ MagneticModel.nMaxSecVar then
          MagneticModel.Main_Field_Coeff_H (index n m) +
            (UserDate.DecimalYear - MagneticModel.epoch) *
              MagneticModel.Secular_Var_Coeff_H (index n m)
        else MagneticModel.Main_Field_Coeff_H (index n m)) := by
    intro n m hn hnM hm hmn
    obtain ⟨e1, e2⟩ := MAG_TimelyModifyMagneticModel_at UserDate MagneticModel
      TimedMagneticModel n m hn hnM hm hmn
    have hiff := index_le_iff n m MagneticModel.nMaxSecVar h0 hm hmn
    rw [e1, e2]
    by_cases hc : n ≤ MagneticModel.nMaxSecVar
    · rw [if_pos (hiff.mpr hc), if_pos (hiff.mpr hc), if_pos hc, if_pos hc]
      exact ⟨rfl, rfl⟩
    · rw [if_neg (fun hx => hc (hiff.mp hx)), if_neg (fun hx => hc (hiff.mp hx)), if_neg hc,
        if_neg hc]
      exact ⟨rfl, rfl⟩
  obtain ⟨lx, ly, lz⟩ := Summation_loop_linear LegendreFunction
    MagneticModel.Main_Field_Coeff_G MagneticModel.Main_Field_Coeff_H
    MagneticModel.Secular_Var_Coeff_G MagneticModel.Secular_Var_Coeff_H
    (MAG_TimelyModifyMagneticModel UserDate MagneticModel TimedMagneticModel).Main_Field_Coeff_G
    (MAG_TimelyModifyMagneticModel UserDate MagneticModel TimedMagneticModel).Main_Field_Coeff_H
    MagneticModel.nMax MagneticModel.nMaxSecVar SphVariables
    (UserDate.DecimalYear - MagneticModel.epoch) h1 hco
  have ls := SummationSpecial_loop_linear L
    MagneticModel.Main_Field_Coeff_G MagneticModel.Main_Field_Coeff_H
    MagneticModel.Secular_Var_Coeff_G MagneticModel.Secular_Var_Coeff_H
    (MAG_TimelyModifyMagneticModel UserDate MagneticModel TimedMagneticModel).Main_Field_Coeff_G
    (MAG_TimelyModifyMagneticModel UserDate MagneticModel TimedMagneticModel).Main_Field_Coeff_H
    MagneticModel.nMax MagneticModel.nMaxSecVar SphVariables
    (L.sin (DEG2RAD L CoordSpherical.phig))
    (UserDate.DecimalYear - MagneticModel.epoch) PcupS0 PcupS1 PcupS2 h1 hco
  have hn := MAG_TimelyModifyMagneticModel_nMax UserDate MagneticModel TimedMagneticModel
  unfold MAG_Summation MAG_SecVarSummation MAG_SummationSpecial MAG_SecVarSummationSpecial
    SummationSpecial_By
  simp only [hn]
  by_cases hc : fabs (L.cos (DEG2RAD L CoordSpherical.phig)) > 1.0e-10
  · simp only [if_pos hc]
    refine ⟨lx, ?_, lz⟩
    rw [ly]
    ring
  · simp only [if_neg hc]
    exact ⟨lx, ls, lz⟩

/-- Instance of C30: the degree-1 scenario model in the year 2022, with tables of ones. -/
theorem MAG_Summation_linear_in_time_witness :
    ((0 : Int) ≤ (scenarioModel : MAGtype_MagneticModel ℝ).nMaxSecVar ∧
      (scenarioModel : MAGtype_MagneticModel ℝ).nMaxSecVar ≤
        (scenarioModel : MAGtype_MagneticModel ℝ).nMax) ∧
    (MAG_Summation realLibm { Pcup := fun _ => 1, dPcup := fun _ => 1 }
        (MAG_TimelyModifyMagneticModel (dateOf (2022 : ℝ)) scenarioModel scenarioModel)
        { RelativeRadiusPower := fun _ => 1, cos_mlambda := fun _ => 1,
          sin_mlambda := fun _ => 0 }
        { lambda := 0, phig := 0, r := 6371.2 } (fun _ => 0)).Bx =
      (MAG_Summation realLibm { Pcup := fun _ => 1, dPcup := fun _ => 1 } scenarioModel
        { RelativeRadiusPower := fun _ => 1, cos_mlambda := fun _ => 1,
          sin_mlambda := fun _ => 0 }
        { lambda := 0, phig := 0, r := 6371.2 } (fun _ => 0)).Bx +
        ((dateOf (2022 : ℝ)).DecimalYear - (scenarioModel : MAGtype_MagneticModel ℝ).epoch) *
          (MAG_SecVarSummation realLibm { Pcup := fun _ => 1, dPcup := fun _ => 1 }
            scenarioModel
            { RelativeRadiusPower := fun _ => 1, cos_mlambda := fun _ => 1,
              sin_mlambda := fun _ => 0 }
            { lambda := 0, phig := 0, r := 6371.2 } (fun _ => 0)).2.Bx :=
  have ha : (0 : Int) ≤ (scenarioModel : MAGtype_MagneticModel ℝ).nMaxSecVar := by
    show (0 : Int) ≤ 1
    norm_num
  have hb : (scenarioModel : MAGtype_MagneticModel ℝ).nMaxSecVar ≤
      (scenarioModel : MAGtype_MagneticModel ℝ).nMax := by
    show (1 : Int) ≤ 1
    norm_num
  ⟨⟨ha, hb⟩,
    (MAG_Summation_linear_in_time realLibm { Pcup := fun _ => 1, dPcup := fun _ => 1 }
      scenarioModel scenarioModel (dateOf (2022 : ℝ))
      { RelativeRadiusPower := fun _ => 1, cos_mlambda := fun _ => 1,
        sin_mlambda := fun _ => 0 }
      { lambda := 0, phig := 0, r := 6371.2 } (fun _ => 0) (fun _ => 0) (fun _ => 0)
      ha hb).1⟩

end LinearityClaim

section GeocentricLemmas

/-- The sine of the geocentric latitude is the sine `s` of the geodetic latitude scaled by
a factor `k` in `(0, 1]`, which is 1 exactly when the cosine `c` vanishes: here
`xp = A c`, `zp = B s` with `0 < B < A`. -/
lemma geocentric_ratio (A B s c : ℝ) (hB : 0 < B) (hBA : B < A) (hsc : s ^ 2 + c ^ 2 = 1) :
    ∃ k : ℝ, 0 < k ∧ k ≤ 1 ∧ (c ≠ 0 → k < 1) ∧ (c = 0 → k = 1) ∧
      (B * s) / Real.sqrt ((A * c) * (A * c) + (B * s) * (B * s)) = k * s := by
  have hsq : B ^ 2 ≤ (A * c) * (A * c) + (B * s) * (B * s) := by
    have h1 : B ^ 2 * c ^ 2 ≤ A ^ 2 * c ^ 2 :=
      mul_le_mul_of_nonneg_right (pow_le_pow_left₀ hB.le hBA.le 2) (sq_nonneg c)
    have h2 : B ^ 2 = B ^ 2 * c ^ 2 + B ^ 2 * s ^ 2 := by
      have : B ^ 2 * (s ^ 2 + c ^ 2) = B ^ 2 := by rw [hsc, mul_one]
      linarith
    have h3 : (A * c) * (A * c) + (B * s) * (B * s) = A ^ 2 * c ^ 2 + B ^ 2 * s ^ 2 := by ring
    linarith
  have hBr : B ≤ Real.sqrt ((A * c) * (A * c) + (B * s) * (B * s)) :=
    calc B = Real.sqrt (B ^ 2) := (Real.sqrt_sq hB.le).symm
      _ ≤ Real.sqrt ((A * c) * (A * c) + (B * s) * (B * s)) := Real.sqrt_le_sqrt hsq
  have hr : 0 < Real.sqrt ((A * c) * (A * c) + (B * s) * (B * s)) := lt_of_lt_of_le hB hBr
  refine ⟨B / Real.sqrt ((A * c) * (A * c) + (B * s) * (B * s)), div_pos hB hr,
    (div_le_one hr).mpr hBr, ?_, ?_, ?_⟩
  · intro hc
    rw [div_lt_one hr]
    refine lt_of_eq_of_lt (Real.sqrt_sq hB.le).symm (Real.sqrt_lt_sqrt (sq_nonneg B) ?_)
    have hc2 : 0 < c ^ 2 := by positivity
    have h1 : B ^ 2 * c ^ 2 < A ^ 2 * c ^ 2 :=
      mul_lt_mul_of_pos_right (pow_lt_pow_left₀ hBA hB.le (by norm_num)) hc2
    have h2 : B ^ 2 = B ^ 2 * c ^ 2 + B ^ 2 * s ^ 2 := by
      have : B ^ 2 * (s ^ 2 + c ^ 2) = B ^ 2 := by rw [hsc, mul_one]
      linarith
    have h3 : (A * c) * (A * c) + (B * s) * (B * s) = A ^ 2 * c ^ 2 + B ^ 2 * s ^ 2 := by ring
    linarith
  · intro hc
    have hs2 : s ^ 2 = 1 := by
      rw [hc] at hsc
      linarith [hsc]
    have h3 : (A * c) * (A * c) + (B * s) * (B * s) = B ^ 2 := by
      rw [hc]
      have : (B * s) * (B * s) = B ^ 2 * s ^ 2 := by ring
      rw [this, hs2]
      ring
    rw [h3, Real.sqrt_sq hB.le, div_self hB.ne.symm]
  · ring

/-- The arcsine of a sine scaled by `k` in `(0, 1]`, with `k = 1` exactly where the cosine
vanishes: it is the angle itself at `-π/2`, `0` and `π/2`, and lies strictly between 0 and
the angle everywhere else in `[-π/2, π/2]`. -/
lemma arcsin_scaled (θ k : ℝ) (h1 : -(Real.pi / 2) ≤ θ) (h2 : θ ≤ Real.pi / 2)
    (hk0 : 0 < k) (hkc : Real.cos θ ≠ 0 → k < 1) (hk : Real.cos θ = 0 → k = 1) :
    (θ = -(Real.pi / 2) ∨ θ = 0 ∨ θ = Real.pi / 2 → Real.arcsin (k * Real.sin θ) = θ) ∧
    (0 < θ → θ < Real.pi / 2 →
      0 < Real.arcsin (k * Real.sin θ) ∧ Real.arcsin (k * Real.sin θ) < θ) ∧
    (-(Real.pi / 2) < θ → θ < 0 →
      θ < Real.arcsin (k * Real.sin θ) ∧ Real.arcsin (k * Real.sin θ) < 0) := by
  have hasin : Real.arcsin (Real.sin θ) = θ := Real.arcsin_sin h1 h2
  refine ⟨?_, ?_, ?_⟩
  · rintro (h | h | h)
    · have hc : Real.cos θ = 0 := by rw [h, Real.cos_neg, Real.cos_pi_div_two]
      rw [hk hc, one_mul, hasin]
    · rw [h, Real.sin_zero, mul_zero, Real.arcsin_zero]
    · have hc : Real.cos θ = 0 := by rw [h, Real.cos_pi_div_two]
      rw [hk hc, one_mul, hasin]
  · intro h3 h4
    have hs : 0 < Real.sin θ := Real.sin_pos_of_pos_of_lt_pi h3 (by linarith [Real.pi_pos])
    have hc : 0 < Real.cos θ := Real.cos_pos_of_mem_Ioo ⟨by linarith, h4⟩
    have hk1 := hkc hc.ne.symm
    have hlt : k * Real.sin θ < Real.sin θ := by
      have := mul_lt_mul_of_pos_right hk1 hs
      linarith
    have hpos : 0 < k * Real.sin θ := mul_pos hk0 hs
    constructor
    · exact Real.arcsin_pos.mpr hpos
    · have := Real.strictMonoOn_arcsin ⟨by linarith, by linarith [Real.sin_le_one θ]⟩
        ⟨Real.neg_one_le_sin θ, Real.sin_le_one θ⟩ hlt
      rwa [hasin] at this
  · intro h3 h4
    have hs : Real.sin θ < 0 := Real.sin_neg_of_neg_of_neg_pi_lt h4 (by linarith [Real.pi_pos])
    have hc : 0 < Real.cos θ := Real.cos_pos_of_mem_Ioo ⟨h3, by linarith [Real.pi_pos]⟩
    have hk1 := hkc hc.ne.symm
    have hlt : Real.sin θ < k * Real.sin θ := by
      have := mul_lt_mul_of_neg_right hk1 hs
      linarith
    have hneg : k * Real.sin θ < 0 := mul_neg_of_pos_of_neg hk0 hs
    constructor
    · have := Real.strictMonoOn_arcsin ⟨Real.neg_one_le_sin θ, Real.sin_le_one θ⟩
        ⟨by linarith [Real.neg_one_le_sin θ], by linarith⟩ hlt
      rwa [hasin] at this
    · exact Real.arcsin_lt_zero.mpr hneg

end GeocentricLemmas

section GeocentricLatitude

/-- The two weights of `MAG_GeodeticToSpherical`: `rc (1 - e²) + h` is positive and below
`rc + h`, for an ellipsoid with `0 < e² < 1` and `a (1 - e²) > 1` and a height `h ≥ -1`. -/
lemma geocentric_weights (a eps s h : ℝ) (ha : 0 < a) (he0 : 0 < eps) (he1 : eps < 1)
    (hB : 1 < a * (1 - eps)) (hs : s ^ 2 ≤ 1) (hh : -1 ≤ h) :
    0 < a / Real.sqrt (1.0 - eps * s * s) * (1.0 - eps) + h ∧
    a / Real.sqrt (1.0 - eps * s * s) * (1.0 - eps) + h <
      a / Real.sqrt (1.0 - eps * s * s) + h := by
  have h1 : (1.0 : ℝ) = 1 := by norm_num
  rw [h1]
  have hes : eps * s * s ≤ eps := by
    have : eps * s * s = eps * s ^ 2 := by ring
    rw [this]
    exact mul_le_of_le_one_right he0.le hs
  have hes0 : 0 ≤ eps * s * s := by
    have : eps * s * s = eps * s ^ 2 := by ring
    rw [this]
    exact mul_nonneg he0.le (sq_nonneg s)
  have hW0 : 0 < Real.sqrt (1 - eps * s * s) := Real.sqrt_pos.mpr (by linarith)
  have hW1 : Real.sqrt (1 - eps * s * s) ≤ 1 :=
    calc Real.sqrt (1 - eps * s * s) ≤ Real.sqrt 1 := Real.sqrt_le_sqrt (by linarith)
      _ = 1 := Real.sqrt_one
  have hrc : a ≤ a / Real.sqrt (1 - eps * s * s) := by
    rw [le_div_iff₀ hW0]
    have := mul_le_mul_of_nonneg_left hW1 ha.le
    linarith
  generalize a / Real.sqrt (1 - eps * s * s) = rc at hrc
  have h2 : a * (1 - eps) ≤ rc * (1 - eps) :=
    mul_le_mul_of_nonneg_right hrc (by linarith)
  have h3 : 0 < rc * eps := mul_pos (by linarith) he0
  constructor
  · linarith
  · have : rc * (1 - eps) = rc - rc * eps := by ring
    linarith

/-- Geocentric against geodetic latitude on an ellipsoid with `0 < e² < 1` and
`a (1 - e²) > 1`, for a height `h ≥ -1`: equal at -90, 0 and 90 degrees, and at any other
latitude the geocentric one lies strictly between 0 and the geodetic one. -/
lemma MAG_GeodeticToSpherical_phig_of (E : MAGtype_Ellipsoid ℝ) (p : MAGtype_CoordGeodetic ℝ)
    (ha : 0 < E.a) (he0 : 0 < E.epssq) (he1 : E.epssq < 1) (hB : 1 < E.a * (1 - E.epssq))
    (hlo : -90 ≤ p.phi) (hhi : p.phi ≤ 90) (hh : -1 ≤ p.HeightAboveEllipsoid) :
    (p.phi = -90 ∨ p.phi = 0 ∨ p.phi = 90 →
      (MAG_GeodeticToSpherical realLibm E p).phig = p.phi) ∧
    (0 < p.phi → p.phi < 90 →
      0 < (MAG_GeodeticToSpherical realLibm E p).phig ∧
      (MAG_GeodeticToSpherical realLibm E p).phig < p.phi) ∧
    (-90 < p.phi → p.phi < 0 →
      p.phi < (MAG_GeodeticToSpherical realLibm E p).phig ∧
      (MAG_GeodeticToSpherical realLibm E p).phig < 0) := by
  have hpi : 0 < Real.pi := Real.pi_pos
  have hscale : (0 : ℝ) < 180.0 / Real.pi := div_pos (by norm_num) hpi
  have hθ : DEG2RAD realLibm p.phi = p.phi * (Real.pi / 180) := by
    simp only [DEG2RAD, realLibm]
    norm_num
  have hθ1 : -(Real.pi / 2) ≤ DEG2RAD realLibm p.phi := by
    rw [hθ]
    have := mul_le_mul_of_nonneg_right hlo (by positivity : (0 : ℝ) ≤ Real.pi / 180)
    linarith
  have hθ2 : DEG2RAD realLibm p.phi ≤ Real.pi / 2 := by
    rw [hθ]
    have := mul_le_mul_of_nonneg_right hhi (by positivity : (0 : ℝ) ≤ Real.pi / 180)
    linarith
  have hsc : Real.sin (DEG2RAD realLibm p.phi) ^ 2 + Real.cos (DEG2RAD realLibm p.phi) ^ 2 = 1 :=
    Real.sin_sq_add_cos_sq _
  have hs2 : Real.sin (DEG2RAD realLibm p.phi) ^ 2 ≤ 1 := by
    have := sq_nonneg (Real.cos (DEG2RAD realLibm p.phi))
    linarith
  obtain ⟨w1, w2⟩ := geocentric_weights E.a E.epssq (Real.sin (DEG2RAD realLibm p.phi))
    p.HeightAboveEllipsoid ha he0 he1 hB hs2 hh
  obtain ⟨k, hk0, -, hkc, hk1, hk⟩ := geocentric_ratio _ _ _ _ w1 w2 hsc
  obtain ⟨a1, a2, a3⟩ := arcsin_scaled (DEG2RAD realLibm p.phi) k hθ1 hθ2 hk0 hkc hk1
  have hphig : (MAG_GeodeticToSpherical realLibm E p).phig =
      RAD2DEG realLibm (Real.arcsin (k * Real.sin (DEG2RAD realLibm p.phi))) := by
    rw [← hk]
    rfl
  have hphi : p.phi = RAD2DEG realLibm (DEG2RAD realLibm p.phi) :=
    (RAD2DEG_DEG2RAD_real p.phi).symm
  have hR : ∀ x : ℝ, RAD2DEG realLibm x = x * (180.0 / Real.pi) := fun _ => rfl
  have hzero : RAD2DEG realLibm 0 = 0 := by rw [hR, zero_mul]
  refine ⟨?_, ?_, ?_⟩
  · intro h
    rw [hphig, a1 ?_]
    · exact hphi.symm
    · rcases h with h | h | h
      · left
        rw [hθ, h]
        ring
      · right; left
        rw [hθ, h]
        ring
      · right; right
        rw [hθ, h]
        ring
  · intro h3 h4
    have t1 : 0 < DEG2RAD realLibm p.phi := by
      rw [hθ]
      positivity
    have t2 : DEG2RAD realLibm p.phi < Real.pi / 2 := by
      rw [hθ]
      have := mul_lt_mul_of_pos_right h4 (by positivity : (0 : ℝ) < Real.pi / 180)
      linarith
    obtain ⟨b1, b2⟩ := a2 t1 t2
    rw [hphig]
    constructor
    · rw [hR]
      exact mul_pos b1 hscale
    · have := mul_lt_mul_of_pos_right b2 hscale
      rw [← hR, ← hR, ← hphi] at this
      exact this
  · intro h3 h4
    have t1 : -(Real.pi / 2) < DEG2RAD realLibm p.phi := by
      rw [hθ]
      have := mul_lt_mul_of_pos_right h3 (by positivity : (0 : ℝ) < Real.pi / 180)
      linarith
    have t2 : DEG2RAD realLibm p.phi < 0 := by
      rw [hθ]
      exact mul_neg_of_neg_of_pos h4 (by positivity)
    obtain ⟨b1, b2⟩ := a3 t1 t2
    rw [hphig]
    constructor
    · have := mul_lt_mul_of_pos_right b1 hscale
      rw [← hR, ← hR, ← hphi] at this
      exact this
    · rw [hR]
      exact mul_neg_of_neg_of_pos b2 hscale

end GeocentricLatitude

section GeocentricClaim

/-- C25 (amended: in exact arithmetic): on the WGS-84 ellipsoid of `MAG_SetDefaults`, for a
geodetic latitude `phi` in `[-90, 90]` degrees and a height `h ≥ -1` km, the geocentric
latitude `phig` that `MAG_GeodeticToSpherical` computes with the real `sqrt`, `sin`, `cos`
and `asin` equals `phi` if and only if `phi` is -90, 0 or 90; at every other latitude the
two differ, with `|phig| < |phi|` and the same sign. -/
theorem MAG_GeodeticToSpherical_phig_vs_phi (Geoid : MAGtype_Geoid ℝ) (u : Int)
    (CoordGeodetic : MAGtype_CoordGeodetic ℝ) (hlo : -90 ≤ CoordGeodetic.phi)
    (hhi : CoordGeodetic.phi ≤ 90) (hh : -1 ≤ CoordGeodetic.HeightAboveEllipsoid) :
    ((MAG_GeodeticToSpherical realLibm (MAG_SetDefaults realLibm Geoid u).1
        CoordGeodetic).phig = CoordGeodetic.phi ↔
      (CoordGeodetic.phi = -90 ∨ CoordGeodetic.phi = 0 ∨ CoordGeodetic.phi = 90)) ∧
    (¬ (CoordGeodetic.phi = -90 ∨ CoordGeodetic.phi = 0 ∨ CoordGeodetic.phi = 90) →
      (MAG_GeodeticToSpherical realLibm (MAG_SetDefaults realLibm Geoid u).1
        CoordGeodetic).phig ≠ CoordGeodetic.phi ∧
      |(MAG_GeodeticToSpherical realLibm (MAG_SetDefaults realLibm Geoid u).1
        CoordGeodetic).phig| < |CoordGeodetic.phi| ∧
      0 < (MAG_GeodeticToSpherical realLibm (MAG_SetDefaults realLibm Geoid u).1
        CoordGeodetic).phig * CoordGeodetic.phi) := by
  obtain ⟨ha, hb, he⟩ := MAG_SetDefaults_wgs84 Geoid u
  obtain ⟨k1, k2, k3⟩ := MAG_GeodeticToSpherical_phig_of (MAG_SetDefaults realLibm Geoid u).1
    CoordGeodetic (by rw [ha]; norm_num) (by rw [he]; norm_num) (by rw [he]; norm_num)
    (by rw [ha, he]; norm_num) hlo hhi hh
  generalize (MAG_GeodeticToSpherical realLibm (MAG_SetDefaults realLibm Geoid u).1
    CoordGeodetic).phig = g at k1 k2 k3
  have key : ¬ (CoordGeodetic.phi = -90 ∨ CoordGeodetic.phi = 0 ∨ CoordGeodetic.phi = 90) →
      g ≠ CoordGeodetic.phi ∧ |g| < |CoordGeodetic.phi| ∧ 0 < g * CoordGeodetic.phi := by
    intro hn
    push_neg at hn
    obtain ⟨n1, n2, n3⟩ := hn
    rcases lt_or_gt_of_ne n2 with hneg | hpos
    · obtain ⟨b1, b2⟩ := k3 (lt_of_le_of_ne hlo (Ne.symm n1)) hneg
      refine ⟨ne_of_gt b1, ?_, mul_pos_of_neg_of_neg b2 hneg⟩
      rw [abs_of_neg b2, abs_of_neg hneg]
      linarith
    · obtain ⟨b1, b2⟩ := k2 hpos (lt_of_le_of_ne hhi n3)
      refine ⟨ne_of_lt b2, ?_, mul_pos b1 hpos⟩
      rw [abs_of_pos b1, abs_of_pos hpos]
      exact b2
  refine ⟨⟨fun h => ?_, k1⟩, key⟩
  by_contra hn
  exact (key hn).1 h

/-- Instance of C25 as amended: at 45 degrees north on the ellipsoid the geocentric latitude differs
from the geodetic one. -/
theorem MAG_GeodeticToSpherical_phig_vs_phi_witness :
    ((-90 : ℝ) ≤ 45 ∧ (45 : ℝ) ≤ 90 ∧ (-1 : ℝ) ≤ 0) ∧
    |(MAG_GeodeticToSpherical realLibm (MAG_SetDefaults realLibm flatGeoid 1).1
      { lambda := 0, phi := 45, HeightAboveEllipsoid := 0, HeightAboveGeoid := 0,
        UseGeoid := 1 }).phig| < |(45 : ℝ)| :=
  ⟨⟨by norm_num, by norm_num, by norm_num⟩,
    ((MAG_GeodeticToSpherical_phig_vs_phi flatGeoid 1
      { lambda := 0, phi := 45, HeightAboveEllipsoid := 0, HeightAboveGeoid := 0,
        UseGeoid := 1 } (by norm_num) (by norm_num) (by norm_num)).2
      (by norm_num)).2.1⟩

end GeocentricClaim

section RepairLemmas

/-- The loop `while(colat > 360) colat -= 360` leaves a colatitude in `[0, 360]` when it
starts from a nonnegative one and may take `⌈colat / 360⌉` turns. -/
lemma whileLoop_colat {α : Type} [LinearOrderedField α] (fuel : Nat) (c : α) (h0 : 0 ≤ c) (h1 : c ≤ 360 * (fuel : α) + 360) :
    0 ≤ whileLoop (fun c : α => decide (c > 360)) (fun c => c - 360) fuel c ∧
    whileLoop (fun c : α => decide (c > 360)) (fun c => c - 360) fuel c ≤ 360 := by
  induction fuel generalizing c with
  | zero =>
    refine ⟨h0, ?_⟩
    simpa using h1
  | succ k ih =>
    by_cases hc : c > 360
    · have e : whileLoop (fun c : α => decide (c > 360)) (fun c => c - 360) (k + 1) c =
          whileLoop (fun c : α => decide (c > 360)) (fun c => c - 360) k (c - 360) := by
        show (if decide (c > 360) = true then _ else c) = _
        rw [if_pos (by simpa using hc)]
      rw [e]
      apply ih
      · linarith
      · push_cast at h1
        linarith
    · rw [whileLoop_of_not_cond _ _ _ _ (by simpa using hc)]
      exact ⟨h0, le_of_not_gt hc⟩

/-- The latitude that `MAG_EquivalentLatLon` returns lies in `[-90, 90]`, whatever the
latitude and the longitude it is given. -/
lemma MAG_EquivalentLatLon_lat_range {α : Type} [LinearOrderedField α] [FloorRing α]
    (lat lon : α) :
    -90 ≤ (MAG_EquivalentLatLon lat lon).1 ∧ (MAG_EquivalentLatLon lat lon).1 ≤ 90 := by
  have hc0 : (0 : α) ≤ (if 90 - lat < 0 then -(90 - lat) else 90 - lat) := by
    split_ifs with h
    · linarith
    · exact le_of_not_lt h
  have hfuel : (if 90 - lat < 0 then -(90 - lat) else 90 - lat) ≤
      360 * ((Int.toNat (Int.ceil
        ((if 90 - lat < 0 then -(90 - lat) else 90 - lat) / 360)) : Nat) : α) + 360 := by
    generalize (if 90 - lat < 0 then -(90 - lat) else 90 - lat) = c at hc0 ⊢
    have h1 : c / 360 ≤ ((Int.ceil (c / 360) : Int) : α) := Int.le_ceil _
    have h2 : (0 : Int) ≤ Int.ceil (c / 360) := Int.ceil_nonneg (by positivity)
    have h3 : ((Int.toNat (Int.ceil (c / 360)) : Nat) : α) = ((Int.ceil (c / 360) : Int) : α) := by
      rw [← Int.cast_natCast, Int.toNat_of_nonneg h2]
    rw [h3]
    have h4 : c ≤ 360 * ((Int.ceil (c / 360) : Int) : α) := by
      have := mul_le_mul_of_nonneg_left h1 (by norm_num : (0 : α) ≤ 360)
      have e : 360 * (c / 360) = c := by field_simp
      linarith
    linarith
  obtain ⟨w0, w1⟩ := whileLoop_colat _ _ hc0 hfuel
  unfold MAG_EquivalentLatLon
  simp only []
  generalize whileLoop (fun c : α => decide (c > 360)) (fun c => c - 360) _ _ = w at w0 w1
  split_ifs <;> constructor <;> simp only [] <;> linarith

end RepairLemmas

section AssignCoeffsLemmas

variable {α : Type}

/-- The cells that `MAG_AssignMagneticModelCoeffs` writes are those of the degrees
`1 .. max nMax nMaxSecVar`: a main-field coefficient of a degree above both bounds is
left as it was.  The first loop reaches the degree `nMaxSecVar` even when this is above
`nMax`. -/
lemma MAG_AssignMagneticModelCoeffs_frame (Assignee Source R : MAGtype_MagneticModel α)
    (nMax nMaxSecVar n m : Int) (hm : 0 ≤ m) (h1 : nMax < n)
    (h2 : nMaxSecVar < n)
    (hR : MAG_AssignMagneticModelCoeffs Assignee Source nMax nMaxSecVar = some R) :
    R.Main_Field_Coeff_G (index n m) = Assignee.Main_Field_Coeff_G (index n m) ∧
    R.Main_Field_Coeff_H (index n m) = Assignee.Main_Field_Coeff_H (index n m) := by
  unfold MAG_AssignMagneticModelCoeffs at hR
  split_ifs at hR with hA
  simp only [Option.some.injEq] at hR
  have key : (R.Main_Field_Coeff_G (index n m), R.Main_Field_Coeff_H (index n m)) =
      (Assignee.Main_Field_Coeff_G (index n m), Assignee.Main_Field_Coeff_H (index n m)) := by
    rw [← hR]
    refine (forLoop_preserves_of_mem (nMaxSecVar + 1) nMax _ _
      (fun (S : MAGtype_MagneticModel α) =>
        (S.Main_Field_Coeff_G (index n m), S.Main_Field_Coeff_H (index n m))) ?_).trans ?_
    · intro k S hk1 hk2
      refine forLoop_preserves_of_mem 0 k _ _ (fun (S : MAGtype_MagneticModel α) =>
        (S.Main_Field_Coeff_G (index n m), S.Main_Field_Coeff_H (index n m))) ?_
      intro j S1 hj1 hj2
      by_cases hk0 : 0 ≤ k
      · have hx : index n m ≠ index k j :=
          (ne_of_lt (index_lt_index k j n m hk0 hj2 (by omega) hm)).symm
        simp [Function.update_noteq hx]
      · omega
    · refine forLoop_preserves_of_mem 1 nMaxSecVar _ _
        (fun (S : MAGtype_MagneticModel α) =>
          (S.Main_Field_Coeff_G (index n m), S.Main_Field_Coeff_H (index n m))) ?_
      intro k S hk1 hk2
      refine forLoop_preserves_of_mem 0 k _ _ (fun (S : MAGtype_MagneticModel α) =>
        (S.Main_Field_Coeff_G (index n m), S.Main_Field_Coeff_H (index n m))) ?_
      intro j S1 hj1 hj2
      have hx : index n m ≠ index k j :=
        (ne_of_lt (index_lt_index k j n m (by omega) hj2 (by omega) hm)).symm
      simp [Function.update_noteq hx]
  simp only [Prod.mk.injEq] at key
  exact key

end AssignCoeffsLemmas

section RotationClaim

/-- C32: `MAG_RotateMagneticVector` is a rotation in the north-down plane by
`Psi = phig - phi` (in radians): `Bx' = Bx cos Psi - Bz sin Psi`,
`Bz' = Bx sin Psi + Bz cos Psi`, it leaves `By` unchanged, it preserves `Bx² + Bz²` and
hence the total intensity `Bx² + By² + Bz²`, and it is the identity when `phig = phi`. -/
theorem MAG_RotateMagneticVector_rotation (CoordSpherical : MAGtype_CoordSpherical ℝ)
    (CoordGeodetic : MAGtype_CoordGeodetic ℝ) (MagneticResultsSph : MAGtype_MagneticResults ℝ) :
    ((MAG_RotateMagneticVector realLibm CoordSpherical CoordGeodetic MagneticResultsSph).Bx =
        MagneticResultsSph.Bx *
            Real.cos (DEG2RAD realLibm (CoordSpherical.phig - CoordGeodetic.phi)) -
          MagneticResultsSph.Bz *
            Real.sin (DEG2RAD realLibm (CoordSpherical.phig - CoordGeodetic.phi)) ∧
      (MAG_RotateMagneticVector realLibm CoordSpherical CoordGeodetic MagneticResultsSph).Bz =
        MagneticResultsSph.Bx *
            Real.sin (DEG2RAD realLibm (CoordSpherical.phig - CoordGeodetic.phi)) +
          MagneticResultsSph.Bz *
            Real.cos (DEG2RAD realLibm (CoordSpherical.phig - CoordGeodetic.phi))) ∧
    (MAG_RotateMagneticVector realLibm CoordSpherical CoordGeodetic MagneticResultsSph).By =
      MagneticResultsSph.By ∧
    (MAG_RotateMagneticVector realLibm CoordSpherical CoordGeodetic MagneticResultsSph).Bx ^ 2 +
        (MAG_RotateMagneticVector realLibm CoordSpherical CoordGeodetic
          MagneticResultsSph).Bz ^ 2 =
      MagneticResultsSph.Bx ^ 2 + MagneticResultsSph.Bz ^ 2 ∧
    (MAG_RotateMagneticVector realLibm CoordSpherical CoordGeodetic MagneticResultsSph).Bx ^ 2 +
        (MAG_RotateMagneticVector realLibm CoordSpherical CoordGeodetic
          MagneticResultsSph).By ^ 2 +
        (MAG_RotateMagneticVector realLibm CoordSpherical CoordGeodetic
          MagneticResultsSph).Bz ^ 2 =
      MagneticResultsSph.Bx ^ 2 + MagneticResultsSph.By ^ 2 + MagneticResultsSph.Bz ^ 2 ∧
    (CoordSpherical.phig = CoordGeodetic.phi →
      MAG_RotateMagneticVector realLibm CoordSpherical CoordGeodetic MagneticResultsSph =
        MagneticResultsSph) := by
  have hpsi : (realLibm.M_PI / 180) * (CoordSpherical.phig - CoordGeodetic.phi) =
      DEG2RAD realLibm (CoordSpherical.phig - CoordGeodetic.phi) := by
    simp only [DEG2RAD]
    norm_num
    ring
  have hx : (MAG_RotateMagneticVector realLibm CoordSpherical CoordGeodetic
      MagneticResultsSph).Bx = MagneticResultsSph.Bx *
        Real.cos (DEG2RAD realLibm (CoordSpherical.phig - CoordGeodetic.phi)) -
      MagneticResultsSph.Bz *
        Real.sin (DEG2RAD realLibm (CoordSpherical.phig - CoordGeodetic.phi)) := by
    rw [← hpsi]
    rfl
  have hz : (MAG_RotateMagneticVector realLibm CoordSpherical CoordGeodetic
      MagneticResultsSph).Bz = MagneticResultsSph.Bx *
        Real.sin (DEG2RAD realLibm (CoordSpherical.phig - CoordGeodetic.phi)) +
      MagneticResultsSph.Bz *
        Real.cos (DEG2RAD realLibm (CoordSpherical.phig - CoordGeodetic.phi)) := by
    rw [← hpsi]
    rfl
  have hy : (MAG_RotateMagneticVector realLibm CoordSpherical CoordGeodetic
      MagneticResultsSph).By = MagneticResultsSph.By := rfl
  have hsq : (MAG_RotateMagneticVector realLibm CoordSpherical CoordGeodetic
      MagneticResultsSph).Bx ^ 2 + (MAG_RotateMagneticVector realLibm CoordSpherical
        CoordGeodetic MagneticResultsSph).Bz ^ 2 =
      MagneticResultsSph.Bx ^ 2 + MagneticResultsSph.Bz ^ 2 := by
    rw [hx, hz]
    have h1 := Real.sin_sq_add_cos_sq
      (DEG2RAD realLibm (CoordSpherical.phig - CoordGeodetic.phi))
    generalize Real.sin (DEG2RAD realLibm (CoordSpherical.phig - CoordGeodetic.phi)) = s at h1
    generalize Real.cos (DEG2RAD realLibm (CoordSpherical.phig - CoordGeodetic.phi)) = c at h1
    have e : (MagneticResultsSph.Bx * c - MagneticResultsSph.Bz * s) ^ 2 +
        (MagneticResultsSph.Bx * s + MagneticResultsSph.Bz * c) ^ 2 =
        (MagneticResultsSph.Bx ^ 2 + MagneticResultsSph.Bz ^ 2) * (s ^ 2 + c ^ 2) := by ring
    rw [e, h1, mul_one]
  refine ⟨⟨hx, hz⟩, hy, hsq, ?_, ?_⟩
  · rw [hy]
    have e : ∀ a b c d : ℝ, a + c = d → a + b ^ 2 + c = d + b ^ 2 - 0 := by
      intro a b c d h
      rw [← h]
      ring
    have := e _ MagneticResultsSph.By _ _ hsq
    rw [this]
    ring
  · intro h
    have h0 : DEG2RAD realLibm (CoordSpherical.phig - CoordGeodetic.phi) = 0 := by
      rw [h, sub_self]
      simp [DEG2RAD]
    have e1 := hx
    have e2 := hz
    rw [h0, Real.cos_zero, Real.sin_zero, mul_one, mul_zero] at e1 e2
    rw [sub_zero] at e1
    rw [zero_add] at e2
    calc MAG_RotateMagneticVector realLibm CoordSpherical CoordGeodetic MagneticResultsSph
        = { Bx := (MAG_RotateMagneticVector realLibm CoordSpherical CoordGeodetic
              MagneticResultsSph).Bx,
            By := (MAG_RotateMagneticVector realLibm CoordSpherical CoordGeodetic
              MagneticResultsSph).By,
            Bz := (MAG_RotateMagneticVector realLibm CoordSpherical CoordGeodetic
              MagneticResultsSph).Bz } := rfl
      _ = { Bx := MagneticResultsSph.Bx, By := MagneticResultsSph.By,
            Bz := MagneticResultsSph.Bz } := by rw [e1, e2, hy]
      _ = MagneticResultsSph := rfl

end RotationClaim

section ElementRangeClaim

/-- The real-number library has the ranges that C guarantees. -/
lemma realLibm_ranges : CStandardRanges realLibm := by
  refine ⟨rfl, rfl, fun y x => ?_, fun y x hx => ?_⟩
  · exact ⟨(Complex.neg_pi_lt_arg ⟨x, y⟩).le, Complex.arg_le_pi ⟨x, y⟩⟩
  · have ha : |Complex.arg ⟨x, y⟩| ≤ Real.pi / 2 := Complex.abs_arg_le_pi_div_two_iff.mpr hx
    exact abs_le.mp ha

/-- The library that reads a zero ordinate as `-0.0` has the ranges that C guarantees. -/
lemma negZeroLibm_ranges : CStandardRanges negZeroLibm := by
  have hpi := Real.pi_pos
  refine ⟨rfl, rfl, fun y x => ?_, fun y x hx => ?_⟩
  · show -Real.pi ≤ (if y = 0 ∧ x < 0 then -Real.pi else Complex.arg ⟨x, y⟩) ∧
      (if y = 0 ∧ x < 0 then -Real.pi else Complex.arg ⟨x, y⟩) ≤ Real.pi
    split_ifs
    · exact ⟨le_refl _, by linarith⟩
    · exact ⟨(Complex.neg_pi_lt_arg ⟨x, y⟩).le, Complex.arg_le_pi ⟨x, y⟩⟩
  · show -(Real.pi / 2) ≤ (if y = 0 ∧ x < 0 then -Real.pi else Complex.arg ⟨x, y⟩) ∧
      (if y = 0 ∧ x < 0 then -Real.pi else Complex.arg ⟨x, y⟩) ≤ Real.pi / 2
    rw [if_neg (fun h => absurd h.2 (not_lt.mpr hx))]
    have ha : |Complex.arg ⟨x, y⟩| ≤ Real.pi / 2 := Complex.abs_arg_le_pi_div_two_iff.mpr hx
    exact abs_le.mp ha

/-- C33 (counterexample): for the field vector `(-3, -0.0, 0)`, the zero ordinate being the
negative zero, `atan2` returns `-π` and `MAG_CalculateGeoMagneticElements` stores
`Decl = -180`, which is not above `-180`; the library used has the ranges that C
guarantees. -/
theorem MAG_CalculateGeoMagneticElements_Decl_neg_180 :
    CStandardRanges negZeroLibm ∧
    (MAG_CalculateGeoMagneticElements negZeroLibm { Bx := -3, By := 0, Bz := 0 }
      zeroElements).Decl = -180 ∧
    ¬ (-180 < (MAG_CalculateGeoMagneticElements negZeroLibm { Bx := -3, By := 0, Bz := 0 }
      zeroElements).Decl) := by
  have hpi : Real.pi ≠ 0 := Real.pi_pos.ne'
  have e : (MAG_CalculateGeoMagneticElements negZeroLibm { Bx := -3, By := 0, Bz := 0 }
      zeroElements).Decl = -180 := by
    show (if (0 : ℝ) = 0 ∧ (-3 : ℝ) < 0 then -Real.pi else Complex.arg ⟨-3, 0⟩) *
      (180.0 / Real.pi) = -180
    rw [if_pos ⟨rfl, by norm_num⟩]
    field_simp
    ring
  refine ⟨negZeroLibm_ranges, e, ?_⟩
  rw [e]
  exact lt_irrefl _

/-- C33 (amended: `-180 ≤ Decl`, the bound being attained): for every field vector
`(Bx, By, Bz)` and every math library with the ranges that C guarantees, the elements
produced by `MAG_CalculateGeoMagneticElements` satisfy `H ≥ 0`, `F ≥ H`, `F ≥ |Z|`,
`-180 ≤ Decl ≤ 180` degrees and `-90 ≤ Incl ≤ 90` degrees, whatever the element record
held before the call. -/
theorem MAG_CalculateGeoMagneticElements_ranges (L : Libm ℝ)
    (MagneticResultsGeo : MAGtype_MagneticResults ℝ)
    (GeoMagneticElements : MAGtype_GeoMagneticElements ℝ) (hL : CStandardRanges L) :
    0 ≤ (MAG_CalculateGeoMagneticElements L MagneticResultsGeo GeoMagneticElements).H ∧
    (MAG_CalculateGeoMagneticElements L MagneticResultsGeo GeoMagneticElements).H ≤
      (MAG_CalculateGeoMagneticElements L MagneticResultsGeo GeoMagneticElements).F ∧
    |(MAG_CalculateGeoMagneticElements L MagneticResultsGeo GeoMagneticElements).Z| ≤
      (MAG_CalculateGeoMagneticElements L MagneticResultsGeo GeoMagneticElements).F ∧
    -180 ≤ (MAG_CalculateGeoMagneticElements L MagneticResultsGeo GeoMagneticElements).Decl ∧
    (MAG_CalculateGeoMagneticElements L MagneticResultsGeo GeoMagneticElements).Decl ≤ 180 ∧
    -90 ≤ (MAG_CalculateGeoMagneticElements L MagneticResultsGeo GeoMagneticElements).Incl ∧
    (MAG_CalculateGeoMagneticElements L MagneticResultsGeo GeoMagneticElements).Incl ≤ 90 := by
  obtain ⟨hs, hp, ha, hb⟩ := hL
  have hpi : 0 < Real.pi := Real.pi_pos
  have hscale : (0 : ℝ) < 180.0 / Real.pi := div_pos (by norm_num) hpi
  have hR : ∀ x : ℝ, RAD2DEG L x = x * (180.0 / Real.pi) := fun x => by
    unfold RAD2DEG
    rw [hp]
  have e180 : Real.pi * (180.0 / Real.pi) = 180 := by
    field_simp
    norm_num
  have e90 : Real.pi / 2 * (180.0 / Real.pi) = 90 := by
    field_simp
    ring
  have hH : (MAG_CalculateGeoMagneticElements L MagneticResultsGeo GeoMagneticElements).H =
      Real.sqrt (MagneticResultsGeo.Bx * MagneticResultsGeo.Bx +
        MagneticResultsGeo.By * MagneticResultsGeo.By) := by
    show L.sqrt _ = _
    rw [hs]
  have hF : (MAG_CalculateGeoMagneticElements L MagneticResultsGeo GeoMagneticElements).F =
      Real.sqrt (Real.sqrt (MagneticResultsGeo.Bx * MagneticResultsGeo.Bx +
          MagneticResultsGeo.By * MagneticResultsGeo.By) *
        Real.sqrt (MagneticResultsGeo.Bx * MagneticResultsGeo.Bx +
          MagneticResultsGeo.By * MagneticResultsGeo.By) +
        MagneticResultsGeo.Bz * MagneticResultsGeo.Bz) := by
    show L.sqrt (L.sqrt _ * L.sqrt _ + _) = _
    rw [hs]
  have hZ : (MAG_CalculateGeoMagneticElements L MagneticResultsGeo GeoMagneticElements).Z =
      MagneticResultsGeo.Bz := rfl
  have hD : (MAG_CalculateGeoMagneticElements L MagneticResultsGeo GeoMagneticElements).Decl =
      RAD2DEG L (L.atan2 MagneticResultsGeo.By MagneticResultsGeo.Bx) := rfl
  have hI : (MAG_CalculateGeoMagneticElements L MagneticResultsGeo GeoMagneticElements).Incl =
      RAD2DEG L (L.atan2 MagneticResultsGeo.Bz
        (Real.sqrt (MagneticResultsGeo.Bx * MagneticResultsGeo.Bx +
          MagneticResultsGeo.By * MagneticResultsGeo.By))) := by
    show RAD2DEG L (L.atan2 _ (L.sqrt _)) = _
    rw [hs]
  have h0 : 0 ≤ Real.sqrt (MagneticResultsGeo.Bx * MagneticResultsGeo.Bx +
      MagneticResultsGeo.By * MagneticResultsGeo.By) := Real.sqrt_nonneg _
  rw [hZ, hD, hI, hF, hH]
  generalize Real.sqrt (MagneticResultsGeo.Bx * MagneticResultsGeo.Bx +
    MagneticResultsGeo.By * MagneticResultsGeo.By) = h at h0 ⊢
  refine ⟨h0, ?_, ?_, ?_, ?_, ?_, ?_⟩
  · calc h = Real.sqrt (h * h) := (Real.sqrt_mul_self h0).symm
      _ ≤ Real.sqrt (h * h + MagneticResultsGeo.Bz * MagneticResultsGeo.Bz) :=
        Real.sqrt_le_sqrt (by nlinarith [mul_self_nonneg MagneticResultsGeo.Bz])
  · calc |MagneticResultsGeo.Bz| = Real.sqrt (MagneticResultsGeo.Bz * MagneticResultsGeo.Bz) :=
        (Real.sqrt_mul_self_eq_abs _).symm
      _ ≤ Real.sqrt (h * h + MagneticResultsGeo.Bz * MagneticResultsGeo.Bz) :=
        Real.sqrt_le_sqrt (by nlinarith [mul_self_nonneg h])
  · have := mul_le_mul_of_nonneg_right
      (ha MagneticResultsGeo.By MagneticResultsGeo.Bx).1 hscale.le
    rw [hR]
    rw [neg_mul, e180] at this
    exact this
  · have := mul_le_mul_of_nonneg_right
      (ha MagneticResultsGeo.By MagneticResultsGeo.Bx).2 hscale.le
    rw [hR]
    rw [e180] at this
    exact this
  · have := mul_le_mul_of_nonneg_right (hb MagneticResultsGeo.Bz h h0).1 hscale.le
    rw [hR]
    rw [neg_mul, e90] at this
    exact this
  · have := mul_le_mul_of_nonneg_right (hb MagneticResultsGeo.Bz h h0).2 hscale.le
    rw [hR]
    rw [e90] at this
    exact this

/-- Instance of C33 as amended: the vector `(3, -4, 5)` with the real-number library. -/
theorem MAG_CalculateGeoMagneticElements_ranges_witness :
    CStandardRanges realLibm ∧
    -180 ≤ (MAG_CalculateGeoMagneticElements realLibm { Bx := 3, By := -4, Bz := 5 }
      zeroElements).Decl ∧
    (MAG_CalculateGeoMagneticElements realLibm { Bx := 3, By := -4, Bz := 5 }
      zeroElements).Decl ≤ 180 :=
  ⟨realLibm_ranges,
    (MAG_CalculateGeoMagneticElements_ranges realLibm { Bx := 3, By := -4, Bz := 5 }
      zeroElements realLibm_ranges).2.2.2.1,
    (MAG_CalculateGeoMagneticElements_ranges realLibm { Bx := 3, By := -4, Bz := 5 }
      zeroElements realLibm_ranges).2.2.2.2.1⟩

end ElementRangeClaim

section DispatchClaim

/-- C31: for every geocentric latitude and every `nMax ≥ 0`, `MAG_AssociatedLegendreFunction`
takes its table from `MAG_PcupLow` when `nMax ≤ 16` or `1 - |sin(phig)| < 1e-10`, which is
the case at exactly -90 and 90 degrees, and from `MAG_PcupHigh` otherwise; in that second
case `z ≠ 0`, `|x| ≠ 1` and `nMax ≠ 0`, so that `MAG_PcupHigh` passes its three failure
tests and returns `TRUE`; in both cases the dispatcher returns `TRUE`. -/
theorem MAG_AssociatedLegendreFunction_dispatch (CoordSpherical : MAGtype_CoordSpherical ℝ)
    (nMax : Int) (LegendreFunction : MAGtype_LegendreFunction ℝ) (W : LegendreScratch ℝ)
    (_hn : 0 ≤ nMax) :
    ((nMax ≤ 16 ∨
        1 - fabs (realLibm.sin (DEG2RAD realLibm CoordSpherical.phig)) < 1.0e-10) →
      MAG_AssociatedLegendreFunction realLibm CoordSpherical nMax LegendreFunction W =
        (TRUE, (MAG_PcupLow realLibm LegendreFunction
          (realLibm.sin (DEG2RAD realLibm CoordSpherical.phig)) nMax W.schmidtQuasiNorm).2)) ∧
    (¬ (nMax ≤ 16 ∨
        1 - fabs (realLibm.sin (DEG2RAD realLibm CoordSpherical.phig)) < 1.0e-10) →
      MAG_AssociatedLegendreFunction realLibm CoordSpherical nMax LegendreFunction W =
        (TRUE, (MAG_PcupHigh realLibm LegendreFunction
          (realLibm.sin (DEG2RAD realLibm CoordSpherical.phig)) nMax W.f1 W.f2 W.PreSqr).2) ∧
      realLibm.sqrt ((1.0 - realLibm.sin (DEG2RAD realLibm CoordSpherical.phig)) *
        (1.0 + realLibm.sin (DEG2RAD realLibm CoordSpherical.phig))) ≠ 0 ∧
      fabs (realLibm.sin (DEG2RAD realLibm CoordSpherical.phig)) ≠ 1.0 ∧
      nMax ≠ 0 ∧
      (MAG_PcupHigh realLibm LegendreFunction
        (realLibm.sin (DEG2RAD realLibm CoordSpherical.phig)) nMax W.f1 W.f2 W.PreSqr).1 =
          TRUE) ∧
    ((CoordSpherical.phig = 90 ∨ CoordSpherical.phig = -90) →
      1 - fabs (realLibm.sin (DEG2RAD realLibm CoordSpherical.phig)) < 1.0e-10) ∧
    (MAG_AssociatedLegendreFunction realLibm CoordSpherical nMax LegendreFunction W).1 =
      TRUE := by
  have hT : (TRUE : Int) ≠ 0 := by decide
  have hLow : (nMax ≤ 16 ∨
        1 - fabs (realLibm.sin (DEG2RAD realLibm CoordSpherical.phig)) < 1.0e-10) →
      MAG_AssociatedLegendreFunction realLibm CoordSpherical nMax LegendreFunction W =
        (TRUE, (MAG_PcupLow realLibm LegendreFunction
          (realLibm.sin (DEG2RAD realLibm CoordSpherical.phig)) nMax W.schmidtQuasiNorm).2) := by
    intro h
    unfold MAG_AssociatedLegendreFunction
    simp only []
    rw [if_pos h]
    have : (MAG_PcupLow realLibm LegendreFunction
      (realLibm.sin (DEG2RAD realLibm CoordSpherical.phig)) nMax W.schmidtQuasiNorm).1 = TRUE :=
      rfl
    rw [this, if_neg hT]
  have hHigh : ¬ (nMax ≤ 16 ∨
        1 - fabs (realLibm.sin (DEG2RAD realLibm CoordSpherical.phig)) < 1.0e-10) →
      realLibm.sqrt ((1.0 - realLibm.sin (DEG2RAD realLibm CoordSpherical.phig)) *
        (1.0 + realLibm.sin (DEG2RAD realLibm CoordSpherical.phig))) ≠ 0 ∧
      fabs (realLibm.sin (DEG2RAD realLibm CoordSpherical.phig)) ≠ 1.0 ∧
      nMax ≠ 0 := by
    intro h
    push_neg at h
    obtain ⟨h16, hx⟩ := h
    generalize realLibm.sin (DEG2RAD realLibm CoordSpherical.phig) = x at hx ⊢
    have h1 : (1.0 : ℝ) = 1 := by norm_num
    have hx1 : fabs x < 1 := by
      have : (0 : ℝ) < 1.0e-10 := by norm_num
      linarith
    have hx2 : |x| < 1 := hx1
    obtain ⟨lo, hi⟩ := abs_lt.mp hx2
    refine ⟨?_, ?_, by omega⟩
    · show Real.sqrt ((1.0 - x) * (1.0 + x)) ≠ 0
      rw [h1]
      exact (Real.sqrt_pos.mpr (mul_pos (by linarith) (by linarith))).ne.symm
    · rw [h1]
      exact ne_of_lt hx1
  have hHighT : ¬ (nMax ≤ 16 ∨
        1 - fabs (realLibm.sin (DEG2RAD realLibm CoordSpherical.phig)) < 1.0e-10) →
      (MAG_PcupHigh realLibm LegendreFunction
        (realLibm.sin (DEG2RAD realLibm CoordSpherical.phig)) nMax W.f1 W.f2 W.PreSqr).1 =
          TRUE := by
    intro h
    obtain ⟨a1, a2, a3⟩ := hHigh h
    unfold MAG_PcupHigh
    simp only []
    rw [if_neg a1, if_neg a2, if_neg a3]
  have hHighR : ¬ (nMax ≤ 16 ∨
        1 - fabs (realLibm.sin (DEG2RAD realLibm CoordSpherical.phig)) < 1.0e-10) →
      MAG_AssociatedLegendreFunction realLibm CoordSpherical nMax LegendreFunction W =
        (TRUE, (MAG_PcupHigh realLibm LegendreFunction
          (realLibm.sin (DEG2RAD realLibm CoordSpherical.phig)) nMax W.f1 W.f2 W.PreSqr).2) := by
    intro h
    unfold MAG_AssociatedLegendreFunction
    simp only []
    rw [if_neg h, hHighT h, if_neg hT]
  refine ⟨hLow, fun h => ⟨hHighR h, (hHigh h).1, (hHigh h).2.1, (hHigh h).2.2, hHighT h⟩,
    ?_, ?_⟩
  · intro h
    have hs : fabs (realLibm.sin (DEG2RAD realLibm CoordSpherical.phig)) = 1 := by
      have e1 : DEG2RAD realLibm (90 : ℝ) = Real.pi / 2 := by
        simp only [DEG2RAD, realLibm]
        norm_num
        ring
      have e2 : DEG2RAD realLibm (-90 : ℝ) = -(Real.pi / 2) := by
        simp only [DEG2RAD, realLibm]
        norm_num
        ring
      rcases h with h | h
      · rw [h, e1]
        show |Real.sin (Real.pi / 2)| = 1
        rw [Real.sin_pi_div_two, abs_one]
      · rw [h, e2]
        show |Real.sin (-(Real.pi / 2))| = 1
        rw [Real.sin_neg, Real.sin_pi_div_two, abs_neg, abs_one]
    rw [hs]
    norm_num
  · by_cases h : nMax ≤ 16 ∨
        1 - fabs (realLibm.sin (DEG2RAD realLibm CoordSpherical.phig)) < 1.0e-10
    · rw [hLow h]
    · rw [hHighR h]

/-- Instance of C31: degree 20 at the north pole. -/
theorem MAG_AssociatedLegendreFunction_dispatch_witness :
    ((0 : Int) ≤ 20) ∧
    (MAG_AssociatedLegendreFunction realLibm { lambda := 0, phig := 90, r := 6371.2 } 20
      { Pcup := fun _ => 0, dPcup := fun _ => 0 } zeroScratch.Legendre).1 = TRUE :=
  ⟨by norm_num,
    (MAG_AssociatedLegendreFunction_dispatch { lambda := 0, phig := 90, r := 6371.2 } 20
      { Pcup := fun _ => 0, dPcup := fun _ => 0 } zeroScratch.Legendre (by norm_num)).2.2.2⟩

end DispatchClaim

section CalendarLemmas

/-- The sum of the cells `1 .. j + 1` of a table is the sum of the cells `1 .. j` plus the
cell `j + 1`. -/
lemma cumulative_succ (md : Int → Int) (j : Int) (hj : 0 ≤ j) :
    forLoop 1 (j + 1) (fun i (t : Int) => t + md i) 0 =
      forLoop 1 j (fun i (t : Int) => t + md i) 0 + md (j + 1) :=
  forLoop_succ 1 j _ 0 (by omega)

/-- The running sum of a table with nonnegative cells does not decrease. -/
lemma cumulative_mono (md : Int → Int) (hi : Int)
    (hmd : ∀ i : Int, 1 ≤ i → i ≤ hi → 0 ≤ md i) (j : Int) (d : Nat) (hj : 0 ≤ j) (hd : j + (d : Int) ≤ hi) :
    forLoop 1 j (fun i (t : Int) => t + md i) 0 ≤
      forLoop 1 (j + (d : Int)) (fun i (t : Int) => t + md i) 0 := by
  induction d with
  | zero => simp
  | succ d ih =>
    have e : j + ((d + 1 : Nat) : Int) = (j + (d : Int)) + 1 := by push_cast; ring
    rw [e] at hd ⊢
    rw [cumulative_succ md _ (by omega)]
    have := hmd (j + (d : Int) + 1) (by omega) hd
    have := ih (by omega)
    omega

/-- The loop `for(i = 1; i <= Month; i++) temp += MonthDays[i - 1]` over a table whose cell
0 holds 0 adds up the cells `1 .. Month - 1`. -/
lemma temp_eq_cumulative (md : Int → Int) (h0 : md 0 = 0) (d : Nat) :
    forLoop 1 ((d : Int) + 1) (fun i (t : Int) => t + md (i - 1)) 0 =
      forLoop 1 (d : Int) (fun i (t : Int) => t + md i) 0 := by
  induction d with
  | zero =>
    have e : (((0 : Nat) : Int) + 1) = 1 := by norm_num
    rw [e, forLoop_one_one, forLoop_of_lt _ _ _ _ (by norm_num)]
    simp [h0]
  | succ d ih =>
    have e : ((d + 1 : Nat) : Int) = (d : Int) + 1 := by push_cast; ring
    rw [e, forLoop_succ 1 ((d : Int) + 1) (fun i (t : Int) => t + md (i - 1)) 0 (by omega), ih,
      cumulative_succ md _ (by omega)]
    simp

/-- The loop of `MAG_YearToDate` over a table `md` with nonnegative cells: when
`DayOfTheYear` is the day `Dy` of the month `M`, that is the sum of the cells before `M`
plus `Dy` with `1 ≤ Dy ≤ md M`, the loop stores `M` and `Dy` in `Month` and `Day`. -/
lemma YearToDate_loop_spec {α : Type} (md : Int → Int)
    (hmd : ∀ i : Int, 1 ≤ i → i ≤ 12 → 0 ≤ md i) (D1 : MAGtype_Date α) (M Dy doy : Int)
    (h1 : 1 ≤ M) (h12 : M ≤ 12) (hd1 : 1 ≤ Dy) (hd2 : Dy ≤ md M)
    (hdoy : doy = forLoop 1 (M - 1) (fun i (t : Int) => t + md i) 0 + Dy) :
    (forLoop 1 12 (fun i (s : YearToDateState α) =>
      if s.left then s
      else
        let CumulativeDays := s.CumulativeDays + md i
        if doy ≤ CumulativeDays then
          { CumulativeDays := CumulativeDays,
            CalendarDate := { s.CalendarDate with
              Month := i, Day := md i - (CumulativeDays - doy) },
            left := true }
        else { s with CumulativeDays := CumulativeDays })
      { CumulativeDays := 0, CalendarDate := D1, left := false }).CalendarDate =
      { D1 with Month := M, Day := Dy } := by
  have key := forLoop_invariant 1 12 (fun i (s : YearToDateState α) =>
      if s.left then s
      else
        let CumulativeDays := s.CumulativeDays + md i
        if doy ≤ CumulativeDays then
          { CumulativeDays := CumulativeDays,
            CalendarDate := { s.CalendarDate with
              Month := i, Day := md i - (CumulativeDays - doy) },
            left := true }
        else { s with CumulativeDays := CumulativeDays })
      { CumulativeDays := 0, CalendarDate := D1, left := false }
    (fun (i : Int) (s : YearToDateState α) =>
      (i ≤ M → s.left = false ∧ s.CalendarDate = D1 ∧
        s.CumulativeDays = forLoop 1 (i - 1) (fun i (t : Int) => t + md i) 0) ∧
      (M < i → s.left = true ∧ s.CalendarDate = { D1 with Month := M, Day := Dy }))
    (by norm_num)
    ⟨fun _ => ⟨rfl, rfl, by rw [forLoop_of_lt _ _ _ _ (by norm_num)]⟩, fun h => by omega⟩
    (by
      intro i s hi1 hi12 ⟨inv1, inv2⟩
      by_cases hiM : i ≤ M
      · obtain ⟨l, c, e⟩ := inv1 hiM
        have hl : ¬ (s.left = true) := by rw [l]; exact Bool.false_ne_true
        have hcum : s.CumulativeDays + md i =
            forLoop 1 i (fun i (t : Int) => t + md i) 0 := by
          have := cumulative_succ md (i - 1) (by omega)
          rw [sub_add_cancel] at this
          rw [this, e]
        beta_reduce
        rw [if_neg hl]
        simp only []
        rw [hcum]
        by_cases hlt : i < M
        · have hmono := cumulative_mono md 12 hmd i (M - 1 - i).toNat (by omega) (by omega)
          have e2 : i + (((M - 1 - i).toNat : Nat) : Int) = M - 1 := by omega
          rw [e2] at hmono
          have hno : ¬ (doy ≤ forLoop 1 i (fun i (t : Int) => t + md i) 0) := by omega
          rw [if_neg hno]
          refine ⟨fun _ => ⟨l, c, ?_⟩, fun h => by omega⟩
          simp
        · have hM : i = M := by omega
          subst hM
          have hsucc := cumulative_succ md (i - 1) (by omega)
          rw [sub_add_cancel] at hsucc
          have hyes : doy ≤ forLoop 1 i (fun i (t : Int) => t + md i) 0 := by omega
          rw [if_pos hyes]
          refine ⟨fun h => by omega, fun _ => ⟨rfl, ?_⟩⟩
          simp only []
          rw [c]
          have : md i - (forLoop 1 i (fun i (t : Int) => t + md i) 0 - doy) = Dy := by omega
          rw [this]
      · obtain ⟨l, c⟩ := inv2 (by omega)
        beta_reduce
        rw [if_pos l]
        exact ⟨fun h => by omega, fun _ => ⟨l, c⟩⟩)
  exact (key.2 (by omega)).2

/-- The cells of `MonthDays` are nonnegative. -/
lemma MonthDays_nonneg (y i : Int) (h1 : 1 ≤ i) (h12 : i ≤ 12) :
    0 ≤ MonthDays (ExtraDay y) i := by
  have hE : ExtraDay y = 0 ∨ ExtraDay y = 1 := by
    unfold ExtraDay
    split_ifs <;> simp
  unfold MonthDays
  interval_cases i <;> simp
  omega

end CalendarLemmas

section CalendarRoundTrip

/-- The two roundings of `MAG_YearToDate` on the decimal year `Y + k / (365 + E)` of the
day of rank `k + 1`, `0 ≤ k < 365 + E`: the year is `Y` and `DayOfTheYear` is `k + 1`. -/
lemma YearToDate_floor (α : Type) [LinearOrderedField α] [FloorRing α] (Y k E : Int)
    (hE : 0 ≤ E) (hk0 : 0 ≤ k) (hk : k < 365 + E) :
    Int.floor (((Y : Int) : α) + ((k : Int) : α) / (365.0 + ((E : Int) : α))) = Y ∧
    Int.floor ((((Y : Int) : α) + ((k : Int) : α) / (365.0 + ((E : Int) : α)) -
      ((Y : Int) : α)) * (365.0 + ((E : Int) : α)) + 0.5) + 1 = k + 1 := by
  have h365 : (365.0 : α) = 365 := by norm_num
  have hEα : (0 : α) ≤ ((E : Int) : α) := by exact_mod_cast hE
  have hden : (0 : α) < 365.0 + ((E : Int) : α) := by
    rw [h365]
    linarith
  have hkα : (0 : α) ≤ ((k : Int) : α) := by exact_mod_cast hk0
  have hklt : ((k : Int) : α) < 365.0 + ((E : Int) : α) := by
    rw [h365]
    exact_mod_cast hk
  constructor
  · rw [Int.floor_int_add]
    have : Int.floor (((k : Int) : α) / (365.0 + ((E : Int) : α))) = 0 := by
      rw [Int.floor_eq_iff]
      constructor
      · simpa using div_nonneg hkα hden.le
      · rw [Int.cast_zero, zero_add, div_lt_one hden]
        exact hklt
    rw [this, add_zero]
  · have e : (((Y : Int) : α) + ((k : Int) : α) / (365.0 + ((E : Int) : α)) -
        ((Y : Int) : α)) * (365.0 + ((E : Int) : α)) = ((k : Int) : α) := by
      field_simp
      ring
    rw [e, Int.floor_int_add]
    have : Int.floor (0.5 : α) = 0 := by
      rw [Int.floor_eq_iff]
      constructor <;> norm_num
    rw [this, add_zero]

/-- The date that `MAG_DateToYear` returns for a valid calendar date, with the rank of the
day written as the sum of the cells of `MonthDays` before `Month` plus `Day`. -/
lemma MAG_DateToYear_valid {α : Type} [LinearOrderedField α]
    (CalendarDate : MAGtype_Date α) (h1 : 1 ≤ CalendarDate.Month)
    (h12 : CalendarDate.Month ≤ 12) (hd1 : 1 ≤ CalendarDate.Day)
    (hd2 : CalendarDate.Day ≤ MonthDays (ExtraDay CalendarDate.Year) CalendarDate.Month) :
    MAG_DateToYear CalendarDate = (TRUE, { CalendarDate with
      DecimalYear := ((CalendarDate.Year : Int) : α) +
        ((forLoop 1 (CalendarDate.Month - 1)
            (fun i (t : Int) => t + MonthDays (ExtraDay CalendarDate.Year) i) 0 +
          CalendarDate.Day - 1 : Int) : α) /
          (365.0 + ((ExtraDay CalendarDate.Year : Int) : α)) }) := by
  obtain ⟨d, hd⟩ : ∃ d : Nat, CalendarDate.Month = (d : Int) + 1 :=
    ⟨(CalendarDate.Month - 1).toNat, by omega⟩
  have htemp := temp_eq_cumulative (MonthDays (ExtraDay CalendarDate.Year)) rfl d
  rw [← hd] at htemp
  have hd' : (d : Int) = CalendarDate.Month - 1 := by omega
  rw [hd'] at htemp
  unfold MAG_DateToYear
  simp only []
  rw [if_neg (by omega), if_neg (by omega), if_neg (by omega), htemp]

/-- C36: for every valid Gregorian calendar date with `Year ≥ 1` (`1 ≤ Month ≤ 12`,
`1 ≤ Day ≤` the days of that month), `MAG_DateToYear` succeeds, and `MAG_YearToDate`
applied to a date record that holds the `DecimalYear` it produced and any `Year`, `Month`
and `Day` whatever (`y0`, `m0`, `d0`) succeeds and stores the `Year`, `Month` and `Day` of
the calendar date, in exact arithmetic. -/
theorem MAG_YearToDate_MAG_DateToYear {α : Type} [LinearOrderedField α] [FloorRing α]
    (CalendarDate : MAGtype_Date α) (y0 m0 d0 : Int)
    (hy : 1 ≤ CalendarDate.Year) (h1 : 1 ≤ CalendarDate.Month)
    (h12 : CalendarDate.Month ≤ 12) (hd1 : 1 ≤ CalendarDate.Day)
    (hd2 : CalendarDate.Day ≤
      gregorianDaysInMonth CalendarDate.Year CalendarDate.Month) :
    (MAG_DateToYear CalendarDate).1 = TRUE ∧
    MAG_YearToDate { Year := y0, Month := m0, Day := d0,
                     DecimalYear := ((MAG_DateToYear CalendarDate).2).DecimalYear } =
      (TRUE, { Year := CalendarDate.Year, Month := CalendarDate.Month,
               Day := CalendarDate.Day,
               DecimalYear := ((MAG_DateToYear CalendarDate).2).DecimalYear }) := by
  have hE : ExtraDay CalendarDate.Year = 0 ∨ ExtraDay CalendarDate.Year = 1 := by
    unfold ExtraDay
    split_ifs <;> simp
  have hmd : ∀ i : Int, 1 ≤ i → i ≤ 12 → 0 ≤ MonthDays (ExtraDay CalendarDate.Year) i :=
    fun i => MonthDays_nonneg CalendarDate.Year i
  have hd2' : CalendarDate.Day ≤ MonthDays (ExtraDay CalendarDate.Year) CalendarDate.Month := by
    rw [MonthDays_eq_gregorianDaysInMonth _ _ h1 h12]
    exact hd2
  have hcum12 : forLoop 1 12
      (fun i (t : Int) => t + MonthDays (ExtraDay CalendarDate.Year) i) 0 =
      365 + ExtraDay CalendarDate.Year := by
    simp [forLoop, List.range_succ, MonthDays]
    ring
  have hsucc := cumulative_succ (MonthDays (ExtraDay CalendarDate.Year))
    (CalendarDate.Month - 1) (by omega)
  rw [sub_add_cancel] at hsucc
  have hmono := cumulative_mono (MonthDays (ExtraDay CalendarDate.Year)) 12 hmd
    CalendarDate.Month (12 - CalendarDate.Month).toNat (by omega) (by omega)
  have e12 : CalendarDate.Month + (((12 - CalendarDate.Month).toNat : Nat) : Int) = 12 := by
    omega
  rw [e12, hcum12] at hmono
  have hmono0 := cumulative_mono (MonthDays (ExtraDay CalendarDate.Year)) 12 hmd
    0 (CalendarDate.Month - 1).toNat le_rfl (by omega)
  have e0 : (0 : Int) + (((CalendarDate.Month - 1).toNat : Nat) : Int) =
      CalendarDate.Month - 1 := by omega
  rw [e0, forLoop_of_lt _ _ _ _ (by norm_num)] at hmono0
  have hval := MAG_DateToYear_valid CalendarDate h1 h12 hd1 hd2'
  generalize hc : forLoop 1 (CalendarDate.Month - 1)
    (fun i (t : Int) => t + MonthDays (ExtraDay CalendarDate.Year) i) 0 = c
    at hsucc hmono0 hval
  obtain ⟨f1, f2⟩ := YearToDate_floor α CalendarDate.Year (c + CalendarDate.Day - 1)
    (ExtraDay CalendarDate.Year) (by omega) (by omega) (by omega)
  have hloop := YearToDate_loop_spec (MonthDays (ExtraDay CalendarDate.Year)) hmd
    ({ Year := CalendarDate.Year, Month := m0, Day := d0,
        DecimalYear := ((CalendarDate.Year : Int) : α) +
          ((c + CalendarDate.Day - 1 : Int) : α) /
            (365.0 + ((ExtraDay CalendarDate.Year : Int) : α)) } : MAGtype_Date α)
    CalendarDate.Month CalendarDate.Day (c + CalendarDate.Day - 1 + 1) h1 h12 hd1 hd2'
    (by rw [hc]; ring)
  have hne : ¬ (((CalendarDate.Year : Int) : α) +
      ((c + CalendarDate.Day - 1 : Int) : α) /
        (365.0 + ((ExtraDay CalendarDate.Year : Int) : α)) = 0) := by
    have h365 : (365.0 : α) = 365 := by norm_num
    have a1 : (1 : α) ≤ ((CalendarDate.Year : Int) : α) := by exact_mod_cast hy
    have a2 : (0 : α) ≤ ((c + CalendarDate.Day - 1 : Int) : α) := by
      have : (0 : Int) ≤ c + CalendarDate.Day - 1 := by omega
      exact_mod_cast this
    have a3 : (0 : α) ≤ ((ExtraDay CalendarDate.Year : Int) : α) := by
      have : (0 : Int) ≤ ExtraDay CalendarDate.Year := by omega
      exact_mod_cast this
    have a4 : (0 : α) ≤ ((c + CalendarDate.Day - 1 : Int) : α) /
        (365.0 + ((ExtraDay CalendarDate.Year : Int) : α)) :=
      div_nonneg a2 (by rw [h365]; linarith)
    intro h
    linarith
  rw [hval]
  refine ⟨rfl, ?_⟩
  unfold MAG_YearToDate
  simp only []
  rw [if_neg hne, f1, f2]
  rw [hloop]

/-- Instance of C36: 29 February 2024, read back into a record that held 1 January 1999. -/
theorem MAG_YearToDate_MAG_DateToYear_witness :
    ((1 : Int) ≤ 2024 ∧ (1 : Int) ≤ 2 ∧ (2 : Int) ≤ 12 ∧ (1 : Int) ≤ 29 ∧
      (29 : Int) ≤ gregorianDaysInMonth 2024 2) ∧
    (MAG_YearToDate ({
      Year := 1999, Month := 1, Day := 1,
      DecimalYear := ((MAG_DateToYear ({ Year := 2024, Month := 2, Day := 29, DecimalYear := 0 } :
        MAGtype_Date ℚ)).2).DecimalYear } : MAGtype_Date ℚ)).2.Day = 29 :=
  ⟨⟨by norm_num, by norm_num, by norm_num, by norm_num, by decide⟩,
    congrArg (fun r => r.2.Day) (MAG_YearToDate_MAG_DateToYear
      ({ Year := 2024, Month := 2, Day := 29, DecimalYear := 0 } : MAGtype_Date ℚ) 1999 1 1
      (by norm_num) (by norm_num) (by norm_num) (by norm_num) (by decide)).2⟩

end CalendarRoundTrip

section PoleLemmas

/-- At the exact pole, `x = 1` or `x = -1`, the column `m = 0` of the table of `MAG_PcupLow`
holds the powers of `x`. -/
lemma MAG_PcupLow_pole_order_zero (P : MAGtype_LegendreFunction ℝ) (x : ℝ) (nMax : Int)
    (q0 : Int → ℝ) (hx : x = 1 ∨ x = -1) (d : Nat) (hd : (d : Int) ≤ nMax) :
    (MAG_PcupLow realLibm P x nMax q0).2.Pcup (index (d : Int) 0) = x ^ d := by
  obtain ⟨r0, r1, r2, -, -, -⟩ := MAG_PcupLow_schmidt_rec P x nMax q0
  have hxx : x * x = 1 := by
    rcases hx with h | h <;> rw [h] <;> norm_num
  induction d using Nat.strong_induction_on with
  | _ d ih =>
    rcases Nat.lt_or_ge d 2 with hlt | hge
    · interval_cases d
      · simpa using r0 (by omega)
      · simpa using (r1 (by omega)).1
    · obtain ⟨k, rfl⟩ : ∃ k : Nat, d = k + 2 := ⟨d - 2, by omega⟩
      have e1 : (((k + 2 : Nat) : Int)) - 1 = ((k + 1 : Nat) : Int) := by push_cast; ring
      have e2 : (((k + 2 : Nat) : Int)) - 2 = ((k : Nat) : Int) := by push_cast; ring
      rw [r2 _ (by omega) hd, e1, e2, ih (k + 1) (by omega) (by omega),
        ih k (by omega) (by omega)]
      have hne : (((k + 2 : Nat) : Int) : ℝ) ≠ 0 := by
        have : (0 : ℝ) < (((k + 2 : Nat) : Int) : ℝ) := by
          have : (0 : Int) < ((k + 2 : Nat) : Int) := by omega
          exact_mod_cast this
        exact this.ne.symm
      have p1 : x ^ (k + 2) = x ^ k := by rw [pow_add, pow_two, hxx, mul_one]
      have p2 : x * x ^ (k + 1) = x ^ k := by rw [← pow_succ', p1]
      have c1 : ((2 * ((k + 2 : Nat) : Int) - 1 : Int) : ℝ) =
          2 * (((k + 2 : Nat) : Int) : ℝ) - 1 := by push_cast; ring
      have c2 : (((k + 1 : Nat) : Int) : ℝ) =
          (((k + 2 : Nat) : Int) : ℝ) - 1 := by push_cast; ring
      rw [p1, c1, c2]
      generalize (((k + 2 : Nat) : Int) : ℝ) = N at hne ⊢
      have : (2 * N - 1) / N * x * x ^ (k + 1) = (2 * N - 1) / N * (x * x ^ (k + 1)) := by ring
      rw [this, p2]
      field_simp
      ring

/-- At the exact pole every entry of order `m ≥ 1` of the table of `MAG_PcupLow` is 0. -/
lemma MAG_PcupLow_pole_order_pos (P : MAGtype_LegendreFunction ℝ) (x : ℝ) (nMax : Int)
    (q0 : Int → ℝ) (hx : x = 1 ∨ x = -1) (d : Nat) (hd : (d : Int) ≤ nMax) (m : Int)
    (hm : 1 ≤ m) (hmd : m ≤ (d : Int)) :
    (MAG_PcupLow realLibm P x nMax q0).2.Pcup (index (d : Int) m) = 0 := by
  obtain ⟨-, r1, -, r3, r4, r5⟩ := MAG_PcupLow_schmidt_rec P x nMax q0
  have hz : Real.sqrt ((1.0 - x) * (1.0 + x)) = 0 := by
    have : (1.0 - x) * (1.0 + x) = 0 := by
      rcases hx with h | h <;> rw [h] <;> norm_num
    rw [this, Real.sqrt_zero]
  induction d using Nat.strong_induction_on generalizing m with
  | _ d ih =>
    rcases lt_trichotomy m ((d : Int) - 1) with h | h | h
    · -- m ≤ d - 2
      have e1 : (d : Int) - 1 = ((d - 1 : Nat) : Int) := by omega
      have e2 : (d : Int) - 2 = ((d - 2 : Nat) : Int) := by omega
      rw [r5 _ m hm (by omega) hd, e1, e2,
        ih (d - 1) (by omega) (by omega) m hm (by omega),
        ih (d - 2) (by omega) (by omega) m hm (by omega)]
      ring
    · -- m = d - 1
      have e : (d : Int) = m + 1 := by omega
      have em : m = ((d - 1 : Nat) : Int) := by omega
      rw [e, r4 m hm (by omega)]
      have := ih (d - 1) (by omega) (by omega) m hm (by omega)
      rw [← em] at this
      rw [this, mul_zero]
    · -- m = d
      have e : (d : Int) = m := by omega
      rw [e]
      rcases eq_or_lt_of_le hm with h1 | h1
      · rw [← h1, (r1 (by omega)).2, hz]
      · have h2 := r3 m (by omega) (by omega)
        rw [hz, zero_mul, zero_mul] at h2
        have hs : Real.sqrt ((2 * m : Int) : ℝ) ≠ 0 := by
          have : (0 : ℝ) < ((2 * m : Int) : ℝ) := by
            have : (0 : Int) < 2 * m := by omega
            exact_mod_cast this
          exact (Real.sqrt_pos.mpr this).ne.symm
        exact (mul_eq_zero.mp h2).resolve_right hs

end PoleLemmas

section PoleClaim

/-- C34: at the exact pole, `x = 1` or `x = -1` (where `z = 0`), and for every `nMax ≥ 0`,
`MAG_PcupLow` returns `Pcup[index(n, 0)] = x ^ n` for every `0 ≤ n ≤ nMax` and
`Pcup[index(n, m)] = 0` for every `1 ≤ m ≤ n ≤ nMax`; so every term of order `m ≥ 2` of the
sum for `By`, which the pole-special summation leaves out, is zero there. -/
theorem MAG_PcupLow_at_pole (P : MAGtype_LegendreFunction ℝ) (x : ℝ) (nMax : Int)
    (q0 : Int → ℝ) (hx : x = 1 ∨ x = -1) (_hn : 0 ≤ nMax) :
    realLibm.sqrt ((1.0 - x) * (1.0 + x)) = 0 ∧
    (∀ n : Int, 0 ≤ n → n ≤ nMax →
      (MAG_PcupLow realLibm P x nMax q0).2.Pcup (index n 0) = x ^ n.toNat) ∧
    (∀ n m : Int, 1 ≤ m → m ≤ n → n ≤ nMax →
      (MAG_PcupLow realLibm P x nMax q0).2.Pcup (index n m) = 0) ∧
    (∀ (SphVariables : MAGtype_SphericalHarmonicVariables ℝ) (G H : Int → ℝ) (n m : Int),
      2 ≤ m → m ≤ n → n ≤ nMax →
      SphVariables.RelativeRadiusPower n *
        (G (index n m) * SphVariables.sin_mlambda m -
          H (index n m) * SphVariables.cos_mlambda m) *
        ((m : Int) : ℝ) * (MAG_PcupLow realLibm P x nMax q0).2.Pcup (index n m) = 0) := by
  have hpos : ∀ n m : Int, 1 ≤ m → m ≤ n → n ≤ nMax →
      (MAG_PcupLow realLibm P x nMax q0).2.Pcup (index n m) = 0 := by
    intro n m hm hmn hn
    have := MAG_PcupLow_pole_order_pos P x nMax q0 hx n.toNat (by omega) m hm (by omega)
    rwa [Int.toNat_of_nonneg (by omega)] at this
  refine ⟨?_, ?_, hpos, ?_⟩
  · have : (1.0 - x) * (1.0 + x) = 0 := by
      rcases hx with h | h <;> rw [h] <;> norm_num
    show Real.sqrt ((1.0 - x) * (1.0 + x)) = 0
    rw [this, Real.sqrt_zero]
  · intro n h0 hn
    have := MAG_PcupLow_pole_order_zero P x nMax q0 hx n.toNat (by omega)
    rwa [Int.toNat_of_nonneg h0] at this
  · intro S G H n m hm hmn hn
    rw [hpos n m (by omega) hmn hn, mul_zero]

/-- Instance of C34: degree 12 at the south pole. -/
theorem MAG_PcupLow_at_pole_witness :
    (((-1 : ℝ) = 1 ∨ (-1 : ℝ) = -1) ∧ (0 : Int) ≤ 12) ∧
    (MAG_PcupLow realLibm { Pcup := fun _ => 0, dPcup := fun _ => 0 } (-1) 12
      (fun _ => 0)).2.Pcup (index 3 0) = (-1 : ℝ) ^ (3 : Int).toNat :=
  ⟨⟨Or.inr rfl, by norm_num⟩,
    (MAG_PcupLow_at_pole { Pcup := fun _ => 0, dPcup := fun _ => 0 } (-1) 12 (fun _ => 0)
      (Or.inr rfl) (by norm_num)).2.1 3 (by norm_num) (by norm_num)⟩

end PoleClaim

section SchmidtClosedForm

/-- One step along a row of the table `schmidtQuasiNorm`, on the closed form: here `a`,
`b` stand for `(n - m - 1)!`, `(n + m)!`, `D` for `(2n - 1)!!`, `k` for `n - m` and `j`
for `n + m + 1`. -/
lemma schmidt_row_step (a b D k j c e : ℝ) (ha : 0 < a) (hb : 0 < b) (hk : 0 < k)
    (hj : 0 < j) (hc : 0 < c) (hce : c * e = 2) :
    Real.sqrt (c * (k * a) / b) * D / (k * a) * Real.sqrt (k * e / j) =
      Real.sqrt (2 * a / (j * b)) * D / a := by
  have h1 : 0 ≤ c * (k * a) / b := by positivity
  have h2 : c * (k * a) / b * (k * e / j) = k ^ 2 * (2 * a / (j * b)) := by
    have : c * (k * a) / b * (k * e / j) = (c * e) * (k ^ 2 * a / (j * b)) := by
      field_simp
      ring
    rw [this, hce]
    ring
  have h3 : Real.sqrt (c * (k * a) / b) * Real.sqrt (k * e / j) =
      k * Real.sqrt (2 * a / (j * b)) := by
    rw [← Real.sqrt_mul h1, h2, Real.sqrt_mul (sq_nonneg k), Real.sqrt_sq hk.le]
  have h4 : Real.sqrt (c * (k * a) / b) * D / (k * a) * Real.sqrt (k * e / j) =
      (Real.sqrt (c * (k * a) / b) * Real.sqrt (k * e / j)) * D / (k * a) := by ring
  rw [h4, h3]
  field_simp
  ring

/-- The double factorial of `2n + 1` in terms of that of `2n - 1`, with `(-1)!! = 1`. -/
lemma doubleFactorial_odd_succ (n : Nat) :
    Nat.doubleFactorial (2 * (n + 1) - 1) = (2 * n + 1) * Nat.doubleFactorial (2 * n - 1) := by
  cases n with
  | zero => rfl
  | succ k =>
    have e1 : 2 * (k + 1 + 1) - 1 = (2 * k + 1) + 2 := by omega
    have e2 : 2 * (k + 1) - 1 = 2 * k + 1 := by omega
    rw [e1, e2, Nat.doubleFactorial_add_two]
    ring_nf

/-- The column `m = 0` of the table `schmidtQuasiNorm` of `MAG_PcupLow`:
`(2n - 1)!! / n!`. -/
lemma PcupLow_schmidtQuasiNorm_column_zero (nMax : Int) (q0 : Int → ℝ) (n : Nat)
    (hn : (n : Int) ≤ nMax) :
    PcupLow_schmidtQuasiNorm realLibm nMax q0 (index (n : Int) 0) =
      (Nat.doubleFactorial (2 * n - 1) : ℝ) / (Nat.factorial n : ℝ) := by
  obtain ⟨h0, h1, -⟩ := PcupLow_schmidtQuasiNorm_spec realLibm nMax q0
  induction n with
  | zero =>
    have e : index ((0 : Nat) : Int) 0 = 0 := rfl
    rw [e, h0]
    simp
  | succ n ih =>
    have e : ((n + 1 : Nat) : Int) = (n : Int) + 1 := by push_cast; ring
    rw [e] at hn ⊢
    rw [h1 _ (by omega) hn, add_sub_cancel_right, ih (by omega), doubleFactorial_odd_succ,
      Nat.factorial_succ]
    have hf : (Nat.factorial n : ℝ) ≠ 0 := by exact_mod_cast (Nat.factorial_pos n).ne.symm
    have hn1 : ((n : ℝ) + 1) ≠ 0 := by positivity
    push_cast
    field_simp
    ring

end SchmidtClosedForm

section SchmidtClosedFormClaim

/-- The table `schmidtQuasiNorm` of `MAG_PcupLow` in closed form, by induction along the
row `n`. -/
lemma PcupLow_schmidtQuasiNorm_row (nMax : Int) (q0 : Int → ℝ) (n : Nat)
    (hn : (n : Int) ≤ nMax) (m : Nat) (hmn : m ≤ n) :
    PcupLow_schmidtQuasiNorm realLibm nMax q0 (index (n : Int) (m : Int)) =
      Real.sqrt ((if m = 0 then 1 else 2) * (Nat.factorial (n - m) : ℝ) /
          (Nat.factorial (n + m) : ℝ)) *
        (Nat.doubleFactorial (2 * n - 1) : ℝ) / (Nat.factorial (n - m) : ℝ) := by
  obtain ⟨-, -, h2⟩ := PcupLow_schmidtQuasiNorm_spec realLibm nMax q0
  induction m with
  | zero =>
    have hf : (Nat.factorial n : ℝ) ≠ 0 := by exact_mod_cast (Nat.factorial_pos n).ne.symm
    have e : ((0 : Nat) : Int) = 0 := rfl
    rw [e, PcupLow_schmidtQuasiNorm_column_zero nMax q0 n hn]
    simp only [if_true, Nat.sub_zero, Nat.add_zero, one_mul]
    rw [div_self hf, Real.sqrt_one, one_mul]
  | succ m ih =>
    have em : ((m + 1 : Nat) : Int) = (m : Int) + 1 := by push_cast; ring
    have hk : n - m = (n - (m + 1)) + 1 := by omega
    have hrec := h2 (n : Int) ((m : Int) + 1) (by omega) (by omega) hn
    rw [add_sub_cancel_right, ih (by omega)] at hrec
    rw [em, hrec, hk, Nat.factorial_succ, ← hk]
    have hj : n + (m + 1) = (n + m) + 1 := by omega
    rw [hj, Nat.factorial_succ]
    have ha : (0 : ℝ) < (Nat.factorial (n - (m + 1)) : ℝ) := by
      exact_mod_cast Nat.factorial_pos _
    have hb : (0 : ℝ) < (Nat.factorial (n + m) : ℝ) := by exact_mod_cast Nat.factorial_pos _
    have hkpos : (0 : ℝ) < ((n - m : Nat) : ℝ) := by
      have : 0 < n - m := by omega
      exact_mod_cast this
    have hjpos : (0 : ℝ) < ((n + m + 1 : Nat) : ℝ) := by
      have : 0 < n + m + 1 := by omega
      exact_mod_cast this
    have c1 : ((((n : Int) - ((m : Int) + 1) + 1) *
        (if (m : Int) + 1 = 1 then 2 else 1) : Int) : ℝ) =
        ((n - m : Nat) : ℝ) * (if m = 0 then (2 : ℝ) else 1) := by
      have e1 : (n : Int) - ((m : Int) + 1) + 1 = ((n - m : Nat) : Int) := by omega
      rw [e1]
      by_cases h0 : m = 0
      · subst h0
        simp
      · have : ¬ ((m : Int) + 1 = 1) := by omega
        rw [if_neg this, if_neg h0]
        push_cast
        ring
    have c2 : (((n : Int) + ((m : Int) + 1) : Int) : ℝ) = ((n + m + 1 : Nat) : ℝ) := by
      push_cast
      ring
    have c3 : (if m + 1 = 0 then (1 : ℝ) else 2) = 2 := if_neg (by omega)
    show _ * realLibm.sqrt _ = _
    rw [c1, c2, c3]
    have key := schmidt_row_step (Nat.factorial (n - (m + 1)) : ℝ) (Nat.factorial (n + m) : ℝ)
      (Nat.doubleFactorial (2 * n - 1) : ℝ) ((n - m : Nat) : ℝ) ((n + m + 1 : Nat) : ℝ)
      (if m = 0 then (1 : ℝ) else 2) (if m = 0 then (2 : ℝ) else 1) ha hb hkpos hjpos
      (by split_ifs <;> norm_num) (by split_ifs <;> norm_num)
    push_cast at key ⊢
    exact key

/-- C35: for `0 ≤ m ≤ n ≤ nMax` the factor `schmidtQuasiNorm[index(n, m)]` that the
recurrence of `MAG_PcupLow` builds is
`sqrt((m = 0 ? 1 : 2) (n - m)! / (n + m)!) (2n - 1)!! / (n - m)!`, with `(-1)!! = 1`, the
ratio stated in the code comment; for `m = 1` and `1 ≤ n ≤ nMax` it is the value
`schmidtQuasiNorm3` of the turn `n` of `MAG_SummationSpecial`. -/
theorem PcupLow_schmidtQuasiNorm_closed_form (nMax : Int) (q0 : Int → ℝ) (n m : Nat)
    (hmn : m ≤ n) (hn : (n : Int) ≤ nMax) :
    PcupLow_schmidtQuasiNorm realLibm nMax q0 (index (n : Int) (m : Int)) =
      Real.sqrt ((if m = 0 then 1 else 2) * (Nat.factorial (n - m) : ℝ) /
          (Nat.factorial (n + m) : ℝ)) *
        (Nat.doubleFactorial (2 * n - 1) : ℝ) / (Nat.factorial (n - m) : ℝ) ∧
    (1 ≤ n → ∀ (G H : Int → ℝ) (SphVariables : MAGtype_SphericalHarmonicVariables ℝ)
      (sin_phi : ℝ) (PcupS0 : Int → ℝ),
      PcupLow_schmidtQuasiNorm realLibm nMax q0 (index (n : Int) 1) =
        SummationSpecial_schmidtQuasiNorm3 realLibm G H SphVariables sin_phi PcupS0
          (n : Int)) := by
  refine ⟨PcupLow_schmidtQuasiNorm_row nMax q0 n hn m hmn, ?_⟩
  intro h1 G H S x P0
  obtain ⟨-, -, h2⟩ := PcupLow_schmidtQuasiNorm_spec realLibm nMax q0
  have hrec := h2 (n : Int) 1 le_rfl (by omega) hn
  have h0 := PcupLow_schmidtQuasiNorm_order_zero realLibm G H S x P0 q0 nMax n hn
  rw [hrec, sub_self, h0]
  unfold SummationSpecial_schmidtQuasiNorm3
  have e : (((n : Int) - 1 + 1) * (if (1 : Int) = 1 then 2 else 1) : Int) = (n : Int) * 2 := by
    simp
  rw [e]

/-- Instance of C35: the factor of degree 3 and order 2 in a table of degree 12. -/
theorem PcupLow_schmidtQuasiNorm_closed_form_witness :
    ((2 : Nat) ≤ 3 ∧ (((3 : Nat) : Int)) ≤ 12) ∧
    PcupLow_schmidtQuasiNorm realLibm 12 (fun _ => 0) (index ((3 : Nat) : Int) ((2 : Nat) : Int)) =
      Real.sqrt ((if (2 : Nat) = 0 then 1 else 2) * (Nat.factorial (3 - 2) : ℝ) /
          (Nat.factorial (3 + 2) : ℝ)) *
        (Nat.doubleFactorial (2 * 3 - 1) : ℝ) / (Nat.factorial (3 - 2) : ℝ) :=
  ⟨⟨by norm_num, by norm_num⟩,
    (PcupLow_schmidtQuasiNorm_closed_form 12 (fun _ => 0) 3 2 (by norm_num)
      (by norm_num)).1⟩

end SchmidtClosedFormClaim

section StringCopyLemmas

/-- The buffer after `MAG_strlcpy_equivalent(dst, src, dstlen)` with `dstlen > 0`, cell by
cell, for `copy_size = min(strlen(src), dstlen - 1)`: the cells below `copy_size` hold the
characters of `src`, the last cell holds NUL, and every cell in between, the cell
`copy_size` included when `copy_size < dstlen - 1`, holds what it held before the call. -/
lemma MAG_strlcpy_equivalent_cells (dst : Int → Int) (src : List Int) (dstlen : Nat)
    (h : 0 < dstlen) :
    (MAG_strlcpy_equivalent dst (some src) dstlen).1 = src.length ∧
    (MAG_strlcpy_equivalent dst (some src) dstlen).2 ((dstlen : Int) - 1) = 0 ∧
    (∀ i : Int, 0 ≤ i → i < min (src.length : Int) ((dstlen : Int) - 1) →
      (MAG_strlcpy_equivalent dst (some src) dstlen).2 i = src.getD i.toNat 0) ∧
    (∀ i : Int, min (src.length : Int) ((dstlen : Int) - 1) ≤ i → i < (dstlen : Int) - 1 →
      (MAG_strlcpy_equivalent dst (some src) dstlen).2 i = dst i) := by
  have hc : (if ((src.length : Nat) : Int) ≥ (dstlen : Int) then (dstlen : Int) - 1
      else ((src.length : Nat) : Int)) = min (src.length : Int) ((dstlen : Int) - 1) := by
    split_ifs with h1
    · rw [min_eq_right (by omega)]
    · rw [min_eq_left (by omega)]
  have hv : MAG_strlcpy_equivalent dst (some src) dstlen =
      ((src.length : Int), Function.update
        (memcpy dst src (min (src.length : Int) ((dstlen : Int) - 1))) ((dstlen : Int) - 1) 0) := by
    unfold MAG_strlcpy_equivalent
    simp only []
    rw [if_pos h, hc]
  rw [hv]
  refine ⟨rfl, by simp, ?_, ?_⟩
  · intro i h0 h1
    have hne : i ≠ (dstlen : Int) - 1 := by
      have := min_le_right (src.length : Int) ((dstlen : Int) - 1)
      omega
    simp only [Function.update_noteq hne]
    unfold memcpy
    rw [if_pos ⟨h0, h1⟩]
  · intro i h0 h1
    have hne : i ≠ (dstlen : Int) - 1 := by omega
    simp only [Function.update_noteq hne]
    unfold memcpy
    rw [if_neg (by omega)]

end StringCopyLemmas

section StringCopyClaim

/-- C37 (the code departs from it): for the empty source string and a destination of 20
cells that all hold the character `A` (code 65), `MAG_strlcpy_equivalent` returns
`strlen(src) = 0`, copies nothing and writes a NUL in the last cell only: the cell 0 still
holds `A`, and the buffer holds the string of nineteen `A`, not the empty string that the
first `min(strlen(src), dstlen - 1) = 0` characters of `src` make. -/
theorem MAG_strlcpy_equivalent_empty_source :
    (MAG_strlcpy_equivalent (fun _ => 65) (some []) 20).1 = 0 ∧
    (MAG_strlcpy_equivalent (fun _ => 65) (some []) 20).2 0 = 65 ∧
    cstring (MAG_strlcpy_equivalent (fun _ => 65) (some []) 20).2 20 = List.replicate 19 65 ∧
    cstring (MAG_strlcpy_equivalent (fun _ => 65) (some []) 20).2 20 ≠
      List.take (min (([] : List Int).length) (20 - 1)) ([] : List Int) := by
  have h : (MAG_strlcpy_equivalent (fun _ => 65) (some []) 20).2 =
      Function.update (fun _ => 65) 19 0 := by
    have hm : memcpy (fun _ => 65) [] 0 = fun _ => 65 := by
      funext i
      unfold memcpy
      rw [if_neg (by omega)]
    unfold MAG_strlcpy_equivalent
    simp [hm]
  have hs : cstring (MAG_strlcpy_equivalent (fun _ => 65) (some []) 20).2 20 =
      List.replicate 19 65 := by
    rw [h]
    simp [cstring, cstringFrom, Function.update, List.replicate]
  refine ⟨rfl, ?_, hs, ?_⟩
  · rw [h]
    simp [Function.update]
  · rw [hs]
    simp [List.replicate]

end StringCopyClaim

section DecimalYearClaim

/-- C38 (the code departs from it): on 31 December of the common year 2029
(`tm_year = 129`, `tm_yday = 364`) `IDateTime::GetDecimalYear` returns `2030`, the
following year, and on 31 December of the leap year 2024 (`tm_year = 124`,
`tm_yday = 365`) it returns `2024 + 366 / 365`, above 2025: with a model valid from 2020
to 2025 that date of the last valid year is past `CoefficientFileEndDate` and `MAG_Grid`
rejects it with `INPUTERROR`. -/
theorem GetDecimalYear_year_end (L : Libm ℚ) (C : MAGtype_UncertaintyConstants ℚ)
    (CoM : MAGtype_CoordGeodetic ℚ → ℚ) (W : GridScratch ℚ)
    (CoordData : MAGtype_CoordGeodetic ℚ) (Geoid : MAGtype_Geoid ℚ)
    (Ellip : MAGtype_Ellipsoid ℚ) (RecValue : DecData ℚ) :
    (GetDecimalYear 129 364 : ℚ) = 2029 + 1 ∧
    (GetDecimalYear 124 365 : ℚ) = 2024 + 366 / 365 ∧
    ¬ ((GetDecimalYear 124 365 : ℚ) < 2024 + 1) ∧
    (GetDecimalYear 124 365 : ℚ) >
      (scenarioModel : MAGtype_MagneticModel ℚ).CoefficientFileEndDate ∧
    MAG_Grid L C CoM W CoordData scenarioModel Geoid Ellip (dateOf (GetDecimalYear 124 365))
      RecValue = (FALSE, { RecValue with errCode := INPUTERROR }) := by
  have h1 : (GetDecimalYear 129 364 : ℚ) = 2029 + 1 := by
    unfold GetDecimalYear
    norm_num
  have h2 : (GetDecimalYear 124 365 : ℚ) = 2024 + 366 / 365 := by
    unfold GetDecimalYear
    norm_num
  have h3 : (GetDecimalYear 124 365 : ℚ) >
      (scenarioModel : MAGtype_MagneticModel ℚ).CoefficientFileEndDate := by
    rw [h2]
    show (2024 + 366 / 365 : ℚ) > 2025.0
    norm_num
  refine ⟨h1, h2, ?_, h3, ?_⟩
  · rw [h2]
    norm_num
  · exact MAG_Grid_of_year_outside L C CoM W CoordData scenarioModel Geoid Ellip _ RecValue
      (Or.inr h3)

end DecimalYearClaim

section HeadingClaim

/-- C39 (the code departs from it): for the reading `(-47.5, -21.1, -53.7)` that
`IMUSensor::Get3DMagneticData` returns, where `X ≠ 0`, the `theta` of `main` is
`atan(Y / X)`, a positive number of radians below `π / 2`, while the direction angle
`atan2(Y, X)` of the horizontal vector, in degrees, is negative (the vector points to the
south-west): `theta` is not that angle, and `main` subtracts the declination, which is in
degrees, from it. -/
theorem main_theta_not_direction_angle :
    (Get3DMagneticData : Point3f ℝ).X ≠ 0 ∧
    main_theta realLibm Get3DMagneticData = Real.arctan (21.1 / 47.5) ∧
    0 < main_theta realLibm Get3DMagneticData ∧
    main_theta realLibm Get3DMagneticData < Real.pi / 2 ∧
    RAD2DEG realLibm (realLibm.atan2 (Get3DMagneticData : Point3f ℝ).Y
      (Get3DMagneticData : Point3f ℝ).X) < 0 ∧
    main_theta realLibm Get3DMagneticData ≠
      RAD2DEG realLibm (realLibm.atan2 (Get3DMagneticData : Point3f ℝ).Y
        (Get3DMagneticData : Point3f ℝ).X) := by
  have hθ : main_theta realLibm Get3DMagneticData = Real.arctan (21.1 / 47.5) := by
    show Real.arctan ((-21.1) / (-47.5)) = Real.arctan (21.1 / 47.5)
    rw [neg_div_neg_eq]
  have hpos : 0 < main_theta realLibm Get3DMagneticData := by
    rw [hθ, ← Real.arctan_zero]
    exact Real.arctan_strictMono (by norm_num)
  have harg : Complex.arg ⟨(-47.5 : ℝ), (-21.1 : ℝ)⟩ < 0 := by
    rw [Complex.arg_neg_iff]
    show (-21.1 : ℝ) < 0
    norm_num
  have hneg : RAD2DEG realLibm (realLibm.atan2 (Get3DMagneticData : Point3f ℝ).Y
      (Get3DMagneticData : Point3f ℝ).X) < 0 := by
    show Complex.arg ⟨(-47.5 : ℝ), (-21.1 : ℝ)⟩ * (180.0 / Real.pi) < 0
    exact mul_neg_of_neg_of_pos harg (div_pos (by norm_num) Real.pi_pos)
  refine ⟨?_, hθ, hpos, ?_, hneg, ?_⟩
  · show (-47.5 : ℝ) ≠ 0
    norm_num
  · rw [hθ]
    exact Real.arctan_lt_pi_div_two _
  · intro h
    rw [h] at hpos
    exact lt_asymm hpos hneg

end HeadingClaim

section UncertaintyLemmas

variable {α : Type} [LinearOrderedField α]

/-- The declination statements of the two error routines on the extended doubles, case by
case: for `H ≠ 0` the clamped square root of the field, at `H = 0` the number 180 when
`D_COEF ≠ 0` and a NaN when `D_COEF = 0`. -/
lemma MAG_WMMErrorCalc_Decl_cases (L : Libm α) (C : MAGtype_UncertaintyConstants α) (H : α)
    (negZero : Bool) :
    (H ≠ 0 → MAG_WMMErrorCalc_Decl L C H negZero =
      ExtDouble.num (if L.sqrt (C.D_OFFSET * C.D_OFFSET + C.D_COEF / H * (C.D_COEF / H)) > 180
        then 180
        else L.sqrt (C.D_OFFSET * C.D_OFFSET + C.D_COEF / H * (C.D_COEF / H)))) ∧
    (H = 0 → C.D_COEF ≠ 0 → MAG_WMMErrorCalc_Decl L C H negZero = ExtDouble.num 180) ∧
    (H = 0 → C.D_COEF = 0 → MAG_WMMErrorCalc_Decl L C H negZero = ExtDouble.nan) := by
  refine ⟨fun h => ?_, fun h hc => ?_, fun h hc => ?_⟩
  · have hnn : ¬ (C.D_OFFSET * C.D_OFFSET + C.D_COEF / H * (C.D_COEF / H) < 0) :=
      not_lt.mpr (add_nonneg (mul_self_nonneg _) (mul_self_nonneg _))
    unfold MAG_WMMErrorCalc_Decl ExtDouble.div
    simp only [if_neg h, ExtDouble.mul, ExtDouble.add, ExtDouble.sqrt, if_neg hnn, ExtDouble.gt]
    split_ifs with h1 h2 h2
    · rfl
    · exact absurd (of_decide_eq_true h1) h2
    · exact absurd (decide_eq_true h2) h1
    · rfl
  · unfold MAG_WMMErrorCalc_Decl ExtDouble.div
    simp only [if_pos h, if_neg hc, ExtDouble.mul, ExtDouble.add, ExtDouble.sqrt, ExtDouble.gt]
    simp
  · unfold MAG_WMMErrorCalc_Decl ExtDouble.div
    simp only [if_pos h, if_pos hc, ExtDouble.mul, ExtDouble.add, ExtDouble.sqrt, ExtDouble.gt]
    simp

/-- The declination statements of `MAG_WMMHRErrorCalc` are those of `MAG_WMMErrorCalc`. -/
lemma MAG_WMMHRErrorCalc_Decl_eq (L : Libm α) (C : MAGtype_UncertaintyConstants α) (H : α)
    (negZero : Bool) :
    MAG_WMMHRErrorCalc_Decl L C H negZero = MAG_WMMErrorCalc_Decl L C H negZero := rfl

end UncertaintyLemmas

section UncertaintyBoundClaim

variable {α : Type} [LinearOrderedField α]

/-- C11 (counterexample): with the constant `D_COEF = 0` and `H = 0` the quotient
`D_COEF / H` is a NaN, the test `Decl > 180` is false, and the declination uncertainty that
`MAG_WMMErrorCalc` and `MAG_WMMHRErrorCalc` store is a NaN, which is not at most 180. -/
theorem MAG_WMMErrorCalc_Decl_nan :
    MAG_WMMErrorCalc_Decl realLibm
      ({ sampleUncertainty with D_COEF := 0 } : MAGtype_UncertaintyConstants ℝ) 0 false =
      ExtDouble.nan ∧
    MAG_WMMHRErrorCalc_Decl realLibm
      ({ sampleUncertainty with D_COEF := 0 } : MAGtype_UncertaintyConstants ℝ) 0 false =
      ExtDouble.nan ∧
    ¬ ExtDouble.le (MAG_WMMErrorCalc_Decl realLibm
      ({ sampleUncertainty with D_COEF := 0 } : MAGtype_UncertaintyConstants ℝ) 0 false) 180 ∧
    ¬ ExtDouble.le (MAG_WMMHRErrorCalc_Decl realLibm
      ({ sampleUncertainty with D_COEF := 0 } : MAGtype_UncertaintyConstants ℝ) 0 false) 180 := by
  have e := (MAG_WMMErrorCalc_Decl_cases realLibm
    ({ sampleUncertainty with D_COEF := 0 } : MAGtype_UncertaintyConstants ℝ) 0 false).2.2
    rfl rfl
  refine ⟨e, ?_, ?_, ?_⟩
  · rw [MAG_WMMHRErrorCalc_Decl_eq, e]
  · rw [e]
    exact fun h => h
  · rw [MAG_WMMHRErrorCalc_Decl_eq, e]
    exact fun h => h

/-- C11 (amended: the constant `D_COEF` is not zero, or `H` is not zero): whatever the
horizontal intensity `H` (zero of either sign, tiny or negative) and the other constants,
the declination uncertainty that `MAG_WMMErrorCalc`, and likewise `MAG_WMMHRErrorCalc`,
stores is a number, at most 180, and never tests as `> 180`.  At `H = 0` the quotient is an
infinity and the clamp stores 180; for `H ≠ 0` the value is the `Decl` of the field
embedding of the two routines, which is at most 180. -/
theorem MAG_WMMErrorCalc_Decl_le (L : Libm α) (C : MAGtype_UncertaintyConstants α) (H : α)
    (negZero : Bool) (Uncertainty : MAGtype_GeoMagneticElements α)
    (h : C.D_COEF ≠ 0 ∨ H ≠ 0) :
    ExtDouble.le (MAG_WMMErrorCalc_Decl L C H negZero) 180 ∧
    ExtDouble.le (MAG_WMMHRErrorCalc_Decl L C H negZero) 180 ∧
    ExtDouble.gt (MAG_WMMErrorCalc_Decl L C H negZero) 180 = false ∧
    ExtDouble.gt (MAG_WMMHRErrorCalc_Decl L C H negZero) 180 = false ∧
    (H = 0 → MAG_WMMErrorCalc_Decl L C H negZero = ExtDouble.num 180 ∧
      MAG_WMMHRErrorCalc_Decl L C H negZero = ExtDouble.num 180) ∧
    (H ≠ 0 →
      MAG_WMMErrorCalc_Decl L C H negZero =
        ExtDouble.num (MAG_WMMErrorCalc L C H Uncertainty).Decl ∧
      MAG_WMMHRErrorCalc_Decl L C H negZero =
        ExtDouble.num (MAG_WMMHRErrorCalc L C H Uncertainty).Decl ∧
      (MAG_WMMErrorCalc L C H Uncertainty).Decl ≤ 180 ∧
      (MAG_WMMHRErrorCalc L C H Uncertainty).Decl ≤ 180) := by
  obtain ⟨c1, c2, _⟩ := MAG_WMMErrorCalc_Decl_cases L C H negZero
  have hE : (MAG_WMMErrorCalc L C H Uncertainty).Decl =
      (if L.sqrt (C.D_OFFSET * C.D_OFFSET + C.D_COEF / H * (C.D_COEF / H)) > 180 then 180
        else L.sqrt (C.D_OFFSET * C.D_OFFSET + C.D_COEF / H * (C.D_COEF / H))) := by
    unfold MAG_WMMErrorCalc
    simp only []
    split_ifs <;> rfl
  have hR : (MAG_WMMHRErrorCalc L C H Uncertainty).Decl =
      (MAG_WMMErrorCalc L C H Uncertainty).Decl := rfl
  have hle : (MAG_WMMErrorCalc L C H Uncertainty).Decl ≤ 180 := by
    rw [hE]
    split_ifs with h1
    · exact le_refl _
    · exact not_lt.mp h1
  have hnum : ∃ d : α, d ≤ 180 ∧ MAG_WMMErrorCalc_Decl L C H negZero = ExtDouble.num d := by
    by_cases hH : H = 0
    · exact ⟨180, le_refl _, c2 hH (h.resolve_right (fun hn => hn hH))⟩
    · exact ⟨_, hle, by rw [c1 hH, hE]⟩
  obtain ⟨d, hd, e⟩ := hnum
  rw [MAG_WMMHRErrorCalc_Decl_eq, hR]
  refine ⟨?_, ?_, ?_, ?_, fun hH => ?_, fun hH => ?_⟩
  · rw [e]
    exact hd
  · rw [e]
    exact hd
  · rw [e]
    exact decide_eq_false (not_lt.mpr hd)
  · rw [e]
    exact decide_eq_false (not_lt.mpr hd)
  · exact ⟨c2 hH (h.resolve_right (fun hn => hn hH)), c2 hH (h.resolve_right (fun hn => hn hH))⟩
  · exact ⟨by rw [c1 hH, hE], by rw [c1 hH, hE], hle, hle⟩

/-- Instance of C11 as amended: `H = 0` with the sample constants, where the stored
uncertainty is 180. -/
theorem MAG_WMMErrorCalc_Decl_le_witness :
    ((sampleUncertainty : MAGtype_UncertaintyConstants ℝ).D_COEF ≠ 0 ∨ (0 : ℝ) ≠ 0) ∧
    MAG_WMMErrorCalc_Decl realLibm (sampleUncertainty : MAGtype_UncertaintyConstants ℝ) 0 true =
      ExtDouble.num 180 :=
  ⟨Or.inl (by norm_num [sampleUncertainty]),
    ((MAG_WMMErrorCalc_Decl_le realLibm (sampleUncertainty : MAGtype_UncertaintyConstants ℝ) 0
      true zeroElements (Or.inl (by norm_num [sampleUncertainty]))).2.2.2.2.1 rfl).1⟩

end UncertaintyBoundClaim

section BoundsReadLemmas

variable {α : Type} [LinearOrderedField α]

/-- Every cell of `0 .. NumTerms - 1` is the slot of a pair of the triangle
`0 ≤ m ≤ n ≤ nMax`. -/
lemma index_surj (nMax : Int) (h0 : 0 ≤ nMax) (i : Int) (hi1 : 0 ≤ i)
    (hi2 : i ≤ NumTerms nMax - 1) :
    ∃ n m : Int, 0 ≤ m ∧ m ≤ n ∧ n ≤ nMax ∧ index n m = i := by
  obtain ⟨d, rfl⟩ : ∃ d : Nat, nMax = (d : Int) := ⟨nMax.toNat, by omega⟩
  clear h0
  induction d with
  | zero =>
    have e : NumTerms ((0 : Nat) : Int) = 1 := rfl
    rw [e] at hi2
    refine ⟨0, 0, le_rfl, le_rfl, le_rfl, ?_⟩
    have e0 : index 0 0 = 0 := rfl
    omega
  | succ k ih =>
    have hN := NumTerms_eq_index ((k + 1 : Nat) : Int) (by omega)
    have hK := NumTerms_eq_index ((k : Nat) : Int) (by omega)
    have hidx : index ((k + 1 : Nat) : Int) 0 = index ((k : Nat) : Int) (k : Int) + 1 := by
      have a1 := two_mul_index ((k + 1 : Nat) : Int) 0 (by omega)
      have a2 := two_mul_index ((k : Nat) : Int) (k : Int) (by omega)
      push_cast at a1 a2 ⊢
      nlinarith
    by_cases hlt : i ≤ NumTerms ((k : Nat) : Int) - 1
    · obtain ⟨n, m, h1, h2, h3, e⟩ := ih hlt
      refine ⟨n, m, h1, h2, ?_, e⟩
      push_cast
      omega
    · push_neg at hlt
      refine ⟨((k + 1 : Nat) : Int), i - index ((k + 1 : Nat) : Int) 0, ?_, ?_, le_rfl, ?_⟩
      · omega
      · have : index ((k + 1 : Nat) : Int) ((k + 1 : Nat) : Int) =
            index ((k + 1 : Nat) : Int) 0 + ((k + 1 : Nat) : Int) := by
          unfold index
          omega
        omega
      · unfold index
        omega

/-- The Gauss-normalised values that the first double loop of `MAG_PcupLow` leaves in the
slots of the triangle depend on the arrays before the loop through the cell 0 only. -/
lemma PcupLow_gauss_indep (x z : α) (nMax : Int) (P0 Q0 : MAGtype_LegendreFunction α)
    (hP : P0.Pcup 0 = Q0.Pcup 0) (hd : P0.dPcup 0 = Q0.dPcup 0) (d : Nat) :
    ∀ n m : Int, n ≤ (d : Int) → 0 ≤ m → m ≤ n → n ≤ nMax →
      (PcupLow_gauss x z nMax P0).Pcup (index n m) =
        (PcupLow_gauss x z nMax Q0).Pcup (index n m) ∧
      (PcupLow_gauss x z nMax P0).dPcup (index n m) =
        (PcupLow_gauss x z nMax Q0).dPcup (index n m) := by
  induction d with
  | zero =>
    intro n m hnd hm hmn hn
    have hn0 : n = 0 := by
      have : ((0 : Nat) : Int) = 0 := rfl
      omega
    have hm0 : m = 0 := by omega
    subst hn0 hm0
    have e0 : index 0 0 = 0 := rfl
    rw [e0, (PcupLow_gauss_zero x z nMax P0).1, (PcupLow_gauss_zero x z nMax P0).2,
      (PcupLow_gauss_zero x z nMax Q0).1, (PcupLow_gauss_zero x z nMax Q0).2]
    exact ⟨hP, hd⟩
  | succ d ih =>
    intro n m hnd hm hmn hn
    by_cases hle : n ≤ (d : Int)
    · exact ih n m hle hm hmn hn
    · have hn1 : 1 ≤ n := by omega
      have hnd' : n - 1 ≤ (d : Int) := by
        push_cast at hnd
        omega
      obtain ⟨s1, s2, s3⟩ := PcupLow_gauss_spec x z nMax P0 n m hn1 hn hm hmn
      obtain ⟨t1, t2, t3⟩ := PcupLow_gauss_spec x z nMax Q0 n m hn1 hn hm hmn
      rcases (by omega : n = m ∨ m = n - 1 ∨ m ≤ n - 2) with h | h | h
      · obtain ⟨a, b⟩ := s1 h
        obtain ⟨a2, b2⟩ := t1 h
        obtain ⟨i1, i2⟩ := ih (n - 1) (m - 1) hnd' (by omega) (by omega) (by omega)
        rw [a, b, a2, b2, i1, i2]
        exact ⟨rfl, rfl⟩
      · obtain ⟨a, b⟩ := s2 h
        obtain ⟨a2, b2⟩ := t2 h
        obtain ⟨i1, i2⟩ := ih (n - 1) m hnd' hm (by omega) (by omega)
        rw [a, b, a2, b2, i1, i2]
        exact ⟨rfl, rfl⟩
      · obtain ⟨a, b⟩ := s3 h
        obtain ⟨a2, b2⟩ := t3 h
        obtain ⟨i1, i2⟩ := ih (n - 1) m hnd' hm (by omega) (by omega)
        obtain ⟨j1, j2⟩ := ih (n - 2) m (by omega) hm (by omega) (by omega)
        rw [a, b, a2, b2, i1, i2, j1, j2]
        exact ⟨rfl, rfl⟩

/-- The ratios that the second loop of `MAG_PcupLow` leaves in the slots of the triangle
do not depend on what the fresh block held. -/
lemma PcupLow_schmidtQuasiNorm_indep (L : Libm α) (nMax : Int) (q0 q1 : Int → α) (d : Nat) :
    ∀ n m : Int, n ≤ (d : Int) → 0 ≤ m → m ≤ n → n ≤ nMax →
      PcupLow_schmidtQuasiNorm L nMax q0 (index n m) =
        PcupLow_schmidtQuasiNorm L nMax q1 (index n m) := by
  obtain ⟨a0, a1, a2⟩ := PcupLow_schmidtQuasiNorm_spec L nMax q0
  obtain ⟨b0, b1, b2⟩ := PcupLow_schmidtQuasiNorm_spec L nMax q1
  have row : ∀ n : Int, n ≤ nMax →
      PcupLow_schmidtQuasiNorm L nMax q0 (index n 0) =
        PcupLow_schmidtQuasiNorm L nMax q1 (index n 0) →
      ∀ k : Nat, (k : Int) ≤ n →
        PcupLow_schmidtQuasiNorm L nMax q0 (index n (k : Int)) =
          PcupLow_schmidtQuasiNorm L nMax q1 (index n (k : Int)) := by
    intro n hn h k
    induction k with
    | zero => intro _; exact h
    | succ k ih =>
      intro hk
      have e : ((k + 1 : Nat) : Int) - 1 = (k : Int) := by push_cast; ring
      rw [a2 n _ (by push_cast; omega) hk hn, b2 n _ (by push_cast; omega) hk hn, e,
        ih (by push_cast at hk; omega)]
  induction d with
  | zero =>
    intro n m hnd hm hmn hn
    have hn0 : n = 0 := by
      have : ((0 : Nat) : Int) = 0 := rfl
      omega
    have hm0 : m = 0 := by omega
    subst hn0 hm0
    have e0 : index 0 0 = 0 := rfl
    rw [e0, a0, b0]
  | succ d ih =>
    intro n m hnd hm hmn hn
    by_cases hle : n ≤ (d : Int)
    · exact ih n m hle hm hmn hn
    · have hn1 : 1 ≤ n := by omega
      have hnd' : n - 1 ≤ (d : Int) := by
        push_cast at hnd
        omega
      have h0 : PcupLow_schmidtQuasiNorm L nMax q0 (index n 0) =
          PcupLow_schmidtQuasiNorm L nMax q1 (index n 0) := by
        rw [a1 n hn1 hn, b1 n hn1 hn, ih (n - 1) 0 hnd' le_rfl (by omega) (by omega)]
      have := row n hn h0 m.toNat (by omega)
      rwa [Int.toNat_of_nonneg hm] at this

/-- The cells `0 .. NumTerms - 1` of `Pcup` and `dPcup` after `MAG_PcupLow` do not depend
on what any cell of the two arrays or of the fresh block `schmidtQuasiNorm` held before
the call: every value that the routine reads it has stored before. -/
lemma MAG_PcupLow_indep (L : Libm α) (P Q : MAGtype_LegendreFunction α) (x : α)
    (nMax : Int) (q0 q1 : Int → α) (h0 : 0 ≤ nMax) (i : Int) (hi1 : 0 ≤ i)
    (hi2 : i ≤ NumTerms nMax - 1) :
    (MAG_PcupLow L P x nMax q0).2.Pcup i = (MAG_PcupLow L Q x nMax q1).2.Pcup i ∧
    (MAG_PcupLow L P x nMax q0).2.dPcup i = (MAG_PcupLow L Q x nMax q1).2.dPcup i := by
  obtain ⟨n, m, hm, hmn, hn, rfl⟩ := index_surj nMax h0 i hi1 hi2
  rw [MAG_PcupLow_eq, MAG_PcupLow_eq]
  have hg := PcupLow_gauss_indep x (L.sqrt ((1.0 - x) * (1.0 + x))) nMax
    { Pcup := Function.update P.Pcup 0 1.0, dPcup := Function.update P.dPcup 0 0.0 }
    { Pcup := Function.update Q.Pcup 0 1.0, dPcup := Function.update Q.dPcup 0 0.0 }
    (by simp) (by simp) n.toNat n m (by omega) hm hmn hn
  have hq := PcupLow_schmidtQuasiNorm_indep L nMax q0 q1 n.toNat n m (by omega) hm hmn hn
  by_cases hn1 : 1 ≤ n
  · obtain ⟨c1, c2⟩ := (PcupLow_convert_spec nMax (PcupLow_schmidtQuasiNorm L nMax q0)
      (PcupLow_gauss x (L.sqrt ((1.0 - x) * (1.0 + x))) nMax
        { Pcup := Function.update P.Pcup 0 1.0, dPcup := Function.update P.dPcup 0 0.0 })).2
      n m hn1 hn hm hmn
    obtain ⟨e1, e2⟩ := (PcupLow_convert_spec nMax (PcupLow_schmidtQuasiNorm L nMax q1)
      (PcupLow_gauss x (L.sqrt ((1.0 - x) * (1.0 + x))) nMax
        { Pcup := Function.update Q.Pcup 0 1.0, dPcup := Function.update Q.dPcup 0 0.0 })).2
      n m hn1 hn hm hmn
    rw [c1, c2, e1, e2, hg.1, hg.2, hq]
    exact ⟨rfl, rfl⟩
  · have hn0 : n = 0 := by omega
    have hm0 : m = 0 := by omega
    subst hn0 hm0
    have e0 : index 0 0 = 0 := rfl
    rw [e0] at hg ⊢
    obtain ⟨c1, c2⟩ := (PcupLow_convert_spec nMax (PcupLow_schmidtQuasiNorm L nMax q0)
      (PcupLow_gauss x (L.sqrt ((1.0 - x) * (1.0 + x))) nMax
        { Pcup := Function.update P.Pcup 0 1.0, dPcup := Function.update P.dPcup 0 0.0 })).1
    obtain ⟨e1, e2⟩ := (PcupLow_convert_spec nMax (PcupLow_schmidtQuasiNorm L nMax q1)
      (PcupLow_gauss x (L.sqrt ((1.0 - x) * (1.0 + x))) nMax
        { Pcup := Function.update Q.Pcup 0 1.0, dPcup := Function.update Q.dPcup 0 0.0 })).1
    rw [c1, c2, e1, e2]
    exact hg

end BoundsReadLemmas

section BoundsReadLemmas2

variable {α : Type} [LinearOrderedField α]

/-- The routine `MAG_TimelyModifyMagneticModel` reads the four coefficient arrays of
`MagneticModel` in `0 .. NumTerms - 1` only: on two models with the same scalar members
whose arrays agree there, it leaves the same timed model. -/
lemma MAG_TimelyModifyMagneticModel_congr (UserDate : MAGtype_Date α)
    (M M2 T : MAGtype_MagneticModel α) (hE : M2.EditionDate = M.EditionDate)
    (he : M2.epoch = M.epoch) (hn : M2.nMax = M.nMax) (hs : M2.nMaxSecVar = M.nMaxSecVar)
    (h : ∀ i : Int, 0 ≤ i → i ≤ NumTerms M.nMax - 1 →
      M.Main_Field_Coeff_G i = M2.Main_Field_Coeff_G i ∧
      M.Main_Field_Coeff_H i = M2.Main_Field_Coeff_H i ∧
      M.Secular_Var_Coeff_G i = M2.Secular_Var_Coeff_G i ∧
      M.Secular_Var_Coeff_H i = M2.Secular_Var_Coeff_H i) :
    MAG_TimelyModifyMagneticModel UserDate M T = MAG_TimelyModifyMagneticModel UserDate M2 T := by
  unfold MAG_TimelyModifyMagneticModel
  simp only []
  rw [hE, he, hn, hs]
  refine forLoop_congr 1 M.nMax _ _ _ ?_
  intro n t h1 h2
  refine forLoop_congr 0 n _ _ _ ?_
  intro m t2 h3 h4
  obtain ⟨c1, c2⟩ := index_mem M.nMax n m h3 h4 h2
  obtain ⟨g, hh, sg, sh⟩ := h _ c1 c2
  rw [g, hh, sg, sh]

/-- The loop of `MAG_SummationSpecial` reads the coefficient arrays at the slots
`index n 1`, `1 ≤ n ≤ nMax`, only, and nothing of what the fresh block `PcupS` held. -/
lemma SummationSpecial_By_congr (L : Libm α) (G H G2 H2 : Int → α) (nMax : Int)
    (S : MAGtype_SphericalHarmonicVariables α) (C : MAGtype_CoordSpherical α)
    (P0 P1 : Int → α)
    (h : ∀ n : Int, 1 ≤ n → n ≤ nMax →
      G (index n 1) = G2 (index n 1) ∧ H (index n 1) = H2 (index n 1)) :
    SummationSpecial_By L G H nMax S C P0 = SummationSpecial_By L G2 H2 nMax S C P1 := by
  unfold SummationSpecial_By
  simp only []
  rw [SummationSpecial_loop_By, SummationSpecial_loop_By]
  refine Finset.sum_congr rfl ?_
  intro n hn
  rw [Finset.mem_Icc] at hn
  obtain ⟨g, hh⟩ := h n hn.1 hn.2
  obtain ⟨d, hd⟩ : ∃ d : Nat, nMax = (d : Int) := ⟨nMax.toNat, by omega⟩
  obtain ⟨k, hk⟩ : ∃ k : Nat, n = (k : Int) := ⟨n.toNat, by omega⟩
  have e1 := (SummationSpecial_loop_indep L G H G2 H2 S
    (L.sin (DEG2RAD L C.phig)) P0 P1 d).2 n (by omega) (by omega)
  have e2 := (SummationSpecial_loop_indep L G H G2 H2 S
    (L.sin (DEG2RAD L C.phig)) P0 P1 k).1
  rw [← hd] at e1
  rw [← hk] at e2
  unfold SummationSpecial_schmidtQuasiNorm3
  rw [g, hh, e1, e2]

/-- The routine `MAG_Summation` reads `Pcup`, `dPcup` and the two main-field arrays in
`0 .. NumTerms - 1` only. -/
lemma MAG_Summation_congr (L : Libm α) (P Q : MAGtype_LegendreFunction α)
    (M M2 : MAGtype_MagneticModel α) (S : MAGtype_SphericalHarmonicVariables α)
    (C : MAGtype_CoordSpherical α) (P0 P1 : Int → α) (hn : M2.nMax = M.nMax)
    (h : ∀ i : Int, 0 ≤ i → i ≤ NumTerms M.nMax - 1 →
      P.Pcup i = Q.Pcup i ∧ P.dPcup i = Q.dPcup i ∧
      M.Main_Field_Coeff_G i = M2.Main_Field_Coeff_G i ∧
      M.Main_Field_Coeff_H i = M2.Main_Field_Coeff_H i) :
    MAG_Summation L P M S C P0 = MAG_Summation L Q M2 S C P1 := by
  unfold MAG_Summation MAG_SummationSpecial
  simp only []
  rw [hn, Summation_loop_congr P Q M.Main_Field_Coeff_G M.Main_Field_Coeff_H
    M2.Main_Field_Coeff_G M2.Main_Field_Coeff_H M.nMax M.nMax S le_rfl h,
    SummationSpecial_By_congr L M.Main_Field_Coeff_G M.Main_Field_Coeff_H
      M2.Main_Field_Coeff_G M2.Main_Field_Coeff_H M.nMax S C P0 P1
      (fun n h1 h2 =>
        ⟨(h _ (index_mem M.nMax n 1 (by omega) h1 h2).1 (index_mem M.nMax n 1 (by omega) h1 h2).2).2.2.1,
         (h _ (index_mem M.nMax n 1 (by omega) h1 h2).1 (index_mem M.nMax n 1 (by omega) h1 h2).2).2.2.2⟩)]

/-- The routine `MAG_SecVarSummation`, for `nMaxSecVar ≤ nMax`, reads `Pcup`, `dPcup` and
the two secular arrays in `0 .. NumTerms - 1` only. -/
lemma MAG_SecVarSummation_congr (L : Libm α) (P Q : MAGtype_LegendreFunction α)
    (M M2 : MAGtype_MagneticModel α) (S : MAGtype_SphericalHarmonicVariables α)
    (C : MAGtype_CoordSpherical α) (P0 P1 : Int → α) (hn : M2.nMaxSecVar = M.nMaxSecVar)
    (nMax : Int) (hle : M.nMaxSecVar ≤ nMax)
    (h : ∀ i : Int, 0 ≤ i → i ≤ NumTerms nMax - 1 →
      P.Pcup i = Q.Pcup i ∧ P.dPcup i = Q.dPcup i ∧
      M.Secular_Var_Coeff_G i = M2.Secular_Var_Coeff_G i ∧
      M.Secular_Var_Coeff_H i = M2.Secular_Var_Coeff_H i) :
    (MAG_SecVarSummation L P M S C P0).2 = (MAG_SecVarSummation L Q M2 S C P1).2 := by
  unfold MAG_SecVarSummation MAG_SecVarSummationSpecial
  simp only []
  rw [hn, Summation_loop_congr P Q M.Secular_Var_Coeff_G M.Secular_Var_Coeff_H
    M2.Secular_Var_Coeff_G M2.Secular_Var_Coeff_H nMax M.nMaxSecVar S hle h,
    SummationSpecial_By_congr L M.Secular_Var_Coeff_G M.Secular_Var_Coeff_H
      M2.Secular_Var_Coeff_G M2.Secular_Var_Coeff_H M.nMaxSecVar S C P0 P1
      (fun n h1 h2 =>
        ⟨(h _ (index_mem nMax n 1 (by omega) h1 (by omega)).1
            (index_mem nMax n 1 (by omega) h1 (by omega)).2).2.2.1,
         (h _ (index_mem nMax n 1 (by omega) h1 (by omega)).1
            (index_mem nMax n 1 (by omega) h1 (by omega)).2).2.2.2⟩)]
  split_ifs <;> rfl

end BoundsReadLemmas2

section BoundsClaim

/-- C17: for `nMax ≥ 0` and `0 ≤ m ≤ n ≤ nMax`, the slot `index n m` lies in
`0 .. NumTerms - 1`, and so do the look-backs `index1`, `index2` that `MAG_PcupLow` reads
in each of its branches.  Hence the accesses to arrays of `NumTerms + 1` cells are in
bounds.  Writes: `MAG_PcupLow` and `MAG_TimelyModifyMagneticModel` leave every cell outside
`0 .. NumTerms - 1` as it was.  Reads: the double loop of `MAG_Summation` and
`MAG_SecVarSummation`, run up to a degree `k ≤ nMax`, returns the same vector on arrays
that agree on `0 .. NumTerms - 1`; the cells `0 .. NumTerms - 1` that `MAG_PcupLow` leaves
do not depend on any cell of `Pcup`, `dPcup` or of its fresh block before the call (what
it reads, look-backs included, it has written, and it writes in `0 .. NumTerms - 1`);
`MAG_TimelyModifyMagneticModel` leaves the same timed model for two models with the same
scalar members whose four arrays agree on `0 .. NumTerms - 1`; `MAG_Summation` and
`MAG_SecVarSummation` (for `nMaxSecVar ≤ nMax`), the polar branch included, return the same
vector on Legendre tables and coefficient arrays that agree on `0 .. NumTerms - 1`. -/
theorem index_in_bounds (α : Type) [LinearOrderedField α] (nMax : Int) (h0 : 0 ≤ nMax) :
    (∀ n m : Int, 0 ≤ m → m ≤ n → n ≤ nMax →
      0 ≤ index n m ∧ index n m ≤ NumTerms nMax - 1) ∧
    (∀ n m : Int, 1 ≤ n → n ≤ nMax → 0 ≤ m → m ≤ n →
      (n = m → 0 ≤ Int.tdiv ((n - 1) * n) 2 + m - 1 ∧
        Int.tdiv ((n - 1) * n) 2 + m - 1 ≤ NumTerms nMax - 1) ∧
      (n = 1 ∧ m = 0 → 0 ≤ Int.tdiv ((n - 1) * n) 2 + m ∧
        Int.tdiv ((n - 1) * n) 2 + m ≤ NumTerms nMax - 1) ∧
      (n > 1 ∧ n ≠ m →
        (0 ≤ Int.tdiv ((n - 1) * n) 2 + m ∧
          Int.tdiv ((n - 1) * n) 2 + m ≤ NumTerms nMax - 1) ∧
        (¬ m > n - 2 → 0 ≤ Int.tdiv ((n - 2) * (n - 1)) 2 + m ∧
          Int.tdiv ((n - 2) * (n - 1)) 2 + m ≤ NumTerms nMax - 1))) ∧
    (∀ (L : Libm α) (P : MAGtype_LegendreFunction α) (x : α) (q0 : Int → α) (i : Int),
      (i < 0 ∨ NumTerms nMax - 1 < i) →
      (MAG_PcupLow L P x nMax q0).2.Pcup i = P.Pcup i ∧
      (MAG_PcupLow L P x nMax q0).2.dPcup i = P.dPcup i) ∧
    (∀ (UserDate : MAGtype_Date α) (M T : MAGtype_MagneticModel α) (i : Int),
      M.nMax = nMax → (i < 0 ∨ NumTerms nMax - 1 < i) →
      (MAG_TimelyModifyMagneticModel UserDate M T).Main_Field_Coeff_G i =
        T.Main_Field_Coeff_G i ∧
      (MAG_TimelyModifyMagneticModel UserDate M T).Main_Field_Coeff_H i =
        T.Main_Field_Coeff_H i ∧
      (MAG_TimelyModifyMagneticModel UserDate M T).Secular_Var_Coeff_G i =
        T.Secular_Var_Coeff_G i ∧
      (MAG_TimelyModifyMagneticModel UserDate M T).Secular_Var_Coeff_H i =
        T.Secular_Var_Coeff_H i) ∧
    (∀ (P Q : MAGtype_LegendreFunction α) (G H G2 H2 : Int → α) (k : Int)
      (S : MAGtype_SphericalHarmonicVariables α), k ≤ nMax →
      (∀ i : Int, 0 ≤ i → i ≤ NumTerms nMax - 1 →
        P.Pcup i = Q.Pcup i ∧ P.dPcup i = Q.dPcup i ∧ G i = G2 i ∧ H i = H2 i) →
      Summation_loop P G H k S = Summation_loop Q G2 H2 k S) ∧
    (∀ (L : Libm α) (P Q : MAGtype_LegendreFunction α) (x : α) (q0 q1 : Int → α) (i : Int),
      0 ≤ i → i ≤ NumTerms nMax - 1 →
      (MAG_PcupLow L P x nMax q0).2.Pcup i = (MAG_PcupLow L Q x nMax q1).2.Pcup i ∧
      (MAG_PcupLow L P x nMax q0).2.dPcup i = (MAG_PcupLow L Q x nMax q1).2.dPcup i) ∧
    (∀ (UserDate : MAGtype_Date α) (M M2 T : MAGtype_MagneticModel α),
      M.nMax = nMax → M2.nMax = nMax → M2.nMaxSecVar = M.nMaxSecVar →
      M2.epoch = M.epoch → M2.EditionDate = M.EditionDate →
      (∀ i : Int, 0 ≤ i → i ≤ NumTerms nMax - 1 →
        M.Main_Field_Coeff_G i = M2.Main_Field_Coeff_G i ∧
        M.Main_Field_Coeff_H i = M2.Main_Field_Coeff_H i ∧
        M.Secular_Var_Coeff_G i = M2.Secular_Var_Coeff_G i ∧
        M.Secular_Var_Coeff_H i = M2.Secular_Var_Coeff_H i) →
      MAG_TimelyModifyMagneticModel UserDate M T =
        MAG_TimelyModifyMagneticModel UserDate M2 T) ∧
    (∀ (L : Libm α) (P Q : MAGtype_LegendreFunction α) (M M2 : MAGtype_MagneticModel α)
      (S : MAGtype_SphericalHarmonicVariables α) (C : MAGtype_CoordSpherical α)
      (P0 P1 : Int → α), M.nMax = nMax → M2.nMax = nMax →
      (∀ i : Int, 0 ≤ i → i ≤ NumTerms nMax - 1 →
        P.Pcup i = Q.Pcup i ∧ P.dPcup i = Q.dPcup i ∧
        M.Main_Field_Coeff_G i = M2.Main_Field_Coeff_G i ∧
        M.Main_Field_Coeff_H i = M2.Main_Field_Coeff_H i) →
      MAG_Summation L P M S C P0 = MAG_Summation L Q M2 S C P1) ∧
    (∀ (L : Libm α) (P Q : MAGtype_LegendreFunction α) (M M2 : MAGtype_MagneticModel α)
      (S : MAGtype_SphericalHarmonicVariables α) (C : MAGtype_CoordSpherical α)
      (P0 P1 : Int → α), M.nMaxSecVar ≤ nMax → M2.nMaxSecVar = M.nMaxSecVar →
      (∀ i : Int, 0 ≤ i → i ≤ NumTerms nMax - 1 →
        P.Pcup i = Q.Pcup i ∧ P.dPcup i = Q.dPcup i ∧
        M.Secular_Var_Coeff_G i = M2.Secular_Var_Coeff_G i ∧
        M.Secular_Var_Coeff_H i = M2.Secular_Var_Coeff_H i) →
      (MAG_SecVarSummation L P M S C P0).2 = (MAG_SecVarSummation L Q M2 S C P1).2) := by
  refine ⟨fun n m hm hmn hn => index_mem nMax n m hm hmn hn, ?_, ?_, ?_, ?_, ?_, ?_, ?_, ?_⟩
  · intro n m hn1 hn hm hmn
    refine ⟨fun e => ?_, fun e => ?_, fun e => ⟨?_, fun e2 => ?_⟩⟩
    · have h := index_mem nMax (n - 1) (m - 1) (by omega) (by omega) (by omega)
      rw [add_sub_assoc, lookback_one]
      exact h
    · have h := index_mem nMax (n - 1) m (by omega) (by omega) (by omega)
      rw [lookback_one]
      exact h
    · have h := index_mem nMax (n - 1) m (by omega) (by omega) (by omega)
      rw [lookback_one]
      exact h
    · have h := index_mem nMax (n - 2) m (by omega) (by omega) (by omega)
      rw [lookback_two]
      exact h
  · intro L P x q0 i hi
    exact MAG_PcupLow_frame L P x nMax q0 i h0 hi
  · intro UserDate M T i hM hi
    rw [← hM] at hi
    exact MAG_TimelyModifyMagneticModel_frame UserDate M T i hi
  · intro P Q G H G2 H2 k S hk h
    exact Summation_loop_congr P Q G H G2 H2 nMax k S hk h
  · intro L P Q x q0 q1 i hi1 hi2
    exact MAG_PcupLow_indep L P Q x nMax q0 q1 h0 i hi1 hi2
  · intro UserDate M M2 T hM hM2 hs he hE h
    rw [← hM] at h
    exact MAG_TimelyModifyMagneticModel_congr UserDate M M2 T hE he (by rw [hM, hM2]) hs h
  · intro L P Q M M2 S C P0 P1 hM hM2 h
    rw [← hM] at h
    exact MAG_Summation_congr L P Q M M2 S C P0 P1 (by rw [hM, hM2]) h
  · intro L P Q M M2 S C P0 P1 hle hs h
    exact MAG_SecVarSummation_congr L P Q M M2 S C P0 P1 hs nMax hle h

/-- Instance of C17: the degree 12 of the World Magnetic Model, over the rationals. -/
theorem index_in_bounds_witness :
    (0 : Int) ≤ 12 ∧
    (∀ n m : Int, 0 ≤ m → m ≤ n → n ≤ 12 → 0 ≤ index n m ∧ index n m ≤ NumTerms 12 - 1) ∧
    (∀ (L : Libm ℚ) (P : MAGtype_LegendreFunction ℚ) (x : ℚ) (q0 : Int → ℚ) (i : Int),
      (i < 0 ∨ NumTerms 12 - 1 < i) →
      (MAG_PcupLow L P x 12 q0).2.Pcup i = P.Pcup i ∧
      (MAG_PcupLow L P x 12 q0).2.dPcup i = P.dPcup i) ∧
    (∀ (L : Libm ℚ) (P Q : MAGtype_LegendreFunction ℚ) (x : ℚ) (q0 q1 : Int → ℚ) (i : Int),
      0 ≤ i → i ≤ NumTerms 12 - 1 →
      (MAG_PcupLow L P x 12 q0).2.Pcup i = (MAG_PcupLow L Q x 12 q1).2.Pcup i ∧
      (MAG_PcupLow L P x 12 q0).2.dPcup i = (MAG_PcupLow L Q x 12 q1).2.dPcup i) :=
  ⟨by decide, (index_in_bounds ℚ 12 (by decide)).1, (index_in_bounds ℚ 12 (by decide)).2.2.1,
    (index_in_bounds ℚ 12 (by decide)).2.2.2.2.2.1⟩

end BoundsClaim

section GeocentricRounding

/-- A real in `[1 - 2^-54, 1)` has 1 as its nearest double. -/
lemma roundToDouble_near_one (q : ℝ) (h1 : 1 - 1 / 2 ^ 54 ≤ q) (h2 : q < 1) :
    roundToDouble q = 1 := by
  have hq0 : 0 < q := by
    have : (0 : ℝ) < 1 - 1 / 2 ^ 54 := by norm_num
    linarith
  have habs : |q| = q := abs_of_pos hq0
  have hlog : Int.log 2 q = -1 := by
    have a1 : (-1 : Int) ≤ Int.log 2 q := by
      rw [← Int.zpow_le_iff_le_log (by norm_num) hq0]
      have : (1 : ℝ) / 2 ≤ 1 - 1 / 2 ^ 54 := by norm_num
      norm_num
      linarith
    have a2 : Int.log 2 q < 0 := by
      rw [← Int.lt_zpow_iff_log_lt (by norm_num) hq0]
      simpa using h2
    omega
  unfold roundToDouble
  rw [if_neg hq0.ne', habs, hlog]
  have e : (2 : ℝ) ^ ((-1 : Int) - 52) = 1 / 2 ^ 53 := by
    rw [show ((-1 : Int) - 52) = -(53 : Int) by norm_num, zpow_neg]
    norm_num
  rw [e]
  have hr : round (q / (1 / 2 ^ 53)) = (2 : Int) ^ 53 := by
    rw [round_eq, Int.floor_eq_iff]
    constructor
    · have : q / (1 / 2 ^ 53) = q * 2 ^ 53 := by field_simp
      rw [this]
      push_cast
      nlinarith
    · have : q / (1 / 2 ^ 53) = q * 2 ^ 53 := by field_simp
      rw [this]
      push_cast
      nlinarith
  rw [hr]
  norm_num

/-- The quotient `zp / r` of `MAG_GeodeticToSpherical` near the pole: with `xp = A c`,
`zp = A w s`, a point `(c, s)` of the unit circle with `0 < c ≤ d` and `0 < s`, the
quotient lies in `[1 - η, 1)` as soon as the numbers `w`, `d`, `η` satisfy the last
hypothesis. -/
lemma pole_quotient_bounds (A w s c d η : ℝ) (hA : 0 < A) (hw : 0 < w) (hs : 0 < s)
    (hc : 0 < c) (hcd : c ≤ d) (hsc : s ^ 2 + c ^ 2 = 1) (hη0 : 0 ≤ η) (hη1 : η ≤ 1)
    (hnum : (1 - η) ^ 2 * (d ^ 2 + w ^ 2 * (1 - d ^ 2)) ≤ w ^ 2 * (1 - d ^ 2)) :
    1 - η ≤ (A * w * s) / Real.sqrt ((A * c) * (A * c) + (A * w * s) * (A * w * s)) ∧
    (A * w * s) / Real.sqrt ((A * c) * (A * c) + (A * w * s) * (A * w * s)) < 1 := by
  have hz : 0 < A * w * s := mul_pos (mul_pos hA hw) hs
  have hx : 0 < A * c := mul_pos hA hc
  have hX : 0 ≤ (A * c) * (A * c) + (A * w * s) * (A * w * s) := by positivity
  have hr : 0 < Real.sqrt ((A * c) * (A * c) + (A * w * s) * (A * w * s)) :=
    Real.sqrt_pos.mpr (by positivity)
  have hcd2 : c ^ 2 ≤ d ^ 2 := pow_le_pow_left₀ hc.le hcd 2
  have key : (1 - η) ^ 2 * (c ^ 2 + w ^ 2 * (1 - c ^ 2)) ≤ w ^ 2 * (1 - c ^ 2) := by
    have hcoef : 0 ≤ w ^ 2 * (1 - (1 - η) ^ 2) + (1 - η) ^ 2 := by
      have : (1 - η) ^ 2 ≤ 1 := by nlinarith
      have : 0 ≤ w ^ 2 * (1 - (1 - η) ^ 2) := mul_nonneg (sq_nonneg w) (by linarith)
      nlinarith [sq_nonneg (1 - η)]
    have := mul_nonneg (sub_nonneg.mpr hcd2) hcoef
    nlinarith
  constructor
  · rw [le_div_iff₀ hr]
    have h1 : ((1 - η) * Real.sqrt ((A * c) * (A * c) + (A * w * s) * (A * w * s))) ^ 2 ≤
        (A * w * s) ^ 2 := by
      rw [mul_pow, Real.sq_sqrt hX]
      have hs2 : s ^ 2 = 1 - c ^ 2 := by linarith
      have e1 : (1 - η) ^ 2 * ((A * c) * (A * c) + (A * w * s) * (A * w * s)) =
          A ^ 2 * ((1 - η) ^ 2 * (c ^ 2 + w ^ 2 * s ^ 2)) := by ring
      have e2 : (A * w * s) ^ 2 = A ^ 2 * (w ^ 2 * s ^ 2) := by ring
      rw [e1, e2, hs2]
      exact mul_le_mul_of_nonneg_left key (sq_nonneg A)
    exact (abs_le_of_sq_le_sq' h1 hz.le).2
  · rw [div_lt_one hr]
    calc A * w * s = Real.sqrt ((A * w * s) ^ 2) := (Real.sqrt_sq hz.le).symm
      _ < Real.sqrt ((A * c) * (A * c) + (A * w * s) * (A * w * s)) :=
        Real.sqrt_lt_sqrt (sq_nonneg _) (by nlinarith [mul_pos hx hx])

end GeocentricRounding

section GeocentricRoundingClaim

/-- C25 (counterexample): at the geodetic latitude 89.9999995 degrees and height 0 on the
WGS-84 ellipsoid of `MAG_SetDefaults`, the quotient `zp / r` lies within `2^-54` of 1, so
the double that `asin` receives is 1.0 and `MAG_GeodeticToSpherical` stores `phig = 90`:
the latitude is none of -90, 0, 90, and yet `|phig| < |phi|` fails. -/
theorem MAG_GeodeticToSpherical_phig_rounded :
    (MAG_GeodeticToSpherical roundedAsinLibm (MAG_SetDefaults roundedAsinLibm flatGeoid 1).1
      { lambda := 0, phi := 89.9999995, HeightAboveEllipsoid := 0, HeightAboveGeoid := 0,
        UseGeoid := 1 }).phig = 90 ∧
    ¬ ((89.9999995 : ℝ) = -90 ∨ (89.9999995 : ℝ) = 0 ∨ (89.9999995 : ℝ) = 90) ∧
    ¬ (|(MAG_GeodeticToSpherical roundedAsinLibm (MAG_SetDefaults roundedAsinLibm flatGeoid 1).1
      { lambda := 0, phi := 89.9999995, HeightAboveEllipsoid := 0, HeightAboveGeoid := 0,
        UseGeoid := 1 }).phig| < |(89.9999995 : ℝ)|) := by
  have hpi := Real.pi_pos
  have hpi3 := Real.pi_gt_three
  have hpi4 := Real.pi_lt_d6
  obtain ⟨ha, hb, he⟩ := MAG_SetDefaults_wgs84 flatGeoid 1
  have hE : (MAG_SetDefaults roundedAsinLibm flatGeoid 1).1 =
      (MAG_SetDefaults realLibm flatGeoid 1).1 := rfl
  rw [hE]
  generalize (MAG_SetDefaults realLibm flatGeoid 1).1 = E at ha hb he
  -- the angle
  have hang : (89.9999995 : ℝ) * (Real.pi / 180.0) = Real.pi / 2 - Real.pi / 360000000 := by
    ring
  have hd0 : 0 < Real.pi / 360000000 := by positivity
  have hd1 : Real.pi / 360000000 ≤ 873 / 100000000000 := by
    rw [div_le_iff₀ (by norm_num)]
    linarith
  have hS : Real.sin ((89.9999995 : ℝ) * (Real.pi / 180.0)) = Real.cos (Real.pi / 360000000) := by
    rw [hang, Real.sin_pi_div_two_sub]
  have hC : Real.cos ((89.9999995 : ℝ) * (Real.pi / 180.0)) = Real.sin (Real.pi / 360000000) := by
    rw [hang, Real.cos_pi_div_two_sub]
  have hs : 0 < Real.cos (Real.pi / 360000000) :=
    Real.cos_pos_of_mem_Ioo ⟨by linarith, by linarith⟩
  have hc : 0 < Real.sin (Real.pi / 360000000) :=
    Real.sin_pos_of_pos_of_lt_pi hd0 (by linarith)
  have hcd : Real.sin (Real.pi / 360000000) ≤ 873 / 100000000000 :=
    (Real.sin_le hd0.le).trans hd1
  have hsc : Real.cos (Real.pi / 360000000) ^ 2 + Real.sin (Real.pi / 360000000) ^ 2 = 1 :=
    Real.cos_sq_add_sin_sq _
  have hphig : (MAG_GeodeticToSpherical roundedAsinLibm E
      { lambda := 0, phi := 89.9999995, HeightAboveEllipsoid := 0, HeightAboveGeoid := 0,
        UseGeoid := 1 }).phig =
      Real.arcsin (roundToDouble
        (((E.a / Real.sqrt (1.0 - E.epssq * Real.sin ((89.9999995 : ℝ) * (Real.pi / 180.0)) *
              Real.sin ((89.9999995 : ℝ) * (Real.pi / 180.0))) * (1.0 - E.epssq) + 0) *
            Real.sin ((89.9999995 : ℝ) * (Real.pi / 180.0))) /
          Real.sqrt (
            ((E.a / Real.sqrt (1.0 - E.epssq * Real.sin ((89.9999995 : ℝ) * (Real.pi / 180.0)) *
              Real.sin ((89.9999995 : ℝ) * (Real.pi / 180.0))) + 0) *
                Real.cos ((89.9999995 : ℝ) * (Real.pi / 180.0))) *
            ((E.a / Real.sqrt (1.0 - E.epssq * Real.sin ((89.9999995 : ℝ) * (Real.pi / 180.0)) *
              Real.sin ((89.9999995 : ℝ) * (Real.pi / 180.0))) + 0) *
                Real.cos ((89.9999995 : ℝ) * (Real.pi / 180.0))) +
            ((E.a / Real.sqrt (1.0 - E.epssq * Real.sin ((89.9999995 : ℝ) * (Real.pi / 180.0)) *
              Real.sin ((89.9999995 : ℝ) * (Real.pi / 180.0))) * (1.0 - E.epssq) + 0) *
                Real.sin ((89.9999995 : ℝ) * (Real.pi / 180.0))) *
            ((E.a / Real.sqrt (1.0 - E.epssq * Real.sin ((89.9999995 : ℝ) * (Real.pi / 180.0)) *
              Real.sin ((89.9999995 : ℝ) * (Real.pi / 180.0))) * (1.0 - E.epssq) + 0) *
                Real.sin ((89.9999995 : ℝ) * (Real.pi / 180.0)))))) *
        (180.0 / Real.pi) := rfl
  rw [hS, hC] at hphig
  have hw0 : (0 : ℝ) < 1.0 - E.epssq := by
    rw [he]
    norm_num
  have hrad : 0 < 1.0 - E.epssq * Real.cos (Real.pi / 360000000) *
      Real.cos (Real.pi / 360000000) := by
    have h1 : Real.cos (Real.pi / 360000000) ^ 2 ≤ 1 := by
      nlinarith [sq_nonneg (Real.sin (Real.pi / 360000000))]
    have h2 : (0 : ℝ) ≤ E.epssq := by
      rw [he]
      norm_num
    have h3 : E.epssq < 1 := by
      rw [he]
      norm_num
    nlinarith
  have hA : 0 < E.a / Real.sqrt (1.0 - E.epssq * Real.cos (Real.pi / 360000000) *
      Real.cos (Real.pi / 360000000)) :=
    div_pos (by rw [ha]; norm_num) (Real.sqrt_pos.mpr hrad)
  generalize E.a / Real.sqrt (1.0 - E.epssq * Real.cos (Real.pi / 360000000) *
      Real.cos (Real.pi / 360000000)) = A at hphig hA
  have hq := pole_quotient_bounds A (1.0 - E.epssq) (Real.cos (Real.pi / 360000000))
    (Real.sin (Real.pi / 360000000)) (873 / 100000000000) (1 / 2 ^ 54) hA hw0 hs hc hcd hsc
    (by norm_num) (by norm_num) (by rw [he]; norm_num)
  have hround := roundToDouble_near_one _ hq.1 hq.2
  simp only [add_zero] at hphig
  rw [hround, Real.arcsin_one] at hphig
  have h90 : (MAG_GeodeticToSpherical roundedAsinLibm E
      { lambda := 0, phi := 89.9999995, HeightAboveEllipsoid := 0, HeightAboveGeoid := 0,
        UseGeoid := 1 }).phig = 90 := by
    rw [hphig]
    field_simp
    ring
  refine ⟨h90, by norm_num, ?_⟩
  rw [h90, abs_of_pos (by norm_num : (0 : ℝ) < 90),
    abs_of_pos (by norm_num : (0 : ℝ) < 89.9999995)]
  norm_num

end GeocentricRoundingClaim

end WMM
